import Mathlib

/-!
# InspIRCd core: DNS resolver, extension items, epoll socket engine

A shallow embedding of `src/dns.cpp`, `include/extension.h` and
`src/socketengines/socketengine_epoll.cpp`, with the properties of the
specification stated and proved over it.

Conventions.  A C string or `std::string` is the list of its bytes
(`List Nat`); `cstr` turns a literal into that list.  Buffers of
`unsigned char` are lists of naturals.  Machine integers are naturals or
integers with the reduction modulo `2^w` written out where the source
truncates.
-/

namespace InspIRCd

/-! ## Strings -/

/-- The bytes of a string literal. -/
def cstr (s : String) : List Nat := s.toList.map Char.toNat

/-- The byte of the label separator `'.'`. -/
def DOT : Nat := 46

/-! ## Query types (`enum QueryType`, declared in `dns.h`) -/

/-- Modelled from the spec: the `QueryType` enumeration of `dns.h`, which is
not among the sources.  The values are the RFC 1035 record types the spec
names (A, CNAME, PTR, AAAA); `DNS_QUERY_NONE` is the value `ResultIsReady`
initialises `rr.type` with. -/
def DNS_QUERY_NONE : Nat := 0

/-- Modelled from the spec: QTYPE of an A query (RFC 1035). -/
def DNS_QUERY_A : Nat := 1

/-- Modelled from the spec: QTYPE of a CNAME query (RFC 1035). -/
def DNS_QUERY_CNAME : Nat := 5

/-- Modelled from the spec: QTYPE of a PTR query (the spec's `QTYPE=12`). -/
def DNS_QUERY_PTR : Nat := 12

/-- Modelled from the spec: QTYPE of an AAAA query (RFC 3596). -/
def DNS_QUERY_AAAA : Nat := 28

/-- The four query types the resolver issues. -/
def IsQueryType (q : Nat) : Prop :=
  q = DNS_QUERY_A ∨ q = DNS_QUERY_AAAA ∨ q = DNS_QUERY_PTR ∨ q = DNS_QUERY_CNAME

/-! ## `DNS::MakePayload` (dns.cpp 421-455) -/

/-- The pieces of `name` between the dots: what the `strchr(tempchr2, '.')`
loop walks through.  The last piece is what `tempchr2` points at when
`strchr` finds no further dot. -/
def splitDots : List Nat → List (List Nat)
  | [] => [[]]
  | c :: cs =>
    if c = DOT then [] :: splitDots cs
    else
      match splitDots cs with
      | [] => [[c]]
      | l :: ls => (c :: l) :: ls

/-- `htons(v)` stored with `memcpy(&payload[pos], &length, 2)`: the low 16
bits of `v`, high octet first. -/
def htons2 (v : Nat) : List Nat := [(v % 65536) / 256, v % 256]

/-- The label loop and the tail of `MakePayload`, over the pieces of the name.
The state is `payloadpos` and the bytes written so far.  `length` is an
`unsigned short` (hence `% 65536`), the length octet an `unsigned char`
(hence `% 256`).  `none` is the return value `-1`. -/
def MakePayloadLabels : List (List Nat) → Nat → List Nat → Option (Nat × List Nat)
  | [], payloadpos, payload => some (payloadpos, payload)
  | [tempchr2], payloadpos, payload =>
    let length := tempchr2.length % 65536
    if length ≠ 0 then
      if payloadpos + length + 2 > 507 then none
      else some (payloadpos + 1 + length + 1,
                 payload ++ [length % 256] ++ tempchr2.take length ++ [0])
    else some (payloadpos, payload)
  | tempchr2 :: rest, payloadpos, payload =>
    let length := tempchr2.length % 65536
    if payloadpos + length + 1 > 507 then none
    else MakePayloadLabels rest (payloadpos + 1 + length)
           (payload ++ [length % 256] ++ tempchr2.take length)

/-- `DNS::MakePayload(name, rr, rr_class, payload)`: `none` for the return
value `-1`, otherwise the returned length and the bytes written to `payload`. -/
def MakePayload (name : List Nat) (rr : Nat) (rr_class : Nat) : Option (Nat × List Nat) :=
  match MakePayloadLabels (splitDots name) 0 [] with
  | none => none
  | some (payloadpos, payload) =>
    if payloadpos > 508 then none
    else some (payloadpos + 4, payload ++ htons2 rr ++ htons2 rr_class)

/-! ## Decoding a question (the reading of the spec's round trip) -/

/-- Length-prefixed labels read up to the terminating zero octet; returns the
labels and the bytes after the zero octet. -/
def decodeLabels : Nat → List Nat → Option (List (List Nat) × List Nat)
  | 0, _ => none
  | _ + 1, [] => none
  | fuel + 1, n :: rest =>
    if n = 0 then some ([], rest)
    else if rest.length < n then none
    else
      match decodeLabels fuel (rest.drop n) with
      | none => none
      | some (ls, tl) => some (rest.take n :: ls, tl)

/-- The labels joined with `'.'`. -/
def joinDots : List (List Nat) → List Nat
  | [] => []
  | [l] => l
  | l :: ls => l ++ DOT :: joinDots ls

/-- A decoded question: name, QTYPE, and QCLASS when two more octets follow
the type. -/
structure Question where
  name : List Nat
  qtype : Nat
  qclass : Option Nat
  deriving DecidableEq, Repr

/-- Decode the question section of a query payload: the labels up to the zero
octet joined with `'.'`, then the 16-bit big-endian type that follows (and
the class after it). -/
def decodeQuestion (payload : List Nat) : Option Question :=
  match decodeLabels (payload.length + 1) payload with
  | some (ls, t1 :: t0 :: c1 :: c0 :: _) =>
    some { name := joinDots ls, qtype := t1 * 256 + t0, qclass := some (c1 * 256 + c0) }
  | some (ls, t1 :: t0 :: _) =>
    some { name := joinDots ls, qtype := t1 * 256 + t0, qclass := none }
  | _ => none

/-- The wire form of a list of labels: each label after its length octet. -/
def encodeLabels : List (List Nat) → List Nat
  | [] => []
  | l :: ls => l.length :: l ++ encodeLabels ls

/-! ## `DNS::MakeIP6Int` and the reverse name of `DNS::GetNameForce` -/

/-- The table `const char* hex = "0123456789abcdef"`. -/
def hex : List Nat := cstr "0123456789abcdef"

/-- The `for (index = 31; index >= 0; index--)` loop of `MakeIP6Int`, with
`n = index + 1` iterations left; `s6_addr` is the address as 16 bytes. -/
def MakeIP6IntLoop (s6_addr : List Nat) : Nat → List Nat
  | 0 => []
  | index + 1 =>
    (if index % 2 ≠ 0 then
      /- low nibble -/
      hex.getD (s6_addr.getD (index / 2) 0 &&& 0x0F) 0
    else
      /- high nibble -/
      hex.getD ((s6_addr.getD (index / 2) 0 &&& 0xF0) >>> 4) 0)
    :: DOT :: MakeIP6IntLoop s6_addr index

/-- `DNS::MakeIP6Int(query, ip)`: the characters written to `query` (without
the terminating NUL of `strcpy`). -/
def MakeIP6Int (s6_addr : List Nat) : List Nat :=
  MakeIP6IntLoop s6_addr 32 ++ cstr "ip6.arpa"

/-- The conversion `%d` of `sprintf` for a non-negative argument. -/
def fmtDec (v : Nat) : List Nat := (Nat.toDigits 10 v).map Char.toNat

/-- The IPv4 branch of `GetNameForce`:
`sprintf(query, "%d.%d.%d.%d.in-addr.arpa", c[3], c[2], c[1], c[0])`, where `c`
are the four bytes of `s_addr` as they lie in memory (network order, so
`c[0]` is the first octet of the dotted quad). -/
def reverseQuery4 (c : List Nat) : List Nat :=
  fmtDec (c.getD 3 0) ++ DOT :: fmtDec (c.getD 2 0) ++ DOT :: fmtDec (c.getD 1 0) ++ DOT ::
    fmtDec (c.getD 0 0) ++ cstr ".in-addr.arpa"

/-- The nibble `n` as a lowercase hexadecimal digit (the reading of the spec). -/
def hexDigit (n : Nat) : Nat := if n < 10 then 48 + n else 87 + n

/-- The reverse IPv6 name as the spec words it: for each address byte from
the last to the first, its low nibble, a dot, its high nibble, a dot; then
`ip6.arpa`. -/
def ip6ArpaSpec (s6_addr : List Nat) : List Nat :=
  (s6_addr.reverse.map (fun b => [hexDigit (b % 16), DOT, hexDigit (b / 16), DOT])).flatten
    ++ cstr "ip6.arpa"

/-! ## Resolver data (dns.cpp 44-105, and the declarations of `dns.h`) -/

/-- The result of running code that contains a loop which need not end, or an
access outside a buffer. -/
inductive Outcome (α : Type) where
  /-- The code returned. -/
  | done (a : α)
  /-- The code read a byte that was not received, wrote outside a buffer, or
  read freed memory: its further behaviour is undefined. -/
  | fault
  /-- The loop was still running when the iteration budget ran out. -/
  | nofuel
  deriving DecidableEq, Repr

/-- Modelled from the spec: `DNS::MAX_REQUEST_ID` of `dns.h`, which is not
among the sources; the spec gives it as the 16-bit value 65535. -/
def MAX_REQUEST_ID : Nat := 0xFFFF

/-- Modelled from the spec: `DNS::QUERY_PORT` of `dns.h`, which is not among
the sources; the spec gives the port as 53. -/
def QUERY_PORT : Nat := 53

/-- `ERROR_MASK` of `enum QueryInfo`. -/
def ERROR_MASK : Nat := 0x10000

def FLAGS_MASK_RD : Nat := 0x01
def FLAGS_MASK_OPCODE : Nat := 0x78
def FLAGS_MASK_QR : Nat := 0x80
def FLAGS_MASK_RCODE : Nat := 0x0F

/-- `struct ResourceRecord`. -/
structure ResourceRecord where
  type : Nat
  rr_class : Nat
  ttl : Nat
  rdlength : Nat
  deriving DecidableEq, Repr

/-- `class DNSHeader`; `payload` holds the bytes copied in by `FillHeader` or
written by `MakePayload`, the initialised front of the array
`unsigned char payload[512]`. -/
structure DNSHeader where
  id : Nat × Nat
  flags1 : Nat
  flags2 : Nat
  qdcount : Nat
  ancount : Nat
  nscount : Nat
  arcount : Nat
  payload : List Nat
  deriving DecidableEq, Repr

/-- `class DNSRequest`.  `ptr` stands for the address of the object (what
`RequestTimeout::Tick` compares; after `delete` the allocator may give the
same address to a later request); `res` holds the initialised prefix of the
512-byte result buffer.  The constructor leaves `id`, `rr_class`, `type` and
`ttl` unassigned; they are 0 here until the code assigns them. -/
structure DNSRequest where
  ptr : Nat
  id : Nat × Nat
  res : List Nat
  rr_class : Nat
  type : Nat
  ttl : Nat
  orig : List Nat
  deriving DecidableEq, Repr

/-- The `ResolverError` values used by dns.cpp. -/
inductive ResolverError where
  | RESOLVER_NSDOWN
  | RESOLVER_NXDOMAIN
  | RESOLVER_TIMEOUT
  | RESOLVER_FORCEUNLOAD
  deriving DecidableEq, Repr

/-- Modelled from the spec: `class CachedQuery` of `dns.h`, which is not among
the sources: the answer string and the absolute expiry instant. -/
structure CachedQuery where
  data : List Nat
  expires : Nat
  deriving DecidableEq, Repr

/-- Modelled from the spec: the constructor `CachedQuery(res, ttl)` of `dns.h`:
the entry expires at `now + ttl`. -/
def CachedQuery.new (now : Nat) (res : List Nat) (ttl : Nat) : CachedQuery :=
  { data := res, expires := now + ttl }

/-- Modelled from the spec: `CachedQuery::CalcTTLRemaining()` of `dns.h`: the
time left until the expiry instant, 0 once it has been reached. -/
def CachedQuery.CalcTTLRemaining (now : Nat) (cq : CachedQuery) : Nat :=
  cq.expires - now

/-- A resolver consumer (`class Resolver`).  `ptr` stands for the address of
the object. -/
structure Resolver where
  ptr : Nat
  Creator : Nat
  input : List Nat
  querytype : Nat
  myid : Int
  CQ : Option CachedQuery
  time_left : Nat
  deriving DecidableEq, Repr

/-- A call of one of the virtual methods of a consumer. -/
inductive Callback where
  | OnLookupComplete (r : Resolver) (result : List Nat) (ttl : Nat) (cached : Bool)
  | OnError (r : Resolver) (e : ResolverError) (errormessage : List Nat)
  deriving DecidableEq, Repr

/-- `class RequestTimeout`: the timer made by the `DNSRequest` constructor. -/
structure RequestTimeout where
  secs : Nat
  watch : Nat
  watchid : Nat
  deriving DecidableEq, Repr

/-- The counters of `serverstats` that dns.cpp writes. -/
structure serverstats where
  statsDns : Nat
  statsDnsGood : Nat
  statsDnsBad : Nat
  deriving DecidableEq, Repr

/-- `DNSResult`: request id (or -1), result string, TTL, original request. -/
structure DNSResult where
  id : Int
  result : List Nat
  ttl : Nat
  original : List Nat
  deriving DecidableEq, Repr

/-- The state of `class DNS` together with what it reaches through
`ServerInstance`: configuration, statistics, the timer list, and a record of
the consumer callbacks made and of the datagrams handed to `SendTo`.
`casemap` is the case-folding table of the `irc::string` keys of the cache
(declared outside the sources).  `nextptr` is the address of the next block
the allocator takes from fresh memory, and `freed` holds the addresses of the
`DNSRequest` objects given back by `delete`, the last one first. -/
structure DNS where
  fd : Int
  AF_INET6 : Bool
  ip6munge : Bool
  DNSServer : List Nat
  dns_timeout : Nat
  requests : Nat → Option DNSRequest
  Classes : Nat → Option Resolver
  cache : List (List Nat × CachedQuery)
  casemap : Nat → Nat
  currid : Nat
  stats : serverstats
  timers : List RequestTimeout
  calls : List Callback
  sent : List (List Nat)
  nextptr : Nat
  freed : List Nat

/-- `p[k := v]` on a table indexed by request id. -/
def setSlot {α : Type} (t : Nat → Option α) (k : Nat) (v : Option α) : Nat → Option α :=
  fun j => if j = k then v else t j

/-! ## `DNS::FillResourceRecord`, `FillHeader`, `EmptyHeader` (dns.cpp 170-209) -/

/-- The conversion of an `int` to the `unsigned long` of the fields `ttl`
(64 bits, as on every LP64 platform), given the 32-bit pattern `v` of the
`int`: a value with the sign bit set is negative and is sign-extended, so the
upper 32 bits of the result are ones. -/
def intToUnsignedLong (v : Nat) : Nat :=
  if v < 2147483648 then v else v + 0xFFFFFFFF00000000

/-- `DNS::FillResourceRecord(rr, input)`, with `input` the bytes from the
position passed in.  The four TTL octets are promoted to `int`, shifted and
added in `int` (32 bits, wrapping), and the `int` sum is then stored in
`rr->ttl`, an `unsigned long`: a TTL whose first octet is 0x80 or more comes
out sign-extended. -/
def FillResourceRecord (input : List Nat) : ResourceRecord :=
  { type := (input.getD 0 0 <<< 8) + input.getD 1 0
    rr_class := (input.getD 2 0 <<< 8) + input.getD 3 0
    ttl := intToUnsignedLong
      (((input.getD 4 0 <<< 24) + (input.getD 5 0 <<< 16) + (input.getD 6 0 <<< 8)
          + input.getD 7 0) % 4294967296)
    rdlength := (input.getD 8 0 <<< 8) + input.getD 9 0 }

/-- `DNS::FillHeader(header, input, length)`: the fields are read from the 12
header octets and `memcpy(header->payload, &input[12], length)` copies the
`length` bytes after them into `payload`, an array of 512 bytes and the last
member of the header.  The function does not look at `length`: `none` stands
for a copy of more than 512 bytes, which writes past the end of the header
object. -/
def FillHeader (input : List Nat) (length : Nat) : Option DNSHeader :=
  if length ≤ 512 then
    some
      { id := (input.getD 0 0, input.getD 1 0)
        flags1 := input.getD 2 0
        flags2 := input.getD 3 0
        qdcount := (input.getD 4 0 <<< 8) + input.getD 5 0
        ancount := (input.getD 6 0 <<< 8) + input.getD 7 0
        nscount := (input.getD 8 0 <<< 8) + input.getD 9 0
        arcount := (input.getD 10 0 <<< 8) + input.getD 11 0
        payload := (input.drop 12).take length }
  else none

/-- `DNS::EmptyHeader(output, header, length)`: the `length + 12` bytes written
to `output` (each store truncates to an `unsigned char`). -/
def EmptyHeader (header : DNSHeader) (length : Nat) : List Nat :=
  [header.id.1 % 256, header.id.2 % 256, header.flags1 % 256, header.flags2 % 256,
   (header.qdcount >>> 8) % 256, header.qdcount &&& 0xFF,
   (header.ancount >>> 8) % 256, header.ancount &&& 0xFF,
   (header.nscount >>> 8) % 256, header.nscount &&& 0xFF,
   (header.arcount >>> 8) % 256, header.arcount &&& 0xFF]
  ++ header.payload.take length

/-! ## `DNS::AddQuery` and `DNSRequest::SendRequests` (dns.cpp 211-280) -/

/-- `new DNSRequest(Instance, dns, rid, original)`: the allocation and the
constructor.  The allocator hands out the block of the request deleted last
when there is one (the head of `freed`), as the free lists of the usual
allocators do, and a fresh block otherwise: the address of a request can be
that of an earlier one which was deleted.  The constructor allocates the
result buffer with `res[0] = 0`, stores `original`, and adds a
`RequestTimeout` of `dns_timeout` seconds (5 when that is 0) that keeps the
address and the id. -/
def DNSRequest.new (s : DNS) (rid : Nat) (original : List Nat) : DNSRequest × DNS :=
  let req : DNSRequest :=
    { ptr := s.freed.headD s.nextptr, id := (0, 0), res := [0], rr_class := 0, type := 0,
      ttl := 0, orig := original }
  let RT : RequestTimeout :=
    { secs := if s.dns_timeout ≠ 0 then s.dns_timeout else 5, watch := req.ptr, watchid := rid }
  (req, { s with nextptr := if s.freed = [] then s.nextptr + 1 else s.nextptr
                 freed := s.freed.tail
                 timers := s.timers ++ [RT] })

/-- The loop `while (requests[id]) id = this->PRNG() & DNS::MAX_REQUEST_ID;`.
`prng k` is the value returned by call number `k` of `PRNG()` (it depends on
the clock, the process ids and the server statistics, which are inputs here);
`k` counts the calls made so far.  Returns the id found and the number of
calls, or `none` when `fuel` iterations did not end the loop. -/
def AddQueryLoop (requests : Nat → Option DNSRequest) (prng : Nat → Nat) :
    Nat → Nat → Nat → Option (Nat × Nat)
  | 0, _, _ => none
  | fuel + 1, k, id =>
    if (requests id).isSome then
      AddQueryLoop requests prng fuel (k + 1) (prng k &&& MAX_REQUEST_ID)
    else some (id, k)

/-- What `AddQuery` hands back: the request (`none` for `NULL`), the id stored
through the reference parameter, the header it filled in, and the new state. -/
structure AddQueryResult where
  req : Option DNSRequest
  id : Nat
  header : DNSHeader
  dns : DNS

/-- `DNS::AddQuery(header, id, original)`.  `idIn` is the value the caller's
`id` variable holds before the call.  `none`: the id loop did not end within
`fuel` draws. -/
def AddQuery (s : DNS) (prng : Nat → Nat) (fuel : Nat) (header : DNSHeader) (idIn : Nat)
    (original : List Nat) : Option AddQueryResult :=
  /- Is the DNS connection down? -/
  if s.fd = -1 then some { req := none, id := idIn, header := header, dns := s }
  else
    /- Create an id; if this id is already in flight, pick another. -/
    match AddQueryLoop s.requests prng fuel 1 (prng 0 &&& MAX_REQUEST_ID) with
    | none => none
    | some (id, k) =>
      let s1 := { s with currid := s.currid + k }
      let (req0, s2) := DNSRequest.new s1 id original
      let req := { req0 with id := ((id >>> 8) % 256, id &&& 0xFF) }
      let header := { header with
        id := req.id, flags1 := FLAGS_MASK_RD, flags2 := 0, qdcount := 1, ancount := 0,
        nscount := 0, arcount := 0 }
      some { req := some req, id := id, header := header,
             dns := { s2 with requests := setSlot s2.requests id (some req) } }

/-- `DNSRequest::SendRequests(header, length, qt)` for the request in slot
`id`: sets class and type, serialises the header and hands `length + 12` bytes
to `SendTo`.  `sendto` is the value `SendTo` returns.  The result is the return
value (0 or -1) and the new state. -/
def SendRequests (s : DNS) (id : Nat) (req : DNSRequest) (header : DNSHeader) (length : Nat)
    (qt : Nat) (sendto : Int) : Int × DNS :=
  let req := { req with rr_class := 1, type := qt }
  let payload := EmptyHeader header length
  let s := { s with requests := setSlot s.requests id (some req), sent := s.sent ++ [payload] }
  if sendto ≠ (length : Int) + 12 then (-1, s) else (0, s)

/-- The common body of `GetIP`, `GetIP6`, `GetCName` and the tail of
`GetNameForce`: build the payload for `query`, add the query under the name
`original`, send it.  The result is the returned id or -1. -/
def StartLookup (s : DNS) (prng : Nat → Nat) (fuel : Nat) (sendto : Int) (query : List Nat)
    (qt : Nat) (original : List Nat) : Option (Int × DNS) :=
  match MakePayload query qt 1 with
  | none => some (-1, s)
  | some (length, payload) =>
    let h : DNSHeader :=
      { id := (0, 0), flags1 := 0, flags2 := 0, qdcount := 0, ancount := 0, nscount := 0,
        arcount := 0, payload := payload }
    match AddQuery s prng fuel h 0 original with
    | none => none
    | some r =>
      match r.req with
      | none => some (-1, r.dns)
      | some req =>
        let (rv, s2) := SendRequests r.dns r.id req r.header length qt sendto
        if rv = -1 then some (-1, s2) else some ((r.id : Int), s2)

/-- `DNS::GetIP(name)`. -/
def GetIP (s : DNS) (prng : Nat → Nat) (fuel : Nat) (sendto : Int) (name : List Nat) :
    Option (Int × DNS) :=
  StartLookup s prng fuel sendto name DNS_QUERY_A name

/-- `DNS::GetIP6(name)`. -/
def GetIP6 (s : DNS) (prng : Nat → Nat) (fuel : Nat) (sendto : Int) (name : List Nat) :
    Option (Int × DNS) :=
  StartLookup s prng fuel sendto name DNS_QUERY_AAAA name

/-- `DNS::GetCName(alias)`. -/
def GetCName (s : DNS) (prng : Nat → Nat) (fuel : Nat) (sendto : Int) (aliasName : List Nat) :
    Option (Int × DNS) :=
  StartLookup s prng fuel sendto aliasName DNS_QUERY_CNAME aliasName

/-- `ForceProtocol`. -/
inductive ForceProtocol where
  | PROTOCOL_IPV4
  | PROTOCOL_IPV6
  deriving DecidableEq, Repr

/-- `DNS::GetNameForce(ip, fp)`.  `inet_aton` and `inet_pton6` are the C
library parsers: they give the bytes of the address in network order, or
`none` when they reject the text. -/
def GetNameForce (s : DNS) (prng : Nat → Nat) (fuel : Nat) (sendto : Int)
    (inet_aton inet_pton6 : List Nat → Option (List Nat)) (ip : List Nat) (fp : ForceProtocol) :
    Option (Int × DNS) :=
  match fp with
  | .PROTOCOL_IPV6 =>
    match inet_pton6 ip with
    | some i => StartLookup s prng fuel sendto (MakeIP6Int i) DNS_QUERY_PTR ip
    | none => some (-1, s)
  | .PROTOCOL_IPV4 =>
    match inet_aton ip with
    | some c => StartLookup s prng fuel sendto (reverseQuery4 c) DNS_QUERY_PTR ip
    | none => some (-1, s)

/-! ## `DNSRequest::ResultIsReady` (dns.cpp 727-874) -/

/-- `header.payload[i]` at an index the code has checked to be below
`length`. -/
def payloadAt (payload : List Nat) (i : Int) : Nat := payload.getD i.toNat 0

/-- The loop over the question section,
`while ((unsigned int)q < header.qdcount && i < length)`.  Every iteration
moves `i` forward, so `length` iterations are enough. -/
def skipQuestions (payload : List Nat) (qdcount : Nat) (length : Int) : Nat → Int → Nat → Int
  | 0, i, _ => i
  | fuel + 1, i, q =>
    if q < qdcount ∧ i < length then
      if payloadAt payload i > 63 then skipQuestions payload qdcount length fuel (i + 6) (q + 1)
      else if payloadAt payload i = 0 then
        skipQuestions payload qdcount length fuel (i + 5) (q + 1)
      else skipQuestions payload qdcount length fuel (i + payloadAt payload i + 1) q
    else i

/-- The loop over the owner name of an answer, `while (q == 0 && i < length)`. -/
def skipName (payload : List Nat) (length : Int) : Nat → Int → Int
  | 0, i => i
  | fuel + 1, i =>
    if i < length then
      if payloadAt payload i > 63 then i + 2
      else if payloadAt payload i = 0 then i + 1
      else skipName payload length fuel (i + payloadAt payload i + 1) /- skip length and label -/
    else i

/-- The loop over the answers, `while ((unsigned)curanswer < header.ancount)`:
an error message when it returns from inside, otherwise `i`, `rr` and
`curanswer` when it is left.  `type` and `rr_class` are those of the request.
Every iteration that does not leave the loop increments `curanswer`. -/
def answerLoop (payload : List Nat) (length : Int) (ancount type rr_class : Nat) :
    Nat → Int → Nat → ResourceRecord → Except (List Nat) (Int × ResourceRecord × Nat)
  | 0, i, curanswer, rr => .ok (i, rr, curanswer)
  | fuel + 1, i, curanswer, rr =>
    if curanswer < ancount then
      let i := skipName payload length length.toNat i
      if length - i < 10 then .error (cstr "Incorrectly sized DNS reply")
      else
        let rr := FillResourceRecord (payload.drop i.toNat)
        let i := i + 10
        if rr.type ≠ type then
          answerLoop payload length ancount type rr_class fuel (i + rr.rdlength) (curanswer + 1) rr
        else if rr.rr_class ≠ rr_class then
          answerLoop payload length ancount type rr_class fuel (i + rr.rdlength) (curanswer + 1) rr
        else .ok (i, rr, curanswer)
    else .ok (i, rr, curanswer)

/-- The name-decoding loop of the CNAME/PTR case,
`while (q == 0 && i < length && o + 256 < 1023)`.  `out` is `res[0..o)`.
A read at an index outside `[0, length)` or a write at an index of `res` that
is not below 512 is a `fault`. -/
def decodeNameLoop (payload : List Nat) (length : Int) : Nat → Int → List Nat →
    Outcome (List Nat)
  | 0, _, _ => .nofuel
  | fuel + 1, i, out =>
    if i < length ∧ out.length + 256 < 1023 then
      if i < 0 then .fault
      else if payloadAt payload i > 63 then
        if i + 1 < length then
          /- memcpy(&ptr, &header.payload[i], 2); i = ntohs(ptr) - 0xC000 - 12; -/
          decodeNameLoop payload length fuel
            (((payloadAt payload i * 256 + payloadAt payload (i + 1)) % 65536 : Nat) - 0xC000 - 12)
            out
        else .fault
      else if payloadAt payload i = 0 then .done out
      else
        let out1 := if out.length ≠ 0 then out ++ [DOT] else out
        if i + payloadAt payload i < length ∧ out1.length + payloadAt payload i ≤ 512 then
          decodeNameLoop payload length fuel (i + payloadAt payload i + 1)
            (out1 ++ (payload.drop (i.toNat + 1)).take (payloadAt payload i))
        else .fault
    else .done out

/-- A span of bytes touched by the name-decoding loop: `count` bytes of
`header.payload` read from index `first` on, or `count` bytes of `res` written
from index `first` on. -/
inductive Access where
  | payload (first : Int) (count : Nat)
  | res (first : Nat) (count : Nat)
  deriving DecidableEq, Repr

/-- The span lies inside the `length` bytes of the payload that were received,
or inside the 512 bytes of `res`. -/
def Access.inBounds (length : Int) : Access → Bool
  | .payload first count => decide (0 ≤ first ∧ first + count ≤ length)
  | .res first count => decide (first + count ≤ 512)

/-- The accesses to `header.payload` and to `res` made by the name-decoding
loop of the CNAME/PTR case and by the store `res[o] = 0` that follows it, in
the order of the source, from the state `i`, `o`: those of up to `fuel`
iterations, ending with the iteration in which an access falls outside its
buffer (what the bytes outside hold is not known). -/
def decodeNameAccesses (payload : List Nat) (length : Int) : Nat → Int → Nat → List Access
  | 0, _, _ => []
  | fuel + 1, i, o =>
    if i < length ∧ o + 256 < 1023 then
      /- if (header.payload[i] > 63) -/
      if i < 0 then [.payload i 1]
      else if payloadAt payload i > 63 then
        /- memcpy(&ptr, &header.payload[i], 2); i = ntohs(ptr) - 0xC000 - 12; -/
        if i + 1 < length then
          .payload i 1 :: .payload i 2 :: decodeNameAccesses payload length fuel
            (((payloadAt payload i * 256 + payloadAt payload (i + 1)) % 65536 : Nat) - 0xC000 - 12)
            o
        else [.payload i 1, .payload i 2]
      else if payloadAt payload i = 0 then
        /- q = 1; the loop ends; res[o] = 0; -/
        [.payload i 1, .res o 1]
      else
        /- res[o] = 0; if (o != 0) res[o++] = '.';
           memcpy(&res[o], &header.payload[i + 1], header.payload[i]); -/
        let o1 := if o ≠ 0 then o + 1 else o
        if i + payloadAt payload i < length ∧ o1 + payloadAt payload i ≤ 512 then
          .payload i 1 :: .res o 1 :: .payload (i + 1) (payloadAt payload i)
            :: .res o1 (payloadAt payload i)
            :: decodeNameAccesses payload length fuel (i + payloadAt payload i + 1)
                 (o1 + payloadAt payload i)
        else
          [.payload i 1, .res o 1, .payload (i + 1) (payloadAt payload i),
           .res o1 (payloadAt payload i)]
    else
      /- res[o] = 0; -/
      [.res o 1]

/-- `memcpy(res, src, n); res[n] = 0;` on the initialised prefix of `res`. -/
def storeResult (res : List Nat) (src : List Nat) : List Nat :=
  src ++ 0 :: res.drop (src.length + 1)

/-- The `switch (rr.type)` at the end of `ResultIsReady`, for the record `rr`
whose RDATA starts at `i`; `length` is the payload length. -/
def decodeRData (req : DNSRequest) (header : DNSHeader) (length : Int) (fuel : Nat) (i : Int)
    (rr : ResourceRecord) : Outcome ((Option (List Nat) × List Nat) × DNSRequest) :=
  if rr.type = DNS_QUERY_CNAME ∨ rr.type = DNS_QUERY_PTR then
    match decodeNameLoop header.payload length fuel i [] with
    | .nofuel => .nofuel
    | .fault => .fault
    | .done out =>
      if out.length < 512 then
        .done ((some (storeResult req.res out), cstr "No error"),
               { req with res := storeResult req.res out })
      else .fault
  else
    /- DNS_QUERY_AAAA, DNS_QUERY_A and default: the same two statements -/
    if rr.rdlength < 512 then
      .done ((some (storeResult req.res ((header.payload.drop i.toNat).take rr.rdlength)),
              cstr "No error"),
             { req with res := storeResult req.res ((header.payload.drop i.toNat).take rr.rdlength) })
    else .fault

/-- The part of `ResultIsReady` after the checks of the flags and of
`ancount`: the walk over questions and answers, the bounds checks, the
assignment of `ttl`, and the decoding.  `length` is the payload length. -/
def parseAnswers (req : DNSRequest) (header : DNSHeader) (length : Int) (fuel : Nat) :
    Outcome ((Option (List Nat) × List Nat) × DNSRequest) :=
  match answerLoop header.payload length header.ancount req.type req.rr_class
      (header.ancount + 1)
      (skipQuestions header.payload header.qdcount length length.toNat 0 0) 0
      { type := DNS_QUERY_NONE, rdlength := 0, ttl := 1, rr_class := 0 } with
  | .error msg => .done ((none, msg), req)
  | .ok (i, rr, curanswer) =>
    if curanswer = header.ancount then
      .done ((none, cstr "No A, AAAA or PTR type answers (" ++ fmtDec header.ancount
                      ++ cstr " answers)"), req)
    else if i + rr.rdlength > length then
      .done ((none, cstr "Resource record larger than stated"), req)
    else if rr.rdlength > 1023 then
      .done ((none, cstr "Resource record too large"), req)
    else decodeRData { req with ttl := rr.ttl } header length fuel i rr

/-- `DNSRequest::ResultIsReady(header, length)`: the `DNSInfo` pair (the data,
`none` for `NULL`, and the message) and the request with its `ttl` and `res`
updated.  `fuel` bounds the iterations of the name-decoding loop. -/
def ResultIsReady (req : DNSRequest) (header : DNSHeader) (length : Int) (fuel : Nat) :
    Outcome ((Option (List Nat) × List Nat) × DNSRequest) :=
  if header.flags1 &&& FLAGS_MASK_QR = 0 then
    .done ((none, cstr "Not a query result"), req)
  else if header.flags1 &&& FLAGS_MASK_OPCODE ≠ 0 then
    .done ((none, cstr "Unexpected value in DNS reply packet"), req)
  else if header.flags2 &&& FLAGS_MASK_RCODE ≠ 0 then
    .done ((none, cstr "Domain name not found"), req)
  else if header.ancount < 1 then
    .done ((none, cstr "No resource records returned"), req)
  else
    /- Subtract the length of the header from the length of the packet -/
    parseAnswers req header (length - 12) fuel

/-! ## The wire form of a reply (the reading of RFC 1035 the spec refers to) -/

/-- The two octets of a 16-bit value, high octet first. -/
def be16 (v : Nat) : List Nat := [v / 256 % 256, v % 256]

/-- The four octets of a 32-bit value, high octet first. -/
def be32 (v : Nat) : List Nat := [v / 16777216 % 256, v / 65536 % 256, v / 256 % 256, v % 256]

/-- A domain name on the wire: labels of 1 to 63 octets, each after its length
octet, ended by the zero octet or by a two-octet compression pointer. -/
inductive WireName : List Nat → Prop where
  | root : WireName [0]
  | pointer (p1 p2 : Nat) (h : 63 < p1) : WireName [p1, p2]
  | label (l rest : List Nat) (h1 : l ≠ []) (h2 : l.length ≤ 63) (hr : WireName rest) :
      WireName (l.length :: (l ++ rest))

/-- An entry of the question section: the name and the four octets of QTYPE
and QCLASS. -/
structure WireQuestion where
  name : List Nat
  fixed : List Nat

/-- The octets of a question. -/
def WireQuestion.wire (q : WireQuestion) : List Nat := q.name ++ q.fixed

/-- A question with a proper name and four fixed octets. -/
def WireQuestion.WellFormed (q : WireQuestion) : Prop :=
  WireName q.name ∧ q.fixed.length = 4

/-- A resource record of the answer section. -/
structure AnswerRR where
  name : List Nat
  type : Nat
  rr_class : Nat
  ttl : Nat
  rdata : List Nat

/-- The octets of a resource record: owner name, TYPE, CLASS, TTL, RDLENGTH,
RDATA. -/
def AnswerRR.wire (r : AnswerRR) : List Nat :=
  r.name ++ (be16 r.type ++ (be16 r.rr_class ++ (be32 r.ttl ++ (be16 r.rdata.length ++ r.rdata))))

/-- A record whose fields fit their widths and whose owner name is proper. -/
def AnswerRR.WellFormed (r : AnswerRR) : Prop :=
  WireName r.name ∧ r.type < 65536 ∧ r.rr_class < 65536 ∧ r.ttl < 4294967296 ∧
    r.rdata.length < 65536

/-- The octets of a list of questions, one after the other. -/
def questionsWire (qs : List WireQuestion) : List Nat := (qs.map WireQuestion.wire).flatten

/-- The octets of a list of records, one after the other. -/
def answersWire (rs : List AnswerRR) : List Nat := (rs.map AnswerRR.wire).flatten

/-- The twelve header octets of a reply with the given id, flag octets and
section counts. -/
def replyHeader (id flags1 flags2 qdcount ancount nscount arcount : Nat) : List Nat :=
  be16 id ++ [flags1, flags2] ++ be16 qdcount ++ be16 ancount ++ be16 nscount ++ be16 arcount

/-! ## Reading a compressed name (the reading of RFC 1035 the spec refers to) -/

/-- The labels of the domain name that starts at index `i` of the payload:
length-prefixed labels of 1 to 63 bytes, ended by a zero octet or by a
compression pointer (two octets, the first `0xC0` or more, holding a 14-bit
offset from the start of the message, whose header has 12 octets) to a name
that starts earlier in the payload.  `fuel` bounds the labels and pointers
read. -/
def readName (payload : List Nat) : Nat → Nat → Option (List (List Nat))
  | 0, _ => none
  | fuel + 1, i =>
    if i < payload.length then
      if payload.getD i 0 = 0 then some []
      else if payload.getD i 0 ≤ 63 then
        if i + payload.getD i 0 < payload.length then
          (readName payload fuel (i + 1 + payload.getD i 0)).map
            (fun ls => (payload.drop (i + 1)).take (payload.getD i 0) :: ls)
        else none
      else if 0xC0 ≤ payload.getD i 0 ∧ payload.getD i 0 < 256 ∧ i + 1 < payload.length ∧
          payload.getD (i + 1) 0 < 256 ∧
          12 ≤ (payload.getD i 0 - 0xC0) * 256 + payload.getD (i + 1) 0 ∧
          (payload.getD i 0 - 0xC0) * 256 + payload.getD (i + 1) 0 - 12 < i then
        readName payload fuel ((payload.getD i 0 - 0xC0) * 256 + payload.getD (i + 1) 0 - 12)
      else none
    else none

/-- The text `out` with the labels appended, a `'.'` before every label that
does not start the text. -/
def joinOnto (out : List Nat) : List (List Nat) → List Nat
  | [] => out
  | l :: ls => joinOnto ((if out.length ≠ 0 then out ++ [DOT] else out) ++ l) ls

/-! ## `DNS::GetCache`, `DelCache` (dns.cpp 886-898) -/

/-- Equality of two cache keys: `irc::string` compares after case folding. -/
def keyEq (casemap : Nat → Nat) (a b : List Nat) : Bool :=
  a.map casemap == b.map casemap

/-- `DNS::GetCache(source)`: the entry found under the key, `none` for `NULL`. -/
def GetCache (s : DNS) (source : List Nat) : Option CachedQuery :=
  match s.cache.find? (fun e => keyEq s.casemap e.1 source) with
  | some x => some x.2
  | none => none

/-- `DNS::DelCache(source)`. -/
def DelCache (s : DNS) (source : List Nat) : DNS :=
  { s with cache := s.cache.filter (fun e => !keyEq s.casemap e.1 source) }

/-! ## `DNS::PruneCache` (dns.cpp 291-305) -/

/-- Modelled from the spec: `dnscache` is the hash map of `dns.h` (not among
the sources) from the key to the cached answer; `insert` adds the pair unless
an entry with an equal key is already there. -/
def cacheInsert (casemap : Nat → Nat) (cache : List (List Nat × CachedQuery))
    (e : List Nat × CachedQuery) : List (List Nat × CachedQuery) :=
  if cache.any (fun x => keyEq casemap x.1 e.1) then cache else cache ++ [e]

/-- The body of the loop of `PruneCache` for the entry `i`: the state is
`newcache` and `n`. -/
def PruneCacheEntry (casemap : Nat → Nat) (now : Nat)
    (st : List (List Nat × CachedQuery) × Nat) (i : List Nat × CachedQuery) :
    List (List Nat × CachedQuery) × Nat :=
  /- Dont include expired items (theres no point) -/
  if i.2.CalcTTLRemaining now ≠ 0 then (cacheInsert casemap st.1 i, st.2)
  else (st.1, st.2 + 1)

/-- `DNS::PruneCache()` at the time `now`: the value returned and the
state. -/
def PruneCache (s : DNS) (now : Nat) : Nat × DNS :=
  let r := s.cache.foldl (PruneCacheEntry s.casemap now) ([], 0)
  (r.2, { s with cache := r.1 })

/-- The keys of a cache are pairwise different (it is a map). -/
def DNS.CacheKeysDistinct (s : DNS) : Prop :=
  s.cache.Pairwise (fun a b => keyEq s.casemap a.1 b.1 = false)

/-! ## `DNS::GetResult` (dns.cpp 573-724) -/

/-- What `RecvFrom` stored: the bytes of the datagram, and the source address
in the text form `inet_ntop`/`inet_ntoa` give it, with the source port.
`GetResult` reads into `unsigned char buffer[sizeof(DNSHeader)]`, 540 bytes,
so `buffer` has at most 540 bytes.  (A longer list gets the outcome of every
datagram of 525 bytes or more, for which `FillHeader` runs past `payload`.) -/
structure Datagram where
  buffer : List Nat
  ipaddr_from : List Nat
  port_from : Nat
  deriving DecidableEq, Repr

/-- The request id in the first two octets of a datagram, as `GetResult`
computes `this_id`. -/
def Datagram.id (d : Datagram) : Nat := d.buffer.getD 1 0 + (d.buffer.getD 0 0 <<< 8)

/-- The value `RecvFrom` returns: the number of bytes, or -1 when nothing was
received. -/
def recvLength : Option Datagram → Int
  | none => -1
  | some d => (d.buffer.length : Int)

/-- The header `FillHeader` makes of a whole datagram whose payload fits the
array: the fields read from the 12 header octets, and the rest as payload. -/
def Datagram.header (d : Datagram) : DNSHeader :=
  { id := (d.buffer.getD 0 0, d.buffer.getD 1 0)
    flags1 := d.buffer.getD 2 0
    flags2 := d.buffer.getD 3 0
    qdcount := (d.buffer.getD 4 0 <<< 8) + d.buffer.getD 5 0
    ancount := (d.buffer.getD 6 0 <<< 8) + d.buffer.getD 7 0
    nscount := (d.buffer.getD 8 0 <<< 8) + d.buffer.getD 9 0
    arcount := (d.buffer.getD 10 0 <<< 8) + d.buffer.getD 11 0
    payload := d.buffer.drop 12 }

/-- `tolower` in the C locale. -/
def tolower (c : Nat) : Nat := if 65 ≤ c ∧ c ≤ 90 then c + 32 else c

/-- `strcasecmp(a, b) != 0`. -/
def strcasecmpNe (a b : List Nat) : Bool := a.map tolower != b.map tolower

/-- `strstr(s, pat)`: the text before the first occurrence of `pat` and the text
from that occurrence on. -/
def strstr (pat : List Nat) : List Nat → Option (List Nat × List Nat)
  | [] => if pat = [] then some ([], []) else none
  | c :: cs =>
    if pat.isPrefixOf (c :: cs) then some ([], c :: cs)
    else
      match strstr pat cs with
      | some (pre, suf) => some (c :: pre, suf)
      | none => none

/-- The loop `while (memcmp(c, "0:", 2) == 0) memmove(c, c + 2, strlen(c + 2) + 1);`
on the text at `c`. -/
def dropZeroGroups : Nat → List Nat → List Nat
  | 0, c => c
  | fuel + 1, c =>
    if (cstr "0:").isPrefixOf c then dropZeroGroups fuel (c.drop 2) else c

/-- The block `char* c = strstr(formatted, ":0:"); if (c != NULL) ...` of the
AAAA case of `GetResult`, which rewrites `formatted` in place: the text
`formatted` holds after it. -/
def squeezeZeroGroups (formatted : List Nat) : List Nat :=
  match strstr (cstr ":0:") formatted with
  | some (pre, suf) =>
    /- memmove(c+1, c+2, ...) removes the '0'; then c += 2 -/
    let c := suf.drop 3
    let c := dropZeroGroups c.length c
    let c := if c = cstr "0" then [] else c
    let formatted := pre ++ cstr "::" ++ c
    if (cstr "0::").isPrefixOf formatted then formatted.drop 1 else formatted
  | none => formatted

/-- The AAAA case of `GetResult` after `inet_ntop` has produced `formatted`:
the block on `":0:"`, then `resultstr = formatted;
if (*formatted == ':') resultstr.insert(0, "0");`. -/
def formatAAAA (formatted : List Nat) : List Nat :=
  let formatted := squeezeZeroGroups formatted
  if formatted.head? = some 58 then cstr "0" ++ formatted else formatted

/-- `DNS::GetResult()`.  `recv` is what `RecvFrom` delivered, `inet_ntop6` the
C library conversion of 16 address bytes to text, `fuel` the iteration budget
of the name-decoding loop.  The order is that of the source: the check of the
length, the check of the source, `FillHeader`, the lookup of the id,
`ResultIsReady`, the formatting, and `delete req` before each of the two
returns that follow `ResultIsReady`. -/
def GetResult (s : DNS) (recv : Option Datagram) (inet_ntop6 : List Nat → List Nat)
    (fuel : Nat) : Outcome (DNSResult × DNS) :=
  let length := recvLength recv
  match recv with
  | none => .done ({ id := -1, result := [], ttl := 0, original := [] }, s)
  | some d =>
    /- Did we get the whole header? -/
    if length < 12 then .done ({ id := -1, result := [], ttl := 0, original := [] }, s)
    else if !s.ip6munge ∧
        (d.port_from ≠ QUERY_PORT ∨ strcasecmpNe d.ipaddr_from s.DNSServer) then
      .done ({ id := -1, result := [], ttl := 0, original := [] }, s)
    else
      /- DNS::FillHeader(&header, buffer, length - 12), before the id is looked at -/
      match FillHeader d.buffer (length - 12).toNat with
      | none => .fault
      | some header =>
      let this_id := header.id.2 + (header.id.1 <<< 8)
      /- Do we have a pending request matching this id? -/
      match s.requests this_id with
      | none => .done ({ id := -1, result := [], ttl := 0, original := [] }, s)
      | some req =>
        /- Remove the query from the list of pending queries -/
        let s := { s with requests := setSlot s.requests this_id none }
        match ResultIsReady req header length fuel with
        | .nofuel => .nofuel
        | .fault => .fault
        | .done ((none, msg), req) =>
          /- delete req -/
          .done ({ id := ((this_id ||| ERROR_MASK : Nat) : Int), result := msg, ttl := 0,
                   original := req.orig }, { s with freed := req.ptr :: s.freed })
        | .done ((some first, _), req) =>
          let ttl := req.ttl
          /- delete req, the last statement before the return of each case below -/
          let s := { s with freed := req.ptr :: s.freed }
          if req.type = DNS_QUERY_A then
            if 4 ≤ first.length then
              /- snprintf(formatted, 16, "%u.%u.%u.%u", ...) -/
              let formatted := (fmtDec (first.getD 0 0) ++ DOT :: fmtDec (first.getD 1 0) ++
                DOT :: fmtDec (first.getD 2 0) ++ DOT :: fmtDec (first.getD 3 0)).take 15
              .done ({ id := (this_id : Int), result := formatted, ttl := ttl,
                       original := req.orig }, s)
            else .fault
          else if req.type = DNS_QUERY_AAAA then
            if 16 ≤ first.length then
              .done ({ id := (this_id : Int), result := formatAAAA (inet_ntop6 (first.take 16)),
                       ttl := ttl, original := req.orig }, s)
            else .fault
          else if req.type = DNS_QUERY_CNAME ∨ req.type = DNS_QUERY_PTR then
            .done ({ id := (this_id : Int), result := first.takeWhile (fun b => b ≠ 0),
                     ttl := ttl, original := req.orig }, s)
          else
            .done ({ id := (this_id : Int), result := [], ttl := ttl, original := req.orig }, s)

/-! ## `DNS::HandleEvent` (dns.cpp 992-1042) and `RequestTimeout::Tick` (137-151) -/

/-- `DNS::HandleEvent(EventType, int)`, at the time `now`. -/
def HandleEvent (s : DNS) (recv : Option Datagram) (now : Nat)
    (inet_ntop6 : List Nat → List Nat) (fuel : Nat) : Outcome DNS :=
  match GetResult s recv inet_ntop6 fuel with
  | .nofuel => .nofuel
  | .fault => .fault
  | .done (res, s) =>
    /- Is there a usable request id? -/
    if res.id ≠ -1 then
      /- Its an error reply -/
      if res.id.toNat &&& ERROR_MASK ≠ 0 then
        /- Mask off the error bit -/
        let id := (res.id - ERROR_MASK).toNat
        /- Marshall the error to the correct class -/
        match s.Classes id with
        | some c =>
          .done { s with
            stats := { s.stats with statsDnsBad := s.stats.statsDnsBad + 1 }
            calls := s.calls ++ [Callback.OnError c .RESOLVER_NXDOMAIN res.result]
            Classes := setSlot s.Classes id none }
        | none => .done s
      else
        let id := res.id.toNat
        /- It is a non-error result, marshall the result to the correct class -/
        let s :=
          match s.Classes id with
          | some c =>
            let s := { s with stats := { s.stats with statsDnsGood := s.stats.statsDnsGood + 1 } }
            let s :=
              if (GetCache s res.original).isNone then
                { s with cache := s.cache ++ [(res.original, CachedQuery.new now res.result res.ttl)] }
              else s
            { s with
              calls := s.calls ++ [Callback.OnLookupComplete c res.result res.ttl false]
              Classes := setSlot s.Classes id none }
          | none => s
        .done { s with stats := { s.stats with statsDns := s.stats.statsDns + 1 } }
    else .done s

/-- `RequestTimeout::Tick(time_t)` of the timer `t`: `requests[watchid] == watch`
compares the address in the slot with the address the timer was given. -/
def RequestTimeout.Tick (t : RequestTimeout) (s : DNS) : DNS :=
  if (s.requests t.watchid).map (fun r => r.ptr) = some t.watch then
    /- Still exists, whack it -/
    let s :=
      match s.Classes t.watchid with
      | some c =>
        { s with
          calls := s.calls ++ [Callback.OnError c .RESOLVER_TIMEOUT (cstr "Request timed out")]
          Classes := setSlot s.Classes t.watchid none }
      | none => s
    /- requests[watchid] = NULL; delete watch -/
    { s with requests := setSlot s.requests t.watchid none, freed := t.watch :: s.freed }
  else s

/-! ## `Resolver::Resolver` (dns.cpp 907-966) -/

/-- Modelled from the spec: the pseudo query type of `dns.h` for
`resolve_ptr(ip, IPv4)`; `dns.h` is not among the sources. -/
def DNS_QUERY_PTR4 : Nat := 0xFFFD

/-- Modelled from the spec: the pseudo query type of `dns.h` for
`resolve_ptr(ip, IPv6)`; `dns.h` is not among the sources. -/
def DNS_QUERY_PTR6 : Nat := 0xFFFE

/-- What the constructor of `Resolver` leaves behind: the object, the value of
the reference parameter `cached`, whether it threw `ModuleException`, and the
resolver state. -/
structure ResolverNew where
  r : Resolver
  cached : Bool
  threw : Bool
  dns : DNS

/-- The `switch (querytype)` of the constructor of `Resolver`: the resolver
(with `querytype` rewritten for the two PTR forms), the value assigned to
`myid`, and the state. -/
def Resolver.start (r : Resolver) (s : DNS) (prng : Nat → Nat) (fuel : Nat) (sendto : Int)
    (inet_aton inet_pton6 : List Nat → Option (List Nat)) (source : List Nat) (qt : Nat) :
    Option (Resolver × Int × DNS) :=
  if qt = DNS_QUERY_A then
    (GetIP s prng fuel sendto source).map (fun x => (r, x.1, x.2))
  else if qt = DNS_QUERY_PTR4 then
    (GetNameForce s prng fuel sendto inet_aton inet_pton6 source .PROTOCOL_IPV4).map
      (fun x => ({ r with querytype := DNS_QUERY_PTR }, x.1, x.2))
  else if qt = DNS_QUERY_PTR6 then
    (GetNameForce s prng fuel sendto inet_aton inet_pton6 source .PROTOCOL_IPV6).map
      (fun x => ({ r with querytype := DNS_QUERY_PTR }, x.1, x.2))
  else if qt = DNS_QUERY_AAAA then
    (GetIP6 s prng fuel sendto source).map (fun x => (r, x.1, x.2))
  else if qt = DNS_QUERY_CNAME then
    (GetCName s prng fuel sendto source).map (fun x => (r, x.1, x.2))
  else some (r, -1, s)

/-- The part of the constructor of `Resolver` run when no usable cache entry
was found: the `switch (querytype)` and the check of `myid` after it. -/
def Resolver.issue (r : Resolver) (s : DNS) (prng : Nat → Nat) (fuel : Nat) (sendto : Int)
    (inet_aton inet_pton6 : List Nat → Option (List Nat)) (source : List Nat) (qt : Nat) :
    Option ResolverNew :=
  match Resolver.start r s prng fuel sendto inet_aton inet_pton6 source qt with
  | none => none
  | some (r, myid, s) =>
    some { r := { r with myid := myid }, cached := false, threw := (myid = -1), dns := s }

/-- `Resolver::Resolver(Instance, source, qt, cached, creator)` at the time
`now`.  `myid` is not assigned on the cached path (0 here).  The `OnError`
call made before the throw runs `Resolver::OnError`, which is empty. -/
def Resolver.new (s : DNS) (now : Nat) (prng : Nat → Nat) (fuel : Nat) (sendto : Int)
    (inet_aton inet_pton6 : List Nat → Option (List Nat)) (source : List Nat) (qt : Nat)
    (creator : Nat) : Option ResolverNew :=
  let r : Resolver :=
    { ptr := s.nextptr, Creator := creator, input := source, querytype := qt, myid := 0,
      CQ := none, time_left := 0 }
  let s := { s with nextptr := s.nextptr + 1 }
  match GetCache s source with
  | some cq =>
    let r := { r with CQ := some cq, time_left := cq.CalcTTLRemaining now }
    if r.time_left = 0 then
      Resolver.issue r (DelCache s source) prng fuel sendto inet_aton inet_pton6 source qt
    else
      some { r := r, cached := true, threw := false, dns := s }
  | none => Resolver.issue r s prng fuel sendto inet_aton inet_pton6 source qt

/-- `Resolver::TriggerCachedResult()`:
`if (CQ) OnLookupComplete(CQ->data, time_left, true);`.  `CQ` is the pointer
`GetCache` returned to the constructor, a pointer to the entry inside the
cache, and `CQ->data` reads that entry: it is there as long as the cache holds
it under the key of the lookup.  On the path of the constructor that finds the
entry expired, `DelCache` erases the entry and `CQ` is left pointing at it; a
call then reads freed memory (`fault`).  (`PruneCache`, which moves the
entries it keeps into a new map, is not followed: the creator of a resolver
calls `TriggerCachedResult` right after the constructor.) -/
def Resolver.TriggerCachedResult (r : Resolver) (s : DNS) : Outcome DNS :=
  match r.CQ with
  | some cq =>
    if GetCache s r.input = some cq then
      .done { s with
        calls := s.calls ++ [Callback.OnLookupComplete r cq.data r.time_left true] }
    else .fault
  | none => .done s

/-! ## The resolver as a transition system -/

/-- The resolver right after `DNS::DNS`: both tables cleared, `currid = 0`, and
the given configuration and cache. -/
def DNS.init (fd : Int) (af6 munge : Bool) (server : List Nat) (timeout : Nat)
    (casemap : Nat → Nat) : DNS :=
  { fd := fd, AF_INET6 := af6, ip6munge := munge, DNSServer := server, dns_timeout := timeout
    requests := fun _ => none, Classes := fun _ => none, cache := [], casemap := casemap
    currid := 0, stats := { statsDns := 0, statsDnsGood := 0, statsDnsBad := 0 }
    timers := [], calls := [], sent := [], nextptr := 1, freed := [] }

/-- One step of the resolver: a successful `AddQuery`, a whole lookup call
(`GetIP`, `GetIP6`, `GetCName`, `GetNameForce`: payload, `AddQuery`,
`SendRequests`), the handling of a received datagram, or the firing of one
of the request timers. -/
inductive DNS.Step : DNS → DNS → Prop where
  | addQuery (s : DNS) (prng : Nat → Nat) (fuel : Nat) (header : DNSHeader) (idIn : Nat)
      (original : List Nat) (r : AddQueryResult) (req : DNSRequest)
      (h : AddQuery s prng fuel header idIn original = some r) (hr : r.req = some req) :
      DNS.Step s r.dns
  | lookup (s : DNS) (prng : Nat → Nat) (fuel : Nat) (sendto : Int) (query : List Nat)
      (qt : Nat) (original : List Nat) (rv : Int) (s2 : DNS)
      (h : StartLookup s prng fuel sendto query qt original = some (rv, s2)) : DNS.Step s s2
  | reply (s : DNS) (recv : Option Datagram) (now : Nat) (inet_ntop6 : List Nat → List Nat)
      (fuel : Nat) (s2 : DNS) (h : HandleEvent s recv now inet_ntop6 fuel = .done s2) :
      DNS.Step s s2
  | timeout (s : DNS) (t : RequestTimeout) (ht : t ∈ s.timers) : DNS.Step s (t.Tick s)

/-- The states reached from `s0` by any number of steps. -/
inductive DNS.Reachable (s0 : DNS) : DNS → Prop where
  | start : DNS.Reachable s0 s0
  | next (s s2 : DNS) (hs : DNS.Reachable s0 s) (h : DNS.Step s s2) : DNS.Reachable s0 s2

/-- No two live requests share an id: the request in slot `i` carries the id
`i` in its two id octets, and only slots `0..65535` are occupied. -/
def DNS.IdsUnique (s : DNS) : Prop :=
  ∀ i req, s.requests i = some req → i ≤ 65535 ∧ req.id.1 * 256 + req.id.2 = i

/-- How one step may change the request table: not at all, by emptying a
slot, or by storing, in an empty slot `k ≤ 65535`, a request whose id octets
spell `k`. -/
def TableStep (t t2 : Nat → Option DNSRequest) : Prop :=
  t2 = t ∨ (∃ k, t2 = setSlot t k none) ∨
  (∃ k req, k ≤ 65535 ∧ t k = none ∧ req.id.1 * 256 + req.id.2 = k ∧
    t2 = setSlot t k (some req))

/-! ## `DNS::AddResolverClass` (dns.cpp 1045-1075) -/

/-- `DNS::AddResolverClass(r)`, with `none` for a null pointer: the value
returned and the state.  (An object whose id is not valid is deleted by the
source; the model keeps no record of the deletion of consumers.) -/
def AddResolverClass (s : DNS) (r : Option Resolver) : Bool × DNS :=
  match r with
  | some c =>
    /- Check the pointers validity and the id's validity -/
    if c.myid > -1 then
      /- Check the slot isnt already occupied -/
      match s.Classes c.myid.toNat with
      | none => (true, { s with Classes := setSlot s.Classes c.myid.toNat (some c) })
      | some _ => (false, s)
    else (false, s)
  | none => (false, s)

/-! ## `DNS::CleanResolvers` (dns.cpp 1077-1091) -/

/-- The body of the loop of `CleanResolvers`, for the index `i`. -/
def CleanResolverSlot (module : Nat) (s : DNS) (i : Nat) : DNS :=
  match s.Classes i with
  | some c =>
    if c.Creator = module then
      { s with
        calls := s.calls ++
          [Callback.OnError c .RESOLVER_FORCEUNLOAD (cstr "Parent module is unloading")]
        Classes := setSlot s.Classes i none }
    else s
  | none => s

/-- `DNS::CleanResolvers(module)`: the loop
`for (int i = 0; i < MAX_REQUEST_ID; i++)`. -/
def CleanResolvers (s : DNS) (module : Nat) : DNS :=
  (List.range MAX_REQUEST_ID).foldl (CleanResolverSlot module) s

/-! ## Terminal callbacks -/

/-- The consumer a callback is made on. -/
def Callback.consumer : Callback → Resolver
  | .OnLookupComplete r _ _ _ => r
  | .OnError r _ _ => r

/-- How many of the callbacks recorded in `calls` were made on the consumer
`c`. -/
def terminalCalls (c : Resolver) (calls : List Callback) : Nat :=
  (calls.filter (fun cb => cb.consumer = c)).length

/-- Every registered consumer sits in the slot of its own id and has received
no callback, and no consumer has received more than one. -/
def DNS.ConsumersPending (s : DNS) : Prop :=
  (∀ i c, s.Classes i = some c → c.myid = (i : Int) ∧ terminalCalls c s.calls = 0) ∧
  (∀ c, terminalCalls c s.calls ≤ 1)

/-- A step that can end a request: the handling of a received datagram (whose
bytes are octets), the firing of a request timer, or the unloading of a
module. -/
inductive DNS.EndStep : DNS → DNS → Prop where
  | reply (s : DNS) (recv : Option Datagram) (now : Nat) (inet_ntop6 : List Nat → List Nat)
      (fuel : Nat) (s2 : DNS)
      (hoct : ∀ d, recv = some d → d.buffer.getD 0 0 < 256 ∧ d.buffer.getD 1 0 < 256)
      (h : HandleEvent s recv now inet_ntop6 fuel = .done s2) : DNS.EndStep s s2
  | timeout (s : DNS) (t : RequestTimeout) : DNS.EndStep s (t.Tick s)
  | unload (s : DNS) (module : Nat) : DNS.EndStep s (CleanResolvers s module)

/-- The states reached from `s0` by any sequence of such steps. -/
inductive DNS.Ending (s0 : DNS) : DNS → Prop where
  | start : DNS.Ending s0 s0
  | next (s s2 : DNS) (hs : DNS.Ending s0 s) (h : DNS.EndStep s s2) : DNS.Ending s0 s2

/-- What one visit of slot `i` may do: empty the request slot `i` or leave the
request table alone, and either find no consumer in slot `i` and make no
callback, or make one callback on the consumer in slot `i` and empty that
slot; or change none of the three. -/
def SlotVisit (s s2 : DNS) : Prop :=
  (s2.requests = s.requests ∧ s2.Classes = s.Classes ∧ s2.calls = s.calls) ∨
  ∃ i, (s2.requests = s.requests ∨ s2.requests = setSlot s.requests i none) ∧
    ((s.Classes i = none ∧ s2.Classes = s.Classes ∧ s2.calls = s.calls) ∨
     ∃ cb, s.Classes i = some cb.consumer ∧ s2.Classes = setSlot s.Classes i none ∧
       s2.calls = s.calls ++ [cb])

/-- Any number of visits, one after the other. -/
inductive SlotVisits (s0 : DNS) : DNS → Prop where
  | start : SlotVisits s0 s0
  | next (s s2 : DNS) (hs : SlotVisits s0 s) (h : SlotVisit s s2) : SlotVisits s0 s2

/-! ## Extension items (extension.h) -/

/-- Modelled from the spec: the `ExtensionType` discriminator, declared outside
the sources; the spec lists USER, CHANNEL and MEMBERSHIP. -/
inductive ExtensionType where
  | EXT_USER
  | EXT_CHANNEL
  | EXT_MEMBERSHIP
  deriving DecidableEq, Repr

/-- Modelled from the spec: `class Extensible`, declared outside the sources:
its type tag and its mapping from the identity of an extension item to the
value pointer stored for it (`none`: nothing stored, `nullptr`). -/
structure Extensible (α : Type) where
  extype : ExtensionType
  extensions : Nat → Option α

/-- The data of a `SimpleExtItem<T, Del>`: the identity of the item, the type
of extensible it applies to, and whether it is synced. -/
structure SimpleExtItem where
  key : Nat
  extype : ExtensionType
  synced : Bool
  deriving DecidableEq, Repr

/-- A call of the deleter or of `ExtensionItem::Sync`, with the pointer passed
(`none` for `nullptr`). -/
inductive ExtCall (α : Type) where
  | Delete (item : Nat) (value : Option α)
  | Sync (item : Nat) (value : Option α)
  deriving DecidableEq, Repr

/-- A container together with the record of the calls made on its behalf. -/
structure ExtState (α : Type) where
  container : Extensible α
  calls : List (ExtCall α)

/-- Modelled from the spec: `ExtensionItem::GetRaw`, defined outside the
sources; its documentation: "Either the value of this extension or nullptr if
it does not exist". -/
def SimpleExtItem.GetRaw {α : Type} (it : SimpleExtItem) (container : Extensible α) : Option α :=
  container.extensions it.key

/-- Modelled from the spec: `ExtensionItem::SetRaw`, defined outside the
sources; its documentation: "Sets a value for this extension of the specified
container in the internal map and returns the old value if one was set". -/
def SimpleExtItem.SetRaw {α : Type} (it : SimpleExtItem) (container : Extensible α)
    (value : Option α) : Option α × Extensible α :=
  (container.extensions it.key,
   { container with extensions := setSlot container.extensions it.key value })

/-- Modelled from the spec: `ExtensionItem::UnsetRaw`, defined outside the
sources; its documentation: "Removes this extension from the specified
container and returns it". -/
def SimpleExtItem.UnsetRaw {α : Type} (it : SimpleExtItem) (container : Extensible α) :
    Option α × Extensible α :=
  (container.extensions it.key,
   { container with extensions := setSlot container.extensions it.key none })

/-- `SimpleExtItem::Get(container)`. -/
def SimpleExtItem.Get {α : Type} (it : SimpleExtItem) (container : Extensible α) : Option α :=
  it.GetRaw container

/-- `SimpleExtItem::Set(container, T* value, sync)`. -/
def SimpleExtItem.Set {α : Type} (it : SimpleExtItem) (st : ExtState α) (value : Option α)
    (sync : Bool) : ExtState α :=
  if st.container.extype ≠ it.extype then st
  else
    let (old, c) := it.SetRaw st.container value
    let calls := st.calls ++ [ExtCall.Delete it.key old]
    let calls := if sync ∧ it.synced then calls ++ [ExtCall.Sync it.key value] else calls
    { container := c, calls := calls }

/-- `SimpleExtItem::Unset(container, sync)`. -/
def SimpleExtItem.Unset {α : Type} (it : SimpleExtItem) (st : ExtState α) (sync : Bool) :
    ExtState α :=
  if st.container.extype ≠ it.extype then st
  else
    let (old, c) := it.UnsetRaw st.container
    let calls := st.calls ++ [ExtCall.Delete it.key old]
    let calls := if it.synced ∧ sync then calls ++ [ExtCall.Sync it.key none] else calls
    { container := c, calls := calls }

/-- `SimpleExtItem::Set(container, const T& value, sync)`: the overload that
stores a copy of `value`. -/
def SimpleExtItem.SetCopy {α : Type} (it : SimpleExtItem) (st : ExtState α) (value : α)
    (sync : Bool) : ExtState α :=
  if st.container.extype = it.extype then it.Set st (some value) sync else st

/-- `SimpleExtItem::FromNetwork(container, value)`; `FromInternal` is the
virtual method of the item. -/
def SimpleExtItem.FromNetwork {α : Type} (it : SimpleExtItem)
    (FromInternal : ExtState α → List Nat → ExtState α) (st : ExtState α) (value : List Nat) :
    ExtState α :=
  if it.synced then FromInternal st value else st

/-- `SimpleExtItem::ToNetwork(container, item)`; `ToInternal` is the virtual
method of the item. -/
def SimpleExtItem.ToNetwork {α : Type} (it : SimpleExtItem)
    (ToInternal : Extensible α → Option α → List Nat) (container : Extensible α)
    (item : Option α) : List Nat :=
  if it.synced then ToInternal container item else []

/-- Modelled from the spec: `StringExtItem::ToInternal` is only declared in the
sources; the internal form of a string item is lossless, it is the stored
string (and the empty string when nothing is stored). -/
def StringExtItem.ToInternal (_container : Extensible (List Nat)) (item : Option (List Nat)) :
    List Nat :=
  match item with
  | some value => value
  | none => []

/-- Modelled from the spec: `StringExtItem::FromInternal` is only declared in
the sources; reading the internal form back stores the string as the value of
the item on the container, without broadcasting it again. -/
def StringExtItem.FromInternal (it : SimpleExtItem) (st : ExtState (List Nat))
    (value : List Nat) : ExtState (List Nat) :=
  it.SetCopy st value false

/-- The calls of the deleter among `calls`, in order. -/
def deleterCalls {α : Type} (calls : List (ExtCall α)) : List (ExtCall α) :=
  calls.filter (fun c => match c with
    | .Delete _ _ => true
    | .Sync _ _ => false)

/-! ## The epoll socket engine (socketengine_epoll.cpp) -/

/-- The Linux values of the epoll event bits. -/
def EPOLLIN : Nat := 0x001
def EPOLLOUT : Nat := 0x004
def EPOLLERR : Nat := 0x008
def EPOLLHUP : Nat := 0x010

/-- `EventType`. -/
inductive EventType where
  | EVENT_READ
  | EVENT_WRITE
  | EVENT_ERROR
  deriving DecidableEq, Repr

/-- `struct epoll_event`: the event bits and `data.fd`. -/
structure epoll_event where
  events : Nat
  fd : Nat
  deriving DecidableEq, Repr

/-- The state of the engine: the descriptor table `ref` (handlers are named by
a number), the event mask kept in each handler, and the counters. -/
structure EPollEngine where
  ref : Nat → Option Nat
  event_mask : Nat → Nat
  CurrentSetSize : Int
  MAX_DESCRIPTORS : Int
  TotalEvents : Int
  ErrorEvents : Int
  ReadEvents : Int
  WriteEvents : Int

/-- One call `eh->HandleEvent(et, errornum)` made for the event of `fd`. -/
structure HandlerCall where
  eh : Nat
  fd : Nat
  et : EventType
  errornum : Int
  deriving DecidableEq, Repr

/-- `m & ~f`. -/
def clearBits (m f : Nat) : Nat := m ^^^ (m &&& f)

/-- `SocketEngine::SetEventMask(eh, value)`: stores the mask in the handler. -/
def SetEventMask (e : EPollEngine) (eh : Nat) (value : Nat) : EPollEngine :=
  { e with event_mask := fun h => if h = eh then value else e.event_mask h }

/-- The body of the `for` loop of `DispatchEvents` for one event.
`FD_READ_WILL_BLOCK`, `FD_WRITE_WILL_BLOCK` are the mask bits of
`socketengine.h`; `getsockopt fd` is the error number obtained for `fd`;
`handle eh et errornum` is what the callback of handler `eh` does to the
engine.  The calls made are appended to the record. -/
def dispatchEvent (FD_READ_WILL_BLOCK FD_WRITE_WILL_BLOCK : Nat) (getsockopt : Nat → Int)
    (handle : Nat → EventType → Int → EPollEngine → EPollEngine)
    (st : EPollEngine × List HandlerCall) (ev : epoll_event) : EPollEngine × List HandlerCall :=
  match st.1.ref ev.fd with
  | none => st
  | some eh =>
    if ev.events &&& EPOLLHUP ≠ 0 then
      let e := { st.1 with ErrorEvents := st.1.ErrorEvents + 1 }
      (handle eh .EVENT_ERROR 0 e, st.2 ++ [⟨eh, ev.fd, .EVENT_ERROR, 0⟩])
    else if ev.events &&& EPOLLERR ≠ 0 then
      let e := { st.1 with ErrorEvents := st.1.ErrorEvents + 1 }
      /- Get error number -/
      let errcode := getsockopt ev.fd
      (handle eh .EVENT_ERROR errcode e, st.2 ++ [⟨eh, ev.fd, .EVENT_ERROR, errcode⟩])
    else
      let st1 : EPollEngine × List HandlerCall :=
        if ev.events &&& EPOLLIN ≠ 0 then
          let e := { st.1 with ReadEvents := st.1.ReadEvents + 1 }
          let e := SetEventMask e eh (clearBits (e.event_mask eh) FD_READ_WILL_BLOCK)
          (handle eh .EVENT_READ 0 e, st.2 ++ [⟨eh, ev.fd, .EVENT_READ, 0⟩])
        else st
      if ev.events &&& EPOLLOUT ≠ 0 then
        let e := { st1.1 with WriteEvents := st1.1.WriteEvents + 1 }
        let e := SetEventMask e eh (clearBits (e.event_mask eh) FD_WRITE_WILL_BLOCK)
        (handle eh .EVENT_WRITE 0 e, st1.2 ++ [⟨eh, ev.fd, .EVENT_WRITE, 0⟩])
      else st1

/-- `EPollEngine::DispatchEvents()`: `i` and `events` are what `epoll_wait`
returned and stored.  The result is the engine after the pass and the
callbacks made, in order. -/
def DispatchEvents (FD_READ_WILL_BLOCK FD_WRITE_WILL_BLOCK : Nat) (getsockopt : Nat → Int)
    (handle : Nat → EventType → Int → EPollEngine → EPollEngine)
    (e : EPollEngine) (i : Int) (events : List epoll_event) : EPollEngine × List HandlerCall :=
  let e := { e with TotalEvents := e.TotalEvents + i }
  (events.take i.toNat).foldl
    (dispatchEvent FD_READ_WILL_BLOCK FD_WRITE_WILL_BLOCK getsockopt handle) (e, [])

/-- The place of an event type in the order error, read, write. -/
def EventType.rank : EventType → Nat
  | .EVENT_ERROR => 0
  | .EVENT_READ => 1
  | .EVENT_WRITE => 2

/-! ## `mask_to_epoll`, `AddFd`, `OnSetEvent`, `DelFd` (socketengine_epoll.cpp 58-155) -/

/-- The Linux value of the edge-trigger bit, `1u << 31`. -/
def EPOLLET : Nat := 0x80000000

/-- The `FD_WANT_*` bits of an event mask that `mask_to_epoll` reads; their
values are declared in `socketengine.h`, outside the sources, and are taken
as given. -/
structure FdWant where
  FD_WANT_POLL_READ : Nat
  FD_WANT_FAST_READ : Nat
  FD_WANT_EDGE_READ : Nat
  FD_WANT_POLL_WRITE : Nat
  FD_WANT_FAST_WRITE : Nat
  FD_WANT_EDGE_WRITE : Nat
  deriving DecidableEq, Repr

/-- `mask_to_epoll(event_mask)`. -/
def mask_to_epoll (W : FdWant) (event_mask : Nat) : Nat :=
  if event_mask &&& (W.FD_WANT_POLL_READ ||| W.FD_WANT_POLL_WRITE) ≠ 0 then
    /- we need to use standard polling on this FD -/
    let rv := 0
    let rv := if event_mask &&& (W.FD_WANT_POLL_READ ||| W.FD_WANT_FAST_READ) ≠ 0
      then rv ||| EPOLLIN else rv
    let rv := if event_mask &&& (W.FD_WANT_POLL_WRITE ||| W.FD_WANT_FAST_WRITE) ≠ 0
      then rv ||| EPOLLOUT else rv
    rv
  else
    /- we can use edge-triggered polling on this FD -/
    let rv := EPOLLET
    let rv := if event_mask &&& (W.FD_WANT_FAST_READ ||| W.FD_WANT_EDGE_READ) ≠ 0
      then rv ||| EPOLLIN else rv
    let rv := if event_mask &&& (W.FD_WANT_FAST_WRITE ||| W.FD_WANT_EDGE_WRITE) ≠ 0
      then rv ||| EPOLLOUT else rv
    rv

/-- The operation of an `epoll_ctl` call. -/
inductive EpollOp where
  | EPOLL_CTL_ADD
  | EPOLL_CTL_MOD
  | EPOLL_CTL_DEL
  deriving DecidableEq, Repr

/-- One call `epoll_ctl(EngineHandle, op, fd, &ev)`: the operation, the
descriptor, and `ev.events`. -/
structure EpollCtl where
  op : EpollOp
  fd : Int
  events : Nat
  deriving DecidableEq, Repr

/-- `EPollEngine::AddFd(eh, event_mask)`.  `GetFd` gives the descriptor of a
handler, `ctl` is the value `epoll_ctl` returns if it is called.  The result
is the value returned, the engine, and the `epoll_ctl` calls made. -/
def AddFd (W : FdWant) (GetFd : Nat → Int) (ctl : Int) (e : EPollEngine) (eh : Nat)
    (event_mask : Nat) : Bool × EPollEngine × List EpollCtl :=
  let fd := GetFd eh
  if fd < 0 ∨ fd > e.MAX_DESCRIPTORS - 1 then (false, e, [])
  else if (e.ref fd.toNat).isSome then (false, e, [])
  else
    let ev : EpollCtl := { op := .EPOLL_CTL_ADD, fd := fd, events := mask_to_epoll W event_mask }
    if ctl < 0 then (false, e, [ev])
    else
      let e := { e with ref := fun d => if d = fd.toNat then some eh else e.ref d }
      let e := SetEventMask e eh event_mask
      (true, { e with CurrentSetSize := e.CurrentSetSize + 1 }, [ev])

/-- `EPollEngine::OnSetEvent(eh, old_mask, new_mask)`: the `epoll_ctl` calls
made. -/
def OnSetEvent (W : FdWant) (GetFd : Nat → Int) (eh : Nat) (old_mask new_mask : Nat) :
    List EpollCtl :=
  let old_events := mask_to_epoll W old_mask
  let new_events := mask_to_epoll W new_mask
  if old_events ≠ new_events then
    /- ok, we actually have something to tell the kernel about -/
    [{ op := .EPOLL_CTL_MOD, fd := GetFd eh, events := new_events }]
  else []

/-- `EPollEngine::DelFd(eh, force)`.  `ctl` is the value `epoll_ctl` returns
if it is called.  The result is the value returned, the engine, and the
`epoll_ctl` calls made. -/
def DelFd (GetFd : Nat → Int) (ctl : Int) (e : EPollEngine) (eh : Nat) (force : Bool) :
    Bool × EPollEngine × List EpollCtl :=
  let fd := GetFd eh
  if fd < 0 ∨ fd > e.MAX_DESCRIPTORS - 1 then (false, e, [])
  else
    let ev : EpollCtl := { op := .EPOLL_CTL_DEL, fd := fd, events := 0 }
    if ctl < 0 ∧ !force then (false, e, [ev])
    else
      (true,
       { e with
         ref := fun d => if d = fd.toNat then none else e.ref d
         CurrentSetSize := e.CurrentSetSize - 1 },
       [ev])

/-! ## Sequences of `AddFd` and `DelFd` calls -/

/-- The number of non-empty slots of the descriptor table `ref` (it has
`MAX_DESCRIPTORS` slots). -/
def EPollEngine.registered (e : EPollEngine) : Nat :=
  ((List.range e.MAX_DESCRIPTORS.toNat).filter (fun fd => (e.ref fd).isSome)).length

/-- A call of `AddFd` (`add`) or of `DelFd` (`del`) with its arguments; `ctl`
is the value `epoll_ctl` returns if the call reaches it. -/
inductive FdCall where
  | add (eh : Nat) (event_mask : Nat) (ctl : Int)
  | del (eh : Nat) (force : Bool) (ctl : Int)
  deriving DecidableEq, Repr

/-- The engine after one call. -/
def FdCall.run (W : FdWant) (GetFd : Nat → Int) (e : EPollEngine) : FdCall → EPollEngine
  | .add eh event_mask ctl => (AddFd W GetFd ctl e eh event_mask).2.1
  | .del eh force ctl => (DelFd GetFd ctl e eh force).2.1

/-- The engine after a sequence of calls. -/
def runFdCalls (W : FdWant) (GetFd : Nat → Int) (e : EPollEngine) (calls : List FdCall) :
    EPollEngine :=
  calls.foldl (FdCall.run W GetFd) e

/-! ## Numeric replies (numerichelper.h) -/

def ERR_CANNOTSENDTOCHAN : Nat := 404
def ERR_CANNOTSENDTOUSER : Nat := 531
def ERR_INVALIDMODEPARAM : Nat := 696

/-- Modelled from the spec: `Numeric::Numeric` is declared outside the sources
at hand; the spec gives a numeric reply as the pair of its code and the ordered
sequence of its parameters, the target nickname being put in front when the
reply is emitted. -/
structure Numeric where
  numeric : Nat
  params : List (List Nat)
  deriving DecidableEq, Repr

/-- Modelled from the spec: the constructor `Numeric(code)`, a reply with no
parameter yet. -/
def Numeric.new (code : Nat) : Numeric := { numeric := code, params := [] }

/-- Modelled from the spec: `push(param)` adds one parameter at the end. -/
def Numeric.push (n : Numeric) (param : List Nat) : Numeric :=
  { n with params := n.params ++ [param] }

/-- What the constructors read of a `Channel`. -/
structure Channel where
  name : List Nat
  deriving DecidableEq, Repr

/-- What the constructors read of a `ModeHandler`: its `name` and the value of
`GetModeChar()`. -/
structure ModeHandler where
  name : List Nat
  mode : Nat
  deriving DecidableEq, Repr

/-- `s.c_str()` as a `%s` argument reads it: the bytes before the first zero
byte. -/
def c_str (s : List Nat) : List Nat := s.takeWhile (fun b => b ≠ 0)

/-- An argument of `InspIRCd::Format`: a C string for `%s` or a character for
`%c`. -/
inductive FormatArg where
  | str (s : List Nat)
  | chr (c : Nat)
  deriving DecidableEq, Repr

/-- The expansion of the directives `%s` and `%c` of a format string, as
`vsnprintf` performs it: `%s` is replaced by the bytes of the next argument up
to its zero byte, `%c` by the next argument, every other byte is copied. -/
def FormatLoop : List Nat → List FormatArg → List Nat
  | [], _ => []
  | [b], _ => [b]
  | b :: d :: rest, args =>
    if b = 37 ∧ d = 115 then
      match args with
      | .str s :: args2 => c_str s ++ FormatLoop rest args2
      | _ => b :: FormatLoop (d :: rest) args
    else if b = 37 ∧ d = 99 then
      match args with
      | .chr c :: args2 => c :: FormatLoop rest args2
      | _ => b :: FormatLoop (d :: rest) args
    else b :: FormatLoop (d :: rest) args

/-- Modelled from the spec: `InspIRCd::Format(formatString, ...)` is declared
outside the sources at hand; it renders the arguments in the `printf` way into
a buffer and returns the C string in the buffer as a `std::string`. -/
def Format (formatString : List Nat) (args : List FormatArg) : List Nat :=
  c_str (FormatLoop formatString args)

/-- `Numerics::CannotSendTo::CannotSendTo(Channel* chan, const std::string& what,
ModeHandler* mh)` (numerichelper.h 53-59). -/
def CannotSendTo (chan : Channel) (what : List Nat) (mh : ModeHandler) : Numeric :=
  ((Numeric.new ERR_CANNOTSENDTOCHAN).push chan.name).push
    (Format (cstr "You cannot send %s to this channel whilst the +%c (%s) mode is set.")
      [.str what, .chr mh.mode, .str mh.name])

/-- What the constructors read of a `User`: its `nick` and the bits of
`connected`. -/
structure User where
  nick : List Nat
  connected : Nat
  deriving DecidableEq, Repr

/-- Modelled from the spec: `push(char)` of `Numeric`, declared outside the
sources at hand; a mode character is rendered as the single character. -/
def Numeric.pushChar (n : Numeric) (c : Nat) : Numeric := n.push [c]

/-- `Numerics::CannotSendTo::CannotSendTo(User* user, const std::string&
message)` (numerichelper.h 69-74).  `CONN_NICK` is the bit `User::CONN_NICK`,
declared outside the sources. -/
def CannotSendToUser (CONN_NICK : Nat) (user : User) (message : List Nat) : Numeric :=
  ((Numeric.new ERR_CANNOTSENDTOUSER).push
    (if user.connected &&& CONN_NICK ≠ 0 then user.nick else cstr "*")).push message

/-- `Numerics::CannotSendTo::CannotSendTo(User* user, const std::string& what,
ModeHandler* mh, bool self)` (numerichelper.h 76-82). -/
def CannotSendToUserMode (CONN_NICK : Nat) (user : User) (what : List Nat) (mh : ModeHandler)
    (self : Bool) : Numeric :=
  ((Numeric.new ERR_CANNOTSENDTOUSER).push
    (if user.connected &&& CONN_NICK ≠ 0 then user.nick else cstr "*")).push
    (Format (cstr "You cannot send %s to this user whilst %s have the +%c (%s) mode set.")
      [.str what, .str (if self then cstr "you" else cstr "they"), .chr mh.mode, .str mh.name])

/-- `Numerics::InvalidModeParameter::push_message(mode, message)`
(numerichelper.h 107-127); `hint` is what `mode->GetSyntax()` returns. -/
def InvalidModeParameter.push_message (n : Numeric) (mode : ModeHandler) (hint : List Nat)
    (message : List Nat) : Numeric :=
  if message ≠ [] then
    /- The caller has specified their own message. -/
    n.push message
  else if hint ≠ [] then
    /- If the mode has a hint of its form we include it in the message. -/
    n.push (Format (cstr "Invalid %s mode parameter. Syntax: %s.") [.str mode.name, .str hint])
  else
    /- Otherwise, send it without. -/
    n.push (Format (cstr "Invalid %s mode parameter.") [.str mode.name])

/-- `Numerics::InvalidModeParameter::InvalidModeParameter(User* user,
ModeHandler* mode, const std::string& parameter, const std::string& message)`
(numerichelper.h 139-146). -/
def InvalidModeParameterUser (CONN_NICK : Nat) (user : User) (mode : ModeHandler)
    (hint : List Nat) (parameter : List Nat) (message : List Nat) : Numeric :=
  InvalidModeParameter.push_message
    ((((Numeric.new ERR_INVALIDMODEPARAM).push
      (if user.connected &&& CONN_NICK ≠ 0 then user.nick else cstr "*")).pushChar
        mode.mode).push parameter)
    mode hint message

/-! ## `ModuleModesOnOper::OnPostOper` (m_opermodes.cpp 59-112) -/

/-- The fields of `userrec` that `OnPostOper` reads, both C strings: the nick
and the name of the oper type. -/
structure userrec where
  nick : List Nat
  oper : List Nat
  deriving DecidableEq, Repr

/-- A `<type>` tag of the configuration: what `Conf->ReadValue("type", "name", j)`
and `Conf->ReadValue("type", "modes", j)` return for it. -/
structure TypeTag where
  name : List Nat
  modes : List Nat
  deriving DecidableEq, Repr

/-- A call `OnPostOper` makes into the server: `rmode.Send(ServerInstance)`
for the event with the id `id` whose data is the deque `n`, or
`ServerInstance->SendMode(parameters, pcnt, user)`. -/
inductive OperCall where
  | Send (id : List Nat) (n : List (List Nat))
  | SendMode (parameters : List (List Nat)) (pcnt : Nat)
  deriving DecidableEq, Repr

/-- `std::isspace` in the C locale: the space and the characters `\t` to
`\r`. -/
def isspace (c : Nat) : Bool := c == 32 || (9 ≤ c && c ≤ 13)

/-- The loop `while (ss >> buf) tokens.push_back(buf);` over the characters
left in the stream; `buf` holds the characters of the token being read. -/
def tokensLoop : List Nat → List Nat → List (List Nat)
  | [], buf => if buf = [] then [] else [buf]
  | c :: cs, buf =>
    if isspace c then
      if buf = [] then tokensLoop cs [] else buf :: tokensLoop cs []
    else tokensLoop cs (buf ++ [c])

/-- The body of `if (!strcmp(typen.c_str(), user->oper))` in `OnPostOper` up
to the `break`, for the value `ThisOpersModes` read from the configuration:
the calls made, in order.  `none`: `tokens[0]` was read from an empty
vector. -/
def ApplyOperModes (user : userrec) (ThisOpersModes : List Nat) : Option (List OperCall) :=
  let first := ThisOpersModes.headD 0
  let ThisOpersModes :=
    if first ≠ 43 ∧ first ≠ 45 then 43 :: ThisOpersModes else ThisOpersModes
  if ThisOpersModes ≠ [] then
    /- split ThisOperModes into modes and mode params -/
    let tokens := tokensLoop ThisOpersModes []
    match tokens with
    | [] => none
    | _ :: _ =>
      let size := tokens.length + 1
      /- modes[0] = user->nick; modes[1] = tokens[0].c_str(); modes[i] = tokens[k].c_str(); -/
      let modes := c_str user.nick :: tokens.map c_str
      /- for (unsigned int j = 0; j < tokens.size(); j++) n.push_back(modes[j]); -/
      let n := (List.range tokens.length).map (fun j => modes.getD j [])
      some [.Send (cstr "send_mode") n, .SendMode modes size]
  else some []

/-- `ModuleModesOnOper::OnPostOper(user, opertype)` with the `<type>` tags of
the configuration in `Conf`: the first tag whose name equals `user->oper` is
applied, then the loop is left. -/
def OnPostOper (Conf : List TypeTag) (user : userrec) : Option (List OperCall) :=
  match Conf.find? (fun t => c_str t.name == c_str user.oper) with
  | some t => ApplyOperModes user t.modes
  | none => some []

/-! ## Concrete inputs used to instantiate the theorems -/

/-- A resolver with its socket open (descriptor 3), the server `127.0.0.1`,
empty tables and an empty cache. -/
def exampleDNS : DNS := DNS.init 3 false false (cstr "127.0.0.1") 0 id

/-- A sequence of `PRNG()` values whose first draw gives the id `0x1234`. -/
def examplePrng : Nat → Nat := fun k => 0x1234 + k

/-- The address `2001:db8::1f`. -/
def exampleIP6 : List Nat := [0x20, 0x01, 0x0d, 0xb8, 0, 0, 0, 0, 0, 0, 0, 0, 0, 0, 0, 0x1f]

/-- A user object carrying nothing, and a string item for users. -/
def exampleUser : ExtState String :=
  { container := { extype := .EXT_USER, extensions := fun _ => none }, calls := [] }

/-- A synced item for users with identity 1. -/
def exampleItem : SimpleExtItem := { key := 1, extype := .EXT_USER, synced := true }

/-- The request `GetIP("example.invalid")` leaves in slot `0x1234`. -/
def exampleRequest : DNSRequest :=
  { ptr := 1, id := (0x12, 0x34), res := [0], rr_class := 1, type := DNS_QUERY_A, ttl := 0,
    orig := cstr "example.invalid" }

/-- A consumer of module 7 waiting for the answer to request `0x1234`. -/
def exampleConsumer : Resolver :=
  { ptr := 100, Creator := 7, input := cstr "example.invalid", querytype := DNS_QUERY_A,
    myid := 0x1234, CQ := none, time_left := 0 }

/-- The resolver with the request `0x1234` in flight and its consumer
registered. -/
def exampleInFlight : DNS :=
  { exampleDNS with
    requests := setSlot exampleDNS.requests 0x1234 (some exampleRequest)
    Classes := setSlot exampleDNS.Classes 0x1234 (some exampleConsumer)
    timers := [{ secs := 5, watch := 1, watchid := 0x1234 }]
    currid := 1, nextptr := 2 }

/-- The bytes of a reply to request `0x1234`: QR and RD set, one question
`example.invalid A IN`, one answer (owner name a pointer to the question)
`A IN TTL 300 192.0.2.1`. -/
def exampleReplyBytes : List Nat :=
  [0x12, 0x34, 0x81, 0x80, 0, 1, 0, 1, 0, 0, 0, 0,
   7, 101, 120, 97, 109, 112, 108, 101, 7, 105, 110, 118, 97, 108, 105, 100, 0, 0, 1, 0, 1,
   0xC0, 0x0C, 0, 1, 0, 1, 0, 0, 1, 0x2C, 0, 4, 192, 0, 2, 1]

/-- That reply, received from `127.0.0.1` port 53. -/
def exampleReply : Datagram :=
  { buffer := exampleReplyBytes, ipaddr_from := cstr "127.0.0.1", port_from := 53 }

/-- The same bytes received from `198.51.100.1` port 53. -/
def exampleSpoof : Datagram :=
  { buffer := exampleReplyBytes, ipaddr_from := cstr "198.51.100.1", port_from := 53 }

/-- The state after `exampleReply` was handled at time 1000. -/
def exampleAnswered : DNS :=
  match HandleEvent exampleInFlight (some exampleReply) 1000 (fun _ => []) 0 with
  | .done s => s
  | _ => exampleInFlight

/-- The header of a caller before `AddQuery` fills it in: only the payload of
`example.invalid A IN` is there. -/
def exampleHeader : DNSHeader :=
  { id := (0, 0), flags1 := 0, flags2 := 0, qdcount := 0, ancount := 0, nscount := 0,
    arcount := 0,
    payload := [7, 101, 120, 97, 109, 112, 108, 101, 7, 105, 110, 118, 97, 108, 105, 100, 0,
                0, 1, 0, 1] }

/-- What `AddQuery` returns on `exampleDNS` with `examplePrng`. -/
def exampleAdded : AddQueryResult :=
  { req := some { ptr := 1, id := (0x12, 0x34), res := [0], rr_class := 0, type := 0, ttl := 0,
                  orig := cstr "example.invalid" }
    id := 0x1234
    header := { exampleHeader with id := (0x12, 0x34), flags1 := 1, qdcount := 1 }
    dns := { exampleDNS with
      currid := 1, nextptr := 2
      timers := [{ secs := 5, watch := 1, watchid := 0x1234 }]
      requests := setSlot exampleDNS.requests 0x1234
        (some { ptr := 1, id := (0x12, 0x34), res := [0], rr_class := 0, type := 0, ttl := 0,
                orig := cstr "example.invalid" }) } }

/-- An engine with handler 50 on descriptor 5 and handler 60 on descriptor 6. -/
def exampleEngine : EPollEngine :=
  { ref := fun fd => if fd = 5 then some 50 else if fd = 6 then some 60 else none
    event_mask := fun _ => 0
    CurrentSetSize := 2, MAX_DESCRIPTORS := 1024
    TotalEvents := 0, ErrorEvents := 0, ReadEvents := 0, WriteEvents := 0 }

/-- Descriptor 5 readable and writable, descriptor 6 hung up (with the read
bit set as well). -/
def exampleEvents : List epoll_event :=
  [{ events := EPOLLIN ||| EPOLLOUT, fd := 5 }, { events := EPOLLHUP ||| EPOLLIN, fd := 6 }]

/-- A reply to request `0x1234` from `127.0.0.1` port 53 with QR set, RCODE 3
and no answer: the name does not exist. -/
def exampleNXDomain : Datagram :=
  { buffer := [0x12, 0x34, 0x81, 0x83, 0, 1, 0, 0, 0, 0, 0, 0,
      7, 101, 120, 97, 109, 112, 108, 101, 7, 105, 110, 118, 97, 108, 105, 100, 0, 0, 1, 0, 1]
    ipaddr_from := cstr "127.0.0.1", port_from := 53 }

/-- The resolver with an AAAA request for `localhost` in flight in slot
`0x1234`. -/
def exampleInFlight6 : DNS :=
  { exampleDNS with
    requests := setSlot exampleDNS.requests 0x1234
      (some { ptr := 1, id := (0x12, 0x34), res := [0], rr_class := 1, type := DNS_QUERY_AAAA,
              ttl := 0, orig := cstr "localhost" })
    currid := 1, nextptr := 2 }

/-- A reply to it from `127.0.0.1` port 53: one question `localhost AAAA IN`,
one answer `AAAA IN TTL 60 ::1`. -/
def exampleReply6 : Datagram :=
  { buffer := [0x12, 0x34, 0x81, 0x80, 0, 1, 0, 1, 0, 0, 0, 0,
      9, 108, 111, 99, 97, 108, 104, 111, 115, 116, 0, 0, 28, 0, 1,
      0xC0, 0x0C, 0, 28, 0, 1, 0, 0, 0, 60, 0, 16,
      0, 0, 0, 0, 0, 0, 0, 0, 0, 0, 0, 0, 0, 0, 0, 1]
    ipaddr_from := cstr "127.0.0.1", port_from := 53 }

/-! ## The size and the length octets of an encoded name -/

/-- The number of bytes of the encoded name of a question, over the pieces of
the name between the dots: a length octet and the bytes of the piece for every
piece that is followed by a dot, and for a last piece that is not empty its
length octet, its bytes and the terminating zero octet. -/
def encodedNameSize : List (List Nat) → Nat
  | [] => 0
  | [last] => if last = [] then 0 else last.length + 2
  | l :: rest => l.length + 1 + encodedNameSize rest

/-- The offsets at which `MakePayload` executes `payload[payloadpos++] = length`,
each with the piece of the name whose length it stores there; `payloadpos` is
the offset at which the walk over the pieces starts. -/
def lengthOctetPositions : List (List Nat) → Nat → List (Nat × List Nat)
  | [], _ => []
  | [tempchr2], payloadpos =>
    if tempchr2.length % 65536 ≠ 0 then [(payloadpos, tempchr2)] else []
  | tempchr2 :: rest, payloadpos =>
    (payloadpos, tempchr2) :: lengthOctetPositions rest (payloadpos + 1 + tempchr2.length % 65536)

/-- A name of 505 bytes: seven labels of 63 bytes and one of 57. -/
def exampleLongName : List Nat :=
  (List.replicate 7 (List.replicate 63 97 ++ [DOT])).flatten ++ List.replicate 57 97

/-- A name that is one label of 192 bytes. -/
def exampleLongLabel : List Nat := List.replicate 192 97

/-- The channel `#x`. -/
def exampleChannel : Channel := { name := cstr "#x" }

/-- The handler of channel mode `n`, named `noextmsg`. -/
def exampleMode : ModeHandler := { name := cstr "noextmsg", mode := 110 }

/-- A user object carrying nothing, for items whose value is a string. -/
def examplePeer : ExtState (List Nat) :=
  { container := { extype := .EXT_USER, extensions := fun _ => none }, calls := [] }

/-- The item of identity 1 for users, not synced. -/
def exampleLocalItem : SimpleExtItem := { key := 1, extype := .EXT_USER, synced := false }

/-- A consumer of module 7 registered under the id 65535. -/
def exampleLastConsumer : Resolver :=
  { ptr := 101, Creator := 7, input := cstr "last.invalid", querytype := DNS_QUERY_A,
    myid := 65535, CQ := none, time_left := 0 }

/-- A consumer of module 8 registered under the id 5. -/
def exampleOtherConsumer : Resolver :=
  { ptr := 102, Creator := 8, input := cstr "other.invalid", querytype := DNS_QUERY_A,
    myid := 5, CQ := none, time_left := 0 }

/-- The resolver with three consumers registered: one of module 7 under
`0x1234`, one of module 7 under 65535, one of module 8 under 5. -/
def exampleUnload : DNS :=
  { exampleInFlight with
    Classes := setSlot (setSlot (setSlot exampleDNS.Classes 0x1234 (some exampleConsumer))
      65535 (some exampleLastConsumer)) 5 (some exampleOtherConsumer) }

/-- The resolver with a PTR request for `192.0.2.1` in flight in slot
`0x1234`. -/
def examplePtrInFlight : DNS :=
  { exampleDNS with
    requests := setSlot exampleDNS.requests 0x1234
      (some { ptr := 1, id := (0x12, 0x34), res := [0], rr_class := 1, type := DNS_QUERY_PTR,
              ttl := 0, orig := cstr "192.0.2.1" })
    currid := 1, nextptr := 2 }

/-- The question `1.2.0.192.in-addr.arpa PTR IN`. -/
def examplePtrQuestion : WireQuestion :=
  { name := [1, 49, 1, 50, 1, 48, 3, 49, 57, 50, 7, 105, 110, 45, 97, 100, 100, 114,
             4, 97, 114, 112, 97, 0]
    fixed := [0, 12, 0, 1] }

/-- A PTR record (TTL 3600) for that question whose RDATA is `host`,
`example` and a pointer to the label `arpa` of the question (offset 30 of the
message). -/
def examplePtrAnswer : AnswerRR :=
  { name := [0xC0, 0x0C], type := DNS_QUERY_PTR, rr_class := 1, ttl := 3600
    rdata := [4, 104, 111, 115, 116, 7, 101, 120, 97, 109, 112, 108, 101, 0xC0, 30] }

/-- The reply with that question and that record, from `127.0.0.1` port 53. -/
def examplePtrReply : Datagram :=
  { buffer := replyHeader 0x1234 0x81 0x80 1 1 0 0 ++
      (questionsWire [examplePtrQuestion] ++ answersWire [] ++ examplePtrAnswer.wire ++ [])
    ipaddr_from := cstr "127.0.0.1", port_from := 53 }

/-- A PTR record whose RDATA is the label `a\0b` (with a zero byte in it), the
label `c`, and the zero octet. -/
def exampleNulAnswer : AnswerRR :=
  { name := [0xC0, 0x0C], type := DNS_QUERY_PTR, rr_class := 1, ttl := 3600
    rdata := [3, 97, 0, 98, 1, 99, 0] }

/-- The reply with that record, from `127.0.0.1` port 53. -/
def exampleNulReply : Datagram :=
  { buffer := replyHeader 0x1234 0x81 0x80 1 1 0 0 ++
      (questionsWire [examplePtrQuestion] ++ answersWire [] ++ exampleNulAnswer.wire ++ [])
    ipaddr_from := cstr "127.0.0.1", port_from := 53 }

/-- A question whose name is seven labels of 63 bytes.  The bytes of the first
two labels are chosen so that a second name starts at offset 1 of the payload:
a label of 63 bytes (offsets 2 to 64) followed, at offsets 65 and 66, by a
pointer to offset 12 of the message, the start of the question name. -/
def exampleLongQuestion : WireQuestion :=
  { name := 63 :: (63 :: List.replicate 62 97) ++ (63 :: (0xC0 :: 0x0C :: List.replicate 61 97))
      ++ ((List.replicate 5 (63 :: List.replicate 63 97)).flatten ++ [0])
    fixed := [0, 12, 0, 1] }

/-- A PTR record whose RDATA is the label `a` and a pointer to offset 13 of
the message, the second name inside `exampleLongQuestion`. -/
def exampleLongAnswer : AnswerRR :=
  { name := [0xC0, 0x0C], type := DNS_QUERY_PTR, rr_class := 1, ttl := 3600
    rdata := [1, 97, 0xC0, 0x0D] }

/-- The reply with that question and that record, 481 bytes, from
`127.0.0.1` port 53. -/
def exampleLongReply : Datagram :=
  { buffer := replyHeader 0x1234 0x81 0x80 1 1 0 0 ++
      (questionsWire [exampleLongQuestion] ++ answersWire [] ++ exampleLongAnswer.wire ++ [])
    ipaddr_from := cstr "127.0.0.1", port_from := 53 }

/-- A resolver whose cache holds three answers: two cached at time 1000 with
TTL 300 and 3600, one cached at time 500 with TTL 60. -/
def exampleCached : DNS :=
  { exampleDNS with
    cache := [(cstr "a.invalid", CachedQuery.new 1000 (cstr "192.0.2.1") 300),
              (cstr "b.invalid", CachedQuery.new 1000 (cstr "192.0.2.2") 3600),
              (cstr "c.invalid", CachedQuery.new 500 (cstr "192.0.2.3") 60)] }

/-- The values `socketengine.h` gives the `FD_WANT_*` bits. -/
def exampleWant : FdWant :=
  { FD_WANT_POLL_READ := 0x2, FD_WANT_FAST_READ := 0x4, FD_WANT_EDGE_READ := 0x8
    FD_WANT_POLL_WRITE := 0x20, FD_WANT_FAST_WRITE := 0x40, FD_WANT_EDGE_WRITE := 0x80 }

/-- The descriptors of the handlers of `exampleEngine` (handler 50 on
descriptor 5, handler 60 on descriptor 6), and of a handler 70 on descriptor
7. -/
def exampleGetFd : Nat → Int := fun eh => if eh = 50 then 5 else if eh = 60 then 6 else 7

/-- Callbacks of which the read callback removes its own handler with
`DelFd(eh, false)` (and `epoll_ctl` succeeds); the others leave the engine
alone. -/
def exampleRemoveOnRead : Nat → EventType → Int → EPollEngine → EPollEngine :=
  fun eh et _ e => if et = .EVENT_READ then (DelFd exampleGetFd 0 e eh false).2.1 else e

/-- A registered user `alice` (both the nick and the user bits of `connected`
set) and a peer that has not sent a nick yet. -/
def exampleAlice : User := { nick := cstr "alice", connected := 3 }

/-- A peer that has not registered a nick. -/
def exampleNewcomer : User := { nick := [], connected := 2 }

/-- The resolver with its socket open and a live request in every slot. -/
def exampleFull : DNS := { exampleDNS with requests := fun _ => some exampleRequest }

/-- A PTR record whose RDATA is a compression pointer to offset 52 of the
message, the offset at which that RDATA itself starts. -/
def exampleCycleAnswer : AnswerRR :=
  { name := [0xC0, 0x0C], type := DNS_QUERY_PTR, rr_class := 1, ttl := 3600
    rdata := [0xC0, 52] }

/-- The reply with the question `1.2.0.192.in-addr.arpa PTR IN` and that
record, 54 bytes, from `127.0.0.1` port 53. -/
def exampleCycleReply : Datagram :=
  { buffer := replyHeader 0x1234 0x81 0x80 1 1 0 0 ++
      (questionsWire [examplePtrQuestion] ++ answersWire [] ++ exampleCycleAnswer.wire ++ [])
    ipaddr_from := cstr "127.0.0.1", port_from := 53 }

/-- A PTR record whose RDATA is two pointers, the first (at offset 52 of the
message) to the second (at offset 54) and the second back to the first. -/
def exampleCycle2Answer : AnswerRR :=
  { name := [0xC0, 0x0C], type := DNS_QUERY_PTR, rr_class := 1, ttl := 3600
    rdata := [0xC0, 54, 0xC0, 52] }

/-- The reply with the question `1.2.0.192.in-addr.arpa PTR IN` and that
record, from `127.0.0.1` port 53. -/
def exampleCycle2Reply : Datagram :=
  { buffer := replyHeader 0x1234 0x81 0x80 1 1 0 0 ++
      (questionsWire [examplePtrQuestion] ++ answersWire [] ++ exampleCycle2Answer.wire ++ [])
    ipaddr_from := cstr "127.0.0.1", port_from := 53 }

/-- A PTR record whose RDATA is the two octets `0x40 0x00`: the first is above
63 and is taken for the start of a compression pointer. -/
def exampleBackAnswer : AnswerRR :=
  { name := [0xC0, 0x0C], type := DNS_QUERY_PTR, rr_class := 1, ttl := 3600
    rdata := [0x40, 0] }

/-- The reply with the question `1.2.0.192.in-addr.arpa PTR IN` and that
record, 54 bytes, from `127.0.0.1` port 53. -/
def exampleBackReply : Datagram :=
  { buffer := replyHeader 0x1234 0x81 0x80 1 1 0 0 ++
      (questionsWire [examplePtrQuestion] ++ answersWire [] ++ exampleBackAnswer.wire ++ [])
    ipaddr_from := cstr "127.0.0.1", port_from := 53 }

/-- The question `example.invalid A IN`. -/
def exampleQuestion : WireQuestion :=
  { name := [7, 101, 120, 97, 109, 112, 108, 101, 7, 105, 110, 118, 97, 108, 105, 100, 0]
    fixed := [0, 1, 0, 1] }

/-- A CNAME record (TTL 60) owned by the question name, whose RDATA is the
label `www` and a pointer to the question name. -/
def exampleAliasAnswer : AnswerRR :=
  { name := [0xC0, 0x0C], type := DNS_QUERY_CNAME, rr_class := 1, ttl := 60
    rdata := [3, 119, 119, 119, 0xC0, 0x0C] }

/-- An A record (TTL 300) with the address `192.0.2.1`. -/
def exampleAddressAnswer : AnswerRR :=
  { name := [0xC0, 0x0C], type := DNS_QUERY_A, rr_class := 1, ttl := 300
    rdata := [192, 0, 2, 1] }

/-- The header of a reply to `exampleRequest` as `FillHeader` leaves it: one
question, two answers, the CNAME record before the A record. -/
def exampleTwoAnswers : DNSHeader :=
  { id := (0x12, 0x34), flags1 := 0x81, flags2 := 0x80, qdcount := 1, ancount := 2,
    nscount := 0, arcount := 0
    payload := questionsWire [exampleQuestion] ++ answersWire [exampleAliasAnswer]
      ++ (exampleAddressAnswer.wire ++ []) }

/-- A reply to request `0x1234` from `127.0.0.1` port 53 whose A record
announces an RDLENGTH of 16 and carries 4 bytes of RDATA. -/
def exampleTruncated : Datagram :=
  { buffer := [0x12, 0x34, 0x81, 0x80, 0, 1, 0, 1, 0, 0, 0, 0,
      7, 101, 120, 97, 109, 112, 108, 101, 7, 105, 110, 118, 97, 108, 105, 100, 0, 0, 1, 0, 1,
      0xC0, 0x0C, 0, 1, 0, 1, 0, 0, 1, 0x2C, 0, 16, 192, 0, 2, 1]
    ipaddr_from := cstr "127.0.0.1", port_from := 53 }

/-- The header `FillHeader` makes of `exampleReply`: one question, one
answer, 37 bytes of payload. -/
def exampleReplyHeader : DNSHeader :=
  { id := (0x12, 0x34), flags1 := 0x81, flags2 := 0x80, qdcount := 1, ancount := 1,
    nscount := 0, arcount := 0, payload := exampleReply.buffer.drop 12 }

/-- The header `FillHeader` makes of `exampleTruncated`. -/
def exampleTruncatedHeader : DNSHeader :=
  { id := (0x12, 0x34), flags1 := 0x81, flags2 := 0x80, qdcount := 1, ancount := 1,
    nscount := 0, arcount := 0, payload := exampleTruncated.buffer.drop 12 }

/-- An engine with 1024 slots and no descriptor registered. -/
def exampleIdle : EPollEngine :=
  { ref := fun _ => none
    event_mask := fun _ => 0
    CurrentSetSize := 0, MAX_DESCRIPTORS := 1024
    TotalEvents := 0, ErrorEvents := 0, ReadEvents := 0, WriteEvents := 0 }

/-- The oper `alice` of type `NetAdmin`. -/
def exampleOper : userrec := { nick := cstr "alice", oper := cstr "NetAdmin" }

/-- A configuration with two oper types: `Helper` with the modes `+h` and
`NetAdmin` with the modes `+s +cC`. -/
def exampleTypes : List TypeTag :=
  [{ name := cstr "Helper", modes := cstr "+h" },
   { name := cstr "NetAdmin", modes := cstr "+s +cC" }]

/-- The first lookup of a trace of two: `GetIP("example.invalid")` on
`exampleDNS` draws the id `0x1234`, and the consumer `exampleConsumer` is
registered. -/
def exampleFirst : DNS :=
  match GetIP exampleDNS examplePrng 4 33 (cstr "example.invalid") with
  | some (_, s) => (AddResolverClass s (some exampleConsumer)).2
  | none => exampleDNS

/-- The state after the reply `exampleReply` to that lookup was handled at
time 1000. -/
def exampleFirstAnswered : DNS :=
  match HandleEvent exampleFirst (some exampleReply) 1000 (fun _ => []) 0 with
  | .done s => s
  | _ => exampleFirst

/-- A consumer of module 8 waiting for the answer to a later request
`0x1234`. -/
def exampleLaterConsumer : Resolver :=
  { ptr := 101, Creator := 8, input := cstr "other.invalid", querytype := DNS_QUERY_A,
    myid := 0x1234, CQ := none, time_left := 0 }

/-- The second lookup of the trace: `GetIP("other.invalid")`, made after the
first was answered, draws the id `0x1234` again, and `exampleLaterConsumer` is
registered. -/
def exampleSecond : DNS :=
  match GetIP exampleFirstAnswered examplePrng 4 31 (cstr "other.invalid") with
  | some (_, s) => (AddResolverClass s (some exampleLaterConsumer)).2
  | none => exampleFirstAnswered

/-- A datagram of 530 bytes from `127.0.0.1` port 53 whose id `0x9999` names no
request: the 12 header octets and 518 more. -/
def exampleOversize : Datagram :=
  { buffer := [0x99, 0x99, 0x81, 0x80, 0, 0, 0, 0, 0, 0, 0, 0] ++ List.replicate 518 0
    ipaddr_from := cstr "127.0.0.1", port_from := 53 }

/-- A datagram of 530 bytes from `127.0.0.1` port 53 with the id `0x1234` of
the request in flight and QR clear. -/
def exampleOversizeQuery : Datagram :=
  { buffer := [0x12, 0x34, 0x01, 0x00, 0, 1, 0, 0, 0, 0, 0, 0] ++ List.replicate 518 0
    ipaddr_from := cstr "127.0.0.1", port_from := 53 }

/-- The reply `exampleReply` with the TTL octets `0x80 0 0 0` in place of
`0 0 1 0x2C`: the TTL 2147483648. -/
def exampleSignedTTL : Datagram :=
  { buffer := [0x12, 0x34, 0x81, 0x80, 0, 1, 0, 1, 0, 0, 0, 0,
      7, 101, 120, 97, 109, 112, 108, 101, 7, 105, 110, 118, 97, 108, 105, 100, 0, 0, 1, 0, 1,
      0xC0, 0x0C, 0, 1, 0, 1, 0x80, 0, 0, 0, 0, 4, 192, 0, 2, 1]
    ipaddr_from := cstr "127.0.0.1", port_from := 53 }

/-! # Theorems -/

/-! ## Lemmas on `MakePayload` -/

theorem splitDots_ne_nil (name : List Nat) : splitDots name ≠ [] := by
  cases name with
  | nil => simp [splitDots]
  | cons c cs =>
    simp only [splitDots]
    split_ifs
    · simp
    · split <;> simp

theorem joinDots_splitDots (name : List Nat) : joinDots (splitDots name) = name := by
  induction name with
  | nil => simp [splitDots, joinDots]
  | cons c cs ih =>
    simp only [splitDots]
    split_ifs with h
    · have := splitDots_ne_nil cs
      cases hs : splitDots cs with
      | nil => exact absurd hs this
      | cons l ls => rw [hs] at ih; simp [joinDots, ih, h]
    · cases hs : splitDots cs with
      | nil => exact absurd hs (splitDots_ne_nil cs)
      | cons l ls =>
        rw [hs] at ih
        cases ls with
        | nil => simpa [joinDots] using ih
        | cons l2 ls2 => simp only [joinDots] at ih ⊢; simp [ih]

/-- On labels that are non-empty and shorter than 256 bytes, a successful
label loop appends the wire form of the labels and the zero octet, and
`payloadpos` advances by the number of bytes written. -/
theorem MakePayloadLabels_wellformed (ls : List (List Nat)) (hne : ls ≠ [])
    (hl : ∀ l ∈ ls, l ≠ [] ∧ l.length ≤ 255) (pos : Nat) (payload : List Nat)
    (pos2 : Nat) (payload2 : List Nat)
    (h : MakePayloadLabels ls pos payload = some (pos2, payload2)) :
    payload2 = payload ++ encodeLabels ls ++ [0] ∧
      pos2 = pos + (encodeLabels ls).length + 1 := by
  induction ls generalizing pos payload with
  | nil => exact absurd rfl hne
  | cons l rest ih =>
    have hl1 := hl l (by simp)
    have hlen : l.length % 65536 = l.length := Nat.mod_eq_of_lt (by omega)
    have hlen2 : l.length % 256 = l.length := Nat.mod_eq_of_lt (by omega)
    have hpos : l.length ≠ 0 := by
      intro h0; exact hl1.1 (List.length_eq_zero.mp h0)
    cases rest with
    | nil =>
      simp only [MakePayloadLabels, hlen, hlen2, ne_eq, hpos, not_false_eq_true, if_true,
        List.take_length] at h
      split_ifs at h
      simp only [Option.some.injEq, Prod.mk.injEq] at h
      obtain ⟨h1, h2⟩ := h
      subst h1 h2
      simp [encodeLabels]; omega
    | cons l2 rest2 =>
      simp only [MakePayloadLabels, hlen, hlen2, List.take_length] at h
      split_ifs at h
      have := ih (by simp) (fun x hx => hl x (by simp at hx ⊢; tauto)) _ _ h
      obtain ⟨h1, h2⟩ := this
      subst h1 h2
      constructor
      · simp [encodeLabels]
      · simp [encodeLabels]; omega

/-- Decoding the wire form of non-empty labels shorter than 256 bytes, ended
by a zero octet, gives the labels back and stops right after the zero. -/
theorem decodeLabels_encodeLabels (ls : List (List Nat)) (hl : ∀ l ∈ ls, l ≠ [])
    (rest : List Nat) (fuel : Nat) (hf : ls.length < fuel) :
    decodeLabels fuel (encodeLabels ls ++ 0 :: rest) = some (ls, rest) := by
  induction ls generalizing fuel with
  | nil =>
    cases fuel with
    | zero => simp at hf
    | succ f => simp [encodeLabels, decodeLabels]
  | cons l ls ih =>
    cases fuel with
    | zero => simp at hf
    | succ f =>
      have hne : l.length ≠ 0 := fun h0 => hl l (by simp) (List.length_eq_zero.mp h0)
      have hih := ih (fun x hx => hl x (by simp [hx])) f (by simp at hf; omega)
      have h1 : ¬ (l ++ (encodeLabels ls ++ 0 :: rest)).length < l.length := by simp
      simp [encodeLabels, decodeLabels, hne, h1, hih]

theorem encodeLabels_length_ge (ls : List (List Nat)) :
    ls.length ≤ (encodeLabels ls).length := by
  induction ls with
  | nil => simp [encodeLabels]
  | cons l ls ih => simp [encodeLabels]; omega


/-- The round trip of a question on a name whose pieces are non-empty and
shorter than 256 bytes, for any 16-bit type and class. -/
theorem MakePayload_decodeQuestion (name : List Nat) (rr rr_class : Nat) (hrr : rr < 65536)
    (hc : rr_class < 65536) (hl : ∀ l ∈ splitDots name, l ≠ [] ∧ l.length ≤ 255)
    (n : Nat) (payload : List Nat) (h : MakePayload name rr rr_class = some (n, payload)) :
    decodeQuestion payload = some ⟨name, rr, some rr_class⟩ ∧ n = payload.length := by
  unfold MakePayload at h
  cases hm : MakePayloadLabels (splitDots name) 0 [] with
  | none => simp [hm] at h
  | some r =>
    obtain ⟨pos, pl⟩ := r
    simp only [hm] at h
    split_ifs at h
    simp only [Option.some.injEq, Prod.mk.injEq] at h
    obtain ⟨hn, hp⟩ := h
    obtain ⟨h1, h2⟩ := MakePayloadLabels_wellformed _ (splitDots_ne_nil name) hl 0 [] pos pl hm
    subst hp hn h1
    have hdec := decodeLabels_encodeLabels (splitDots name) (fun l hl2 => (hl l hl2).1)
      (htons2 rr ++ htons2 rr_class)
      (([] ++ encodeLabels (splitDots name) ++ [0] ++ htons2 rr ++ htons2 rr_class).length + 1)
      (by have := encodeLabels_length_ge (splitDots name); simp; omega)
    constructor
    · unfold decodeQuestion
      have e : [] ++ encodeLabels (splitDots name) ++ [0] ++ htons2 rr ++ htons2 rr_class
          = encodeLabels (splitDots name) ++ 0 :: (htons2 rr ++ htons2 rr_class) := by simp
      rw [e] at hdec ⊢
      rw [hdec]
      simp only [htons2, List.cons_append, List.nil_append, joinDots_splitDots]
      have r1 : rr % 65536 = rr := Nat.mod_eq_of_lt hrr
      have c1 : rr_class % 65536 = rr_class := Nat.mod_eq_of_lt hc
      simp only [r1, c1, Option.some.injEq, Question.mk.injEq, true_and]
      constructor <;> omega
    · simp [htons2, h2]

set_option maxRecDepth 100000 in
theorem hex_nibbles : ∀ b < 256,
    hex.getD (b &&& 0x0F) 0 = hexDigit (b % 16) ∧
    hex.getD ((b &&& 0xF0) >>> 4) 0 = hexDigit (b / 16) := by
  decide

set_option maxRecDepth 100000 in
theorem fmtDec_byte : ∀ b < 256, fmtDec b ≠ [] ∧ (fmtDec b).length ≤ 3 ∧ DOT ∉ fmtDec b := by
  decide

theorem cstr_append (a b : String) : cstr (a ++ b) = cstr a ++ cstr b := by
  simp [cstr]

theorem cstr_toString (n : Nat) : cstr (toString n) = fmtDec n := by
  simp [cstr, fmtDec, toString, Nat.repr, List.asString]

/-- The pieces of a text without dots followed by a dot and more text. -/
theorem splitDots_append_dot (l rest : List Nat) (hl : DOT ∉ l) :
    splitDots (l ++ DOT :: rest) = l :: splitDots rest := by
  induction l with
  | nil => simp [splitDots]
  | cons c cs ih =>
    have hc : c ≠ DOT := fun h => hl (by simp [h])
    have hcs : DOT ∉ cs := fun h => hl (by simp [h])
    simp [splitDots, hc, ih hcs]

/-- The pieces of a text without dots. -/
theorem splitDots_nodot (l : List Nat) (hl : DOT ∉ l) : splitDots l = [l] := by
  induction l with
  | nil => simp [splitDots]
  | cons c cs ih =>
    have hc : c ≠ DOT := fun h => hl (by simp [h])
    have hcs : DOT ∉ cs := fun h => hl (by simp [h])
    simp [splitDots, hc, ih hcs]

/-- On labels that are non-empty and shorter than 256 bytes and whose wire
form ends at or below offset 507, the label loop succeeds. -/
theorem MakePayloadLabels_succeeds (ls : List (List Nat)) (hne : ls ≠ [])
    (hl : ∀ l ∈ ls, l ≠ [] ∧ l.length ≤ 255) (pos : Nat) (payload : List Nat)
    (hfit : pos + (encodeLabels ls).length + 1 ≤ 507) :
    MakePayloadLabels ls pos payload
      = some (pos + (encodeLabels ls).length + 1, payload ++ encodeLabels ls ++ [0]) := by
  induction ls generalizing pos payload with
  | nil => exact absurd rfl hne
  | cons l rest ih =>
    have hl1 := hl l (by simp)
    have hlen : l.length % 65536 = l.length := Nat.mod_eq_of_lt (by omega)
    have hlen2 : l.length % 256 = l.length := Nat.mod_eq_of_lt (by omega)
    have hpos : l.length ≠ 0 := by
      intro h0; exact hl1.1 (List.length_eq_zero.mp h0)
    cases rest with
    | nil =>
      simp only [encodeLabels, List.length_cons, List.length_append, List.length_nil] at hfit
      have hc : ¬ (pos + l.length + 2 > 507) := by omega
      simp only [MakePayloadLabels, hlen, hlen2, ne_eq, hpos, not_false_eq_true, if_true,
        List.take_length, hc, if_false]
      simp [encodeLabels]; omega
    | cons l2 rest2 =>
      simp only [encodeLabels, List.length_cons, List.length_append] at hfit
      have hc : ¬ (pos + l.length + 1 > 507) := by omega
      simp only [MakePayloadLabels, hlen, hlen2, List.take_length, hc, if_false]
      rw [ih (by simp) (fun x hx => hl x (by simp at hx ⊢; tauto)) _ _
        (by simp only [encodeLabels, List.length_cons, List.length_append]; omega)]
      simp [encodeLabels]; omega

theorem AddQueryLoop_free (requests : Nat → Option DNSRequest) (prng : Nat → Nat) :
    ∀ (fuel k id id2 k2 : Nat), id ≤ 65535 →
      AddQueryLoop requests prng fuel k id = some (id2, k2) →
      requests id2 = none ∧ id2 ≤ 65535 := by
  intro fuel
  induction fuel with
  | zero => intro k id id2 k2 _ h; simp [AddQueryLoop] at h
  | succ f ih =>
    intro k id id2 k2 hid h
    simp only [AddQueryLoop] at h
    split_ifs at h with hs
    · exact ih _ _ _ _ (by simpa [MAX_REQUEST_ID] using Nat.and_le_right) h
    · simp only [Option.some.injEq, Prod.mk.injEq] at h
      obtain ⟨h1, _⟩ := h
      subst h1
      simp only [Option.isSome_iff_exists, not_exists] at hs
      constructor
      · cases hr : requests id with
        | none => rfl
        | some x => exact absurd hr (hs x)
      · exact hid

/-- What a successful `AddQuery` returns when the socket is open. -/
theorem AddQuery_open (s : DNS) (prng : Nat → Nat) (fuel : Nat) (header : DNSHeader)
    (idIn : Nat) (original : List Nat) (r : AddQueryResult) (hfd : s.fd ≠ -1)
    (h : AddQuery s prng fuel header idIn original = some r) :
    ∃ id k req, AddQueryLoop s.requests prng fuel 1 (prng 0 &&& MAX_REQUEST_ID) = some (id, k) ∧
      req = { ptr := s.freed.headD s.nextptr, id := ((id >>> 8) % 256, id &&& 0xFF), res := [0],
              rr_class := 0, type := 0, ttl := 0, orig := original } ∧
      r.req = some req ∧ r.id = id ∧
      r.header = { header with id := req.id, flags1 := FLAGS_MASK_RD, flags2 := 0, qdcount := 1,
                               ancount := 0, nscount := 0, arcount := 0 } ∧
      r.dns.requests = setSlot s.requests id (some req) ∧
      r.dns.sent = s.sent ∧ r.dns.Classes = s.Classes ∧ r.dns.cache = s.cache ∧
      r.dns.calls = s.calls := by
  unfold AddQuery at h
  simp only [hfd, if_false] at h
  cases hl : AddQueryLoop s.requests prng fuel 1 (prng 0 &&& MAX_REQUEST_ID) with
  | none => simp [hl] at h
  | some p =>
    obtain ⟨id, k⟩ := p
    simp only [hl, DNSRequest.new, Option.some.injEq] at h
    subst h
    exact ⟨id, k, _, rfl, rfl, rfl, rfl, rfl, rfl, rfl, rfl, rfl, rfl⟩

/-- The id loop ends as soon as a drawn id is free: if the id at hand is free,
or one of the next `fuel - 1` draws is, the loop returns. -/
theorem AddQueryLoop_returns (requests : Nat → Option DNSRequest) (prng : Nat → Nat) :
    ∀ (fuel k id : Nat),
      (requests id = none ∨
        ∃ j, k ≤ j ∧ j + 1 < k + fuel ∧ requests (prng j &&& MAX_REQUEST_ID) = none) →
      0 < fuel → ∃ r, AddQueryLoop requests prng fuel k id = some r := by
  intro fuel
  induction fuel with
  | zero => intro k id _ h; omega
  | succ f ih =>
    intro k id h _
    simp only [AddQueryLoop]
    by_cases hs : (requests id).isSome = true
    · simp only [hs, if_true]
      have hne : requests id ≠ none := by
        intro h0; rw [h0] at hs; simp at hs
      rcases h with h | ⟨j, hj1, hj2, hj3⟩
      · exact absurd h hne
      · by_cases hjk : j = k
        · subst hjk
          have hf : 0 < f := by omega
          exact ih (j + 1) _ (Or.inl hj3) hf
        · have hf : 0 < f := by omega
          exact ih (k + 1) _ (Or.inr ⟨j, by omega, by omega, hj3⟩) hf
    · simp only [hs, if_false]
      exact ⟨_, rfl⟩

/-- With the socket open, a lookup returns whenever `MakePayload` fails or one
of the first `fuel` draws of `PRNG()` gives a free id. -/
theorem StartLookup_returns (s : DNS) (prng : Nat → Nat) (fuel : Nat) (sendto : Int)
    (query : List Nat) (qt : Nat) (original : List Nat)
    (hfree : ∃ j, j < fuel ∧ s.requests (prng j &&& MAX_REQUEST_ID) = none) :
    ∃ r, StartLookup s prng fuel sendto query qt original = some r := by
  obtain ⟨j, hj, hfr⟩ := hfree
  have hloop : ∃ r, AddQueryLoop s.requests prng fuel 1 (prng 0 &&& MAX_REQUEST_ID) = some r := by
    apply AddQueryLoop_returns s.requests prng fuel 1 _ _ (by omega)
    by_cases h0 : j = 0
    · subst h0; exact Or.inl hfr
    · exact Or.inr ⟨j, by omega, by omega, hfr⟩
  obtain ⟨⟨id, k⟩, hloop⟩ := hloop
  unfold StartLookup
  cases hm : MakePayload query qt 1 with
  | none => exact ⟨_, rfl⟩
  | some p =>
    obtain ⟨length, payload⟩ := p
    simp only
    by_cases hfd : s.fd = -1
    · simp only [AddQuery, hfd, if_true]
      exact ⟨_, rfl⟩
    · simp only [AddQuery, hfd, if_false, hloop, DNSRequest.new]
      split_ifs <;> exact ⟨_, rfl⟩

/-- With the socket open, a lookup that returns has handed exactly one
datagram to `SendTo`: 12 header octets followed by the payload `MakePayload`
built. -/
theorem StartLookup_sent (s : DNS) (prng : Nat → Nat) (fuel : Nat) (sendto : Int)
    (query : List Nat) (qt : Nat) (original : List Nat) (n : Nat) (payload : List Nat)
    (hfd : s.fd ≠ -1) (hm : MakePayload query qt 1 = some (n, payload))
    (hn : n = payload.length) (rv : Int) (s2 : DNS)
    (h : StartLookup s prng fuel sendto query qt original = some (rv, s2)) :
    ∃ dgram, s2.sent = s.sent ++ [dgram] ∧ dgram.drop 12 = payload := by
  unfold StartLookup at h
  simp only [hm] at h
  split at h
  · simp at h
  · rename_i r ha
    obtain ⟨id, k, req, _, _, hreq, _, hhdr, _, hsent, _, _, _⟩ :=
      AddQuery_open s prng fuel _ 0 original r hfd ha
    simp only [hreq, SendRequests] at h
    refine ⟨EmptyHeader r.header n, ?_, ?_⟩
    · split_ifs at h <;>
        (simp only [Option.some.injEq, Prod.mk.injEq] at h
         obtain ⟨_, h2⟩ := h
         subst h2
         simp [hsent])
    · simp [EmptyHeader, hhdr, hn]

/-- C1 (as stated, refuted): `MakePayload` succeeds on `a.` (trailing dot),
on `a..b` (empty label) and on a single label of 256 bytes, and in each case
decoding the question it produced gives back neither the name nor the query
type A. -/
theorem MakePayload_roundtrip_fails :
    (MakePayload (cstr "a.") DNS_QUERY_A 1 = some (6, [1, 97, 0, 1, 0, 1]) ∧
      decodeQuestion [1, 97, 0, 1, 0, 1] = some ⟨cstr "a", 256, none⟩) ∧
    (MakePayload (cstr "a..b") DNS_QUERY_A 1 = some (10, [1, 97, 0, 1, 98, 0, 0, 1, 0, 1]) ∧
      decodeQuestion [1, 97, 0, 1, 98, 0, 0, 1, 0, 1] = some ⟨cstr "a", 354, some 0⟩) ∧
    (MakePayload (List.replicate 256 97) DNS_QUERY_A 1
        = some (262, 0 :: (List.replicate 256 97 ++ [0, 0, 1, 0, 1])) ∧
      decodeQuestion (0 :: (List.replicate 256 97 ++ [0, 0, 1, 0, 1]))
        = some ⟨[], 24929, some 24929⟩) := by
  refine ⟨⟨by decide, by decide⟩, ⟨by decide, by decide⟩, ⟨?_, ?_⟩⟩
  · set_option maxRecDepth 100000 in decide
  · set_option maxRecDepth 100000 in decide

/-- C1 (amended): for every query type Q in {A, AAAA, PTR, CNAME} and every
name whose dot-separated pieces are all non-empty and at most 255 bytes long
(so no empty label and no trailing dot), if `MakePayload` succeeds then
decoding the question it produced gives back the same name and the type Q. -/
theorem MakePayload_roundtrip_wellformed (name : List Nat) (Q : Nat) (hQ : IsQueryType Q)
    (hl : ∀ l ∈ splitDots name, l ≠ [] ∧ l.length ≤ 255)
    (n : Nat) (payload : List Nat) (h : MakePayload name Q 1 = some (n, payload)) :
    ∃ q, decodeQuestion payload = some q ∧ q.name = name ∧ q.qtype = Q := by
  have hQ2 : Q < 65536 := by
    rcases hQ with h | h | h | h <;> subst h <;> decide
  exact ⟨_, (MakePayload_decodeQuestion name Q 1 hQ2 (by decide) hl n payload h).1, rfl, rfl⟩

theorem MakePayload_roundtrip_wellformed_witness :
    IsQueryType DNS_QUERY_A ∧
    (∀ l ∈ splitDots (cstr "example.invalid"), l ≠ [] ∧ l.length ≤ 255) ∧
    MakePayload (cstr "example.invalid") DNS_QUERY_A 1
      = some (21, [7, 101, 120, 97, 109, 112, 108, 101, 7, 105, 110, 118, 97, 108, 105, 100, 0,
                   0, 1, 0, 1]) ∧
    ∃ q, decodeQuestion [7, 101, 120, 97, 109, 112, 108, 101, 7, 105, 110, 118, 97, 108, 105,
                         100, 0, 0, 1, 0, 1] = some q ∧
      q.name = cstr "example.invalid" ∧ q.qtype = DNS_QUERY_A :=
  ⟨Or.inl rfl, by decide, by decide,
   MakePayload_roundtrip_wellformed (cstr "example.invalid") DNS_QUERY_A (Or.inl rfl)
     (by decide) 21 _ (by decide)⟩

/-- The reverse name of an IPv4 address, its pieces, and that `MakePayload`
accepts it. -/
theorem reverseQuery4_payload (a b c d : Nat) (ha : a < 256) (hb : b < 256) (hc : c < 256)
    (hd : d < 256) :
    reverseQuery4 [a, b, c, d]
        = cstr (toString d ++ "." ++ toString c ++ "." ++ toString b ++ "." ++ toString a
                  ++ ".in-addr.arpa") ∧
      ∃ n payload, MakePayload (reverseQuery4 [a, b, c, d]) DNS_QUERY_PTR 1 = some (n, payload) ∧
        n = payload.length ∧
        decodeQuestion payload = some ⟨reverseQuery4 [a, b, c, d], 12, some 1⟩ := by
  obtain ⟨a1, a2, a3⟩ := fmtDec_byte a ha
  obtain ⟨b1, b2, b3⟩ := fmtDec_byte b hb
  obtain ⟨c1, c2, c3⟩ := fmtDec_byte c hc
  obtain ⟨d1, d2, d3⟩ := fmtDec_byte d hd
  have hname : reverseQuery4 [a, b, c, d] = fmtDec d ++ DOT :: (fmtDec c ++ DOT ::
      (fmtDec b ++ DOT :: (fmtDec a ++ DOT :: (cstr "in-addr" ++ DOT :: cstr "arpa")))) := by
    have e : cstr ".in-addr.arpa" = DOT :: (cstr "in-addr" ++ DOT :: cstr "arpa") := by decide
    simp [reverseQuery4, e]
  have hsplit : splitDots (reverseQuery4 [a, b, c, d])
      = [fmtDec d, fmtDec c, fmtDec b, fmtDec a, cstr "in-addr", cstr "arpa"] := by
    rw [hname, splitDots_append_dot _ _ d3, splitDots_append_dot _ _ c3,
      splitDots_append_dot _ _ b3, splitDots_append_dot _ _ a3,
      splitDots_append_dot _ _ (by decide), splitDots_nodot _ (by decide)]
  have hwf : ∀ l ∈ splitDots (reverseQuery4 [a, b, c, d]), l ≠ [] ∧ l.length ≤ 255 := by
    rw [hsplit]
    intro l hl
    simp only [List.mem_cons, List.mem_singleton, List.not_mem_nil, or_false] at hl
    rcases hl with h | h | h | h | h | h <;> subst h
    · exact ⟨d1, by omega⟩
    · exact ⟨c1, by omega⟩
    · exact ⟨b1, by omega⟩
    · exact ⟨a1, by omega⟩
    · decide
    · decide
  have hlab := MakePayloadLabels_succeeds (splitDots (reverseQuery4 [a, b, c, d]))
    (splitDots_ne_nil _) hwf 0 [] (by
      rw [hsplit]
      have e1 : (cstr "in-addr").length = 7 := by decide
      have e2 : (cstr "arpa").length = 4 := by decide
      simp only [encodeLabels, List.length_cons, List.length_append, List.length_nil, e1, e2]
      omega)
  have hpos : ¬ (0 + (encodeLabels (splitDots (reverseQuery4 [a, b, c, d]))).length + 1 > 508) := by
    rw [hsplit]
    have e1 : (cstr "in-addr").length = 7 := by decide
    have e2 : (cstr "arpa").length = 4 := by decide
    simp only [encodeLabels, List.length_cons, List.length_append, List.length_nil, e1, e2]
    omega
  have hmk : MakePayload (reverseQuery4 [a, b, c, d]) DNS_QUERY_PTR 1 = some
      (0 + (encodeLabels (splitDots (reverseQuery4 [a, b, c, d]))).length + 1 + 4,
       [] ++ encodeLabels (splitDots (reverseQuery4 [a, b, c, d])) ++ [0]
         ++ htons2 DNS_QUERY_PTR ++ htons2 1) := by
    unfold MakePayload
    rw [hlab]
    simp only [hpos, if_false]
  refine ⟨?_, _, _, hmk, ?_⟩
  · simp only [cstr_append, cstr_toString]
    simp only [reverseQuery4, List.getD_cons_zero, List.getD_cons_succ, List.append_assoc]
    have e : cstr "." = [DOT] := by decide
    simp [e]
  · have := MakePayload_decodeQuestion _ DNS_QUERY_PTR 1 (by decide) (by decide) hwf _ _ hmk
    exact ⟨this.2, this.1⟩

/-- C2: for every IPv4 address a.b.c.d that `inet_aton` accepts, with the
socket open and a free id among the first `fuel` draws, `GetNameForce`
returns, and the datagram it has handed to `SendTo` carries, after its 12
header octets, a question that decodes to the name `d.c.b.a.in-addr.arpa`
(the octets in decimal, reversed) with QTYPE 12 and QCLASS 1. -/
theorem GetNameForce_ipv4_question (s : DNS) (prng : Nat → Nat) (fuel : Nat) (sendto : Int)
    (inet_aton inet_pton6 : List Nat → Option (List Nat)) (ip : List Nat) (a b c d : Nat)
    (ha : a < 256) (hb : b < 256) (hc : c < 256) (hd : d < 256)
    (hip : inet_aton ip = some [a, b, c, d]) (hfd : s.fd ≠ -1)
    (hfree : ∃ j, j < fuel ∧ s.requests (prng j &&& MAX_REQUEST_ID) = none) :
    ∃ rv s2 dgram,
      GetNameForce s prng fuel sendto inet_aton inet_pton6 ip .PROTOCOL_IPV4 = some (rv, s2) ∧
      s2.sent = s.sent ++ [dgram] ∧
      decodeQuestion (dgram.drop 12)
        = some ⟨cstr (toString d ++ "." ++ toString c ++ "." ++ toString b ++ "." ++ toString a
                        ++ ".in-addr.arpa"), 12, some 1⟩ := by
  obtain ⟨hname, n, payload, hmk, hn, hdec⟩ := reverseQuery4_payload a b c d ha hb hc hd
  obtain ⟨⟨rv, s2⟩, h⟩ := StartLookup_returns s prng fuel sendto (reverseQuery4 [a, b, c, d])
    DNS_QUERY_PTR ip hfree
  obtain ⟨dgram, h1, h2⟩ := StartLookup_sent s prng fuel sendto _ _ ip n payload hfd hmk hn rv s2 h
  refine ⟨rv, s2, dgram, ?_, h1, by rw [h2, hdec, hname]⟩
  simp only [GetNameForce, hip]
  exact h

theorem GetNameForce_ipv4_question_witness :
    (fun (_ : List Nat) => some [192, 0, 2, 5]) (cstr "192.0.2.5") = some [192, 0, 2, 5] ∧
    exampleDNS.fd ≠ -1 ∧
    (∃ j, j < 4 ∧ exampleDNS.requests (examplePrng j &&& MAX_REQUEST_ID) = none) ∧
    ∃ rv s2 dgram,
      GetNameForce exampleDNS examplePrng 4 40 (fun _ => some [192, 0, 2, 5])
        (fun _ => none) (cstr "192.0.2.5") .PROTOCOL_IPV4 = some (rv, s2) ∧
      s2.sent = exampleDNS.sent ++ [dgram] ∧
      decodeQuestion (dgram.drop 12) = some ⟨cstr "5.2.0.192.in-addr.arpa", 12, some 1⟩ :=
  ⟨rfl, by decide, ⟨0, by decide, rfl⟩,
   GetNameForce_ipv4_question exampleDNS examplePrng 4 40 (fun _ => some [192, 0, 2, 5])
    (fun _ => none) (cstr "192.0.2.5") 192 0 2 5 (by decide) (by decide) (by decide) (by decide)
    rfl (by decide) ⟨0, by decide, rfl⟩⟩

/-- C3: for every 16-byte IPv6 address, `MakeIP6Int` writes, for each address
byte from the last to the first, its low nibble and then its high nibble as
lowercase hexadecimal digits, each followed by `.`, and then `ip6.arpa`:
72 characters, of which 32 are nibbles. -/
theorem MakeIP6Int_nibbles (s6_addr : List Nat) (hlen : s6_addr.length = 16)
    (hb : ∀ b ∈ s6_addr, b < 256) :
    MakeIP6Int s6_addr = ip6ArpaSpec s6_addr ∧ (MakeIP6Int s6_addr).length = 72 := by
  match s6_addr, hlen with
  | [b0, b1, b2, b3, b4, b5, b6, b7, b8, b9, b10, b11, b12, b13, b14, b15], _ =>
    have h (b : Nat) (hm : b ∈ [b0, b1, b2, b3, b4, b5, b6, b7, b8, b9, b10, b11, b12, b13, b14, b15]) :=
      hex_nibbles b (hb b hm)
    have e : MakeIP6Int [b0, b1, b2, b3, b4, b5, b6, b7, b8, b9, b10, b11, b12, b13, b14, b15]
        = ip6ArpaSpec [b0, b1, b2, b3, b4, b5, b6, b7, b8, b9, b10, b11, b12, b13, b14, b15] := by
      simp only [MakeIP6Int, MakeIP6IntLoop, ip6ArpaSpec, List.reverse_cons, List.reverse_nil,
        List.nil_append, List.cons_append, List.map_cons, List.map_nil, List.flatten,
        List.getD_cons_zero, List.getD_cons_succ, Nat.reduceMod, Nat.reduceDiv, ne_eq,
        not_true_eq_false, not_false_eq_true, if_true, if_false, OfNat.ofNat_ne_zero,
        OfNat.zero_ne_ofNat, one_ne_zero,
        (h b0 (by simp)).1, (h b0 (by simp)).2, (h b1 (by simp)).1, (h b1 (by simp)).2,
        (h b2 (by simp)).1, (h b2 (by simp)).2, (h b3 (by simp)).1, (h b3 (by simp)).2,
        (h b4 (by simp)).1, (h b4 (by simp)).2, (h b5 (by simp)).1, (h b5 (by simp)).2,
        (h b6 (by simp)).1, (h b6 (by simp)).2, (h b7 (by simp)).1, (h b7 (by simp)).2,
        (h b8 (by simp)).1, (h b8 (by simp)).2, (h b9 (by simp)).1, (h b9 (by simp)).2,
        (h b10 (by simp)).1, (h b10 (by simp)).2, (h b11 (by simp)).1, (h b11 (by simp)).2,
        (h b12 (by simp)).1, (h b12 (by simp)).2, (h b13 (by simp)).1, (h b13 (by simp)).2,
        (h b14 (by simp)).1, (h b14 (by simp)).2, (h b15 (by simp)).1, (h b15 (by simp)).2]
    refine ⟨e, ?_⟩
    have e2 : (cstr "ip6.arpa").length = 8 := by decide
    simp [MakeIP6Int, MakeIP6IntLoop, e2]

theorem MakeIP6Int_nibbles_witness :
    exampleIP6.length = 16 ∧ (∀ b ∈ exampleIP6, b < 256) ∧
    MakeIP6Int exampleIP6
      = cstr "f.1.0.0.0.0.0.0.0.0.0.0.0.0.0.0.0.0.0.0.0.0.0.0.8.b.d.0.1.0.0.2.ip6.arpa" ∧
    MakeIP6Int exampleIP6 = ip6ArpaSpec exampleIP6 ∧ (MakeIP6Int exampleIP6).length = 72 :=
  ⟨by decide, by decide, by decide, MakeIP6Int_nibbles exampleIP6 (by decide) (by decide)⟩

theorem deleterCalls_append {α : Type} (a b : List (ExtCall α)) :
    deleterCalls (a ++ b) = deleterCalls a ++ deleterCalls b := by
  simp [deleterCalls]

theorem SimpleExtItem.Set_extensions {α : Type} (it : SimpleExtItem) (st : ExtState α)
    (v : Option α) (sync : Bool) :
    (it.Set st v sync).container.extype = st.container.extype ∧
    (it.Set st v sync).container.extensions
      = (if st.container.extype = it.extype then setSlot st.container.extensions it.key v
         else st.container.extensions) ∧
    (it.Set st v sync).calls
      = (if st.container.extype = it.extype then
          st.calls ++ [ExtCall.Delete it.key (st.container.extensions it.key)]
            ++ (if sync ∧ it.synced then [ExtCall.Sync it.key v] else [])
         else st.calls) := by
  by_cases h : st.container.extype = it.extype
  · simp only [SimpleExtItem.Set, SimpleExtItem.SetRaw, h, ne_eq, not_true_eq_false, if_false,
      if_true, true_and]
    split_ifs <;> simp
  · simp [SimpleExtItem.Set, h]

theorem SimpleExtItem.Unset_extensions {α : Type} (it : SimpleExtItem) (st : ExtState α)
    (sync : Bool) :
    (it.Unset st sync).container.extype = st.container.extype ∧
    (it.Unset st sync).container.extensions
      = (if st.container.extype = it.extype then setSlot st.container.extensions it.key none
         else st.container.extensions) ∧
    (it.Unset st sync).calls
      = (if st.container.extype = it.extype then
          st.calls ++ [ExtCall.Delete it.key (st.container.extensions it.key)]
            ++ (if it.synced ∧ sync then [ExtCall.Sync it.key none] else [])
         else st.calls) := by
  by_cases h : st.container.extype = it.extype
  · simp only [SimpleExtItem.Unset, SimpleExtItem.UnsetRaw, h, ne_eq, not_true_eq_false,
      if_false, if_true, true_and]
    split_ifs <;> simp
  · simp [SimpleExtItem.Unset, h]

/-- C4: on a container whose extype equals the item's, after `Set(c, v)`
`Get(c)` returns `v`, and it keeps returning `v` across `Set` and `Unset` of
other items; a following `Set(c, v')` calls the deleter exactly once more, on
`v`, and then `Get(c)` returns `v'`; a following `Unset(c)` calls the deleter
exactly once more, on `v`, and then `Get(c)` returns nothing. -/
theorem SimpleExtItem_set_get {α : Type} (it : SimpleExtItem) (st : ExtState α)
    (v : Option α) (sync : Bool) (hty : st.container.extype = it.extype) :
    it.Get (it.Set st v sync).container = v ∧
    (∀ (it2 : SimpleExtItem) (w : Option α) (sync2 : Bool), it2.key ≠ it.key →
      it.Get (it2.Set (it.Set st v sync) w sync2).container = v ∧
      it.Get (it2.Unset (it.Set st v sync) sync2).container = v) ∧
    (∀ (v2 : Option α) (sync2 : Bool),
      it.Get (it.Set (it.Set st v sync) v2 sync2).container = v2 ∧
      deleterCalls (it.Set (it.Set st v sync) v2 sync2).calls
        = deleterCalls (it.Set st v sync).calls ++ [ExtCall.Delete it.key v]) ∧
    (∀ (sync2 : Bool),
      it.Get (it.Unset (it.Set st v sync) sync2).container = none ∧
      deleterCalls (it.Unset (it.Set st v sync) sync2).calls
        = deleterCalls (it.Set st v sync).calls ++ [ExtCall.Delete it.key v]) := by
  obtain ⟨hty2, hext, -⟩ := SimpleExtItem.Set_extensions it st v sync
  rw [hty] at hty2
  have hget : (it.Set st v sync).container.extensions it.key = v := by
    rw [hext]; simp [hty, setSlot]
  generalize it.Set st v sync = st1 at hty2 hget ⊢
  refine ⟨hget, ?_, ?_, ?_⟩
  · intro it2 w sync2 hk
    have hk2 : ¬ it.key = it2.key := fun h => hk h.symm
    obtain ⟨-, e1, -⟩ := SimpleExtItem.Set_extensions it2 st1 w sync2
    obtain ⟨-, e2, -⟩ := SimpleExtItem.Unset_extensions it2 st1 sync2
    simp only [SimpleExtItem.Get, SimpleExtItem.GetRaw, e1, e2]
    constructor <;> split_ifs <;> simp [setSlot, hk2, hget]
  · intro v2 sync2
    obtain ⟨-, e1, e2⟩ := SimpleExtItem.Set_extensions it st1 v2 sync2
    simp only [SimpleExtItem.Get, SimpleExtItem.GetRaw, e1, e2, hty2, if_true, hget,
      deleterCalls_append]
    constructor
    · simp [setSlot]
    · split_ifs <;> simp [deleterCalls]
  · intro sync2
    obtain ⟨-, e1, e2⟩ := SimpleExtItem.Unset_extensions it st1 sync2
    simp only [SimpleExtItem.Get, SimpleExtItem.GetRaw, e1, e2, hty2, if_true, hget,
      deleterCalls_append]
    constructor
    · simp [setSlot]
    · split_ifs <;> simp [deleterCalls]

theorem SimpleExtItem_set_get_witness :
    exampleUser.container.extype = exampleItem.extype ∧
    exampleItem.Get (exampleItem.Set exampleUser (some "brb") true).container = some "brb" ∧
    exampleItem.Get
      (exampleItem.Set (exampleItem.Set exampleUser (some "brb") true) (some "back") true).container
      = some "back" ∧
    deleterCalls
      (exampleItem.Set (exampleItem.Set exampleUser (some "brb") true) (some "back") true).calls
      = [ExtCall.Delete 1 none, ExtCall.Delete 1 (some "brb")] ∧
    deleterCalls (exampleItem.Unset (exampleItem.Set exampleUser (some "brb") true) true).calls
      = [ExtCall.Delete 1 none, ExtCall.Delete 1 (some "brb")] :=
  have h := SimpleExtItem_set_get exampleItem exampleUser (some "brb") true rfl
  ⟨rfl, h.1, (h.2.2.1 (some "back") true).1, (h.2.2.1 (some "back") true).2,
    (h.2.2.2 true).2⟩

/-- C5 (as stated, refuted): the answer cached at time 1000 with TTL 300 is
still returned by `GetCache` when looked up at time 2000, although
`2000 ≤ 1000 + 300` is false and its remaining TTL is 0. -/
theorem GetCache_returns_expired :
    HandleEvent exampleInFlight (some exampleReply) 1000 (fun _ => []) 0 = .done exampleAnswered ∧
    GetCache exampleAnswered (cstr "example.invalid")
      = some (CachedQuery.new 1000 (cstr "192.0.2.1") 300) ∧
    ¬ (2000 ≤ 1000 + 300) ∧
    (CachedQuery.new 1000 (cstr "192.0.2.1") 300).CalcTTLRemaining 2000 = 0 := by
  refine ⟨rfl, ?_, by decide, by decide⟩
  set_option maxRecDepth 100000 in decide

theorem Resolver.issue_not_cached (r : Resolver) (s : DNS) (prng : Nat → Nat) (fuel : Nat)
    (sendto : Int) (inet_aton inet_pton6 : List Nat → Option (List Nat)) (source : List Nat)
    (qt : Nat) (res : ResolverNew)
    (h : Resolver.issue r s prng fuel sendto inet_aton inet_pton6 source qt = some res) :
    res.cached = false := by
  unfold Resolver.issue at h
  cases hs : Resolver.start r s prng fuel sendto inet_aton inet_pton6 source qt with
  | none => simp [hs] at h
  | some x =>
    obtain ⟨r2, myid, s2⟩ := x
    simp only [hs, Option.some.injEq] at h
    subst h
    rfl

/-- C5 (amended): whenever the constructor of `Resolver` reports
`cached = true` for the key `source` at the time `now`, the entry `GetCache`
returned for that key has not expired (`now < expires`, its remaining TTL is
what the resolver keeps as `time_left`), and the cache is left as it was. -/
theorem Resolver_cached_unexpired (s : DNS) (now : Nat) (prng : Nat → Nat) (fuel : Nat)
    (sendto : Int) (inet_aton inet_pton6 : List Nat → Option (List Nat)) (source : List Nat)
    (qt creator : Nat) (res : ResolverNew)
    (h : Resolver.new s now prng fuel sendto inet_aton inet_pton6 source qt creator = some res)
    (hc : res.cached = true) :
    ∃ cq, GetCache s source = some cq ∧ now < cq.expires ∧ res.r.CQ = some cq ∧
      res.r.time_left = cq.expires - now ∧ res.dns.cache = s.cache := by
  unfold Resolver.new at h
  have hg : GetCache { s with nextptr := s.nextptr + 1 } source = GetCache s source := rfl
  simp only [hg] at h
  cases hcq : GetCache s source with
  | none =>
    simp only [hcq] at h
    rw [Resolver.issue_not_cached _ _ _ _ _ _ _ _ _ _ h] at hc
    exact absurd hc (by decide)
  | some cq =>
    simp only [hcq] at h
    split_ifs at h with ht
    · rw [Resolver.issue_not_cached _ _ _ _ _ _ _ _ _ _ h] at hc
      exact absurd hc (by decide)
    · simp only [Option.some.injEq] at h
      subst h
      refine ⟨cq, rfl, ?_, rfl, rfl, rfl⟩
      simp only [CachedQuery.CalcTTLRemaining] at ht
      omega

theorem Resolver_cached_unexpired_witness :
    ∃ res, Resolver.new exampleAnswered 1100 examplePrng 4 33 (fun _ => none) (fun _ => none)
        (cstr "example.invalid") DNS_QUERY_A 7 = some res ∧ res.cached = true ∧
      ∃ cq, GetCache exampleAnswered (cstr "example.invalid") = some cq ∧ 1100 < cq.expires ∧
        res.r.CQ = some cq ∧ res.r.time_left = cq.expires - 1100 ∧
        res.dns.cache = exampleAnswered.cache :=
  ⟨_, rfl, rfl, Resolver_cached_unexpired exampleAnswered 1100 examplePrng 4 33 (fun _ => none)
    (fun _ => none) (cstr "example.invalid") DNS_QUERY_A 7 _ rfl rfl⟩

theorem decodeRData_orig (req : DNSRequest) (header : DNSHeader) (length : Int) (fuel : Nat)
    (i : Int) (rr : ResourceRecord) (x : Option (List Nat) × List Nat) (req2 : DNSRequest)
    (h : decodeRData req header length fuel i rr = .done (x, req2)) : req2.orig = req.orig := by
  unfold decodeRData at h
  split_ifs at h
  · split at h
    · simp at h
    · simp at h
    · split_ifs at h
      simp only [Outcome.done.injEq, Prod.mk.injEq] at h
      obtain ⟨_, h2⟩ := h
      subst h2
      rfl
  · simp only [Outcome.done.injEq, Prod.mk.injEq] at h
    obtain ⟨_, h2⟩ := h
    subst h2
    rfl

theorem parseAnswers_orig (req : DNSRequest) (header : DNSHeader) (length : Int) (fuel : Nat)
    (x : Option (List Nat) × List Nat) (req2 : DNSRequest)
    (h : parseAnswers req header length fuel = .done (x, req2)) : req2.orig = req.orig := by
  unfold parseAnswers at h
  split at h
  · simp only [Outcome.done.injEq, Prod.mk.injEq] at h
    obtain ⟨_, h2⟩ := h
    subst h2
    rfl
  · split_ifs at h
    · simp only [Outcome.done.injEq, Prod.mk.injEq] at h
      obtain ⟨_, h2⟩ := h
      subst h2
      rfl
    · simp only [Outcome.done.injEq, Prod.mk.injEq] at h
      obtain ⟨_, h2⟩ := h
      subst h2
      rfl
    · simp only [Outcome.done.injEq, Prod.mk.injEq] at h
      obtain ⟨_, h2⟩ := h
      subst h2
      rfl
    · exact decodeRData_orig _ _ _ _ _ _ _ _ h |>.trans rfl

/-- `ResultIsReady` never changes the original request text. -/
theorem ResultIsReady_orig (req : DNSRequest) (header : DNSHeader) (length : Int) (fuel : Nat)
    (x : Option (List Nat) × List Nat) (req2 : DNSRequest)
    (h : ResultIsReady req header length fuel = .done (x, req2)) : req2.orig = req.orig := by
  unfold ResultIsReady at h
  split_ifs at h
  · simp only [Outcome.done.injEq, Prod.mk.injEq] at h
    obtain ⟨_, h2⟩ := h
    subst h2
    rfl
  · simp only [Outcome.done.injEq, Prod.mk.injEq] at h
    obtain ⟨_, h2⟩ := h
    subst h2
    rfl
  · simp only [Outcome.done.injEq, Prod.mk.injEq] at h
    obtain ⟨_, h2⟩ := h
    subst h2
    rfl
  · simp only [Outcome.done.injEq, Prod.mk.injEq] at h
    obtain ⟨_, h2⟩ := h
    subst h2
    rfl
  · exact parseAnswers_orig _ _ _ _ _ _ h

theorem decodeRData_ptr (req : DNSRequest) (header : DNSHeader) (length : Int) (fuel : Nat)
    (i : Int) (rr : ResourceRecord) (x : Option (List Nat) × List Nat) (req2 : DNSRequest)
    (h : decodeRData req header length fuel i rr = .done (x, req2)) : req2.ptr = req.ptr := by
  unfold decodeRData at h
  split_ifs at h
  · split at h
    · simp at h
    · simp at h
    · split_ifs at h
      simp only [Outcome.done.injEq, Prod.mk.injEq] at h
      obtain ⟨_, h2⟩ := h
      subst h2
      rfl
  · simp only [Outcome.done.injEq, Prod.mk.injEq] at h
    obtain ⟨_, h2⟩ := h
    subst h2
    rfl

theorem parseAnswers_ptr (req : DNSRequest) (header : DNSHeader) (length : Int) (fuel : Nat)
    (x : Option (List Nat) × List Nat) (req2 : DNSRequest)
    (h : parseAnswers req header length fuel = .done (x, req2)) : req2.ptr = req.ptr := by
  unfold parseAnswers at h
  split at h
  · simp only [Outcome.done.injEq, Prod.mk.injEq] at h
    obtain ⟨_, h2⟩ := h
    subst h2
    rfl
  · split_ifs at h
    · simp only [Outcome.done.injEq, Prod.mk.injEq] at h
      obtain ⟨_, h2⟩ := h
      subst h2
      rfl
    · simp only [Outcome.done.injEq, Prod.mk.injEq] at h
      obtain ⟨_, h2⟩ := h
      subst h2
      rfl
    · simp only [Outcome.done.injEq, Prod.mk.injEq] at h
      obtain ⟨_, h2⟩ := h
      subst h2
      rfl
    · exact decodeRData_ptr _ _ _ _ _ _ _ _ h |>.trans rfl

/-- `ResultIsReady` never changes the address of the request. -/
theorem ResultIsReady_ptr (req : DNSRequest) (header : DNSHeader) (length : Int) (fuel : Nat)
    (x : Option (List Nat) × List Nat) (req2 : DNSRequest)
    (h : ResultIsReady req header length fuel = .done (x, req2)) : req2.ptr = req.ptr := by
  unfold ResultIsReady at h
  split_ifs at h
  · simp only [Outcome.done.injEq, Prod.mk.injEq] at h
    obtain ⟨_, h2⟩ := h
    subst h2
    rfl
  · simp only [Outcome.done.injEq, Prod.mk.injEq] at h
    obtain ⟨_, h2⟩ := h
    subst h2
    rfl
  · simp only [Outcome.done.injEq, Prod.mk.injEq] at h
    obtain ⟨_, h2⟩ := h
    subst h2
    rfl
  · simp only [Outcome.done.injEq, Prod.mk.injEq] at h
    obtain ⟨_, h2⟩ := h
    subst h2
    rfl
  · exact parseAnswers_ptr _ _ _ _ _ _ h

/-- `FillHeader` with a length the payload array can hold. -/
theorem FillHeader_fits (input : List Nat) (length : Nat) (h : length ≤ 512) :
    FillHeader input length
      = some { id := (input.getD 0 0, input.getD 1 0)
               flags1 := input.getD 2 0
               flags2 := input.getD 3 0
               qdcount := (input.getD 4 0 <<< 8) + input.getD 5 0
               ancount := (input.getD 6 0 <<< 8) + input.getD 7 0
               nscount := (input.getD 8 0 <<< 8) + input.getD 9 0
               arcount := (input.getD 10 0 <<< 8) + input.getD 11 0
               payload := (input.drop 12).take length } := by
  simp only [FillHeader, h, if_true]

/-- `FillHeader` with a length beyond the payload array. -/
theorem FillHeader_overrun (input : List Nat) (length : Nat) (h : 512 < length) :
    FillHeader input length = none := by
  have h2 : ¬ length ≤ 512 := by omega
  simp only [FillHeader, h2, if_false]

/-- The header `FillHeader` returns carries the id octets of the input, and
the length it was given is within the payload array. -/
theorem FillHeader_some (input : List Nat) (length : Nat) (header : DNSHeader)
    (h : FillHeader input length = some header) :
    length ≤ 512 ∧ header.id = (input.getD 0 0, input.getD 1 0) ∧
      header.flags1 = input.getD 2 0 ∧ header.flags2 = input.getD 3 0 ∧
      header.ancount = (input.getD 6 0 <<< 8) + input.getD 7 0 ∧
      header.payload = (input.drop 12).take length := by
  unfold FillHeader at h
  split_ifs at h with hl
  simp only [Option.some.injEq] at h
  subst h
  exact ⟨hl, rfl, rfl, rfl, rfl, rfl⟩

/-- `FillHeader` on a whole datagram of at most 524 bytes. -/
theorem Datagram.FillHeader_header (d : Datagram) (h : d.buffer.length ≤ 524) :
    FillHeader d.buffer (d.buffer.length - 12) = some d.header := by
  rw [FillHeader_fits _ _ (by omega)]
  have e : (d.buffer.drop 12).take (d.buffer.length - 12) = d.buffer.drop 12 := by
    rw [List.take_of_length_le]
    simp
  simp only [Datagram.header, e]

/-- The id `GetResult` computes from the header is the id in the first two
octets of the datagram. -/
theorem Datagram.id_FillHeader (d : Datagram) (length : Nat) (header : DNSHeader)
    (h : FillHeader d.buffer length = some header) :
    header.id.2 + (header.id.1 <<< 8) = d.id := by
  rw [(FillHeader_some _ _ _ h).2.1]
  rfl

/-- The three ways `GetResult` returns `-1`, each leaving the state as it
was.  The third, the id without a request, comes after `FillHeader`, whose
copy stays inside the header for a datagram of at most 524 bytes. -/
theorem GetResult_drop (s : DNS) (recv : Option Datagram) (inet_ntop6 : List Nat → List Nat)
    (fuel : Nat)
    (h : recvLength recv < 12 ∨
      (∃ d, recv = some d ∧ s.ip6munge = false ∧
        (d.port_from ≠ 53 ∨ strcasecmpNe d.ipaddr_from s.DNSServer = true)) ∨
      (∃ d, recv = some d ∧ d.buffer.length ≤ 524 ∧ s.requests d.id = none)) :
    GetResult s recv inet_ntop6 fuel
      = .done ({ id := -1, result := [], ttl := 0, original := [] }, s) := by
  cases recv with
  | none => simp [GetResult]
  | some d =>
    unfold GetResult
    simp only
    by_cases h12 : recvLength (some d) < 12
    · simp [h12]
    · simp only [h12, if_false]
      rcases h with h | ⟨d2, hd, hm, hsrc⟩ | ⟨d2, hd, hsize, hreq⟩
      · exact absurd h h12
      · cases hd
        have : (!s.ip6munge) = true ∧
            (d.port_from ≠ QUERY_PORT ∨ strcasecmpNe d.ipaddr_from s.DNSServer = true) := by
          simp [hm, QUERY_PORT]; exact hsrc
        simp [this]
      · cases hd
        have hle : (recvLength (some d) - 12).toNat ≤ 512 := by
          simp only [recvLength]; omega
        rw [FillHeader_fits _ _ hle]
        have hreq2 : s.requests (d.buffer.getD 1 0 + (d.buffer.getD 0 0 <<< 8)) = none := hreq
        split_ifs
        · rfl
        · simp only [hreq2]

/-- What `GetResult` can return: `-1` with the state untouched, or, for the
request found in slot `this_id` of the datagram, that slot emptied, the
request deleted and the id returned with or without the error bit. -/
theorem GetResult_done (s : DNS) (recv : Option Datagram) (inet_ntop6 : List Nat → List Nat)
    (fuel : Nat) (res : DNSResult) (s1 : DNS)
    (h : GetResult s recv inet_ntop6 fuel = .done (res, s1)) :
    (res.id = -1 ∧ s1 = s) ∨
    (∃ d req, recv = some d ∧ s.requests d.id = some req ∧
      s1 = { s with requests := setSlot s.requests d.id none, freed := req.ptr :: s.freed } ∧
      (res.id = (d.id : Int) ∨ res.id = ((d.id ||| ERROR_MASK : Nat) : Int)) ∧
      res.original = req.orig) := by
  cases recv with
  | none =>
    simp only [GetResult, Outcome.done.injEq, Prod.mk.injEq] at h
    obtain ⟨h1, h2⟩ := h
    subst h1 h2
    exact Or.inl ⟨rfl, rfl⟩
  | some d =>
    unfold GetResult at h
    simp only at h
    split_ifs at h with h1 h2
    · simp only [Outcome.done.injEq, Prod.mk.injEq] at h
      obtain ⟨h1, h2⟩ := h
      subst h1 h2
      exact Or.inl ⟨rfl, rfl⟩
    · simp only [Outcome.done.injEq, Prod.mk.injEq] at h
      obtain ⟨h1, h2⟩ := h
      subst h1 h2
      exact Or.inl ⟨rfl, rfl⟩
    · cases hfill : FillHeader d.buffer (recvLength (some d) - 12).toNat with
      | none => simp [hfill] at h
      | some header =>
      simp only [hfill] at h
      have hid : header.id.2 + (header.id.1 <<< 8) = d.id := by
        rw [(FillHeader_some _ _ _ hfill).2.1]
        rfl
      simp only [hid] at h
      cases hreq : s.requests d.id with
      | none =>
        simp only [hreq, Outcome.done.injEq, Prod.mk.injEq] at h
        obtain ⟨h1, h2⟩ := h
        subst h1 h2
        exact Or.inl ⟨rfl, rfl⟩
      | some req =>
        simp only [hreq] at h
        have horig : ∀ x req2, ResultIsReady req header (recvLength (some d)) fuel
              = .done (x, req2) → req2.orig = req.orig ∧ req2.ptr = req.ptr := by
          intro x req2 hr
          exact ⟨ResultIsReady_orig _ _ _ _ _ _ hr, ResultIsReady_ptr _ _ _ _ _ _ hr⟩
        refine Or.inr ⟨d, req, rfl, hreq, ?_⟩
        split at h
        · simp at h
        · simp at h
        · rename_i msg req2 hr
          simp only [Outcome.done.injEq, Prod.mk.injEq] at h
          obtain ⟨h1, h2⟩ := h
          subst h1 h2
          rw [← (horig _ _ hr).2]
          exact ⟨rfl, Or.inr rfl, (horig _ _ hr).1⟩
        · rename_i first m req2 hr
          have ho := horig _ _ hr
          rw [← ho.2]
          split_ifs at h <;>
            (simp only [Outcome.done.injEq, Prod.mk.injEq] at h
             obtain ⟨h1, h2⟩ := h
             subst h1 h2
             exact ⟨rfl, Or.inl rfl, ho.1⟩)

theorem or_and_self_mask (x m : Nat) : (x ||| m) &&& m = m := by
  apply Nat.eq_of_testBit_eq
  intro i
  simp only [Nat.testBit_and, Nat.testBit_or]
  cases x.testBit i <;> cases m.testBit i <;> rfl

/-- The silent drops: a datagram shorter than 12 bytes (or a failed receive),
or, with `ip6munge` off, one whose source port is not 53 or whose source
address text differs from the configured server, or one of at most 524 bytes
whose id has no in-flight request, makes `GetResult` return id -1 and
`HandleEvent` return with the whole state as it was: request table, consumer
table, cache, statistics, and the record of consumer callbacks (none is
made).  The first two hold for a datagram of any size; the id is looked up
only after `FillHeader` has copied the payload. -/
theorem HandleEvent_silent_drop (s : DNS) (recv : Option Datagram) (now : Nat)
    (inet_ntop6 : List Nat → List Nat) (fuel : Nat)
    (h : recvLength recv < 12 ∨
      (∃ d, recv = some d ∧ s.ip6munge = false ∧
        (d.port_from ≠ 53 ∨ strcasecmpNe d.ipaddr_from s.DNSServer = true)) ∨
      (∃ d, recv = some d ∧ d.buffer.length ≤ 524 ∧ s.requests d.id = none)) :
    (∃ res, GetResult s recv inet_ntop6 fuel = .done (res, s) ∧ res.id = -1) ∧
    HandleEvent s recv now inet_ntop6 fuel = .done s := by
  have hg := GetResult_drop s recv inet_ntop6 fuel h
  refine ⟨⟨_, hg, rfl⟩, ?_⟩
  simp [HandleEvent, hg]

/-- The reply to the request in flight sent from `198.51.100.1` is dropped and
the request stays in its slot. -/
theorem HandleEvent_silent_drop_witness :
    (∃ d, some exampleSpoof = some d ∧ exampleInFlight.ip6munge = false ∧
        (d.port_from ≠ 53 ∨ strcasecmpNe d.ipaddr_from exampleInFlight.DNSServer = true)) ∧
    (∃ res, GetResult exampleInFlight (some exampleSpoof) (fun _ => []) 0
        = .done (res, exampleInFlight) ∧ res.id = -1) ∧
    HandleEvent exampleInFlight (some exampleSpoof) 1000 (fun _ => []) 0 = .done exampleInFlight ∧
    exampleInFlight.requests 0x1234 = some exampleRequest :=
  have hyp : ∃ d, some exampleSpoof = some d ∧ exampleInFlight.ip6munge = false ∧
      (d.port_from ≠ 53 ∨ strcasecmpNe d.ipaddr_from exampleInFlight.DNSServer = true) :=
    ⟨exampleSpoof, rfl, rfl, Or.inr (by decide)⟩
  have h := HandleEvent_silent_drop exampleInFlight (some exampleSpoof) 1000 (fun _ => []) 0
    (Or.inr (Or.inl hyp))
  ⟨hyp, h.1, h.2, rfl⟩

/-- A datagram of more than 524 bytes that passes the checks of length and
source makes `FillHeader` copy past the payload array, whatever its id and
its flags. -/
theorem GetResult_overrun (s : DNS) (d : Datagram) (inet_ntop6 : List Nat → List Nat)
    (fuel : Nat)
    (hsrc : s.ip6munge = true ∨
      (d.port_from = 53 ∧ strcasecmpNe d.ipaddr_from s.DNSServer = false))
    (hbig : 524 < d.buffer.length) :
    FillHeader d.buffer (d.buffer.length - 12) = none ∧
    GetResult s (some d) inet_ntop6 fuel = .fault := by
  have hf : FillHeader d.buffer (d.buffer.length - 12) = none :=
    FillHeader_overrun _ _ (by omega)
  refine ⟨hf, ?_⟩
  have h12 : ¬ (recvLength (some d) < 12) := by simp only [recvLength]; omega
  have hcheck : ¬ ((!s.ip6munge) = true ∧
      (d.port_from ≠ QUERY_PORT ∨ strcasecmpNe d.ipaddr_from s.DNSServer = true)) := by
    rintro ⟨h1, h2⟩
    rcases hsrc with h | ⟨hp, hs⟩
    · simp [h] at h1
    · rcases h2 with h2 | h2
      · exact h2 hp
      · rw [hs] at h2; exact absurd h2 (by decide)
  have hn : (recvLength (some d) - 12).toNat = d.buffer.length - 12 := by
    simp only [recvLength]; omega
  unfold GetResult
  simp only [h12, if_false, hcheck, hn, hf]

set_option maxRecDepth 1000000 in
/-- C10 fails on a datagram within the 540 bytes `GetResult` receives.
`exampleOversize` has 530 bytes, comes from the configured server and port 53
and carries the id `0x9999`, which names no request.  `GetResult` calls
`FillHeader(&header, buffer, length - 12)` before it looks the id up, and the
`memcpy` of 518 bytes runs past the 512 bytes of `header.payload`: the
datagram is not dropped with id -1, `GetResult` has written outside the
header on its stack, and neither it nor `HandleEvent` returns in a defined
state.  The same datagram cut to 524 bytes is dropped as the claim says. -/
theorem GetResult_unknown_id_overrun :
    (exampleOversize.buffer.length = 530 ∧ exampleOversize.port_from = 53 ∧
      strcasecmpNe exampleOversize.ipaddr_from exampleInFlight.DNSServer = false ∧
      exampleInFlight.ip6munge = false ∧
      exampleOversize.id = 0x9999 ∧ exampleInFlight.requests 0x9999 = none) ∧
    (FillHeader exampleOversize.buffer (exampleOversize.buffer.length - 12) = none ∧
      (∀ fuel, GetResult exampleInFlight (some exampleOversize) (fun _ => []) fuel = .fault) ∧
      (∀ now fuel, HandleEvent exampleInFlight (some exampleOversize) now (fun _ => []) fuel
        = .fault)) ∧
    (∀ fuel,
      GetResult exampleInFlight
          (some { exampleOversize with buffer := exampleOversize.buffer.take 524 })
          (fun _ => []) fuel
        = .done ({ id := -1, result := [], ttl := 0, original := [] }, exampleInFlight)) := by
  have h := fun fuel => GetResult_overrun exampleInFlight exampleOversize (fun _ => []) fuel
    (Or.inr ⟨rfl, by decide⟩) (by decide)
  refine ⟨⟨by decide, rfl, by decide, rfl, by decide, by decide⟩,
    ⟨(h 0).1, fun fuel => (h fuel).2, ?_⟩, ?_⟩
  · intro now fuel
    unfold HandleEvent
    rw [(h fuel).2]
  · intro fuel
    exact GetResult_drop _ _ _ _ (Or.inr (Or.inr ⟨_, rfl, by decide, by decide⟩))

/-- C9: when `GetResult` returns the id of an in-flight request without the
error bit and that id has a registered consumer, `HandleEvent` adds
(original query → (answer, now + TTL)) to the cache only if `GetCache` finds no
entry for that key (otherwise the cache is unchanged), calls the consumer's
`OnLookupComplete(answer, ttl, false)` exactly once and nothing else, and
leaves the request slot and the consumer slot of that id empty and every
other slot as it was. -/
theorem HandleEvent_delivers (s : DNS) (recv : Option Datagram) (now : Nat)
    (inet_ntop6 : List Nat → List Nat) (fuel : Nat) (res : DNSResult) (s1 : DNS) (id : Nat)
    (c : Resolver) (hres : GetResult s recv inet_ntop6 fuel = .done (res, s1))
    (hid : res.id = (id : Int)) (hok : id &&& ERROR_MASK = 0) (hc : s.Classes id = some c) :
    ∃ s2 req, HandleEvent s recv now inet_ntop6 fuel = .done s2 ∧
      s.requests id = some req ∧ res.original = req.orig ∧
      s2.calls = s.calls ++ [Callback.OnLookupComplete c res.result res.ttl false] ∧
      s2.cache = (if (GetCache s res.original).isNone then
                    s.cache ++ [(res.original, CachedQuery.new now res.result res.ttl)]
                  else s.cache) ∧
      s2.requests id = none ∧ s2.Classes id = none ∧
      (∀ j, j ≠ id → s2.requests j = s.requests j ∧ s2.Classes j = s.Classes j) := by
  rcases GetResult_done s recv inet_ntop6 fuel res s1 hres with ⟨h1, _⟩ | ⟨d, req, _, hreq, hs1, hrid, horig⟩
  · rw [hid] at h1; omega
  · have hd : d.id = id := by
      rcases hrid with h | h
      · rw [hid] at h; exact_mod_cast h.symm
      · rw [hid] at h
        have h2 : id = d.id ||| ERROR_MASK := by exact_mod_cast h
        rw [h2, or_and_self_mask] at hok
        exact absurd hok (by decide)
    subst hd
    have hne : res.id ≠ -1 := by rw [hid]; omega
    have hto : res.id.toNat = d.id := by rw [hid]; simp
    have hcl : s1.Classes d.id = some c := by rw [hs1]; exact hc
    have hgc : ∀ st : serverstats,
        GetCache { s1 with stats := st } res.original = GetCache s res.original := by
      intro st; rw [hs1]; rfl
    have hex : ∃ s2, HandleEvent s recv now inet_ntop6 fuel = .done s2 := by
      simp only [HandleEvent, hres, hne, ne_eq, not_false_eq_true, if_true, hto, hok,
        not_true_eq_false, if_false, hcl]
      exact ⟨_, rfl⟩
    obtain ⟨s2, h2⟩ := hex
    refine ⟨s2, req, h2, hreq, horig, ?_⟩
    simp only [HandleEvent, hres, hne, ne_eq, not_false_eq_true, if_true, hto, hok,
      not_true_eq_false, if_false, hcl, Outcome.done.injEq] at h2
    subst h2
    simp only [hgc]
    split_ifs with hcache <;>
      (refine ⟨by rw [hs1], by rw [hs1], by rw [hs1]; simp [setSlot], by simp [setSlot], ?_⟩
       intro j hj
       rw [hs1]
       simp [setSlot, hj])

theorem HandleEvent_delivers_witness :
    ∃ res s1, GetResult exampleInFlight (some exampleReply) (fun _ => []) 0 = .done (res, s1) ∧
      res.id = ((0x1234 : Nat) : Int) ∧ 0x1234 &&& ERROR_MASK = 0 ∧
      exampleInFlight.Classes 0x1234 = some exampleConsumer ∧
      res.result = cstr "192.0.2.1" ∧ res.ttl = 300 ∧
      ∃ s2 req, HandleEvent exampleInFlight (some exampleReply) 1000 (fun _ => []) 0 = .done s2 ∧
        exampleInFlight.requests 0x1234 = some req ∧ res.original = req.orig ∧
        s2.calls = exampleInFlight.calls
          ++ [Callback.OnLookupComplete exampleConsumer res.result res.ttl false] ∧
        s2.cache = (if (GetCache exampleInFlight res.original).isNone then
                      exampleInFlight.cache
                        ++ [(res.original, CachedQuery.new 1000 res.result res.ttl)]
                    else exampleInFlight.cache) ∧
        s2.requests 0x1234 = none ∧ s2.Classes 0x1234 = none ∧
        (∀ j, j ≠ 0x1234 → s2.requests j = exampleInFlight.requests j ∧
          s2.Classes j = exampleInFlight.Classes j) :=
  ⟨_, _, rfl, rfl, by decide, rfl, by decide, rfl,
    HandleEvent_delivers exampleInFlight (some exampleReply) 1000 (fun _ => []) 0 _ _ 0x1234
      exampleConsumer rfl rfl (by decide) rfl⟩

theorem id_octets (id : Nat) (h : id ≤ 65535) :
    ((id >>> 8) % 256) * 256 + (id &&& 0xFF) = id := by
  have e : id &&& 0xFF = id % 256 := Nat.and_pow_two_sub_one_eq_mod id 8
  rw [e, Nat.shiftRight_eq_div_pow]
  omega

theorem setSlot_setSlot {α : Type} (t : Nat → Option α) (k : Nat) (v w : Option α) :
    setSlot (setSlot t k v) k w = setSlot t k w := by
  funext j
  simp only [setSlot]
  split_ifs <;> rfl

theorem TableStep_IdsUnique (s s2 : DNS) (h : TableStep s.requests s2.requests)
    (hu : s.IdsUnique) : s2.IdsUnique := by
  intro i req hi
  rcases h with h | ⟨k, h⟩ | ⟨k, r, hk, _, hr, h⟩
  · rw [h] at hi; exact hu i req hi
  · rw [h] at hi
    simp only [setSlot] at hi
    split_ifs at hi
    exact hu i req hi
  · rw [h] at hi
    simp only [setSlot] at hi
    split_ifs at hi with hik
    · simp only [Option.some.injEq] at hi
      subst hi hik
      exact ⟨hk, hr⟩
    · exact hu i req hi

theorem AddQuery_table (s : DNS) (prng : Nat → Nat) (fuel : Nat) (header : DNSHeader)
    (idIn : Nat) (original : List Nat) (r : AddQueryResult)
    (h : AddQuery s prng fuel header idIn original = some r) :
    TableStep s.requests r.dns.requests := by
  by_cases hfd : s.fd = -1
  · simp only [AddQuery, hfd, if_true, Option.some.injEq] at h
    subst h
    exact Or.inl rfl
  · obtain ⟨id, k, req, hloop, hreq, _, _, _, htab, _⟩ :=
      AddQuery_open s prng fuel header idIn original r hfd h
    obtain ⟨hfree, hle⟩ := AddQueryLoop_free s.requests prng fuel 1 _ id k
      (by simpa [MAX_REQUEST_ID] using Nat.and_le_right) hloop
    refine Or.inr (Or.inr ⟨id, req, hle, hfree, ?_, htab⟩)
    rw [hreq]
    exact id_octets id hle

theorem StartLookup_table (s : DNS) (prng : Nat → Nat) (fuel : Nat) (sendto : Int)
    (query : List Nat) (qt : Nat) (original : List Nat) (rv : Int) (s2 : DNS)
    (h : StartLookup s prng fuel sendto query qt original = some (rv, s2)) :
    TableStep s.requests s2.requests := by
  unfold StartLookup at h
  split at h
  · simp only [Option.some.injEq, Prod.mk.injEq] at h
    obtain ⟨_, h2⟩ := h
    subst h2
    exact Or.inl rfl
  · simp only at h
    split at h
    · simp at h
    · rename_i r ha
      by_cases hfd : s.fd = -1
      · simp only [AddQuery, hfd, if_true, Option.some.injEq] at ha
        subst ha
        simp only [Option.some.injEq, Prod.mk.injEq] at h
        obtain ⟨_, h2⟩ := h
        subst h2
        exact Or.inl rfl
      · obtain ⟨id, k, req, hloop, hreq, hr, hid, _, htab, _⟩ :=
          AddQuery_open s prng fuel _ 0 original r hfd ha
        obtain ⟨hfree, hle⟩ := AddQueryLoop_free s.requests prng fuel 1 _ id k
          (by simpa [MAX_REQUEST_ID] using Nat.and_le_right) hloop
        simp only [hr, SendRequests] at h
        have hs2 : s2.requests
            = setSlot r.dns.requests r.id (some { req with rr_class := 1, type := qt }) := by
          split_ifs at h <;>
            (simp only [Option.some.injEq, Prod.mk.injEq] at h
             obtain ⟨_, h2⟩ := h
             subst h2
             rfl)
        refine Or.inr (Or.inr ⟨id, { req with rr_class := 1, type := qt }, hle, hfree, ?_, ?_⟩)
        · rw [hreq]
          exact id_octets id hle
        · rw [hs2, htab, hid, setSlot_setSlot]

theorem HandleEvent_table (s : DNS) (recv : Option Datagram) (now : Nat)
    (inet_ntop6 : List Nat → List Nat) (fuel : Nat) (s2 : DNS)
    (h : HandleEvent s recv now inet_ntop6 fuel = .done s2) :
    TableStep s.requests s2.requests := by
  unfold HandleEvent at h
  split at h
  · simp at h
  · simp at h
  · rename_i res s1 hg
    have h1 : TableStep s.requests s1.requests := by
      rcases GetResult_done s recv inet_ntop6 fuel res s1 hg with ⟨_, h1⟩ | ⟨d, _, _, _, h1, _⟩
      · rw [h1]; exact Or.inl rfl
      · rw [h1]; exact Or.inr (Or.inl ⟨d.id, rfl⟩)
    have h2 : s2.requests = s1.requests := by
      split_ifs at h
      · simp only at h
        split at h <;>
          (simp only [Outcome.done.injEq] at h
           subst h
           rfl)
      · simp only [Outcome.done.injEq] at h
        subst h
        simp only
        split
        · split_ifs <;> rfl
        · rfl
      · simp only [Outcome.done.injEq] at h
        subst h
        rfl
    rw [h2]
    exact h1

theorem Tick_table (t : RequestTimeout) (s : DNS) : TableStep s.requests (t.Tick s).requests := by
  unfold RequestTimeout.Tick
  split_ifs
  · refine Or.inr (Or.inl ⟨t.watchid, ?_⟩)
    simp only
    split <;> rfl
  · exact Or.inl rfl

theorem Step_table (s s2 : DNS) (h : DNS.Step s s2) : TableStep s.requests s2.requests := by
  match s2, h with
  | _, .addQuery _ prng fuel header idIn original r req h hr =>
    exact AddQuery_table s prng fuel header idIn original r h
  | _, .lookup _ prng fuel sendto query qt original rv s2 h =>
    exact StartLookup_table s prng fuel sendto query qt original rv s2 h
  | _, .reply _ recv now ntop fuel s2 h => exact HandleEvent_table s recv now ntop fuel s2 h
  | _, .timeout _ t ht => exact Tick_table t s

theorem Reachable_IdsUnique (s0 s : DNS) (h0 : s0.IdsUnique) (h : DNS.Reachable s0 s) :
    s.IdsUnique := by
  induction h with
  | start => exact h0
  | next a b _ hstep ih => exact TableStep_IdsUnique a b (Step_table a b hstep) ih

/-- C6: whenever `AddQuery` succeeds it returns an id in 0..65535 whose slot
was empty before the call, stores the new request in that slot and leaves
every other slot unchanged; and in every state reached from the initial
resolver by `AddQuery`, lookup, reply and timeout steps, two live requests
with the same id octets are in the same slot, and the occupied slots lie in
a set of at most 65536 ids. -/
theorem AddQuery_fresh_id :
    (∀ (s : DNS) (prng : Nat → Nat) (fuel : Nat) (header : DNSHeader) (idIn : Nat)
        (original : List Nat) (r : AddQueryResult) (req : DNSRequest),
      AddQuery s prng fuel header idIn original = some r → r.req = some req →
      r.id ≤ 65535 ∧ s.requests r.id = none ∧ r.dns.requests r.id = some req ∧
        ∀ j, j ≠ r.id → r.dns.requests j = s.requests j) ∧
    (∀ (fd : Int) (af6 munge : Bool) (server : List Nat) (timeout : Nat) (casemap : Nat → Nat)
        (s : DNS), DNS.Reachable (DNS.init fd af6 munge server timeout casemap) s →
      (∀ i j r1 r2, s.requests i = some r1 → s.requests j = some r2 → r1.id = r2.id → i = j) ∧
        ∃ live : Finset Nat, live.card ≤ 65536 ∧ ∀ i, (s.requests i).isSome → i ∈ live) := by
  constructor
  · intro s prng fuel header idIn original r req h hr
    by_cases hfd : s.fd = -1
    · simp only [AddQuery, hfd, if_true, Option.some.injEq] at h
      subst h
      simp at hr
    · obtain ⟨id, k, req2, hloop, _, hreq, hid, _, htab, _⟩ :=
        AddQuery_open s prng fuel header idIn original r hfd h
      obtain ⟨hfree, hle⟩ := AddQueryLoop_free s.requests prng fuel 1 _ id k
        (by simpa [MAX_REQUEST_ID] using Nat.and_le_right) hloop
      rw [hreq, Option.some.injEq] at hr
      subst hr hid
      refine ⟨hle, hfree, by rw [htab]; simp [setSlot], ?_⟩
      intro j hj
      rw [htab]
      simp [setSlot, hj]
  · intro fd af6 munge server timeout casemap s hreach
    have hinit : (DNS.init fd af6 munge server timeout casemap).IdsUnique := by
      intro i req hi
      simp [DNS.init] at hi
    have hu := Reachable_IdsUnique _ s hinit hreach
    constructor
    · intro i j r1 r2 h1 h2 he
      have a := (hu i r1 h1).2
      have b := (hu j r2 h2).2
      rw [he] at a
      omega
    · refine ⟨Finset.range 65536, by simp, ?_⟩
      intro i hi
      obtain ⟨req, hreq⟩ := Option.isSome_iff_exists.mp hi
      have := (hu i req hreq).1
      simp only [Finset.mem_range]
      omega

theorem AddQuery_fresh_id_witness :
    (AddQuery exampleDNS examplePrng 4 exampleHeader 0 (cstr "example.invalid")
        = some exampleAdded ∧
      exampleAdded.req = some { ptr := 1, id := (0x12, 0x34), res := [0], rr_class := 0,
                                type := 0, ttl := 0, orig := cstr "example.invalid" } ∧
      exampleAdded.id = 0x1234 ∧
      exampleAdded.id ≤ 65535 ∧ exampleDNS.requests exampleAdded.id = none ∧
      exampleAdded.dns.requests exampleAdded.id
        = some { ptr := 1, id := (0x12, 0x34), res := [0], rr_class := 0, type := 0, ttl := 0,
                 orig := cstr "example.invalid" } ∧
      ∀ j, j ≠ exampleAdded.id → exampleAdded.dns.requests j = exampleDNS.requests j) ∧
    (DNS.Reachable (DNS.init 3 false false (cstr "127.0.0.1") 0 id) exampleAdded.dns ∧
      (∀ i j r1 r2, exampleAdded.dns.requests i = some r1 → exampleAdded.dns.requests j = some r2 →
        r1.id = r2.id → i = j) ∧
      ∃ live : Finset Nat, live.card ≤ 65536 ∧
        ∀ i, (exampleAdded.dns.requests i).isSome → i ∈ live) :=
  have hadd : AddQuery exampleDNS examplePrng 4 exampleHeader 0 (cstr "example.invalid")
      = some exampleAdded := rfl
  have hreach : DNS.Reachable (DNS.init 3 false false (cstr "127.0.0.1") 0 id) exampleAdded.dns :=
    DNS.Reachable.next exampleDNS _ DNS.Reachable.start
      (DNS.Step.addQuery exampleDNS examplePrng 4 exampleHeader 0 (cstr "example.invalid")
        exampleAdded _ hadd rfl)
  ⟨⟨hadd, rfl, rfl, AddQuery_fresh_id.1 exampleDNS examplePrng 4 exampleHeader 0
      (cstr "example.invalid") exampleAdded _ hadd rfl⟩,
   ⟨hreach, AddQuery_fresh_id.2 3 false false (cstr "127.0.0.1") 0 id exampleAdded.dns hreach⟩⟩

/-- The callbacks made for one event: all for the descriptor of the event, in
the order error, read, write with none repeated; a hang-up gives exactly one
error callback with code 0. -/
theorem dispatchEvent_calls (R W : Nat) (gso : Nat → Int)
    (handle : Nat → EventType → Int → EPollEngine → EPollEngine)
    (st : EPollEngine × List HandlerCall) (ev : epoll_event) :
    ∃ cs, (dispatchEvent R W gso handle st ev).2 = st.2 ++ cs ∧
      (∀ c ∈ cs, c.fd = ev.fd) ∧
      (cs.map (fun c => c.et.rank)).Chain' (· < ·) ∧
      (ev.events &&& EPOLLHUP ≠ 0 → ∀ c ∈ cs, c.et = .EVENT_ERROR ∧ c.errornum = 0) ∧
      (ev.events &&& EPOLLHUP ≠ 0 → ∀ eh, st.1.ref ev.fd = some eh →
        cs = [⟨eh, ev.fd, .EVENT_ERROR, 0⟩]) := by
  unfold dispatchEvent
  cases href : st.1.ref ev.fd with
  | none => exact ⟨[], by simp, by simp, by simp, by simp, by simp⟩
  | some eh =>
    by_cases hup : ev.events &&& EPOLLHUP ≠ 0
    · refine ⟨[⟨eh, ev.fd, .EVENT_ERROR, 0⟩], ?_, by simp, by simp, by simp, by simp⟩
      simp only [if_pos hup]
    · by_cases herr : ev.events &&& EPOLLERR ≠ 0
      · refine ⟨[⟨eh, ev.fd, .EVENT_ERROR, gso ev.fd⟩], ?_, by simp, by simp,
          fun h => absurd h hup, fun h => absurd h hup⟩
        simp only [if_neg hup, if_pos herr]
      · by_cases hin : ev.events &&& EPOLLIN ≠ 0 <;> by_cases hout : ev.events &&& EPOLLOUT ≠ 0
        · refine ⟨[⟨eh, ev.fd, .EVENT_READ, 0⟩, ⟨eh, ev.fd, .EVENT_WRITE, 0⟩], ?_,
            by simp, by simp [EventType.rank], fun h => absurd h hup, fun h => absurd h hup⟩
          simp only [if_neg hup, if_neg herr, if_pos hin, if_pos hout, List.append_assoc,
            List.singleton_append]
        · refine ⟨[⟨eh, ev.fd, .EVENT_READ, 0⟩], ?_, by simp, by simp,
            fun h => absurd h hup, fun h => absurd h hup⟩
          simp only [if_neg hup, if_neg herr, if_pos hin, if_neg hout]
        · refine ⟨[⟨eh, ev.fd, .EVENT_WRITE, 0⟩], ?_, by simp, by simp,
            fun h => absurd h hup, fun h => absurd h hup⟩
          simp only [if_neg hup, if_neg herr, if_neg hin, if_pos hout]
        · refine ⟨[], ?_, by simp, by simp, fun h => absurd h hup, fun h => absurd h hup⟩
          simp only [if_neg hup, if_neg herr, if_neg hin, if_neg hout, List.append_nil]

/-- The callbacks of a whole pass over events with pairwise different
descriptors. -/
theorem dispatch_fold (R W : Nat) (gso : Nat → Int)
    (handle : Nat → EventType → Int → EPollEngine → EPollEngine) (evs : List epoll_event) :
    ∀ (st : EPollEngine × List HandlerCall), (evs.map (fun ev => ev.fd)).Nodup →
    ∃ tr, (evs.foldl (dispatchEvent R W gso handle) st).2 = st.2 ++ tr ∧
      (∀ c ∈ tr, ∃ ev ∈ evs, c.fd = ev.fd ∧
        (ev.events &&& EPOLLHUP ≠ 0 → c.et = .EVENT_ERROR ∧ c.errornum = 0)) ∧
      ∀ fd, ((tr.filter (fun c => decide (c.fd = fd))).map (fun c => c.et.rank)).Chain' (· < ·) := by
  induction evs with
  | nil => intro st _; exact ⟨[], by simp, by simp, by simp⟩
  | cons ev rest ih =>
    intro st hnd
    simp only [List.map_cons, List.nodup_cons] at hnd
    obtain ⟨hnot, hrest⟩ := hnd
    obtain ⟨cs, hcs, hfd, hchain, hhup, _⟩ := dispatchEvent_calls R W gso handle st ev
    obtain ⟨tr, htr, hmem, hsorted⟩ := ih (dispatchEvent R W gso handle st ev) hrest
    refine ⟨cs ++ tr, ?_, ?_, ?_⟩
    · simp only [List.foldl_cons, htr, hcs, List.append_assoc]
    · intro c hc
      rcases List.mem_append.mp hc with h | h
      · exact ⟨ev, by simp, hfd c h, fun hh => hhup hh c h⟩
      · obtain ⟨e2, he2, h1, h2⟩ := hmem c h
        exact ⟨e2, by simp [he2], h1, h2⟩
    · intro fd
      rw [List.filter_append, List.map_append]
      by_cases hf : fd = ev.fd
      · have h1 : tr.filter (fun c => decide (c.fd = fd)) = [] := by
          rw [List.filter_eq_nil_iff]
          intro c hc
          obtain ⟨e2, he2, h1, _⟩ := hmem c hc
          simp only [decide_eq_true_eq]
          intro hcf
          apply hnot
          rw [List.mem_map]
          exact ⟨e2, he2, by rw [← h1, hcf, hf]⟩
        have h2 : cs.filter (fun c => decide (c.fd = fd)) = cs := by
          rw [List.filter_eq_self]
          intro c hc
          simp [hfd c hc, hf]
        rw [h1, h2]
        simpa using hchain
      · have h2 : cs.filter (fun c => decide (c.fd = fd)) = [] := by
          rw [List.filter_eq_nil_iff]
          intro c hc
          simp only [decide_eq_true_eq]
          intro hcf
          exact hf (by rw [← hcf, hfd c hc])
        rw [h2]
        simpa using hsorted fd

/-- C7: in one dispatch pass over events with pairwise different descriptors,
the callbacks made for any one descriptor come in the order error, read,
write (each at most once, one completing before the next is called); every
callback made for an event with the hang-up bit is an error callback with
code 0, and a hang-up on a registered descriptor is delivered as exactly
that one callback. -/
theorem DispatchEvents_order (R W : Nat) (gso : Nat → Int)
    (handle : Nat → EventType → Int → EPollEngine → EPollEngine) (e : EPollEngine) (i : Int)
    (events : List epoll_event)
    (hnd : ((events.take i.toNat).map (fun ev => ev.fd)).Nodup) :
    (∀ fd, (((DispatchEvents R W gso handle e i events).2.filter
        (fun c => decide (c.fd = fd))).map (fun c => c.et.rank)).Chain' (· < ·)) ∧
    (∀ c ∈ (DispatchEvents R W gso handle e i events).2, ∃ ev ∈ events.take i.toNat,
      c.fd = ev.fd ∧ (ev.events &&& EPOLLHUP ≠ 0 → c.et = .EVENT_ERROR ∧ c.errornum = 0)) ∧
    (∀ (st : EPollEngine × List HandlerCall) (ev : epoll_event) (eh : Nat),
      ev.events &&& EPOLLHUP ≠ 0 → st.1.ref ev.fd = some eh →
      (dispatchEvent R W gso handle st ev).2 = st.2 ++ [⟨eh, ev.fd, .EVENT_ERROR, 0⟩]) := by
  obtain ⟨tr, htr, hmem, hsorted⟩ := dispatch_fold R W gso handle (events.take i.toNat)
    ({ e with TotalEvents := e.TotalEvents + i }, []) hnd
  have hd : (DispatchEvents R W gso handle e i events).2 = tr := by
    simp only [DispatchEvents, htr, List.nil_append]
  rw [hd]
  refine ⟨hsorted, hmem, ?_⟩
  intro st ev eh hup href
  obtain ⟨cs, hcs, _, _, _, hone⟩ := dispatchEvent_calls R W gso handle st ev
  rw [hcs, hone hup eh href]

theorem DispatchEvents_order_witness :
    ((exampleEvents.take (2 : Int).toNat).map (fun ev => ev.fd)).Nodup ∧
    (DispatchEvents 0x2000 0x8000 (fun _ => 0) (fun _ _ _ e => e) exampleEngine 2 exampleEvents).2
      = [⟨50, 5, .EVENT_READ, 0⟩, ⟨50, 5, .EVENT_WRITE, 0⟩, ⟨60, 6, .EVENT_ERROR, 0⟩] ∧
    (∀ fd, (((DispatchEvents 0x2000 0x8000 (fun _ => 0) (fun _ _ _ e => e) exampleEngine 2
        exampleEvents).2.filter
        (fun c => decide (c.fd = fd))).map (fun c => c.et.rank)).Chain' (· < ·)) :=
  ⟨by decide, by decide,
   (DispatchEvents_order 0x2000 0x8000 (fun _ => 0) (fun _ _ _ e => e) exampleEngine 2
      exampleEvents (by decide)).1⟩

theorem payloadAt_cast (payload : List Nat) (n : Nat) :
    payloadAt payload (n : Int) = payload.getD n 0 := by
  simp [payloadAt]

theorem payloadAt_here (pre rest : List Nat) (b : Nat) (i : Int) (hi : i = pre.length) :
    payloadAt (pre ++ b :: rest) i = b := by
  subst hi
  rw [payloadAt_cast, List.getD_append_right _ _ _ _ (le_refl _)]
  simp

/-- The iteration budget of the owner-name loop is enough: any budget of at
least `length - i` gives the same result. -/
theorem skipName_fuel (payload : List Nat) (length : Int) :
    ∀ (fuel1 fuel2 : Nat) (i : Int), length - i ≤ fuel1 → length - i ≤ fuel2 →
      skipName payload length fuel1 i = skipName payload length fuel2 i := by
  intro fuel1
  induction fuel1 with
  | zero =>
    intro fuel2 i h1 _
    have hge : ¬ (i < length) := by simp at h1; omega
    cases fuel2 with
    | zero => rfl
    | succ g => simp [skipName, hge]
  | succ f ih =>
    intro fuel2 i h1 h2
    cases fuel2 with
    | zero =>
      have hge : ¬ (i < length) := by simp at h2; omega
      simp [skipName, hge]
    | succ g =>
      simp only [skipName]
      split_ifs
      · rfl
      · rfl
      · exact ih g _ (by push_cast at h1 ⊢; omega) (by push_cast at h2 ⊢; omega)
      · rfl

/-- The iteration budget of the question loop is enough: any budget of at
least `length - i` gives the same result. -/
theorem skipQuestions_fuel (payload : List Nat) (qdcount : Nat) (length : Int) :
    ∀ (fuel1 fuel2 : Nat) (i : Int) (q : Nat), length - i ≤ fuel1 → length - i ≤ fuel2 →
      skipQuestions payload qdcount length fuel1 i q
        = skipQuestions payload qdcount length fuel2 i q := by
  intro fuel1
  induction fuel1 with
  | zero =>
    intro fuel2 i q h1 _
    have hge : ¬ (i < length) := by simp at h1; omega
    cases fuel2 with
    | zero => rfl
    | succ g => simp [skipQuestions, hge]
  | succ f ih =>
    intro fuel2 i q h1 h2
    cases fuel2 with
    | zero =>
      have hge : ¬ (i < length) := by simp at h2; omega
      simp [skipQuestions, hge]
    | succ g =>
      simp only [skipQuestions]
      split_ifs
      · exact ih g _ _ (by push_cast at h1 ⊢; omega) (by push_cast at h2 ⊢; omega)
      · exact ih g _ _ (by push_cast at h1 ⊢; omega) (by push_cast at h2 ⊢; omega)
      · exact ih g _ _ (by push_cast at h1 ⊢; omega) (by push_cast at h2 ⊢; omega)
      · rfl

/-- The owner-name loop moves `i` from the start of a proper name to its end. -/
theorem skipName_wire (n : List Nat) (hn : WireName n) :
    ∀ (pre rest : List Nat) (length : Int) (fuel : Nat) (i : Int), i = pre.length →
      (pre.length : Int) + n.length ≤ length → length - pre.length ≤ fuel →
      skipName (pre ++ n ++ rest) length fuel i = pre.length + n.length := by
  induction hn with
  | root =>
    intro pre rest length fuel i hi hlen hfuel
    cases fuel with
    | zero => simp at hlen hfuel; omega
    | succ f =>
      have hp : payloadAt (pre ++ [0] ++ rest) i = 0 := by
        rw [List.append_assoc]; exact payloadAt_here pre _ 0 i hi
      have hlt : i < length := by simp at hlen; omega
      simp only [skipName, hlt, if_true, hp]
      simp [hi]
  | pointer p1 p2 h =>
    intro pre rest length fuel i hi hlen hfuel
    cases fuel with
    | zero => simp at hlen hfuel; omega
    | succ f =>
      have hp : payloadAt (pre ++ [p1, p2] ++ rest) i = p1 := by
        rw [List.append_assoc]; exact payloadAt_here pre _ p1 i hi
      have hlt : i < length := by simp at hlen; omega
      simp only [skipName, hlt, if_true, hp, h]
      simp [hi]
  | label l rest2 h1 h2 hr ih =>
    intro pre rest length fuel i hi hlen hfuel
    have hl0 : l.length ≠ 0 := fun h0 => h1 (List.length_eq_zero.mp h0)
    cases fuel with
    | zero => simp at hlen hfuel; omega
    | succ f =>
      have hp : payloadAt (pre ++ (l.length :: (l ++ rest2)) ++ rest) i = l.length := by
        rw [List.append_assoc]; exact payloadAt_here pre _ _ i hi
      have hlt : i < length := by simp at hlen; omega
      have h63 : ¬ (l.length > 63) := by omega
      simp only [skipName, hlt, if_true, hp, h63, if_false, hl0]
      have e : pre ++ (l.length :: (l ++ rest2)) ++ rest = (pre ++ l.length :: l) ++ rest2 ++ rest := by
        simp
      rw [e, ih (pre ++ l.length :: l) rest length f (i + l.length + 1)
        (by simp [hi]; omega) (by simp at hlen ⊢; omega) (by simp at hlen hfuel ⊢; omega)]
      simp; omega

/-- The question loop moves `i` from the start of a proper name past the name
and its four fixed octets, counting one question. -/
theorem skipQuestions_one (n : List Nat) (hn : WireName n) (qdcount : Nat) :
    ∀ (pre rest : List Nat) (length : Int) (fuel : Nat) (i : Int) (q : Nat), i = pre.length →
      q < qdcount → (pre.length : Int) + n.length + 4 ≤ length → length - pre.length ≤ fuel →
      ∃ fuel2 : Nat, length - (pre.length + n.length + 4) ≤ fuel2 ∧
        skipQuestions (pre ++ n ++ rest) qdcount length fuel i q
          = skipQuestions (pre ++ n ++ rest) qdcount length fuel2
              (pre.length + n.length + 4) (q + 1) := by
  induction hn with
  | root =>
    intro pre rest length fuel i q hi hq hlen hfuel
    cases fuel with
    | zero => simp at hlen hfuel; omega
    | succ f =>
      have hp : payloadAt (pre ++ [0] ++ rest) i = 0 := by
        rw [List.append_assoc]; exact payloadAt_here pre _ 0 i hi
      have hlt : i < length := by simp at hlen; omega
      refine ⟨f, by simp at hlen hfuel ⊢; omega, ?_⟩
      simp only [skipQuestions, hq, hlt, and_self, if_true, hp]
      simp only [gt_iff_lt, Nat.not_lt_zero, if_false, hi, List.length_singleton]
      congr 1
  | pointer p1 p2 h =>
    intro pre rest length fuel i q hi hq hlen hfuel
    cases fuel with
    | zero => simp at hlen hfuel; omega
    | succ f =>
      have hp : payloadAt (pre ++ [p1, p2] ++ rest) i = p1 := by
        rw [List.append_assoc]; exact payloadAt_here pre _ p1 i hi
      have hlt : i < length := by simp at hlen; omega
      refine ⟨f, by simp at hlen hfuel ⊢; omega, ?_⟩
      simp only [skipQuestions, hq, hlt, and_self, if_true, hp, h]
      simp only [hi, List.length_cons, List.length_nil]
      congr 1
  | label l rest2 h1 h2 hr ih =>
    intro pre rest length fuel i q hi hq hlen hfuel
    have hl0 : l.length ≠ 0 := fun h0 => h1 (List.length_eq_zero.mp h0)
    cases fuel with
    | zero => simp at hlen hfuel; omega
    | succ f =>
      have hp : payloadAt (pre ++ (l.length :: (l ++ rest2)) ++ rest) i = l.length := by
        rw [List.append_assoc]; exact payloadAt_here pre _ _ i hi
      have hlt : i < length := by simp at hlen; omega
      have h63 : ¬ (l.length > 63) := by omega
      simp only [skipQuestions, hq, hlt, and_self, if_true, hp, h63, if_false, hl0]
      have e : pre ++ (l.length :: (l ++ rest2)) ++ rest = (pre ++ l.length :: l) ++ rest2 ++ rest := by
        simp
      obtain ⟨fuel2, hf2, heq⟩ := ih (pre ++ l.length :: l) rest length f (i + l.length + 1) q
        (by simp [hi]; omega) hq (by simp at hlen ⊢; omega) (by simp at hlen hfuel ⊢; omega)
      refine ⟨fuel2, by simp at hlen hf2 ⊢; omega, ?_⟩
      rw [e, heq]
      congr 1
      simp
      omega

/-- The question loop moves `i` past `qdcount` proper questions. -/
theorem skipQuestions_wire (qs : List WireQuestion) (qdcount : Nat) :
    ∀ (pre rest : List Nat) (length : Int) (fuel : Nat) (i : Int) (q : Nat), i = pre.length →
      (∀ x ∈ qs, x.WellFormed) → q + qs.length = qdcount →
      (pre.length : Int) + (questionsWire qs).length ≤ length → length - pre.length ≤ fuel →
      skipQuestions (pre ++ questionsWire qs ++ rest) qdcount length fuel i q
        = pre.length + (questionsWire qs).length := by
  induction qs with
  | nil =>
    intro pre rest length fuel i q hi _ hq _ _
    simp only [List.length_nil, Nat.add_zero] at hq
    cases fuel with
    | zero => simp [skipQuestions, questionsWire, hi]
    | succ f => simp [skipQuestions, questionsWire, hi, hq]
  | cons x xs ih =>
    intro pre rest length fuel i q hi hwf hq hlen hfuel
    obtain ⟨hname, hfix⟩ := hwf x (by simp)
    have hw : questionsWire (x :: xs) = x.name ++ x.fixed ++ questionsWire xs := by
      simp [questionsWire, WireQuestion.wire]
    have hlen2 : (questionsWire (x :: xs)).length
        = x.name.length + 4 + (questionsWire xs).length := by
      rw [hw]; simp [hfix]; omega
    rw [hlen2] at hlen
    obtain ⟨fuel2, hf2, heq⟩ := skipQuestions_one x.name hname qdcount pre
      (x.fixed ++ questionsWire xs ++ rest) length fuel i q hi
      (by simp at hq; omega) (by push_cast at hlen; omega) hfuel
    have e1 : pre ++ questionsWire (x :: xs) ++ rest
        = pre ++ x.name ++ (x.fixed ++ questionsWire xs ++ rest) := by
      rw [hw]; simp
    have e2 : pre ++ x.name ++ (x.fixed ++ questionsWire xs ++ rest)
        = (pre ++ x.name ++ x.fixed) ++ questionsWire xs ++ rest := by
      simp
    rw [e1, heq, e2, ih (pre ++ x.name ++ x.fixed) rest length fuel2 _ (q + 1)
      (by simp [hfix]; omega) (fun y hy => hwf y (by simp [hy])) (by simp at hq; omega)
      (by simp [hfix]; push_cast at hlen; omega) (by simp [hfix]; omega), hlen2]
    simp [hfix]
    omega

/-- `FillResourceRecord` reads back the fixed part of a record. -/
theorem FillResourceRecord_wire (t c ttl n : Nat) (ht : t < 65536) (hc : c < 65536)
    (httl : ttl < 4294967296) (hn : n < 65536) (rest : List Nat) :
    FillResourceRecord (be16 t ++ (be16 c ++ (be32 ttl ++ (be16 n ++ rest))))
      = { type := t, rr_class := c, ttl := intToUnsignedLong ttl, rdlength := n } := by
  simp only [FillResourceRecord, be16, be32, List.cons_append, List.nil_append,
    List.getD_cons_zero, List.getD_cons_succ, Nat.shiftLeft_eq, ResourceRecord.mk.injEq]
  refine ⟨by omega, by omega, ?_, by omega⟩
  congr 1
  omega

/-- The iteration budget of the answer loop is enough: any budget above
`ancount - curanswer` gives the same result. -/
theorem answerLoop_fuel (payload : List Nat) (length : Int) (ancount type rr_class : Nat) :
    ∀ (fuel1 fuel2 : Nat) (i : Int) (cur : Nat) (rr : ResourceRecord),
      ancount - cur < fuel1 → ancount - cur < fuel2 →
      answerLoop payload length ancount type rr_class fuel1 i cur rr
        = answerLoop payload length ancount type rr_class fuel2 i cur rr := by
  intro fuel1
  induction fuel1 with
  | zero => intro fuel2 i cur rr h1 _; omega
  | succ f ih =>
    intro fuel2 i cur rr h1 h2
    cases fuel2 with
    | zero => omega
    | succ g =>
      simp only [answerLoop]
      split_ifs with hc
      · rfl
      · exact ih g _ _ _ (by omega) (by omega)
      · exact ih g _ _ _ (by omega) (by omega)
      · rfl
      · rfl

theorem answersWire_cons (r : AnswerRR) (rs : List AnswerRR) :
    answersWire (r :: rs) = r.wire ++ answersWire rs := by
  simp [answersWire]

theorem AnswerRR.wire_length (r : AnswerRR) :
    r.wire.length = r.name.length + 10 + r.rdata.length := by
  simp [AnswerRR.wire, be16, be32]
  omega

/-- One iteration of the answer loop on a proper record at `i`: the values of
`i` after the owner name and of `rr`. -/
theorem answerLoop_head (r : AnswerRR) (hr : r.WellFormed) (pre rest : List Nat) (length : Int)
    (hlen : length = (pre ++ r.wire ++ rest).length) (i : Int) (hi : i = pre.length) :
    skipName (pre ++ r.wire ++ rest) length length.toNat i = pre.length + r.name.length ∧
    FillResourceRecord ((pre ++ r.wire ++ rest).drop (pre.length + r.name.length))
      = { type := r.type, rr_class := r.rr_class, ttl := intToUnsignedLong r.ttl,
          rdlength := r.rdata.length } := by
  obtain ⟨hname, ht, hc, httl, hrd⟩ := hr
  have hwl := r.wire_length
  have e : pre ++ r.wire ++ rest
      = pre ++ r.name ++ (be16 r.type ++ (be16 r.rr_class ++ (be32 r.ttl ++
          (be16 r.rdata.length ++ (r.rdata ++ rest))))) := by
    simp [AnswerRR.wire]
  constructor
  · rw [e]
    apply skipName_wire r.name hname pre _ length length.toNat i hi
    · rw [hlen]; simp only [List.length_append, hwl]; push_cast; omega
    · rw [hlen]; simp only [List.length_append, hwl]; push_cast; omega
  · rw [e, List.drop_left' (by simp)]
    have := FillResourceRecord_wire r.type r.rr_class r.ttl r.rdata.length ht hc httl hrd
      (r.rdata ++ rest)
    simpa using this

/-- The answer loop skips the records whose type or class differs from the
request's and stops at the first record that has both: `i` is then at its
RDATA, `rr` holds its fixed fields, `curanswer` counts the records skipped. -/
theorem answerLoop_wire (m : AnswerRR) (hm : m.WellFormed) (ancount type rr_class : Nat)
    (hmt : m.type = type) (hmc : m.rr_class = rr_class) :
    ∀ (skipped : List AnswerRR) (pre rest : List Nat) (length : Int) (fuel : Nat) (i : Int)
      (cur : Nat) (rr0 : ResourceRecord), i = pre.length →
      (∀ r ∈ skipped, r.WellFormed ∧ (r.type ≠ type ∨ r.rr_class ≠ rr_class)) →
      cur + skipped.length < ancount → skipped.length < fuel →
      length = (pre ++ answersWire skipped ++ m.wire ++ rest).length →
      answerLoop (pre ++ answersWire skipped ++ m.wire ++ rest) length ancount type rr_class
          fuel i cur rr0
        = .ok ((pre.length : Int) + (answersWire skipped).length + m.name.length + 10,
               { type := m.type, rr_class := m.rr_class, ttl := intToUnsignedLong m.ttl,
                 rdlength := m.rdata.length }, cur + skipped.length) := by
  intro skipped
  induction skipped with
  | nil =>
    intro pre rest length fuel i cur rr0 hi _ hcur hfuel hlen
    cases fuel with
    | zero => simp at hfuel
    | succ f =>
      have e : pre ++ answersWire [] ++ m.wire ++ rest = pre ++ m.wire ++ rest := by
        simp [answersWire]
      rw [e] at hlen ⊢
      obtain ⟨h1, h2⟩ := answerLoop_head m hm pre rest length hlen i hi
      have hcur2 : cur < ancount := by simpa using hcur
      have hw := m.wire_length
      have h10 : ¬ (length - ((pre.length : Int) + m.name.length) < 10) := by
        rw [hlen]; simp only [List.length_append, hw]; push_cast; omega
      have htn : ((pre.length : Int) + m.name.length).toNat = pre.length + m.name.length := by
        omega
      simp only [answerLoop, hcur2, if_true, h1, h10, if_false, htn, h2, hmt, hmc, ne_eq,
        not_true_eq_false]
      simp [answersWire]
  | cons r rs ih =>
    intro pre rest length fuel i cur rr0 hi hsk hcur hfuel hlen
    cases fuel with
    | zero => simp at hfuel
    | succ f =>
      obtain ⟨hrwf, hrmis⟩ := hsk r (by simp)
      have e : pre ++ answersWire (r :: rs) ++ m.wire ++ rest
          = pre ++ r.wire ++ (answersWire rs ++ m.wire ++ rest) := by
        simp [answersWire_cons]
      have e2 : pre ++ r.wire ++ (answersWire rs ++ m.wire ++ rest)
          = (pre ++ r.wire) ++ answersWire rs ++ m.wire ++ rest := by
        simp
      rw [e] at hlen ⊢
      obtain ⟨h1, h2⟩ := answerLoop_head r hrwf pre _ length hlen i hi
      have hcur2 : cur < ancount := by simp at hcur; omega
      have hw := r.wire_length
      have h10 : ¬ (length - ((pre.length : Int) + r.name.length) < 10) := by
        rw [hlen]; simp only [List.length_append, hw]; push_cast; omega
      have htn : ((pre.length : Int) + r.name.length).toNat = pre.length + r.name.length := by
        omega
      have hnext := fun rr1 => ih (pre ++ r.wire) rest length f
        ((pre.length : Int) + r.name.length + 10 + r.rdata.length) (cur + 1) rr1
        (by simp only [List.length_append, hw]; push_cast; omega)
        (fun x hx => hsk x (by simp [hx])) (by simp at hcur ⊢; omega)
        (by simp at hfuel ⊢; omega) (by rw [hlen, e2])
      rw [← e2] at hnext
      have hfin : (↑(pre ++ r.wire).length : Int) + (answersWire rs).length + m.name.length + 10
          = (pre.length : Int) + (answersWire (r :: rs)).length + m.name.length + 10 := by
        simp only [List.length_append, hw, answersWire_cons]; push_cast; omega
      have hcnt : cur + 1 + rs.length = cur + (r :: rs).length := by simp; omega
      rw [hfin, hcnt] at hnext
      simp only [answerLoop, hcur2, if_true, h1, h10, if_false, htn, h2, ne_eq]
      rcases hrmis with hmis | hmis
      · simp only [hmis, not_false_eq_true, if_true]
        exact hnext _
      · by_cases hty : r.type = type
        · simp only [hty, not_true_eq_false, if_false, hmis, not_false_eq_true, if_true]
          exact hnext _
        · simp only [hty, not_false_eq_true, if_true]
          exact hnext _

/-- On a payload made of proper questions and records, `parseAnswers` returns
the RDATA of the first record that has the type and class of the request
(when that type is neither CNAME nor PTR), and stores its TTL. -/
theorem parseAnswers_data (req : DNSRequest) (header : DNSHeader) (fuel : Nat)
    (qs : List WireQuestion) (skipped : List AnswerRR) (m : AnswerRR) (rest : List Nat)
    (hpay : header.payload = questionsWire qs ++ answersWire skipped ++ m.wire ++ rest)
    (hqd : header.qdcount = qs.length) (hqs : ∀ x ∈ qs, x.WellFormed)
    (hsk : ∀ r ∈ skipped, r.WellFormed ∧ (r.type ≠ req.type ∨ r.rr_class ≠ req.rr_class))
    (hm : m.WellFormed) (hmt : m.type = req.type) (hmc : m.rr_class = req.rr_class)
    (han : skipped.length < header.ancount)
    (hc1 : m.type ≠ DNS_QUERY_CNAME) (hc2 : m.type ≠ DNS_QUERY_PTR)
    (hrd : m.rdata.length < 512) :
    parseAnswers req header header.payload.length fuel
      = .done ((some (storeResult req.res m.rdata), cstr "No error"),
               { req with ttl := intToUnsignedLong m.ttl,
                          res := storeResult req.res m.rdata }) := by
  have hw := m.wire_length
  have hq := skipQuestions_wire qs header.qdcount [] (answersWire skipped ++ m.wire ++ rest)
    header.payload.length ((header.payload.length : Int)).toNat 0 0 (by simp) hqs
    (by simp [hqd]) (by rw [hpay]; simp only [List.length_append, List.length_nil]; push_cast; omega)
    (by simp)
  have e1 : [] ++ questionsWire qs ++ (answersWire skipped ++ m.wire ++ rest) = header.payload := by
    rw [hpay]; simp
  rw [e1] at hq
  have ha := answerLoop_wire m hm header.ancount req.type req.rr_class hmt hmc skipped
    (questionsWire qs) rest header.payload.length (header.ancount + 1)
    ((([] : List Nat).length : Int) + (questionsWire qs).length) 0
    { type := DNS_QUERY_NONE, rdlength := 0, ttl := 1, rr_class := 0 } (by simp) hsk
    (by omega) (by omega) (by rw [hpay])
  rw [← hpay] at ha
  unfold parseAnswers
  rw [hq, ha]
  have hne : ¬ (0 + skipped.length = header.ancount) := by omega
  have hlen : (header.payload.length : Int)
      = (questionsWire qs).length + (answersWire skipped).length + m.name.length + 10
          + m.rdata.length + rest.length := by
    rw [hpay]; simp only [List.length_append, hw]; push_cast; omega
  have hfit : ¬ ((questionsWire qs).length + ((answersWire skipped).length : Int) + m.name.length
      + 10 + ((m.rdata.length : Nat) : Int) > header.payload.length) := by
    rw [hlen]; omega
  have hbig : ¬ (m.rdata.length > 1023) := by omega
  simp only [hne, if_false, hfit, hbig]
  unfold decodeRData
  have hnot : ¬ (m.type = DNS_QUERY_CNAME ∨ m.type = DNS_QUERY_PTR) := by
    intro h; rcases h with h | h
    · exact hc1 h
    · exact hc2 h
  simp only [hnot, if_false, hrd, if_true]
  have htn : ((questionsWire qs).length + ((answersWire skipped).length : Int) + m.name.length
      + 10).toNat = (questionsWire qs ++ answersWire skipped ++ m.name ++ (be16 m.type ++
        (be16 m.rr_class ++ (be32 m.ttl ++ be16 m.rdata.length)))).length := by
    simp [be16, be32]; omega
  have e2 : header.payload = (questionsWire qs ++ answersWire skipped ++ m.name ++ (be16 m.type ++
        (be16 m.rr_class ++ (be32 m.ttl ++ be16 m.rdata.length)))) ++ (m.rdata ++ rest) := by
    rw [hpay]; simp [AnswerRR.wire]
  have hdata : (header.payload.drop ((questionsWire qs).length
      + ((answersWire skipped).length : Int) + m.name.length + 10).toNat).take m.rdata.length
        = m.rdata := by
    rw [htn, e2, List.drop_left, List.take_left]
  rw [hdata]

/-- `FillHeader` reads back the header fields of a reply and takes the rest
as payload. -/
theorem FillHeader_reply (id flags1 flags2 qd an ns ar : Nat) (body : List Nat)
    (hqd : qd < 65536) (han : an < 65536) (hns : ns < 65536) (har : ar < 65536)
    (hbody : body.length ≤ 512) :
    FillHeader (replyHeader id flags1 flags2 qd an ns ar ++ body) body.length
      = some { id := (id / 256 % 256, id % 256), flags1 := flags1, flags2 := flags2,
               qdcount := qd, ancount := an, nscount := ns, arcount := ar, payload := body } := by
  simp only [FillHeader, hbody, if_true, replyHeader, be16, List.cons_append, List.nil_append,
    List.getD_cons_zero, List.getD_cons_succ, Nat.shiftLeft_eq, List.drop_succ_cons,
    List.drop_zero, List.take_length, DNSHeader.mk.injEq, and_true, true_and, Option.some.injEq]
  refine ⟨by omega, by omega, by omega, by omega⟩

/-- The dotted quad printed by `snprintf(formatted, 16, "%u.%u.%u.%u", ...)` for
four octets is not cut by the limit of 16. -/
theorem dotted_quad (a b c d : Nat) (ha : a < 256) (hb : b < 256) (hc : c < 256)
    (hd : d < 256) :
    (fmtDec a ++ DOT :: fmtDec b ++ DOT :: fmtDec c ++ DOT :: fmtDec d).take 15
      = cstr (toString a ++ "." ++ toString b ++ "." ++ toString c ++ "." ++ toString d) := by
  obtain ⟨_, a2, _⟩ := fmtDec_byte a ha
  obtain ⟨_, b2, _⟩ := fmtDec_byte b hb
  obtain ⟨_, c2, _⟩ := fmtDec_byte c hc
  obtain ⟨_, d2, _⟩ := fmtDec_byte d hd
  rw [List.take_of_length_le (by simp; omega)]
  have e : cstr "." = [DOT] := by decide
  simp [cstr_append, cstr_toString, e]

/-- The answer to an A query: for a reply of at most 524 bytes that passes the
source check, carries the id of an in-flight A query, has QR set, OPCODE 0
and RCODE 0, and consists of proper questions followed by answer records of
which the first with type A and class 1 has the four RDATA octets a, b, c, d
and the TTL octets of t, `GetResult` returns the id, the dotted quad
`a.b.c.d` in decimal, the original query and, as TTL, the `int` value of the
four octets widened to `unsigned long`; it empties the request slot and
deletes the request. -/
theorem GetResult_A_record (s : DNS) (d : Datagram) (req : DNSRequest)
    (id flags1 flags2 an ns ar : Nat) (qs : List WireQuestion) (skipped : List AnswerRR)
    (owner rest : List Nat) (a b c dd t : Nat) (inet_ntop6 : List Nat → List Nat) (fuel : Nat)
    (hsrc : s.ip6munge = true ∨
      (d.port_from = 53 ∧ strcasecmpNe d.ipaddr_from s.DNSServer = false))
    (hid : id < 65536) (hreq : s.requests id = some req)
    (hty : req.type = DNS_QUERY_A) (hcl : req.rr_class = 1)
    (hqr : flags1 &&& FLAGS_MASK_QR ≠ 0) (hop : flags1 &&& FLAGS_MASK_OPCODE = 0)
    (hrc : flags2 &&& FLAGS_MASK_RCODE = 0)
    (hqs : ∀ x ∈ qs, x.WellFormed) (hqd : qs.length < 65536)
    (hsk : ∀ r ∈ skipped, r.WellFormed ∧ (r.type ≠ DNS_QUERY_A ∨ r.rr_class ≠ 1))
    (hown : WireName owner) (ht : t < 4294967296)
    (ha : a < 256) (hb : b < 256) (hc : c < 256) (hd : dd < 256)
    (han : skipped.length < an) (han2 : an < 65536) (hns : ns < 65536) (har : ar < 65536)
    (hbuf : d.buffer = replyHeader id flags1 flags2 qs.length an ns ar ++
      (questionsWire qs ++ answersWire skipped ++
        AnswerRR.wire { name := owner, type := DNS_QUERY_A, rr_class := 1, ttl := t,
                        rdata := [a, b, c, dd] } ++ rest))
    (hsize : d.buffer.length ≤ 524) :
    GetResult s (some d) inet_ntop6 fuel
      = .done ({ id := (id : Int)
                 result := cstr (toString a ++ "." ++ toString b ++ "." ++ toString c ++ "."
                                   ++ toString dd)
                 ttl := intToUnsignedLong t, original := req.orig },
               { s with requests := setSlot s.requests id none
                        freed := req.ptr :: s.freed }) := by
  generalize hbody : questionsWire qs ++ answersWire skipped ++
      AnswerRR.wire { name := owner, type := DNS_QUERY_A, rr_class := 1, ttl := t,
                      rdata := [a, b, c, dd] } ++ rest = body at hbuf
  have hlen : recvLength (some d) = 12 + (body.length : Int) := by
    simp [recvLength, hbuf, replyHeader, be16]; omega
  have h12 : ¬ (recvLength (some d) < 12) := by rw [hlen]; omega
  have hcheck : ¬ ((!s.ip6munge) = true ∧
      (d.port_from ≠ QUERY_PORT ∨ strcasecmpNe d.ipaddr_from s.DNSServer = true)) := by
    rintro ⟨h1, h2⟩
    rcases hsrc with h | ⟨hp, hs⟩
    · simp [h] at h1
    · rcases h2 with h2 | h2
      · exact h2 hp
      · rw [hs] at h2; exact absurd h2 (by decide)
  have hbl : body.length ≤ 512 := by
    have h2 : recvLength (some d) = (d.buffer.length : Int) := rfl
    omega
  have hhdr : FillHeader d.buffer (recvLength (some d) - 12).toNat
      = some { id := (id / 256 % 256, id % 256), flags1 := flags1, flags2 := flags2,
               qdcount := qs.length, ancount := an, nscount := ns, arcount := ar,
               payload := body } := by
    have : (recvLength (some d) - 12).toNat = body.length := by rw [hlen]; omega
    rw [this, hbuf]
    exact FillHeader_reply id flags1 flags2 qs.length an ns ar body hqd han2 hns har hbl
  have hthis : id % 256 + (id / 256 % 256) <<< 8 = id := by
    rw [Nat.shiftLeft_eq]; omega
  have hparse := parseAnswers_data req
    { id := (id / 256 % 256, id % 256), flags1 := flags1, flags2 := flags2,
      qdcount := qs.length, ancount := an, nscount := ns, arcount := ar, payload := body } fuel
    qs skipped { name := owner, type := DNS_QUERY_A, rr_class := 1, ttl := t,
                 rdata := [a, b, c, dd] } rest hbody.symm rfl hqs
    (by rw [hty, hcl]; exact hsk)
    ⟨hown, (show DNS_QUERY_A < 65536 by decide), (show 1 < 65536 by decide), ht,
      (show [a, b, c, dd].length < 65536 by simp)⟩ hty.symm hcl.symm
    han (show DNS_QUERY_A ≠ DNS_QUERY_CNAME by decide) (show DNS_QUERY_A ≠ DNS_QUERY_PTR by decide)
    (show [a, b, c, dd].length < 512 by simp)
  have hready : ResultIsReady req
      { id := (id / 256 % 256, id % 256), flags1 := flags1, flags2 := flags2,
        qdcount := qs.length, ancount := an, nscount := ns, arcount := ar, payload := body }
      (recvLength (some d)) fuel
      = .done ((some (storeResult req.res [a, b, c, dd]), cstr "No error"),
               { req with ttl := intToUnsignedLong t
                          res := storeResult req.res [a, b, c, dd] }) := by
    unfold ResultIsReady
    have han1 : ¬ (an < 1) := by omega
    have e : recvLength (some d) - 12 = (body.length : Int) := by rw [hlen]; omega
    simp only [hqr, hop, hrc, han1, if_false, ne_eq, not_true_eq_false, e]
    exact hparse
  unfold GetResult
  simp only [h12, if_false, hcheck, hhdr, hthis, hreq, hready, hty, if_true]
  simp only [storeResult, List.cons_append, List.nil_append, List.getD_cons_zero,
    List.getD_cons_succ, dotted_quad a b c dd ha hb hc hd]
  rw [if_pos (by simp)]

/-- The reply with RDATA 192, 0, 2, 1 and TTL 300 yields `192.0.2.1` and
300. -/
theorem GetResult_A_record_witness :
    (∀ x ∈ [({ name := [7, 101, 120, 97, 109, 112, 108, 101, 7, 105, 110, 118, 97, 108, 105,
                        100, 0], fixed := [0, 1, 0, 1] } : WireQuestion)], x.WellFormed) ∧
    WireName [0xC0, 0x0C] ∧
    exampleReply.buffer = replyHeader 0x1234 0x81 0x80 1 1 0 0 ++
      (questionsWire [{ name := [7, 101, 120, 97, 109, 112, 108, 101, 7, 105, 110, 118, 97, 108,
                                 105, 100, 0], fixed := [0, 1, 0, 1] }] ++ answersWire [] ++
        AnswerRR.wire { name := [0xC0, 0x0C], type := DNS_QUERY_A, rr_class := 1, ttl := 300,
                        rdata := [192, 0, 2, 1] } ++ []) ∧
    GetResult exampleInFlight (some exampleReply) (fun _ => []) 0
      = .done ({ id := ((0x1234 : Nat) : Int)
                 result := cstr (toString 192 ++ "." ++ toString 0 ++ "." ++ toString 2 ++ "."
                                   ++ toString 1)
                 ttl := 300, original := exampleRequest.orig },
               { exampleInFlight with requests := setSlot exampleInFlight.requests 0x1234 none
                                      freed := [1] }) ∧
    cstr (toString 192 ++ "." ++ toString 0 ++ "." ++ toString 2 ++ "." ++ toString 1)
      = cstr "192.0.2.1" :=
  have hq : ∀ x ∈ [({ name := [7, 101, 120, 97, 109, 112, 108, 101, 7, 105, 110, 118, 97, 108,
                               105, 100, 0], fixed := [0, 1, 0, 1] } : WireQuestion)],
      x.WellFormed := by
    intro x hx
    simp only [List.mem_singleton] at hx
    subst hx
    exact ⟨WireName.label [101, 120, 97, 109, 112, 108, 101] _ (by decide) (by decide)
      (WireName.label [105, 110, 118, 97, 108, 105, 100] _ (by decide) (by decide)
        WireName.root), rfl⟩
  have hbuf : exampleReply.buffer = replyHeader 0x1234 0x81 0x80 1 1 0 0 ++
      (questionsWire [{ name := [7, 101, 120, 97, 109, 112, 108, 101, 7, 105, 110, 118, 97, 108,
                                 105, 100, 0], fixed := [0, 1, 0, 1] }] ++ answersWire [] ++
        AnswerRR.wire { name := [0xC0, 0x0C], type := DNS_QUERY_A, rr_class := 1, ttl := 300,
                        rdata := [192, 0, 2, 1] } ++ []) := by decide
  ⟨hq, WireName.pointer _ _ (by decide), hbuf,
   GetResult_A_record exampleInFlight exampleReply exampleRequest 0x1234 0x81 0x80 1 0 0
     [{ name := [7, 101, 120, 97, 109, 112, 108, 101, 7, 105, 110, 118, 97, 108, 105, 100, 0],
        fixed := [0, 1, 0, 1] }] [] [0xC0, 0x0C] [] 192 0 2 1 300 (fun _ => []) 0
     (Or.inr ⟨rfl, by decide⟩) (by decide) rfl rfl rfl (by decide) (by decide) (by decide)
     hq (by decide) (by simp) (WireName.pointer _ _ (by decide)) (by decide)
     (by decide) (by decide) (by decide) (by decide) (by decide) (by decide) (by decide)
     (by decide) hbuf (by decide),
   by decide⟩

set_option maxRecDepth 1000000 in
/-- C8 fails on a TTL with the top bit set.  `exampleSignedTTL` is the reply
`exampleReply` to the A query in flight with the TTL octets `0x80 0 0 0`, the
TTL t = 2147483648.  The reply is accepted and the dotted quad is
`192.0.2.1`, but the TTL returned, handed to the consumer and used for the
cache entry is 18446744071562067968 = t + 0xFFFFFFFF00000000, not t:
`FillResourceRecord` adds the shifted octets as `int` and stores the negative
sum in an `unsigned long`.  With the TTL 300 the result is
(`192.0.2.1`, 300). -/
theorem GetResult_A_ttl_sign :
    exampleSignedTTL.buffer = replyHeader 0x1234 0x81 0x80 1 1 0 0 ++
      (questionsWire [exampleQuestion] ++ answersWire [] ++
        AnswerRR.wire { name := [0xC0, 0x0C], type := DNS_QUERY_A, rr_class := 1
                        ttl := 2147483648, rdata := [192, 0, 2, 1] } ++ []) ∧
    GetResult exampleInFlight (some exampleSignedTTL) (fun _ => []) 0
      = .done ({ id := 0x1234, result := cstr "192.0.2.1", ttl := 18446744071562067968
                 original := cstr "example.invalid" },
               { exampleInFlight with requests := setSlot exampleInFlight.requests 0x1234 none
                                      freed := [1] }) ∧
    (18446744071562067968 : Nat) = 2147483648 + 0xFFFFFFFF00000000 ∧
    (∃ s2, HandleEvent exampleInFlight (some exampleSignedTTL) 1000 (fun _ => []) 0 = .done s2 ∧
      s2.calls = [Callback.OnLookupComplete exampleConsumer (cstr "192.0.2.1")
        18446744071562067968 false] ∧
      s2.cache = [(cstr "example.invalid",
        CachedQuery.new 1000 (cstr "192.0.2.1") 18446744071562067968)]) ∧
    GetResult exampleInFlight (some exampleReply) (fun _ => []) 0
      = .done ({ id := 0x1234, result := cstr "192.0.2.1", ttl := 300
                 original := cstr "example.invalid" },
               { exampleInFlight with requests := setSlot exampleInFlight.requests 0x1234 none
                                      freed := [1] }) := by
  refine ⟨by decide, rfl, by decide, ⟨_, rfl, by decide, by decide⟩, rfl⟩

/-! ## C11: the timeout of a request -/

/-- The two branches of `Tick`: when the slot of the id holds a request at the
address the timer was given, the consumer registered under the id receives
`OnError(RESOLVER_TIMEOUT, "Request timed out")` as the one callback of the
step, the request slot and the consumer slot are emptied, every other slot and
the cache stay as they were, and a second firing changes nothing; when the
slot is empty or holds a request at another address, the firing leaves the
whole state as it was. -/
theorem Tick_timeout :
    (∀ (t : RequestTimeout) (s : DNS) (req : DNSRequest) (c : Resolver),
      s.requests t.watchid = some req → req.ptr = t.watch → s.Classes t.watchid = some c →
      (t.Tick s).calls =
          s.calls ++ [Callback.OnError c .RESOLVER_TIMEOUT (cstr "Request timed out")] ∧
        (t.Tick s).requests t.watchid = none ∧ (t.Tick s).Classes t.watchid = none ∧
        (∀ j, j ≠ t.watchid →
          (t.Tick s).requests j = s.requests j ∧ (t.Tick s).Classes j = s.Classes j) ∧
        (t.Tick s).cache = s.cache ∧ t.Tick (t.Tick s) = t.Tick s) ∧
    (∀ (t : RequestTimeout) (s : DNS),
      (s.requests t.watchid).map (fun r => r.ptr) ≠ some t.watch → t.Tick s = s) := by
  refine ⟨?_, ?_⟩
  · intro t s req c hreq hptr hc
    have hcond : (s.requests t.watchid).map (fun r => r.ptr) = some t.watch := by
      rw [hreq]; simp [hptr]
    have htick : t.Tick s =
        { s with
          calls := s.calls ++ [Callback.OnError c .RESOLVER_TIMEOUT (cstr "Request timed out")]
          Classes := setSlot s.Classes t.watchid none
          requests := setSlot s.requests t.watchid none
          freed := t.watch :: s.freed } := by
      simp only [RequestTimeout.Tick, if_pos hcond, hc]
    rw [htick]
    refine ⟨rfl, by simp [setSlot], by simp [setSlot], ?_, rfl, ?_⟩
    · intro j hj
      simp [setSlot, hj]
    · simp [RequestTimeout.Tick, setSlot]
  · intro t s h
    simp only [RequestTimeout.Tick, if_neg h]

/-- The timer of the request `0x1234` fires while the request is in flight,
and in the state right after its reply was handled, where the slot is
empty. -/
theorem Tick_timeout_witness :
    (RequestTimeout.Tick { secs := 5, watch := 1, watchid := 0x1234 } exampleInFlight).calls =
        [Callback.OnError exampleConsumer .RESOLVER_TIMEOUT (cstr "Request timed out")] ∧
      (RequestTimeout.Tick { secs := 5, watch := 1, watchid := 0x1234 } exampleInFlight).Classes
        0x1234 = none ∧
      RequestTimeout.Tick { secs := 5, watch := 1, watchid := 0x1234 } exampleAnswered =
        exampleAnswered := by
  have h := Tick_timeout.1 { secs := 5, watch := 1, watchid := 0x1234 } exampleInFlight
    exampleRequest exampleConsumer rfl rfl rfl
  refine ⟨h.1, h.2.2.1, ?_⟩
  exact Tick_timeout.2 { secs := 5, watch := 1, watchid := 0x1234 } exampleAnswered (by decide)

set_option maxRecDepth 1000000 in
/-- C11 fails in its second half.  `GetIP("example.invalid")` makes the
request `0x1234` at address 1 with its timer; the reply is handled, the
consumer gets its answer, `GetResult` deletes the request, and the timer stays
in the timer list.  A second lookup, `GetIP("other.invalid")`, draws the id
`0x1234` again and `new` gives its request the address just freed.  When the
timer of the first request now fires, the slot no longer holds the request it
was made for (that reply was processed), but `requests[watchid] == watch`
compares addresses and holds: the consumer of the second lookup receives
`OnError(RESOLVER_TIMEOUT, "Request timed out")` and both slots are
emptied. -/
theorem Tick_stale_timer :
    ((GetIP exampleDNS examplePrng 4 33 (cstr "example.invalid")).map (fun x => x.1)
        = some 0x1234 ∧
      exampleFirst.requests 0x1234 = some exampleRequest ∧ exampleRequest.ptr = 1 ∧
      exampleFirst.Classes 0x1234 = some exampleConsumer ∧
      exampleFirst.timers = [{ secs := 5, watch := 1, watchid := 0x1234 }]) ∧
    (HandleEvent exampleFirst (some exampleReply) 1000 (fun _ => []) 0
        = .done exampleFirstAnswered ∧
      exampleFirstAnswered.calls
        = [Callback.OnLookupComplete exampleConsumer (cstr "192.0.2.1") 300 false] ∧
      exampleFirstAnswered.requests 0x1234 = none ∧
      exampleFirstAnswered.Classes 0x1234 = none ∧
      exampleFirstAnswered.freed = [1] ∧
      exampleFirstAnswered.timers = [{ secs := 5, watch := 1, watchid := 0x1234 }]) ∧
    ((GetIP exampleFirstAnswered examplePrng 4 31 (cstr "other.invalid")).map (fun x => x.1)
        = some 0x1234 ∧
      exampleSecond.requests 0x1234
        = some { ptr := 1, id := (0x12, 0x34), res := [0], rr_class := 1, type := DNS_QUERY_A,
                 ttl := 0, orig := cstr "other.invalid" } ∧
      exampleSecond.Classes 0x1234 = some exampleLaterConsumer ∧
      exampleSecond.timers = [{ secs := 5, watch := 1, watchid := 0x1234 },
                              { secs := 5, watch := 1, watchid := 0x1234 }]) ∧
    ((RequestTimeout.Tick { secs := 5, watch := 1, watchid := 0x1234 } exampleSecond).calls
        = exampleSecond.calls ++
          [Callback.OnError exampleLaterConsumer .RESOLVER_TIMEOUT (cstr "Request timed out")] ∧
      (RequestTimeout.Tick { secs := 5, watch := 1, watchid := 0x1234 } exampleSecond).requests
        0x1234 = none ∧
      (RequestTimeout.Tick { secs := 5, watch := 1, watchid := 0x1234 } exampleSecond).Classes
        0x1234 = none) := by
  refine ⟨⟨by decide, by decide, rfl, by decide, by decide⟩,
    ⟨rfl, by decide, by decide, by decide, by decide, by decide⟩,
    ⟨by decide, by decide, by decide, by decide⟩, by decide, by decide, by decide⟩

/-! ## Replies refused by the checks of the flags -/

theorem or_error_mask (x : Nat) (h : x < 65536) : x ||| ERROR_MASK = x + 65536 := by
  have h2 : 65536 * 1 + x = 65536 * 1 ||| x := Nat.mul_add_lt_is_or (show x < 2 ^ 16 from h) 1
  simp only [ERROR_MASK]
  rw [Nat.lor_comm]
  simp only [Nat.mul_one] at h2
  omega

theorem Datagram.id_lt (d : Datagram) (h0 : d.buffer.getD 0 0 < 256)
    (h1 : d.buffer.getD 1 0 < 256) : d.id < 65536 := by
  simp only [Datagram.id, Nat.shiftLeft_eq]
  omega

/-- What `GetResult` returns when `FillHeader` stayed inside the header and
`ResultIsReady` gives no data for the request the datagram names: the id with
the error bit, the message, the request slot emptied and the request
deleted. -/
theorem GetResult_error (s : DNS) (d : Datagram) (inet_ntop6 : List Nat → List Nat)
    (fuel : Nat) (req req2 : DNSRequest) (msg : List Nat) (header : DNSHeader)
    (hlen : 12 ≤ d.buffer.length)
    (hsrc : s.ip6munge = true ∨
      (d.port_from = 53 ∧ strcasecmpNe d.ipaddr_from s.DNSServer = false))
    (hreq : s.requests d.id = some req)
    (hfill : FillHeader d.buffer (d.buffer.length - 12) = some header)
    (hr : ResultIsReady req header d.buffer.length fuel = .done ((none, msg), req2)) :
    GetResult s (some d) inet_ntop6 fuel
      = .done ({ id := ((d.id ||| ERROR_MASK : Nat) : Int), result := msg, ttl := 0,
                 original := req2.orig },
               { s with requests := setSlot s.requests d.id none
                        freed := req2.ptr :: s.freed }) := by
  unfold GetResult
  simp only
  have h12 : ¬ recvLength (some d) < 12 := by simp only [recvLength]; omega
  have hs : ¬ ((!s.ip6munge) = true ∧
      (d.port_from ≠ QUERY_PORT ∨ strcasecmpNe d.ipaddr_from s.DNSServer = true)) := by
    rcases hsrc with h | ⟨h1, h2⟩
    · simp [h]
    · simp [h1, h2, QUERY_PORT]
  have hl : (recvLength (some d) - 12).toNat = d.buffer.length - 12 := by
    simp only [recvLength]; omega
  have hid : header.id.2 + (header.id.1 <<< 8) = d.id := Datagram.id_FillHeader d _ header hfill
  have hrl : recvLength (some d) = (d.buffer.length : Int) := rfl
  simp only [if_neg h12, if_neg hs, hl, hfill, hid, hreq]
  rw [hrl, hr]

/-- The replies refused by the checks of the flags: for a reply that passes
the checks of length and source, whose payload `FillHeader` could copy into
the header (a datagram of at most 524 bytes), that names an in-flight request
and has QR clear, or else OPCODE bits set, or else a non-zero RCODE, or else
ANCOUNT zero, `ResultIsReady` returns no data with the message "Not a query
result", "Unexpected value in DNS reply packet", "Domain name not found", "No
resource records returned" of the first of these checks that fails, and
`HandleEvent` makes one callback, `OnError(RESOLVER_NXDOMAIN, message)` on the
consumer registered under the id, empties the consumer slot and the request
slot, and leaves the cache and every other slot as they were. -/
theorem HandleEvent_flag_error (s : DNS) (d : Datagram) (now : Nat)
    (inet_ntop6 : List Nat → List Nat) (fuel : Nat) (req : DNSRequest) (c : Resolver)
    (msg : List Nat) (header : DNSHeader)
    (hlen : 12 ≤ d.buffer.length)
    (hsrc : s.ip6munge = true ∨
      (d.port_from = 53 ∧ strcasecmpNe d.ipaddr_from s.DNSServer = false))
    (hoct : d.buffer.getD 0 0 < 256 ∧ d.buffer.getD 1 0 < 256)
    (hreq : s.requests d.id = some req) (hc : s.Classes d.id = some c)
    (hfill : FillHeader d.buffer (d.buffer.length - 12) = some header)
    (hcase :
      (header.flags1 &&& 0x80 = 0 ∧ msg = cstr "Not a query result") ∨
      (header.flags1 &&& 0x80 ≠ 0 ∧ header.flags1 &&& 0x78 ≠ 0 ∧
        msg = cstr "Unexpected value in DNS reply packet") ∨
      (header.flags1 &&& 0x80 ≠ 0 ∧ header.flags1 &&& 0x78 = 0 ∧ header.flags2 &&& 0x0F ≠ 0 ∧
        msg = cstr "Domain name not found") ∨
      (header.flags1 &&& 0x80 ≠ 0 ∧ header.flags1 &&& 0x78 = 0 ∧ header.flags2 &&& 0x0F = 0 ∧
        header.ancount = 0 ∧ msg = cstr "No resource records returned")) :
    d.buffer.length ≤ 524 ∧
    ResultIsReady req header d.buffer.length fuel = .done ((none, msg), req) ∧
    ∃ s2, HandleEvent s (some d) now inet_ntop6 fuel = .done s2 ∧
      s2.calls = s.calls ++ [Callback.OnError c .RESOLVER_NXDOMAIN msg] ∧
      s2.Classes d.id = none ∧ s2.requests d.id = none ∧ s2.cache = s.cache ∧
      (∀ j, j ≠ d.id → s2.requests j = s.requests j ∧ s2.Classes j = s.Classes j) := by
  have hsize : d.buffer.length ≤ 524 := by
    have := (FillHeader_some _ _ _ hfill).1
    omega
  have hr : ResultIsReady req header d.buffer.length fuel = .done ((none, msg), req) := by
    unfold ResultIsReady
    simp only [FLAGS_MASK_QR, FLAGS_MASK_OPCODE, FLAGS_MASK_RCODE]
    rcases hcase with ⟨h1, hm⟩ | ⟨h1, h2, hm⟩ | ⟨h1, h2, h3, hm⟩ | ⟨h1, h2, h3, h4, hm⟩
    · rw [if_pos h1, hm]
    · rw [if_neg h1, if_pos h2, hm]
    · rw [if_neg h1, if_neg (not_not.mpr h2), if_pos h3, hm]
    · rw [if_neg h1, if_neg (not_not.mpr h2), if_neg (not_not.mpr h3),
        if_pos (by rw [h4]; decide), hm]
  refine ⟨hsize, hr, ?_⟩
  have hg := GetResult_error s d inet_ntop6 fuel req req msg header hlen hsrc hreq hfill hr
  have hlt := Datagram.id_lt d hoct.1 hoct.2
  have hor := or_error_mask d.id hlt
  have hne : ((d.id ||| ERROR_MASK : Nat) : Int) ≠ -1 := by omega
  have hbit : ((d.id ||| ERROR_MASK : Nat) : Int).toNat &&& ERROR_MASK ≠ 0 := by
    rw [Int.toNat_ofNat, or_and_self_mask]; decide
  have hback : (((d.id ||| ERROR_MASK : Nat) : Int) - (ERROR_MASK : Nat)).toNat = d.id := by
    rw [hor]; simp only [ERROR_MASK]; omega
  have hex : ∃ s2, HandleEvent s (some d) now inet_ntop6 fuel = .done s2 := by
    simp only [HandleEvent, hg, hne, ne_eq, not_false_eq_true, if_true, hbit, hback, hc]
    exact ⟨_, rfl⟩
  obtain ⟨s2, h2⟩ := hex
  refine ⟨s2, h2, ?_⟩
  simp only [HandleEvent, hg, hne, ne_eq, not_false_eq_true, if_true, hbit, hback, hc,
    Outcome.done.injEq] at h2
  subst h2
  refine ⟨rfl, by simp [setSlot], by simp [setSlot], rfl, ?_⟩
  intro j hj
  simp [setSlot, hj]

/-- The reply with RCODE 3 to the request `0x1234` in flight. -/
theorem HandleEvent_flag_error_witness :
    ∃ s2, HandleEvent exampleInFlight (some exampleNXDomain) 1000 (fun _ => []) 0 = .done s2 ∧
      s2.calls = [Callback.OnError exampleConsumer .RESOLVER_NXDOMAIN
        (cstr "Domain name not found")] ∧
      s2.Classes 0x1234 = none ∧ s2.requests 0x1234 = none ∧ s2.cache = [] :=
  have h := HandleEvent_flag_error exampleInFlight exampleNXDomain 1000 (fun _ => []) 0
    exampleRequest exampleConsumer (cstr "Domain name not found") _ (by decide)
    (Or.inr ⟨rfl, by decide⟩) (by decide) rfl rfl rfl
    (Or.inr (Or.inr (Or.inl ⟨by decide, by decide, by decide, rfl⟩)))
  match h.2.2 with
  | ⟨s2, h1, h2, h3, h4, h5, _⟩ => ⟨s2, h1, h2, h3, h4, h5⟩

set_option maxRecDepth 1000000 in
/-- C16 fails on a reply within the 540 bytes `GetResult` receives.
`exampleOversizeQuery` has 530 bytes, comes from the configured server and
port 53, carries the id `0x1234` of the request in flight, and has QR clear.
Before `ResultIsReady` tests QR, `GetResult` has called
`FillHeader(&header, buffer, length - 12)`, whose `memcpy` of 518 bytes runs
past the 512 bytes of `header.payload`: the request does not fail with
`Not a query result`; `GetResult` has written outside the header on its
stack, and neither it nor `HandleEvent` returns in a defined state.  The same
reply cut to 524 bytes fails as the claim says. -/
theorem HandleEvent_flag_overrun :
    (exampleOversizeQuery.buffer.length = 530 ∧ exampleOversizeQuery.port_from = 53 ∧
      strcasecmpNe exampleOversizeQuery.ipaddr_from exampleInFlight.DNSServer = false ∧
      exampleOversizeQuery.id = 0x1234 ∧
      exampleInFlight.requests 0x1234 = some exampleRequest ∧
      exampleInFlight.Classes 0x1234 = some exampleConsumer ∧
      exampleOversizeQuery.buffer.getD 2 0 &&& FLAGS_MASK_QR = 0) ∧
    (FillHeader exampleOversizeQuery.buffer (exampleOversizeQuery.buffer.length - 12) = none ∧
      (∀ fuel, GetResult exampleInFlight (some exampleOversizeQuery) (fun _ => []) fuel
        = .fault) ∧
      (∀ now fuel, HandleEvent exampleInFlight (some exampleOversizeQuery) now (fun _ => []) fuel
        = .fault)) ∧
    (∃ s2,
      HandleEvent exampleInFlight
          (some { exampleOversizeQuery with buffer := exampleOversizeQuery.buffer.take 524 })
          1000 (fun _ => []) 0 = .done s2 ∧
      s2.calls = [Callback.OnError exampleConsumer .RESOLVER_NXDOMAIN
        (cstr "Not a query result")]) := by
  have h := fun fuel => GetResult_overrun exampleInFlight exampleOversizeQuery (fun _ => [])
    fuel (Or.inr ⟨rfl, by decide⟩) (by decide)
  refine ⟨⟨by decide, rfl, by decide, by decide, by decide, by decide, by decide⟩,
    ⟨(h 0).1, fun fuel => (h fuel).2, ?_⟩, ⟨_, rfl, by decide⟩⟩
  intro now fuel
  unfold HandleEvent
  rw [(h fuel).2]

/-! ## C18: the text of an AAAA answer -/

theorem decodeRData_type (req : DNSRequest) (header : DNSHeader) (length : Int) (fuel : Nat)
    (i : Int) (rr : ResourceRecord) (x : Option (List Nat) × List Nat) (req2 : DNSRequest)
    (h : decodeRData req header length fuel i rr = .done (x, req2)) : req2.type = req.type := by
  unfold decodeRData at h
  split_ifs at h
  · split at h
    · simp at h
    · simp at h
    · split_ifs at h
      simp only [Outcome.done.injEq, Prod.mk.injEq] at h
      obtain ⟨_, h2⟩ := h
      subst h2
      rfl
  · simp only [Outcome.done.injEq, Prod.mk.injEq] at h
    obtain ⟨_, h2⟩ := h
    subst h2
    rfl

theorem parseAnswers_type (req : DNSRequest) (header : DNSHeader) (length : Int) (fuel : Nat)
    (x : Option (List Nat) × List Nat) (req2 : DNSRequest)
    (h : parseAnswers req header length fuel = .done (x, req2)) : req2.type = req.type := by
  unfold parseAnswers at h
  split at h
  · simp only [Outcome.done.injEq, Prod.mk.injEq] at h
    obtain ⟨_, h2⟩ := h
    subst h2
    rfl
  · split_ifs at h
    · simp only [Outcome.done.injEq, Prod.mk.injEq] at h
      obtain ⟨_, h2⟩ := h
      subst h2
      rfl
    · simp only [Outcome.done.injEq, Prod.mk.injEq] at h
      obtain ⟨_, h2⟩ := h
      subst h2
      rfl
    · simp only [Outcome.done.injEq, Prod.mk.injEq] at h
      obtain ⟨_, h2⟩ := h
      subst h2
      rfl
    · exact decodeRData_type _ _ _ _ _ _ _ _ h |>.trans rfl

/-- `ResultIsReady` never changes the type of the request. -/
theorem ResultIsReady_type (req : DNSRequest) (header : DNSHeader) (length : Int) (fuel : Nat)
    (x : Option (List Nat) × List Nat) (req2 : DNSRequest)
    (h : ResultIsReady req header length fuel = .done (x, req2)) : req2.type = req.type := by
  unfold ResultIsReady at h
  split_ifs at h
  · simp only [Outcome.done.injEq, Prod.mk.injEq] at h
    obtain ⟨_, h2⟩ := h
    subst h2
    rfl
  · simp only [Outcome.done.injEq, Prod.mk.injEq] at h
    obtain ⟨_, h2⟩ := h
    subst h2
    rfl
  · simp only [Outcome.done.injEq, Prod.mk.injEq] at h
    obtain ⟨_, h2⟩ := h
    subst h2
    rfl
  · simp only [Outcome.done.injEq, Prod.mk.injEq] at h
    obtain ⟨_, h2⟩ := h
    subst h2
    rfl
  · exact parseAnswers_type _ _ _ _ _ _ h

/-- The text the AAAA case builds never begins with a colon. -/
theorem formatAAAA_head (formatted : List Nat) : (formatAAAA formatted).head? ≠ some 58 := by
  unfold formatAAAA
  simp only
  split_ifs with h
  · simp [cstr]
  · exact h

/-- A text without `":0:"` comes out of the `strstr` block as `inet_ntop` wrote
it. -/
theorem squeezeZeroGroups_none (formatted : List Nat)
    (h : strstr (cstr ":0:") formatted = none) : squeezeZeroGroups formatted = formatted := by
  simp only [squeezeZeroGroups, h]

/-- C18: for a request of type AAAA, every result `GetResult` returns without
the error bit is made from the 16 address bytes `ResultIsReady` handed over.
With `formatted` the text `inet_ntop` wrote for them, as it stands after the
block on `":0:"` (which leaves a text without `":0:"` untouched), the result
is `formatted` with a '0' put in front when `formatted` begins with ':', and
`formatted` itself when it does not; so the result never begins with ':',
and `::1` is delivered as `0::1`. -/
theorem GetResult_AAAA_text (s : DNS) (d : Datagram) (inet_ntop6 : List Nat → List Nat)
    (fuel : Nat) (req : DNSRequest) (res : DNSResult) (s1 : DNS)
    (hreq : s.requests d.id = some req) (htype : req.type = DNS_QUERY_AAAA)
    (hres : GetResult s (some d) inet_ntop6 fuel = .done (res, s1))
    (hid : res.id ≠ -1) (hok : res.id.toNat &&& ERROR_MASK = 0) :
    ∃ (header : DNSHeader) (first msg : List Nat) (req2 : DNSRequest),
      FillHeader d.buffer (d.buffer.length - 12) = some header ∧
      ResultIsReady req header d.buffer.length fuel = .done ((some first, msg), req2) ∧
      16 ≤ first.length ∧
      ((squeezeZeroGroups (inet_ntop6 (first.take 16))).head? = some 58 →
        res.result = 48 :: squeezeZeroGroups (inet_ntop6 (first.take 16))) ∧
      ((squeezeZeroGroups (inet_ntop6 (first.take 16))).head? ≠ some 58 →
        res.result = squeezeZeroGroups (inet_ntop6 (first.take 16))) ∧
      (strstr (cstr ":0:") (inet_ntop6 (first.take 16)) = none →
        squeezeZeroGroups (inet_ntop6 (first.take 16)) = inet_ntop6 (first.take 16)) ∧
      res.result.head? ≠ some 58 ∧
      (inet_ntop6 (first.take 16) = cstr "::1" → res.result = cstr "0::1") := by
  unfold GetResult at hres
  simp only at hres
  split_ifs at hres with h1 h2
  · simp only [Outcome.done.injEq, Prod.mk.injEq] at hres
    rw [← hres.1] at hid; exact absurd rfl hid
  · simp only [Outcome.done.injEq, Prod.mk.injEq] at hres
    rw [← hres.1] at hid; exact absurd rfl hid
  · have hl : (recvLength (some d) - 12).toNat = d.buffer.length - 12 := by
      simp only [recvLength]; omega
    rw [hl] at hres
    cases hfill : FillHeader d.buffer (d.buffer.length - 12) with
    | none => simp [hfill] at hres
    | some header =>
      have hidd := Datagram.id_FillHeader d _ header hfill
      simp only [hfill, hidd, hreq] at hres
      split at hres
      · simp at hres
      · simp at hres
      · simp only [Outcome.done.injEq, Prod.mk.injEq] at hres
        rw [← hres.1] at hok
        simp only [Int.toNat_ofNat, or_and_self_mask] at hok
        exact absurd hok (by decide)
      · rename_i first m req2 hr
        have ht : req2.type = DNS_QUERY_AAAA := (ResultIsReady_type _ _ _ _ _ _ hr).trans htype
        have hA : ¬ req2.type = DNS_QUERY_A := by rw [ht]; decide
        simp only [if_neg hA, if_pos ht] at hres
        split_ifs at hres with h16
        simp only [Outcome.done.injEq, Prod.mk.injEq] at hres
        rw [← hres.1]
        refine ⟨header, first, m, req2, rfl, hr, h16, ?_, ?_, squeezeZeroGroups_none _,
          formatAAAA_head _, ?_⟩
        · intro h
          simp only [formatAAAA, h, if_true]
          rfl
        · intro h
          simp only [formatAAAA, if_neg h]
        · intro h
          simp only [h]
          decide

/-- C18 on the reply `AAAA ::1` to the request for `localhost`, with a C
library whose `inet_ntop` writes that address as `::1`. -/
theorem GetResult_AAAA_text_witness :
    ∃ res s1, GetResult exampleInFlight6 (some exampleReply6) (fun _ => cstr "::1") 0
        = .done (res, s1) ∧ res.result = cstr "0::1" ∧ res.result.head? ≠ some 58 :=
  ⟨_, _, rfl, by decide,
    match GetResult_AAAA_text exampleInFlight6 exampleReply6 (fun _ => cstr "::1") 0 _ _ _
      rfl rfl rfl (by decide) (by decide) with
    | ⟨_, _, _, _, _, _, _, _, _, _, h, _⟩ => h⟩

/-! ## C14, C15: the size of a question and its length octets -/

set_option maxRecDepth 1000000 in
/-- C14 (as stated) fails: for the 505-byte name of seven labels of 63 bytes
and one of 57, the encoded name has 507 bytes, which with the 4 octets of
QTYPE and QCLASS is 511, more than 508; `MakePayload` does not return -1 but
511, and has written 511 bytes. -/
theorem MakePayload_accepts_511 :
    exampleLongName.length = 505 ∧
    encodedNameSize (splitDots exampleLongName) + 4 = 511 ∧
    (∀ l ∈ splitDots exampleLongName, l ≠ [] ∧ l.length ≤ 63) ∧
    (MakePayload exampleLongName DNS_QUERY_A 1).map (fun r => (r.1, r.2.length))
      = some (511, 511) := by
  decide

theorem splitDots_piece_length (name : List Nat) :
    ∀ l ∈ splitDots name, l.length ≤ name.length := by
  induction name with
  | nil => simp [splitDots]
  | cons c cs ih =>
    intro l hl
    simp only [splitDots] at hl
    split_ifs at hl with hc
    · simp only [List.mem_cons] at hl
      rcases hl with h | h
      · simp [h]
      · have := ih l h
        simp only [List.length_cons]; omega
    · cases hs : splitDots cs with
      | nil => exact absurd hs (splitDots_ne_nil cs)
      | cons l2 ls2 =>
        rw [hs] at hl ih
        simp only [List.mem_cons] at hl
        rcases hl with h | h
        · have := ih l2 (by simp)
          simp only [h, List.length_cons]; omega
        · have := ih l (by simp [h])
          simp only [List.length_cons]; omega

/-- The label loop keeps `payloadpos` equal to the number of bytes written and
at or below 507. -/
theorem MakePayloadLabels_length (ls : List (List Nat)) (pos : Nat) (payload : List Nat)
    (pos2 : Nat) (payload2 : List Nat)
    (h : MakePayloadLabels ls pos payload = some (pos2, payload2))
    (hp : payload.length = pos) (hpos : pos ≤ 507) :
    payload2.length = pos2 ∧ pos2 ≤ 507 := by
  induction ls generalizing pos payload with
  | nil =>
    simp only [MakePayloadLabels, Option.some.injEq, Prod.mk.injEq] at h
    obtain ⟨h1, h2⟩ := h
    subst h1 h2
    exact ⟨hp, hpos⟩
  | cons l rest ih =>
    have hle : l.length % 65536 ≤ l.length := Nat.mod_le _ _
    cases rest with
    | nil =>
      simp only [MakePayloadLabels] at h
      split_ifs at h with h0 h1
      · simp only [Option.some.injEq, Prod.mk.injEq] at h
        obtain ⟨h2, h3⟩ := h
        subst h2 h3
        simp only [List.length_append, List.length_cons, List.length_nil, List.length_take]
        omega
      · simp only [Option.some.injEq, Prod.mk.injEq] at h
        obtain ⟨h2, h3⟩ := h
        subst h2 h3
        exact ⟨hp, hpos⟩
    | cons l2 rest2 =>
      simp only [MakePayloadLabels] at h
      split_ifs at h with h1
      refine ih _ _ h ?_ (by omega)
      simp only [List.length_append, List.length_cons, List.length_nil, List.length_take]
      omega

/-- On pieces shorter than 65536 bytes the label loop fails exactly when the
encoded name would end above offset 507, and otherwise advances `payloadpos`
by the size of the encoded name. -/
theorem MakePayloadLabels_size (ls : List (List Nat)) (hl : ∀ l ∈ ls, l.length < 65536)
    (pos : Nat) (payload : List Nat) (hpos : pos ≤ 507) :
    (MakePayloadLabels ls pos payload = none ↔ 507 < pos + encodedNameSize ls) ∧
    (∀ pos2 payload2, MakePayloadLabels ls pos payload = some (pos2, payload2) →
      pos2 = pos + encodedNameSize ls) := by
  induction ls generalizing pos payload with
  | nil =>
    simp only [MakePayloadLabels, encodedNameSize]
    refine ⟨by simp; omega, ?_⟩
    intro p2 pl2 h
    simp only [Option.some.injEq, Prod.mk.injEq] at h
    omega
  | cons l rest ih =>
    have hlen : l.length % 65536 = l.length := Nat.mod_eq_of_lt (hl l (by simp))
    cases rest with
    | nil =>
      simp only [MakePayloadLabels, encodedNameSize, hlen]
      by_cases h0 : l = []
      · subst h0
        simp only [List.length_nil, ne_eq, not_true_eq_false, if_false, if_true]
        refine ⟨by simp; omega, ?_⟩
        intro p2 pl2 h
        simp only [Option.some.injEq, Prod.mk.injEq] at h
        omega
      · have h1 : l.length ≠ 0 := fun h => h0 (List.length_eq_zero.mp h)
        simp only [ne_eq, h1, not_false_eq_true, if_true, h0, if_false]
        by_cases h2 : pos + l.length + 2 > 507
        · simp only [h2, if_true, true_iff]
          refine ⟨by omega, ?_⟩
          intro p2 pl2 h
          simp at h
        · simp only [h2, if_false]
          refine ⟨by simp; omega, ?_⟩
          intro p2 pl2 h
          simp only [Option.some.injEq, Prod.mk.injEq] at h
          omega
    | cons l2 rest2 =>
      have hsz : encodedNameSize (l :: l2 :: rest2)
          = l.length + 1 + encodedNameSize (l2 :: rest2) := by
        simp only [encodedNameSize]
      simp only [MakePayloadLabels, hlen, hsz]
      by_cases h1 : pos + l.length + 1 > 507
      · simp only [h1, if_true, true_iff]
        refine ⟨by omega, ?_⟩
        intro p2 pl2 h
        simp at h
      · simp only [h1, if_false]
        have hi := ih (fun x hx => hl x (by simp at hx ⊢; tauto)) (pos + 1 + l.length)
          (payload ++ [l.length % 256] ++ List.take l.length l) (by omega)
        refine ⟨by rw [hi.1]; omega, ?_⟩
        intro p2 pl2 h
        have := hi.2 p2 pl2 h
        omega

/-- C14 (amended): whenever `MakePayload` does not return -1 it returns the
number of payload bytes it wrote, and that number is at most 511; for a name
shorter than 65536 bytes it returns -1 exactly when the encoded name alone
(without the 4 octets of QTYPE and QCLASS) is more than 507 bytes long, and
otherwise returns the size of the encoded name plus 4. -/
theorem MakePayload_bound :
    (∀ (name : List Nat) (rr rr_class n : Nat) (payload : List Nat),
      MakePayload name rr rr_class = some (n, payload) → n = payload.length ∧ n ≤ 511) ∧
    (∀ (name : List Nat) (rr rr_class : Nat), name.length < 65536 →
      (MakePayload name rr rr_class = none ↔ 507 < encodedNameSize (splitDots name)) ∧
      (∀ n payload, MakePayload name rr rr_class = some (n, payload) →
        n = encodedNameSize (splitDots name) + 4)) := by
  refine ⟨?_, ?_⟩
  · intro name rr rr_class n payload h
    unfold MakePayload at h
    cases hm : MakePayloadLabels (splitDots name) 0 [] with
    | none => simp [hm] at h
    | some r =>
      obtain ⟨pos, pl⟩ := r
      simp only [hm] at h
      split_ifs at h
      simp only [Option.some.injEq, Prod.mk.injEq] at h
      obtain ⟨hn, hp⟩ := h
      have := MakePayloadLabels_length _ 0 [] pos pl hm rfl (by omega)
      subst hn hp
      simp only [htons2, List.length_append, List.length_cons, List.length_nil]
      omega
  · intro name rr rr_class hlen
    have hl : ∀ l ∈ splitDots name, l.length < 65536 := fun l h =>
      lt_of_le_of_lt (splitDots_piece_length name l h) hlen
    have hs := MakePayloadLabels_size (splitDots name) hl 0 [] (by omega)
    simp only [Nat.zero_add] at hs
    unfold MakePayload
    cases hm : MakePayloadLabels (splitDots name) 0 [] with
    | none =>
      refine ⟨⟨fun _ => hs.1.mp hm, fun _ => rfl⟩, ?_⟩
      intro n payload h
      simp at h
    | some r =>
      obtain ⟨pos, pl⟩ := r
      have hle := (MakePayloadLabels_length _ 0 [] pos pl hm rfl (by omega)).2
      have hpos := hs.2 pos pl hm
      have hnot : ¬ pos > 508 := by omega
      simp only [if_neg hnot]
      refine ⟨?_, ?_⟩
      · constructor
        · intro h; simp at h
        · intro h; omega
      · intro n payload h
        simp only [Option.some.injEq, Prod.mk.injEq] at h
        omega

set_option maxRecDepth 1000000 in
/-- C14 (amended) on the 505-byte name, accepted with 511 bytes, and on the
same name with one more byte, refused. -/
theorem MakePayload_bound_witness :
    (MakePayload exampleLongName DNS_QUERY_A 1).map (fun r => r.1) = some 511 ∧
    (exampleLongName ++ [97]).length < 65536 ∧
    507 < encodedNameSize (splitDots (exampleLongName ++ [97])) ∧
    MakePayload (exampleLongName ++ [97]) DNS_QUERY_A 1 = none :=
  ⟨by decide, by decide, by decide,
    ((MakePayload_bound.2 (exampleLongName ++ [97]) DNS_QUERY_A 1 (by decide)).1).mpr
      (by decide)⟩

set_option maxRecDepth 1000000 in
/-- C15 (as stated) fails: for the name that is one label of 192 bytes
`MakePayload` succeeds, the length octet it stores at offset 0 is 192, which is
more than 63 and has its top two bits set. -/
theorem MakePayload_long_label :
    ∃ n payload, MakePayload exampleLongLabel DNS_QUERY_A 1 = some (n, payload) ∧
      lengthOctetPositions (splitDots exampleLongLabel) 0 = [(0, exampleLongLabel)] ∧
      payload.getD 0 0 = 192 ∧ 63 < payload.getD 0 0 ∧ payload.getD 0 0 &&& 0xC0 = 0xC0 :=
  ⟨_, _, rfl, by decide, by decide, by decide, by decide⟩

/-- What the label loop leaves at the offsets where it stores a length: the
length of the piece as an `unsigned short`, cut to an octet. -/
theorem MakePayloadLabels_length_octets (ls : List (List Nat)) (pos : Nat) (payload : List Nat)
    (pos2 : Nat) (payload2 : List Nat)
    (h : MakePayloadLabels ls pos payload = some (pos2, payload2))
    (hp : payload.length = pos) :
    (∃ w, payload2 = payload ++ w) ∧
    ∀ q ∈ lengthOctetPositions ls pos, payload2[q.1]? = some (q.2.length % 65536 % 256) := by
  induction ls generalizing pos payload with
  | nil =>
    simp only [MakePayloadLabels, Option.some.injEq, Prod.mk.injEq] at h
    refine ⟨⟨[], by simp [h.2]⟩, ?_⟩
    simp [lengthOctetPositions]
  | cons l rest ih =>
    have hle : l.length % 65536 ≤ l.length := Nat.mod_le _ _
    cases rest with
    | nil =>
      simp only [MakePayloadLabels] at h
      simp only [lengthOctetPositions]
      split_ifs at h with h0 h1
      · simp only [Option.some.injEq, Prod.mk.injEq] at h
        obtain ⟨h2, h3⟩ := h
        subst h3
        refine ⟨⟨_, by simp only [List.append_assoc]; rfl⟩, ?_⟩
        intro q hq
        rw [if_pos h0] at hq
        simp only [List.mem_singleton] at hq
        subst hq
        simp only [List.append_assoc, List.singleton_append]
        rw [← hp, List.getElem?_append_right (le_refl _)]
        simp
      · simp only [Option.some.injEq, Prod.mk.injEq] at h
        refine ⟨⟨[], by simp [h.2]⟩, ?_⟩
        intro q hq
        rw [if_neg h0] at hq
        simp at hq
    | cons l2 rest2 =>
      simp only [MakePayloadLabels] at h
      split_ifs at h with h1
      have hlen : (payload ++ [l.length % 65536 % 256] ++ List.take (l.length % 65536) l).length
          = pos + 1 + l.length % 65536 := by
        simp only [List.length_append, List.length_cons, List.length_nil, List.length_take]
        omega
      obtain ⟨⟨w, hw⟩, hq⟩ := ih _ _ h hlen
      refine ⟨⟨_, by rw [hw]; simp only [List.append_assoc]; rfl⟩, ?_⟩
      intro q hmem
      rw [lengthOctetPositions] at hmem
      · simp only [List.mem_cons] at hmem
        rcases hmem with hm | hm
        · subst hm
          rw [hw]
          simp only [List.append_assoc, List.singleton_append]
          rw [← hp, List.getElem?_append_right (le_refl _)]
          simp
        · exact hq q hm
      · simp

theorem and_top_bits : ∀ o ≤ 63, o &&& 0xC0 = 0 := by
  decide

/-- C15 (amended): for every name whose pieces between the dots are at most 63
bytes long and for which `MakePayload` succeeds, the octet of the emitted
question at every offset where a label length is stored is the length of that
label, is at most 63 and has its top two bits clear.  (`MakePayload` itself
does not check the length of a label.) -/
theorem MakePayload_length_octets (name : List Nat) (rr rr_class n : Nat) (payload : List Nat)
    (h : MakePayload name rr rr_class = some (n, payload))
    (hl : ∀ l ∈ splitDots name, l.length ≤ 63) :
    ∀ q ∈ lengthOctetPositions (splitDots name) 0,
      q.2 ∈ splitDots name ∧ payload[q.1]? = some q.2.length ∧ q.2.length ≤ 63 ∧
      q.2.length &&& 0xC0 = 0 := by
  have hsub : ∀ (ls : List (List Nat)) (pos : Nat), ∀ q ∈ lengthOctetPositions ls pos,
      q.2 ∈ ls := by
    intro ls
    induction ls with
    | nil => intro pos q hq; simp [lengthOctetPositions] at hq
    | cons l rest ih =>
      intro pos q hq
      cases rest with
      | nil =>
        simp only [lengthOctetPositions] at hq
        split_ifs at hq
        · simp only [List.mem_singleton] at hq
          subst hq; simp
        · simp at hq
      | cons l2 rest2 =>
        rw [lengthOctetPositions] at hq
        · simp only [List.mem_cons] at hq
          rcases hq with hq | hq
          · subst hq; simp
          · have := ih _ q hq
            simp only [List.mem_cons] at this ⊢
            exact Or.inr this
        · simp
  intro q hq
  have hmem := hsub _ _ q hq
  have h63 := hl _ hmem
  unfold MakePayload at h
  cases hm : MakePayloadLabels (splitDots name) 0 [] with
  | none => simp [hm] at h
  | some r =>
    obtain ⟨pos, pl⟩ := r
    simp only [hm] at h
    split_ifs at h
    simp only [Option.some.injEq, Prod.mk.injEq] at h
    obtain ⟨_, hp⟩ := h
    have ho := (MakePayloadLabels_length_octets _ 0 [] pos pl hm rfl).2 q hq
    have hlt : q.1 < pl.length := by
      by_contra hc
      rw [List.getElem?_eq_none (by omega)] at ho
      simp at ho
    have e1 : q.2.length % 65536 % 256 = q.2.length := by omega
    refine ⟨hmem, ?_, h63, and_top_bits _ h63⟩
    rw [← hp, List.append_assoc, List.getElem?_append_left hlt, ho, e1]

set_option maxRecDepth 100000 in
/-- C15 (amended) on `example.invalid`: the length octets are at offsets 0 and
8, and both are 7. -/
theorem MakePayload_length_octets_witness :
    ∃ n payload, MakePayload (cstr "example.invalid") DNS_QUERY_A 1 = some (n, payload) ∧
      (∀ l ∈ splitDots (cstr "example.invalid"), l.length ≤ 63) ∧
      (lengthOctetPositions (splitDots (cstr "example.invalid")) 0).map (fun q => q.1) = [0, 8] ∧
      ∀ q ∈ lengthOctetPositions (splitDots (cstr "example.invalid")) 0,
        q.2 ∈ splitDots (cstr "example.invalid") ∧ payload[q.1]? = some q.2.length ∧
        q.2.length ≤ 63 ∧ q.2.length &&& 0xC0 = 0 :=
  ⟨_, _, rfl, by decide, by decide,
    MakePayload_length_octets (cstr "example.invalid") DNS_QUERY_A 1 _ _ rfl (by decide)⟩

/-! ## C13: the numeric of `CannotSendTo` -/

set_option maxRecDepth 100000 in
theorem CannotSendTo_format :
    cstr "You cannot send %s to this channel whilst the +%c (%s) mode is set."
      = cstr "You cannot send " ++ 37 :: 115 :: (cstr " to this channel whilst the +"
          ++ 37 :: 99 :: (cstr " (" ++ 37 :: 115 :: cstr ") mode is set.")) := by
  decide

/-- Bytes of a format string that are not `%` are copied. -/
theorem FormatLoop_literal (a rest : List Nat) (args : List FormatArg) (h : 37 ∉ a) :
    FormatLoop (a ++ rest) args = a ++ FormatLoop rest args := by
  induction a with
  | nil => rfl
  | cons b a ih =>
    have hb : b ≠ 37 := fun e => h (by simp [e])
    have ha : 37 ∉ a := fun e => h (by simp [e])
    rw [List.cons_append, List.cons_append, ← ih ha]
    cases hr : a ++ rest with
    | nil => simp [FormatLoop]
    | cons d r => simp [FormatLoop, hb]

theorem c_str_id (s : List Nat) (h : 0 ∉ s) : c_str s = s := by
  unfold c_str
  rw [List.takeWhile_eq_self_iff]
  intro b hb
  simp only [ne_eq, decide_eq_true_eq]
  intro e
  exact h (e ▸ hb)

theorem FormatLoop_s (s : List Nat) (rest : List Nat) (args : List FormatArg) :
    FormatLoop (37 :: 115 :: rest) (.str s :: args) = c_str s ++ FormatLoop rest args := by
  simp [FormatLoop]

theorem FormatLoop_c (c : Nat) (rest : List Nat) (args : List FormatArg) :
    FormatLoop (37 :: 99 :: rest) (.chr c :: args) = c :: FormatLoop rest args := by
  simp [FormatLoop]

/-- C13: for every channel, every text `what` and every mode handler (texts
being C strings, without a zero byte, and the mode character not zero),
`CannotSendTo(chan, what, mh)` is the numeric 404 with exactly two parameters,
the channel name and the text "You cannot send <what> to this channel whilst
the +<mode char> (<mode name>) mode is set.". -/
theorem CannotSendTo_params (chan : Channel) (what : List Nat) (mh : ModeHandler)
    (hw : 0 ∉ what) (hn : 0 ∉ mh.name) (hc : mh.mode ≠ 0) :
    CannotSendTo chan what mh =
      { numeric := 404
        params := [chan.name,
          cstr "You cannot send " ++ what ++ cstr " to this channel whilst the +" ++ [mh.mode]
            ++ cstr " (" ++ mh.name ++ cstr ") mode is set."] } := by
  have e1 : (37 : Nat) ∉ cstr "You cannot send " := by decide
  have e2 : (37 : Nat) ∉ cstr " to this channel whilst the +" := by decide
  have e3 : (37 : Nat) ∉ cstr " (" := by decide
  have e4 : (37 : Nat) ∉ cstr ") mode is set." := by decide
  have z1 : (0 : Nat) ∉ cstr "You cannot send " := by decide
  have z2 : (0 : Nat) ∉ cstr " to this channel whilst the +" := by decide
  have z3 : (0 : Nat) ∉ cstr " (" := by decide
  have z4 : (0 : Nat) ∉ cstr ") mode is set." := by decide
  have e5 : FormatLoop (cstr ") mode is set.") [] = cstr ") mode is set." := by
    have := FormatLoop_literal (cstr ") mode is set.") [] [] e4
    simpa [FormatLoop] using this
  have hexp : FormatLoop
      (cstr "You cannot send %s to this channel whilst the +%c (%s) mode is set.")
      [.str what, .chr mh.mode, .str mh.name]
      = cstr "You cannot send " ++ what ++ cstr " to this channel whilst the +" ++ [mh.mode]
            ++ cstr " (" ++ mh.name ++ cstr ") mode is set." := by
    rw [CannotSendTo_format, FormatLoop_literal _ _ _ e1, FormatLoop_s,
      FormatLoop_literal _ _ _ e2, FormatLoop_c, FormatLoop_literal _ _ _ e3, FormatLoop_s, e5,
      c_str_id _ hw, c_str_id _ hn]
    simp only [List.append_assoc, List.singleton_append, List.cons_append, List.nil_append]
  have hz : (0 : Nat) ∉ cstr "You cannot send " ++ what ++ cstr " to this channel whilst the +"
      ++ [mh.mode] ++ cstr " (" ++ mh.name ++ cstr ") mode is set." := by
    simp only [List.mem_append, List.mem_singleton, not_or]
    exact ⟨⟨⟨⟨⟨⟨z1, hw⟩, z2⟩, fun e => hc e.symm⟩, z3⟩, hn⟩, z4⟩
  simp only [CannotSendTo, Format, hexp, c_str_id _ hz, Numeric.new, Numeric.push,
    ERR_CANNOTSENDTOCHAN, List.nil_append, List.cons_append]

set_option maxRecDepth 100000 in
/-- C13 on channel `#x`, "CTCPs" and mode `n` named `noextmsg`. -/
theorem CannotSendTo_params_witness :
    CannotSendTo exampleChannel (cstr "CTCPs") exampleMode =
      { numeric := 404
        params := [cstr "#x", cstr
          "You cannot send CTCPs to this channel whilst the +n (noextmsg) mode is set."] } :=
  (CannotSendTo_params exampleChannel (cstr "CTCPs") exampleMode (by decide) (by decide)
    (by decide)).trans (by decide)

/-! ## C12: the network form of an item -/

/-- C12: for a synced item `ToNetwork(c, v)` is `ToInternal(c, v)` and
`FromNetwork(c, s)` does what `FromInternal(c, s)` does; for an item that is
not synced `ToNetwork` is the empty string for every value and `FromNetwork`
leaves the container (and the record of calls) as it was; and for a synced
string item on a container of its type, after `Set(U, v)` the network form of
the stored value is `v`, and `FromNetwork(U2, v)` makes `Get(U2)` equal
`v`. -/
theorem SimpleExtItem_sync_gating :
    (∀ {α : Type} (it : SimpleExtItem) (ToInternal : Extensible α → Option α → List Nat)
        (FromInternal : ExtState α → List Nat → ExtState α) (st : ExtState α)
        (v : Option α) (s : List Nat),
      (it.synced = true →
        it.ToNetwork ToInternal st.container v = ToInternal st.container v ∧
        it.FromNetwork FromInternal st s = FromInternal st s) ∧
      (it.synced = false →
        it.ToNetwork ToInternal st.container v = [] ∧
        it.FromNetwork FromInternal st s = st)) ∧
    (∀ (it : SimpleExtItem) (U U2 : ExtState (List Nat)) (v : List Nat) (sync : Bool),
      it.synced = true → U.container.extype = it.extype → U2.container.extype = it.extype →
      it.ToNetwork StringExtItem.ToInternal (it.SetCopy U v sync).container
          (it.Get (it.SetCopy U v sync).container) = v ∧
      it.Get (it.FromNetwork (StringExtItem.FromInternal it) U2 v).container = some v) := by
  refine ⟨?_, ?_⟩
  · intro α it TI FI st v s
    refine ⟨fun h => ?_, fun h => ?_⟩
    · simp [SimpleExtItem.ToNetwork, SimpleExtItem.FromNetwork, h]
    · simp [SimpleExtItem.ToNetwork, SimpleExtItem.FromNetwork, h]
  · intro it U U2 v sync hs hU hU2
    have hget : ∀ (W : ExtState (List Nat)) (b : Bool), W.container.extype = it.extype →
        it.Get (it.SetCopy W v b).container = some v := by
      intro W b hW
      simp only [SimpleExtItem.SetCopy, if_pos hW, SimpleExtItem.Get, SimpleExtItem.GetRaw]
      rw [(SimpleExtItem.Set_extensions it W (some v) b).2.1, if_pos hW]
      simp [setSlot]
    refine ⟨?_, ?_⟩
    · rw [hget U sync hU]
      simp [SimpleExtItem.ToNetwork, hs, StringExtItem.ToInternal]
    · simp only [SimpleExtItem.FromNetwork, hs, if_true, StringExtItem.FromInternal]
      exact hget U2 false hU2

/-- C12 on the synced item and on the item that is not synced, both for
users, and the text "brb". -/
theorem SimpleExtItem_sync_gating_witness :
    exampleItem.ToNetwork StringExtItem.ToInternal
        (exampleItem.SetCopy examplePeer (cstr "brb") true).container
        (exampleItem.Get (exampleItem.SetCopy examplePeer (cstr "brb") true).container)
      = cstr "brb" ∧
    exampleItem.Get (exampleItem.FromNetwork (StringExtItem.FromInternal exampleItem)
        examplePeer (cstr "brb")).container = some (cstr "brb") ∧
    exampleLocalItem.ToNetwork StringExtItem.ToInternal examplePeer.container
        (some (cstr "brb")) = [] ∧
    exampleLocalItem.Get (exampleLocalItem.FromNetwork
        (StringExtItem.FromInternal exampleLocalItem) examplePeer (cstr "brb")).container
      = none :=
  have h := SimpleExtItem_sync_gating.2 exampleItem examplePeer examplePeer (cstr "brb") true
    rfl rfl rfl
  have g := (SimpleExtItem_sync_gating.1 exampleLocalItem StringExtItem.ToInternal
    (StringExtItem.FromInternal exampleLocalItem) examplePeer (some (cstr "brb"))
    (cstr "brb")).2 rfl
  ⟨h.1, h.2, g.1, by rw [g.2]; rfl⟩

/-! ## C20, C19: unloading a module, and the one terminal callback -/

theorem CleanResolverSlot_other (module : Nat) (s : DNS) (i j : Nat) (h : j ≠ i) :
    (CleanResolverSlot module s i).Classes j = s.Classes j := by
  unfold CleanResolverSlot
  split
  · split_ifs
    · simp [setSlot, h]
    · rfl
  · rfl

/-- What the body of the loop adds to the record of callbacks at index `i`. -/
theorem CleanResolverSlot_calls (module : Nat) (s : DNS) (i : Nat) :
    (CleanResolverSlot module s i).calls = s.calls ++
      ((s.Classes i).filter (fun c => c.Creator = module)).toList.map (fun c =>
        Callback.OnError c .RESOLVER_FORCEUNLOAD (cstr "Parent module is unloading")) ∧
    (CleanResolverSlot module s i).Classes i
      = (s.Classes i).filter (fun c => ¬ c.Creator = module) ∧
    (CleanResolverSlot module s i).requests = s.requests := by
  unfold CleanResolverSlot
  cases hc : s.Classes i with
  | none => simp [hc]
  | some c =>
    by_cases hm : c.Creator = module
    · simp [hm, setSlot, Option.filter]
    · simp [hm, hc, Option.filter]

/-- The loop over a list of distinct indices: the slots outside the list are
not touched, the slots in the list lose the consumers of `module`, and those
consumers are called in the order of the list. -/
theorem CleanResolvers_fold (module : Nat) (l : List Nat) (hn : l.Nodup) (s : DNS) :
    (∀ j, j ∉ l → (l.foldl (CleanResolverSlot module) s).Classes j = s.Classes j) ∧
    (∀ j, j ∈ l → (l.foldl (CleanResolverSlot module) s).Classes j
      = (s.Classes j).filter (fun c => ¬ c.Creator = module)) ∧
    (l.foldl (CleanResolverSlot module) s).calls = s.calls ++
      (l.map (fun i => ((s.Classes i).filter (fun c => c.Creator = module)).toList.map
        (fun c => Callback.OnError c .RESOLVER_FORCEUNLOAD
          (cstr "Parent module is unloading")))).flatten ∧
    (l.foldl (CleanResolverSlot module) s).requests = s.requests := by
  induction l generalizing s with
  | nil => simp
  | cons i l ih =>
    have hi : i ∉ l := (List.nodup_cons.mp hn).1
    obtain ⟨h1, h2, h3, h4⟩ := ih (List.nodup_cons.mp hn).2 (CleanResolverSlot module s i)
    obtain ⟨c1, c2, c3⟩ := CleanResolverSlot_calls module s i
    simp only [List.foldl_cons]
    refine ⟨?_, ?_, ?_, ?_⟩
    · intro j hj
      simp only [List.mem_cons, not_or] at hj
      rw [h1 j hj.2, CleanResolverSlot_other module s i j hj.1]
    · intro j hj
      by_cases hji : j = i
      · subst hji
        rw [h1 j hi, c2]
      · have hjl : j ∈ l := by
          simp only [List.mem_cons] at hj
          rcases hj with h | h
          · exact absurd h hji
          · exact h
        rw [h2 j hjl, CleanResolverSlot_other module s i j hji]
    · rw [h3, c1, List.map_cons, List.flatten_cons, List.append_assoc]
      congr 2
      apply congrArg
      apply List.map_congr_left
      intro k hk
      have hki : k ≠ i := fun e => hi (e ▸ hk)
      rw [CleanResolverSlot_other module s i k hki]
    · rw [h4, c3]

theorem flatten_map_single {β : Type} (l : List Nat) (hn : l.Nodup) (g : Nat → List β)
    (k : Nat) (v : β) (hk : k ∈ l) (hg : g k = [v]) (ho : ∀ i ∈ l, i ≠ k → g i = []) :
    (l.map g).flatten = [v] := by
  induction l with
  | nil => simp at hk
  | cons i l ih =>
    have hi : i ∉ l := (List.nodup_cons.mp hn).1
    simp only [List.map_cons, List.flatten_cons]
    by_cases hik : i = k
    · subst hik
      have hrest : (l.map g).flatten = [] := by
        rw [List.flatten_eq_nil_iff]
        intro x hx
        obtain ⟨j, hj, rfl⟩ := List.mem_map.mp hx
        exact ho j (by simp [hj]) (fun e => hi (e ▸ hj))
      rw [hg, hrest]; rfl
    · have hkl : k ∈ l := by
        simp only [List.mem_cons] at hk
        rcases hk with h | h
        · exact absurd h.symm hik
        · exact h
      rw [ho i (by simp) hik, ih (List.nodup_cons.mp hn).2 hkl
        (fun j hj hjk => ho j (by simp [hj]) hjk)]
      rfl

/-- `CleanResolvers` visits the slots below `MAX_REQUEST_ID` and no other:
those lose the consumers of `module`, each called once, in the order of the
slots; the slots from `MAX_REQUEST_ID` on and the request table are left as
they were. -/
theorem CleanResolvers_slots (s : DNS) (module : Nat) :
    (∀ j, MAX_REQUEST_ID ≤ j → (CleanResolvers s module).Classes j = s.Classes j) ∧
    (∀ j, j < MAX_REQUEST_ID → (CleanResolvers s module).Classes j
      = (s.Classes j).filter (fun c => ¬ c.Creator = module)) ∧
    (CleanResolvers s module).calls = s.calls ++
      ((List.range MAX_REQUEST_ID).map (fun i =>
        ((s.Classes i).filter (fun c => c.Creator = module)).toList.map
          (fun c => Callback.OnError c .RESOLVER_FORCEUNLOAD
            (cstr "Parent module is unloading")))).flatten ∧
    (CleanResolvers s module).requests = s.requests := by
  obtain ⟨h1, h2, h3, h4⟩ :=
    CleanResolvers_fold module (List.range MAX_REQUEST_ID) (List.nodup_range _) s
  refine ⟨?_, ?_, ?_, ?_⟩
  · intro j hj
    have hnot : j ∉ List.range MAX_REQUEST_ID := fun h =>
      absurd (List.mem_range.mp h) (Nat.not_lt.mpr hj)
    have := h1 j hnot
    rw [CleanResolvers]
    exact this
  · intro j hj
    have := h2 j (List.mem_range.mpr hj)
    rw [CleanResolvers]
    exact this
  · rw [CleanResolvers]
    exact h3
  · rw [CleanResolvers]
    exact h4

/-- C20 (the code at the failing input): `AddQuery` allocates the id 65535
when the generator draws it; with a consumer of module 7 registered under
65535, another of module 7 under `0x1234` and one of module 8 under 5,
`CleanResolvers(7)` makes one callback only, on the consumer under `0x1234`,
and leaves the consumer under 65535 registered without calling it. -/
theorem CleanResolvers_misses_last :
    (AddQuery exampleDNS (fun _ => 0xFFFF) 1 exampleHeader 0 (cstr "last.invalid")).map
        (fun r => r.id) = some 65535 ∧
    exampleUnload.Classes 65535 = some exampleLastConsumer ∧
    exampleLastConsumer.Creator = 7 ∧
    (CleanResolvers exampleUnload 7).Classes 65535 = some exampleLastConsumer ∧
    (CleanResolvers exampleUnload 7).calls =
      [Callback.OnError exampleConsumer .RESOLVER_FORCEUNLOAD
        (cstr "Parent module is unloading")] ∧
    (CleanResolvers exampleUnload 7).Classes 0x1234 = none ∧
    (CleanResolvers exampleUnload 7).Classes 5 = some exampleOtherConsumer := by
  obtain ⟨h1, h2, h3, _⟩ := CleanResolvers_slots exampleUnload 7
  have hM : MAX_REQUEST_ID = 65535 := rfl
  refine ⟨rfl, rfl, rfl, ?_, ?_, ?_, ?_⟩
  · exact h1 65535 (by rw [hM])
  · rw [h3]
    have hcalls : exampleUnload.calls = [] := rfl
    rw [hcalls, List.nil_append]
    refine flatten_map_single _ (List.nodup_range _) _ 0x1234 _
      (List.mem_range.mpr (by rw [hM]; decide)) (by decide) ?_
    intro i hi hne
    have hlt : i < MAX_REQUEST_ID := List.mem_range.mp hi
    rw [hM] at hlt
    by_cases h5 : i = 5
    · subst h5; decide
    · have hc : exampleUnload.Classes i = none := by
        have h6 : i ≠ 65535 := by omega
        simp [exampleUnload, exampleDNS, DNS.init, setSlot, h5, h6, hne]
      rw [hc]; rfl
  · exact (h2 0x1234 (by rw [hM]; decide)).trans (by decide)
  · exact (h2 5 (by rw [hM]; decide)).trans (by decide)

theorem and_error_mask (x : Nat) (h : x < 65536) : x &&& ERROR_MASK = 0 := by
  apply Nat.eq_of_testBit_eq
  intro i
  have hm : ERROR_MASK = 2 ^ 16 := rfl
  rw [Nat.testBit_and, hm, Nat.testBit_two_pow, Nat.zero_testBit]
  by_cases hi : 16 = i
  · subst hi
    rw [Nat.testBit_lt_two_pow (show x < 2 ^ 16 from h)]
    rfl
  · simp [hi]

theorem terminalCalls_append (c : Resolver) (calls : List Callback) (cb : Callback) :
    terminalCalls c (calls ++ [cb]) = terminalCalls c calls + (if cb.consumer = c then 1 else 0) := by
  unfold terminalCalls
  rw [List.filter_append, List.length_append]
  by_cases h : cb.consumer = c
  · simp [h, List.filter]
  · simp [h, List.filter]

theorem SlotVisits_trans (s0 s1 s2 : DNS) (h1 : SlotVisits s0 s1) (h2 : SlotVisits s1 s2) :
    SlotVisits s0 s2 := by
  induction h2 with
  | start => exact h1
  | next s s3 _ h ih => exact SlotVisits.next s s3 ih h

theorem CleanResolverSlot_visit (module : Nat) (s : DNS) (i : Nat) :
    SlotVisit s (CleanResolverSlot module s i) := by
  unfold CleanResolverSlot
  cases hc : s.Classes i with
  | none => exact Or.inl ⟨rfl, rfl, rfl⟩
  | some c =>
    by_cases hm : c.Creator = module
    · simp only [hm, if_true]
      exact Or.inr ⟨i, Or.inl rfl, Or.inr
        ⟨Callback.OnError c .RESOLVER_FORCEUNLOAD (cstr "Parent module is unloading"),
          hc, rfl, rfl⟩⟩
    · simp only [hm, if_false]
      exact Or.inl ⟨rfl, rfl, rfl⟩

theorem CleanResolvers_visits (s : DNS) (module : Nat) :
    SlotVisits s (CleanResolvers s module) := by
  have h : ∀ (l : List Nat) (s : DNS), SlotVisits s (l.foldl (CleanResolverSlot module) s) := by
    intro l
    induction l with
    | nil => intro s; exact SlotVisits.start
    | cons i l ih =>
      intro s
      rw [List.foldl_cons]
      exact SlotVisits_trans _ _ _
        (SlotVisits.next _ _ SlotVisits.start (CleanResolverSlot_visit module s i)) (ih _)
  have := h (List.range MAX_REQUEST_ID) s
  rw [CleanResolvers]
  exact this

theorem Tick_visit (t : RequestTimeout) (s : DNS) : SlotVisit s (t.Tick s) := by
  unfold RequestTimeout.Tick
  split_ifs with h
  · cases hc : s.Classes t.watchid with
    | none => exact Or.inr ⟨t.watchid, Or.inr rfl, Or.inl ⟨hc, rfl, rfl⟩⟩
    | some c =>
      exact Or.inr ⟨t.watchid, Or.inr rfl, Or.inr
        ⟨Callback.OnError c .RESOLVER_TIMEOUT (cstr "Request timed out"), hc, rfl, rfl⟩⟩
  · exact Or.inl ⟨rfl, rfl, rfl⟩

/-- The handling of a datagram whose id octets are octets is one visit of the
slot of that id (or changes nothing). -/
theorem HandleEvent_visit (s : DNS) (recv : Option Datagram) (now : Nat)
    (inet_ntop6 : List Nat → List Nat) (fuel : Nat) (s2 : DNS)
    (hoct : ∀ d, recv = some d → d.buffer.getD 0 0 < 256 ∧ d.buffer.getD 1 0 < 256)
    (h : HandleEvent s recv now inet_ntop6 fuel = .done s2) : SlotVisit s s2 := by
  cases hg : GetResult s recv inet_ntop6 fuel with
  | nofuel => simp [HandleEvent, hg] at h
  | fault => simp [HandleEvent, hg] at h
  | done r =>
    obtain ⟨res, s1⟩ := r
    rcases GetResult_done s recv inet_ntop6 fuel res s1 hg with
      ⟨h1, hs1⟩ | ⟨d, req, hrecv, hreq, hs1, hrid, _⟩
    · simp only [HandleEvent, hg, h1, ne_eq, not_true_eq_false, if_false,
        Outcome.done.injEq] at h
      subst h hs1
      exact Or.inl ⟨rfl, rfl, rfl⟩
    · have hlt := Datagram.id_lt d (hoct d hrecv).1 (hoct d hrecv).2
      have hcl : s1.Classes d.id = s.Classes d.id := by rw [hs1]
      rcases hrid with hid | hid
      · have hne : res.id ≠ -1 := by rw [hid]; omega
        have hto : res.id.toNat = d.id := by rw [hid]; simp
        have hok : d.id &&& ERROR_MASK = 0 := and_error_mask _ hlt
        cases hc : s.Classes d.id with
        | none =>
          simp only [HandleEvent, hg, hne, ne_eq, not_false_eq_true, if_true, hto, hok,
            not_true_eq_false, if_false, hcl, hc, Outcome.done.injEq] at h
          subst h hs1
          exact Or.inr ⟨d.id, Or.inr rfl, Or.inl ⟨hc, rfl, rfl⟩⟩
        | some c =>
          simp only [HandleEvent, hg, hne, ne_eq, not_false_eq_true, if_true, hto, hok,
            not_true_eq_false, if_false, hcl, hc, Outcome.done.injEq] at h
          subst h hs1
          refine Or.inr ⟨d.id, Or.inr ?_, Or.inr
            ⟨Callback.OnLookupComplete c res.result res.ttl false, hc, ?_, ?_⟩⟩
          · split_ifs <;> rfl
          · split_ifs <;> rfl
          · split_ifs <;> rfl
      · have hor := or_error_mask d.id hlt
        have hne : res.id ≠ -1 := by rw [hid]; omega
        have hbit : res.id.toNat &&& ERROR_MASK ≠ 0 := by
          rw [hid, Int.toNat_ofNat, or_and_self_mask]; decide
        have hback : (res.id - (ERROR_MASK : Nat)).toNat = d.id := by
          rw [hid, hor]; simp only [ERROR_MASK]; omega
        cases hc : s.Classes d.id with
        | none =>
          simp only [HandleEvent, hg, hne, ne_eq, not_false_eq_true, if_true, hbit, hback,
            hcl, hc, Outcome.done.injEq] at h
          subst h hs1
          exact Or.inr ⟨d.id, Or.inr rfl, Or.inl ⟨hc, rfl, rfl⟩⟩
        | some c =>
          simp only [HandleEvent, hg, hne, ne_eq, not_false_eq_true, if_true, hbit, hback,
            hcl, hc, Outcome.done.injEq] at h
          subst h hs1
          exact Or.inr ⟨d.id, Or.inr rfl, Or.inr
            ⟨Callback.OnError c .RESOLVER_NXDOMAIN res.result, hc, rfl, rfl⟩⟩

/-- One visit keeps the consumers pending, and keeps the account of the
consumers and requests of an earlier state `s0`: a consumer of `s0` is still
in its slot, or its slot is empty and it was called once; a request of `s0`
that is gone has left an empty consumer slot. -/
theorem SlotVisit_preserves (s0 s s2 : DNS) (hinv : s.ConsumersPending)
    (hR : ∀ i c, s0.Classes i = some c →
      s.Classes i = some c ∨ (s.Classes i = none ∧ terminalCalls c s.calls = 1))
    (hQ : ∀ i, s0.requests i ≠ none → s.requests i = none → s.Classes i = none)
    (h : SlotVisit s s2) :
    s2.ConsumersPending ∧
    (∀ i c, s0.Classes i = some c →
      s2.Classes i = some c ∨ (s2.Classes i = none ∧ terminalCalls c s2.calls = 1)) ∧
    (∀ i, s0.requests i ≠ none → s2.requests i = none → s2.Classes i = none) := by
  rcases h with ⟨hr, hc, hk⟩ | ⟨i, hreq, hvis⟩
  · refine ⟨?_, ?_, ?_⟩
    · unfold DNS.ConsumersPending; rw [hc, hk]; exact hinv
    · rw [hc, hk]; exact hR
    · rw [hc, hr]; exact hQ
  · rcases hvis with ⟨hnone, hc, hk⟩ | ⟨cb, hsome, hc, hk⟩
    · refine ⟨?_, ?_, ?_⟩
      · unfold DNS.ConsumersPending; rw [hc, hk]; exact hinv
      · rw [hc, hk]; exact hR
      · intro j hj0 hj2
        rw [hc]
        rcases hreq with hr | hr
        · rw [hr] at hj2; exact hQ j hj0 hj2
        · by_cases hji : j = i
          · rw [hji]; exact hnone
          · rw [hr] at hj2
            simp only [setSlot, if_neg hji] at hj2
            exact hQ j hj0 hj2
    · have hcb := hinv.1 i cb.consumer hsome
      have hcount : ∀ c, terminalCalls c s2.calls
          = terminalCalls c s.calls + (if cb.consumer = c then 1 else 0) := by
        intro c; rw [hk]; exact terminalCalls_append c s.calls cb
      refine ⟨⟨?_, ?_⟩, ?_, ?_⟩
      · intro j c hj
        rw [hc] at hj
        by_cases hji : j = i
        · simp [setSlot, hji] at hj
        · simp only [setSlot, if_neg hji] at hj
          have hjc := hinv.1 j c hj
          have hne : cb.consumer ≠ c := by
            intro e
            have h1 := hcb.1
            rw [e, hjc.1] at h1
            exact hji (by exact_mod_cast h1)
          refine ⟨hjc.1, ?_⟩
          rw [hcount c, if_neg hne, hjc.2]
      · intro c
        rw [hcount c]
        by_cases e : cb.consumer = c
        · rw [if_pos e, ← e, hcb.2]
        · rw [if_neg e]; exact hinv.2 c
      · intro j c hj0
        rcases hR j c hj0 with hj | ⟨hj, hcnt⟩
        · by_cases hji : j = i
          · right
            have e : cb.consumer = c := by
              rw [hji, hsome] at hj
              exact Option.some.inj hj
            refine ⟨by rw [hc, hji]; simp [setSlot], ?_⟩
            rw [hcount c, if_pos e, ← e, hcb.2]
          · left
            rw [hc]; simp only [setSlot, if_neg hji]; exact hj
        · right
          have hne : cb.consumer ≠ c := by
            intro e
            rw [← e, hcb.2] at hcnt
            exact absurd hcnt (by decide)
          refine ⟨?_, ?_⟩
          · rw [hc]
            by_cases hji : j = i
            · simp [setSlot, hji]
            · simp only [setSlot, if_neg hji]; exact hj
          · rw [hcount c, if_neg hne, hcnt]
      · intro j hj0 hj2
        rw [hc]
        by_cases hji : j = i
        · simp [setSlot, hji]
        · simp only [setSlot, if_neg hji]
          rcases hreq with hr | hr
          · rw [hr] at hj2; exact hQ j hj0 hj2
          · rw [hr] at hj2
            simp only [setSlot, if_neg hji] at hj2
            exact hQ j hj0 hj2

theorem SlotVisits_preserves (s0 s s2 : DNS) (hinv : s.ConsumersPending)
    (hR : ∀ i c, s0.Classes i = some c →
      s.Classes i = some c ∨ (s.Classes i = none ∧ terminalCalls c s.calls = 1))
    (hQ : ∀ i, s0.requests i ≠ none → s.requests i = none → s.Classes i = none)
    (h : SlotVisits s s2) :
    s2.ConsumersPending ∧
    (∀ i c, s0.Classes i = some c →
      s2.Classes i = some c ∨ (s2.Classes i = none ∧ terminalCalls c s2.calls = 1)) ∧
    (∀ i, s0.requests i ≠ none → s2.requests i = none → s2.Classes i = none) := by
  induction h with
  | start => exact ⟨hinv, hR, hQ⟩
  | next s3 s4 _ hv ih => exact SlotVisit_preserves s0 s3 s4 ih.1 ih.2.1 ih.2.2 hv

theorem EndStep_visits (s s2 : DNS) (h : DNS.EndStep s s2) : SlotVisits s s2 := by
  match s2, h with
  | _, .reply _ recv now inet_ntop6 fuel s3 hoct h =>
    exact SlotVisits.next _ _ SlotVisits.start
      (HandleEvent_visit s recv now inet_ntop6 fuel s3 hoct h)
  | _, .timeout _ t => exact SlotVisits.next _ _ SlotVisits.start (Tick_visit t s)
  | _, .unload _ module => exact CleanResolvers_visits s module

/-- C19: from a state in which every registered consumer sits in the slot of
its own id and has received no callback (and no consumer more than one), after
every sequence of reply handling (`HandleEvent`), timer firing
(`RequestTimeout::Tick`) and module unload (`CleanResolvers`) steps, no
consumer has received more than one callback; every consumer registered at the
start is either still in its slot with no callback received, or its slot is
empty and it has received exactly one `OnLookupComplete` or `OnError`; and
every request of the start that has been ended has left the consumer slot of
its id empty. -/
theorem one_terminal_callback (s0 s : DNS) (h0 : s0.ConsumersPending)
    (h : DNS.Ending s0 s) :
    (∀ c, terminalCalls c s.calls ≤ 1) ∧
    (∀ i c, s0.Classes i = some c →
      (s.Classes i = some c ∧ terminalCalls c s.calls = 0) ∨
      (s.Classes i = none ∧ terminalCalls c s.calls = 1)) ∧
    (∀ i, s0.requests i ≠ none → s.requests i = none → s.Classes i = none) := by
  have key : s.ConsumersPending ∧
      (∀ i c, s0.Classes i = some c →
        s.Classes i = some c ∨ (s.Classes i = none ∧ terminalCalls c s.calls = 1)) ∧
      (∀ i, s0.requests i ≠ none → s.requests i = none → s.Classes i = none) := by
    induction h with
    | start => exact ⟨h0, fun i c hc => Or.inl hc, fun i hne hn => absurd hn hne⟩
    | next s1 s2 _ hstep ih =>
      exact SlotVisits_preserves s0 s1 s2 ih.1 ih.2.1 ih.2.2 (EndStep_visits s1 s2 hstep)
  obtain ⟨hinv, hR, hQ⟩ := key
  refine ⟨hinv.2, ?_, hQ⟩
  intro i c hc
  rcases hR i c hc with h1 | h1
  · exact Or.inl ⟨h1, (hinv.1 i c h1).2⟩
  · exact Or.inr h1

theorem exampleInFlight_pending : exampleInFlight.ConsumersPending := by
  refine ⟨?_, fun c => Nat.zero_le _⟩
  intro i c h
  by_cases hi : i = 0x1234
  · subst hi
    have e : c = exampleConsumer := (Option.some.inj h).symm
    subst e
    exact ⟨rfl, rfl⟩
  · simp [exampleInFlight, exampleDNS, DNS.init, setSlot, hi] at h

/-- C19 on the request `0x1234` in flight: its reply is handled, then its
timer fires, then module 7 is unloaded. -/
theorem one_terminal_callback_witness :
    (∀ c, terminalCalls c
      (CleanResolvers (RequestTimeout.Tick { secs := 5, watch := 1, watchid := 0x1234 }
        exampleAnswered) 7).calls ≤ 1) ∧
    (∀ i c, exampleInFlight.Classes i = some c →
      ((CleanResolvers (RequestTimeout.Tick { secs := 5, watch := 1, watchid := 0x1234 }
          exampleAnswered) 7).Classes i = some c ∧
        terminalCalls c (CleanResolvers (RequestTimeout.Tick
          { secs := 5, watch := 1, watchid := 0x1234 } exampleAnswered) 7).calls = 0) ∨
      ((CleanResolvers (RequestTimeout.Tick { secs := 5, watch := 1, watchid := 0x1234 }
          exampleAnswered) 7).Classes i = none ∧
        terminalCalls c (CleanResolvers (RequestTimeout.Tick
          { secs := 5, watch := 1, watchid := 0x1234 } exampleAnswered) 7).calls = 1)) :=
  have hreply : DNS.EndStep exampleInFlight exampleAnswered :=
    DNS.EndStep.reply exampleInFlight (some exampleReply) 1000 (fun _ => []) 0 exampleAnswered
      (fun d hd => by cases hd; decide) rfl
  have h := one_terminal_callback exampleInFlight _ exampleInFlight_pending
    (DNS.Ending.next _ _ (DNS.Ending.next _ _ (DNS.Ending.next _ _ DNS.Ending.start hreply)
      (DNS.EndStep.timeout _ { secs := 5, watch := 1, watchid := 0x1234 }))
      (DNS.EndStep.unload _ 7))
  ⟨h.1, h.2.1⟩

/-! ## C17: the name of a CNAME or PTR answer -/

theorem joinOnto_length (ls : List (List Nat)) (out : List Nat) :
    out.length ≤ (joinOnto out ls).length := by
  induction ls generalizing out with
  | nil => simp [joinOnto]
  | cons l ls ih =>
    simp only [joinOnto]
    refine le_trans ?_ (ih _)
    split_ifs <;> simp

/-- On a name that `readName` can read and whose text fits the 512-byte
result buffer with its terminator, the loop of the CNAME/PTR case produces the
labels joined with dots, given at least the fuel `readName` needed. -/
theorem decodeNameLoop_readName (payload : List Nat) :
    ∀ (fuel0 i : Nat) (labels : List (List Nat)) (out : List Nat) (fuel : Nat),
      readName payload fuel0 i = some labels → fuel0 ≤ fuel →
      (joinOnto out labels).length ≤ 511 →
      decodeNameLoop payload payload.length fuel (i : Int) out = .done (joinOnto out labels) := by
  intro fuel0
  induction fuel0 with
  | zero => intro i labels out fuel h; simp [readName] at h
  | succ f0 ih =>
    intro i labels out fuel h hfuel hfit
    cases fuel with
    | zero => omega
    | succ f =>
      have hf : f0 ≤ f := by omega
      have hpa : payloadAt payload (i : Int) = payload.getD i 0 := payloadAt_cast payload i
      have hpa1 : payloadAt payload ((i : Int) + 1) = payload.getD (i + 1) 0 := by
        have := payloadAt_cast payload (i + 1)
        rwa [Nat.cast_add, Nat.cast_one] at this
      have hout := joinOnto_length labels out
      simp only [readName] at h
      split_ifs at h with hi h0 h63 hin hptr
      · -- the zero octet
        simp only [Option.some.injEq] at h
        subst h
        have hg : (i : Int) < payload.length ∧ out.length + 256 < 1023 := by
          simp only [joinOnto] at hfit; constructor <;> omega
        have hneg : ¬ ((i : Int) < 0) := by omega
        simp only [decodeNameLoop, hg, and_self, if_true, hneg, if_false, hpa, h0,
          gt_iff_lt, Nat.not_lt_zero, joinOnto]
      · -- a label
        cases hr : readName payload f0 (i + 1 + payload.getD i 0) with
        | none => rw [hr] at h; exact absurd h (by simp)
        | some ls =>
          rw [hr] at h
          simp only [Option.map_some', Option.some.injEq] at h
          subst h
          simp only [joinOnto] at hfit hout ⊢
          have hlab : ((payload.drop (i + 1)).take (payload.getD i 0)).length
              = payload.getD i 0 := by
            rw [List.length_take, List.length_drop]; omega
          have hmono := joinOnto_length ls
            ((if out.length ≠ 0 then out ++ [DOT] else out)
              ++ (payload.drop (i + 1)).take (payload.getD i 0))
          have hg : (i : Int) < payload.length ∧ out.length + 256 < 1023 := by
            constructor
            · omega
            · have : out.length ≤ ((if out.length ≠ 0 then out ++ [DOT] else out)
                  ++ (payload.drop (i + 1)).take (payload.getD i 0)).length := by
                split_ifs <;> simp
              omega
          have hneg : ¬ ((i : Int) < 0) := by omega
          have hn63 : ¬ (payload.getD i 0 > 63) := by omega
          have hw : (i : Int) + (payload.getD i 0 : Nat) < payload.length ∧
              (if out.length ≠ 0 then out ++ [DOT] else out).length + payload.getD i 0 ≤ 512 := by
            constructor
            · omega
            · rw [List.length_append, hlab] at hmono; omega
          have hnext := ih (i + 1 + payload.getD i 0) ls _ f hr hf hfit
          have hcast : ((i + 1 + payload.getD i 0 : Nat) : Int)
              = (i : Int) + (payload.getD i 0 : Nat) + 1 := by push_cast; omega
          rw [hcast] at hnext
          simp only [decodeNameLoop, hg, and_self, if_true, hneg, if_false, hpa, hn63, h0, hw,
            Int.toNat_ofNat]
          exact hnext
      · -- a compression pointer
        obtain ⟨hc0, h256, hi1, hp2, h12, hearlier⟩ := hptr
        have hfit0 := hfit
        have hg : (i : Int) < payload.length ∧ out.length + 256 < 1023 := by
          constructor <;> omega
        have hneg : ¬ ((i : Int) < 0) := by omega
        have hgt : payload.getD i 0 > 63 := by omega
        have hi1' : (i : Int) + 1 < payload.length := by omega
        have hnext := ih _ labels out f h hf hfit
        have hcast : (((payload.getD i 0 - 0xC0) * 256 + payload.getD (i + 1) 0 - 12 : Nat) : Int)
            = (((payload.getD i 0 * 256 + payload.getD (i + 1) 0) % 65536 : Nat) : Int)
                - 0xC000 - 12 := by
          have e : (payload.getD i 0 * 256 + payload.getD (i + 1) 0) % 65536
              = payload.getD i 0 * 256 + payload.getD (i + 1) 0 := Nat.mod_eq_of_lt (by omega)
          rw [e]; push_cast; omega
        rw [hcast] at hnext
        simp only [decodeNameLoop, hg, and_self, if_true, hneg, if_false, hpa, hpa1, hgt, hi1']
        exact hnext

theorem joinOnto_nonempty (ls : List (List Nat)) (out : List Nat) (h : out ≠ []) :
    joinOnto out ls = out ++ (ls.map (fun l => DOT :: l)).flatten := by
  induction ls generalizing out with
  | nil => simp [joinOnto]
  | cons l ls ih =>
    have hl : out.length ≠ 0 := fun e => h (List.length_eq_zero.mp e)
    simp only [joinOnto, hl, ne_eq, not_false_eq_true, if_true]
    rw [ih _ (by simp)]
    simp

theorem joinDots_cons (l : List Nat) (ls : List (List Nat)) :
    joinDots (l :: ls) = l ++ (ls.map (fun x => DOT :: x)).flatten := by
  induction ls generalizing l with
  | nil => simp [joinDots]
  | cons l2 ls ih =>
    simp only [joinDots, ih l2]
    simp

/-- Appending labels that are not empty to the empty text joins them with
dots. -/
theorem joinOnto_nil (ls : List (List Nat)) (h : ∀ l ∈ ls, l ≠ []) :
    joinOnto [] ls = joinDots ls := by
  cases ls with
  | nil => simp [joinOnto, joinDots]
  | cons l ls =>
    simp only [joinOnto, List.length_nil, ne_eq, not_true_eq_false, if_false, List.nil_append]
    rw [joinOnto_nonempty ls l (h l (by simp)), joinDots_cons]

/-- The labels `readName` returns are not empty. -/
theorem readName_nonempty (payload : List Nat) :
    ∀ (fuel i : Nat) (labels : List (List Nat)), readName payload fuel i = some labels →
      ∀ l ∈ labels, l ≠ [] := by
  intro fuel
  induction fuel with
  | zero => intro i labels h; simp [readName] at h
  | succ f ih =>
    intro i labels h
    simp only [readName] at h
    split_ifs at h with hi h0 h63 hin hptr
    · simp only [Option.some.injEq] at h
      subst h; simp
    · cases hr : readName payload f (i + 1 + payload.getD i 0) with
      | none => rw [hr] at h; exact absurd h (by simp)
      | some ls =>
        rw [hr] at h
        simp only [Option.map_some', Option.some.injEq] at h
        subst h
        intro l hl
        simp only [List.mem_cons] at hl
        rcases hl with e | e
        · subst e
          intro hnil
          have := congrArg List.length hnil
          rw [List.length_take, List.length_drop] at this
          simp only [List.length_nil] at this
          omega
        · exact ih _ _ hr l e
    · exact ih _ _ h

/-- On a payload made of proper questions and records, `parseAnswers` reaches
the decoding of the first record that has the type and class of the request,
with `i` at its RDATA and its TTL stored. -/
theorem parseAnswers_reach (req : DNSRequest) (header : DNSHeader) (fuel : Nat)
    (qs : List WireQuestion) (skipped : List AnswerRR) (m : AnswerRR) (rest : List Nat)
    (hpay : header.payload = questionsWire qs ++ answersWire skipped ++ m.wire ++ rest)
    (hqd : header.qdcount = qs.length) (hqs : ∀ x ∈ qs, x.WellFormed)
    (hsk : ∀ r ∈ skipped, r.WellFormed ∧ (r.type ≠ req.type ∨ r.rr_class ≠ req.rr_class))
    (hm : m.WellFormed) (hmt : m.type = req.type) (hmc : m.rr_class = req.rr_class)
    (han : skipped.length < header.ancount) (hrd : m.rdata.length ≤ 1023) :
    parseAnswers req header header.payload.length fuel
      = decodeRData { req with ttl := intToUnsignedLong m.ttl } header header.payload.length fuel
          (((questionsWire qs).length + (answersWire skipped).length + m.name.length + 10
            : Nat) : Int)
          { type := m.type, rr_class := m.rr_class, ttl := intToUnsignedLong m.ttl,
            rdlength := m.rdata.length } := by
  have hw := m.wire_length
  have hq := skipQuestions_wire qs header.qdcount [] (answersWire skipped ++ m.wire ++ rest)
    header.payload.length ((header.payload.length : Int)).toNat 0 0 (by simp) hqs
    (by simp [hqd]) (by rw [hpay]; simp only [List.length_append, List.length_nil]; push_cast; omega)
    (by simp)
  have e1 : [] ++ questionsWire qs ++ (answersWire skipped ++ m.wire ++ rest) = header.payload := by
    rw [hpay]; simp
  rw [e1] at hq
  have ha := answerLoop_wire m hm header.ancount req.type req.rr_class hmt hmc skipped
    (questionsWire qs) rest header.payload.length (header.ancount + 1)
    ((([] : List Nat).length : Int) + (questionsWire qs).length) 0
    { type := DNS_QUERY_NONE, rdlength := 0, ttl := 1, rr_class := 0 } (by simp) hsk
    (by omega) (by omega) (by rw [hpay])
  rw [← hpay] at ha
  unfold parseAnswers
  rw [hq, ha]
  have hne : ¬ (0 + skipped.length = header.ancount) := by omega
  have hlen : (header.payload.length : Int)
      = (questionsWire qs).length + (answersWire skipped).length + m.name.length + 10
          + m.rdata.length + rest.length := by
    rw [hpay]; simp only [List.length_append, hw]; push_cast; omega
  have hfit : ¬ ((questionsWire qs).length + ((answersWire skipped).length : Int) + m.name.length
      + 10 + ((m.rdata.length : Nat) : Int) > header.payload.length) := by
    rw [hlen]; omega
  have hbig : ¬ (m.rdata.length > 1023) := by omega
  simp only [hne, if_false, hfit, hbig]
  congr 1

/-- For a record of type CNAME or PTR whose RDATA starts a name that
`readName` can read and whose text is at most 511 bytes long, `parseAnswers`
returns the labels joined with dots. -/
theorem parseAnswers_name (req : DNSRequest) (header : DNSHeader) (fuel0 fuel : Nat)
    (qs : List WireQuestion) (skipped : List AnswerRR) (m : AnswerRR) (rest : List Nat)
    (labels : List (List Nat))
    (hpay : header.payload = questionsWire qs ++ answersWire skipped ++ m.wire ++ rest)
    (hqd : header.qdcount = qs.length) (hqs : ∀ x ∈ qs, x.WellFormed)
    (hsk : ∀ r ∈ skipped, r.WellFormed ∧ (r.type ≠ req.type ∨ r.rr_class ≠ req.rr_class))
    (hm : m.WellFormed) (hmt : m.type = req.type) (hmc : m.rr_class = req.rr_class)
    (han : skipped.length < header.ancount) (hrd : m.rdata.length ≤ 1023)
    (hty : m.type = DNS_QUERY_CNAME ∨ m.type = DNS_QUERY_PTR)
    (hname : readName header.payload fuel0
      ((questionsWire qs).length + (answersWire skipped).length + m.name.length + 10)
        = some labels)
    (hfit : (joinDots labels).length ≤ 511) (hfuel : fuel0 ≤ fuel) :
    parseAnswers req header header.payload.length fuel
      = .done ((some (storeResult req.res (joinDots labels)), cstr "No error"),
               { req with ttl := intToUnsignedLong m.ttl
                          res := storeResult req.res (joinDots labels) }) := by
  rw [parseAnswers_reach req header fuel qs skipped m rest hpay hqd hqs hsk hm hmt hmc han hrd]
  have hj := joinOnto_nil labels (readName_nonempty _ _ _ _ hname)
  have hloop := decodeNameLoop_readName header.payload fuel0 _ labels [] fuel hname hfuel
    (by rw [hj]; exact hfit)
  rw [hj] at hloop
  unfold decodeRData
  simp only [hty, if_true, hloop]
  rw [if_pos (by omega)]

set_option maxRecDepth 1000000 in
/-- C17 (as stated) fails on two replies to a PTR query.  In the first the
RDATA is the labels `a\0b` and `c` ended by the zero octet: the result is `a`,
not the labels joined by '.'.  In the second (481 bytes) the RDATA is the
label `a` and a pointer to an earlier name, itself a label of 63 bytes and a
pointer to the question name of seven labels of 63 bytes: the labels joined
by '.' are 513 bytes, and the decoding writes past the 512 bytes of the
result buffer. -/
theorem GetResult_name_fails :
    (readName (exampleNulReply.buffer.drop 12) 3 (examplePtrQuestion.wire.length + 12)
        = some [[97, 0, 98], [99]] ∧
      (∃ s1, GetResult examplePtrInFlight (some exampleNulReply) (fun _ => []) 3
        = .done ({ id := 0x1234, result := [97], ttl := 3600, original := cstr "192.0.2.1" },
                 s1)) ∧
      [97] ≠ joinDots [[97, 0, 98], [99]]) ∧
    ((readName (exampleLongReply.buffer.drop 12) 12 (exampleLongQuestion.wire.length + 12)).map
        (fun ls => (ls.map List.length, (joinDots ls).length))
        = some ([1, 63, 63, 63, 63, 63, 63, 63, 63], 513) ∧
      exampleLongReply.buffer.length = 481 ∧
      GetResult examplePtrInFlight (some exampleLongReply) (fun _ => []) 12 = .fault) := by
  refine ⟨⟨by decide, ⟨_, rfl⟩, by decide⟩, by decide, by decide, rfl⟩

theorem takeWhile_terminated (out rest : List Nat) (h : 0 ∉ out) :
    (out ++ 0 :: rest).takeWhile (fun b => b ≠ 0) = out := by
  induction out with
  | nil => simp
  | cons b out ih =>
    have hb : b ≠ 0 := fun e => h (by simp [e])
    have ho : 0 ∉ out := fun e => h (by simp [e])
    have hd : decide (b ≠ 0) = true := by simp [hb]
    rw [List.cons_append, List.takeWhile_cons, if_pos hd, ih ho]

theorem joinDots_no_zero (labels : List (List Nat)) (h : ∀ l ∈ labels, 0 ∉ l) :
    0 ∉ joinDots labels := by
  induction labels with
  | nil => simp [joinDots]
  | cons l ls ih =>
    have hl := h l (by simp)
    have hls := ih (fun x hx => h x (by simp [hx]))
    cases ls with
    | nil => simpa [joinDots] using hl
    | cons l2 ls2 =>
      simp only [joinDots] at hls ⊢
      simp only [List.mem_append, List.mem_cons, not_or]
      exact ⟨hl, by decide, hls⟩

/-- C17 (amended): for a reply of at most 524 bytes that passes the source
check, carries the id of an in-flight CNAME or PTR query, has QR set, OPCODE 0
and RCODE 0, and consists of proper questions followed by answer records,
when the RDATA (at most 1023 bytes) of the first record with the type and
class of the request starts a domain name made of length-prefixed labels ended
by a zero octet or by a compression pointer to an earlier such name, whose
labels hold no zero byte and, joined by '.', are at most 511 bytes long, then
with enough fuel `GetResult` returns the id, those labels joined by '.', the
original query and, as TTL, the `int` value of the four TTL octets of the
record widened to `unsigned long`; it empties the request slot and deletes the
request. -/
theorem GetResult_name (s : DNS) (d : Datagram) (req : DNSRequest)
    (id flags1 flags2 an ns ar : Nat) (qs : List WireQuestion) (skipped : List AnswerRR)
    (m : AnswerRR) (rest : List Nat) (labels : List (List Nat)) (fuel0 : Nat)
    (inet_ntop6 : List Nat → List Nat)
    (hsrc : s.ip6munge = true ∨
      (d.port_from = 53 ∧ strcasecmpNe d.ipaddr_from s.DNSServer = false))
    (hid : id < 65536) (hreq : s.requests id = some req)
    (hty : req.type = DNS_QUERY_CNAME ∨ req.type = DNS_QUERY_PTR)
    (hqr : flags1 &&& FLAGS_MASK_QR ≠ 0) (hop : flags1 &&& FLAGS_MASK_OPCODE = 0)
    (hrc : flags2 &&& FLAGS_MASK_RCODE = 0)
    (hqs : ∀ x ∈ qs, x.WellFormed) (hqd : qs.length < 65536)
    (hsk : ∀ r ∈ skipped, r.WellFormed ∧ (r.type ≠ req.type ∨ r.rr_class ≠ req.rr_class))
    (hm : m.WellFormed) (hmt : m.type = req.type) (hmc : m.rr_class = req.rr_class)
    (hrd : m.rdata.length ≤ 1023)
    (han : skipped.length < an) (han2 : an < 65536) (hns : ns < 65536) (har : ar < 65536)
    (hbuf : d.buffer = replyHeader id flags1 flags2 qs.length an ns ar ++
      (questionsWire qs ++ answersWire skipped ++ m.wire ++ rest))
    (hname : readName (questionsWire qs ++ answersWire skipped ++ m.wire ++ rest) fuel0
      ((questionsWire qs).length + (answersWire skipped).length + m.name.length + 10)
        = some labels)
    (hnul : ∀ l ∈ labels, 0 ∉ l) (hfit : (joinDots labels).length ≤ 511)
    (hsize : d.buffer.length ≤ 524) :
    ∀ fuel, fuel0 ≤ fuel →
      GetResult s (some d) inet_ntop6 fuel
        = .done ({ id := (id : Int), result := joinDots labels, ttl := intToUnsignedLong m.ttl,
                   original := req.orig },
                 { s with requests := setSlot s.requests id none
                          freed := req.ptr :: s.freed }) := by
  intro fuel hfuel
  generalize hbody : questionsWire qs ++ answersWire skipped ++ m.wire ++ rest = body
    at hbuf hname
  have hlen : recvLength (some d) = 12 + (body.length : Int) := by
    simp [recvLength, hbuf, replyHeader, be16]; omega
  have h12 : ¬ (recvLength (some d) < 12) := by rw [hlen]; omega
  have hcheck : ¬ ((!s.ip6munge) = true ∧
      (d.port_from ≠ QUERY_PORT ∨ strcasecmpNe d.ipaddr_from s.DNSServer = true)) := by
    rintro ⟨h1, h2⟩
    rcases hsrc with h | ⟨hp, hs⟩
    · simp [h] at h1
    · rcases h2 with h2 | h2
      · exact h2 hp
      · rw [hs] at h2; exact absurd h2 (by decide)
  have hbl : body.length ≤ 512 := by
    have h2 : recvLength (some d) = (d.buffer.length : Int) := rfl
    omega
  have hhdr : FillHeader d.buffer (recvLength (some d) - 12).toNat
      = some { id := (id / 256 % 256, id % 256), flags1 := flags1, flags2 := flags2,
               qdcount := qs.length, ancount := an, nscount := ns, arcount := ar,
               payload := body } := by
    have : (recvLength (some d) - 12).toNat = body.length := by rw [hlen]; omega
    rw [this, hbuf]
    exact FillHeader_reply id flags1 flags2 qs.length an ns ar body hqd han2 hns har hbl
  have hthis : id % 256 + (id / 256 % 256) <<< 8 = id := by
    rw [Nat.shiftLeft_eq]; omega
  have hparse := parseAnswers_name req
    { id := (id / 256 % 256, id % 256), flags1 := flags1, flags2 := flags2,
      qdcount := qs.length, ancount := an, nscount := ns, arcount := ar, payload := body }
    fuel0 fuel qs skipped m rest labels hbody.symm rfl hqs hsk hm hmt hmc han hrd
    (by rw [hmt]; exact hty) hname hfit hfuel
  have hready : ResultIsReady req
      { id := (id / 256 % 256, id % 256), flags1 := flags1, flags2 := flags2,
        qdcount := qs.length, ancount := an, nscount := ns, arcount := ar, payload := body }
      (recvLength (some d)) fuel
      = .done ((some (storeResult req.res (joinDots labels)), cstr "No error"),
               { req with ttl := intToUnsignedLong m.ttl
                          res := storeResult req.res (joinDots labels) }) := by
    unfold ResultIsReady
    have han1 : ¬ (an < 1) := by omega
    have e : recvLength (some d) - 12 = (body.length : Int) := by rw [hlen]; omega
    simp only [hqr, hop, hrc, han1, if_false, ne_eq, not_true_eq_false, e]
    exact hparse
  have hA : ¬ req.type = DNS_QUERY_A := by
    rcases hty with h | h <;> rw [h] <;> decide
  have hAAAA : ¬ req.type = DNS_QUERY_AAAA := by
    rcases hty with h | h <;> rw [h] <;> decide
  have htake : (storeResult req.res (joinDots labels)).takeWhile (fun b => b ≠ 0)
      = joinDots labels :=
    takeWhile_terminated _ _ (joinDots_no_zero labels hnul)
  unfold GetResult
  simp only [h12, if_false, hcheck, hhdr, hthis, hreq, hready, hA, hAAAA, hty, if_true, htake]

set_option maxRecDepth 1000000 in
/-- C17 (amended) on the reply whose RDATA is `host`, `example` and a pointer
to the label `arpa` of the question. -/
theorem GetResult_name_witness :
    readName (questionsWire [examplePtrQuestion] ++ answersWire [] ++ examplePtrAnswer.wire ++ [])
        5 ((questionsWire [examplePtrQuestion]).length + (answersWire []).length
            + examplePtrAnswer.name.length + 10)
      = some [cstr "host", cstr "example", cstr "arpa"] ∧
    joinDots [cstr "host", cstr "example", cstr "arpa"] = cstr "host.example.arpa" ∧
    ∀ fuel, 5 ≤ fuel →
      GetResult examplePtrInFlight (some examplePtrReply) (fun _ => []) fuel
        = .done ({ id := 0x1234, result := joinDots [cstr "host", cstr "example", cstr "arpa"],
                   ttl := 3600, original := cstr "192.0.2.1" },
                 { examplePtrInFlight with
                   requests := setSlot examplePtrInFlight.requests 0x1234 none
                   freed := [1] }) :=
  have hq : ∀ x ∈ [examplePtrQuestion], x.WellFormed := by
    intro x hx
    simp only [List.mem_singleton] at hx
    subst hx
    exact ⟨WireName.label [49] _ (by decide) (by decide)
      (WireName.label [50] _ (by decide) (by decide)
        (WireName.label [48] _ (by decide) (by decide)
          (WireName.label [49, 57, 50] _ (by decide) (by decide)
            (WireName.label [105, 110, 45, 97, 100, 100, 114] _ (by decide) (by decide)
              (WireName.label [97, 114, 112, 97] _ (by decide) (by decide)
                WireName.root))))), rfl⟩
  have hname : readName
      (questionsWire [examplePtrQuestion] ++ answersWire [] ++ examplePtrAnswer.wire ++ [])
        5 ((questionsWire [examplePtrQuestion]).length + (answersWire []).length
            + examplePtrAnswer.name.length + 10)
      = some [cstr "host", cstr "example", cstr "arpa"] := by decide
  ⟨hname, by decide,
   GetResult_name examplePtrInFlight examplePtrReply _ 0x1234 0x81 0x80 1 0 0
     [examplePtrQuestion] [] examplePtrAnswer [] _ 5 (fun _ => [])
     (Or.inr ⟨rfl, by decide⟩) (by decide) rfl (Or.inr rfl) (by decide) (by decide) (by decide)
     hq (by decide) (by simp)
     ⟨WireName.pointer _ _ (by decide), by decide, by decide, by decide, by decide⟩ rfl rfl
     (by decide) (by decide) (by decide) (by decide) (by decide) rfl hname (by decide)
     (by decide) (by decide)⟩

/-! ## C21: registering a consumer -/

/-- C21: `AddResolverClass` returns true exactly when the consumer is not
null, its id is not negative and the slot of that id is empty, and then that
slot holds the consumer and every other slot is as before; whenever it returns
false (in particular when the slot is occupied) the whole state, and with it
the existing binding, is unchanged. -/
theorem AddResolverClass_binds (s : DNS) (r : Option Resolver) :
    ((AddResolverClass s r).1 = true ↔
      ∃ c, r = some c ∧ 0 ≤ c.myid ∧ s.Classes c.myid.toNat = none) ∧
    (∀ c, r = some c → (AddResolverClass s r).1 = true →
      (AddResolverClass s r).2.Classes c.myid.toNat = some c ∧
      (∀ j, j ≠ c.myid.toNat → (AddResolverClass s r).2.Classes j = s.Classes j) ∧
      (AddResolverClass s r).2.requests = s.requests ∧
      (AddResolverClass s r).2.calls = s.calls) ∧
    ((AddResolverClass s r).1 = false → (AddResolverClass s r).2 = s) ∧
    (∀ c old, r = some c → 0 ≤ c.myid → s.Classes c.myid.toNat = some old →
      (AddResolverClass s r).1 = false ∧
      (AddResolverClass s r).2.Classes c.myid.toNat = some old) := by
  cases r with
  | none =>
    refine ⟨⟨fun h => by simp [AddResolverClass] at h, fun ⟨c, hc, _⟩ => by simp at hc⟩, ?_, ?_, ?_⟩
    · intro c hc; simp at hc
    · intro _; rfl
    · intro c old hc; simp at hc
  | some c =>
    by_cases hid : c.myid > -1
    · cases hsl : s.Classes c.myid.toNat with
      | none =>
        have hv : AddResolverClass s (some c)
            = (true, { s with Classes := setSlot s.Classes c.myid.toNat (some c) }) := by
          simp only [AddResolverClass, hid, if_true, hsl]
        rw [hv]
        refine ⟨⟨fun _ => ⟨c, rfl, by omega, hsl⟩, fun _ => rfl⟩, ?_, ?_, ?_⟩
        · intro c2 hc2 _
          have e : c = c2 := Option.some.inj hc2
          subst e
          refine ⟨by simp [setSlot], ?_, rfl, rfl⟩
          intro j hj
          simp [setSlot, hj]
        · intro h; simp at h
        · intro c2 old hc2 _ hold
          have e : c = c2 := Option.some.inj hc2
          subst e
          rw [hsl] at hold
          simp at hold
      | some old =>
        have hv : AddResolverClass s (some c) = (false, s) := by
          simp only [AddResolverClass, hid, if_true, hsl]
        rw [hv]
        refine ⟨⟨fun h => by simp at h, ?_⟩, ?_, ?_, ?_⟩
        · rintro ⟨c2, hc2, _, hnone⟩
          have e : c = c2 := Option.some.inj hc2
          subst e
          rw [hsl] at hnone
          simp at hnone
        · intro c2 _ h; simp at h
        · intro _; rfl
        · intro c2 old2 hc2 _ hold
          have e : c = c2 := Option.some.inj hc2
          subst e
          exact ⟨rfl, hold⟩
    · have hv : AddResolverClass s (some c) = (false, s) := by
        simp only [AddResolverClass, hid, if_false]
      rw [hv]
      refine ⟨⟨fun h => by simp at h, ?_⟩, ?_, ?_, ?_⟩
      · rintro ⟨c2, hc2, hge, _⟩
        have e : c = c2 := Option.some.inj hc2
        subst e
        omega
      · intro c2 _ h; simp at h
      · intro _; rfl
      · intro c2 old2 hc2 hge _
        have e : c = c2 := Option.some.inj hc2
        subst e
        omega

/-- C21 on the consumer of request `0x1234`: registered on the resolver with
empty tables, refused where the slot is occupied. -/
theorem AddResolverClass_binds_witness :
    (AddResolverClass exampleDNS (some exampleConsumer)).1 = true ∧
    (AddResolverClass exampleDNS (some exampleConsumer)).2.Classes 0x1234
      = some exampleConsumer ∧
    (AddResolverClass exampleInFlight (some { exampleConsumer with ptr := 200 })).1 = false ∧
    (AddResolverClass exampleInFlight (some { exampleConsumer with ptr := 200 })).2.Classes
      0x1234 = some exampleConsumer :=
  have h1 := (AddResolverClass_binds exampleDNS (some exampleConsumer)).1.mpr
    ⟨exampleConsumer, rfl, by decide, rfl⟩
  have h2 := ((AddResolverClass_binds exampleDNS (some exampleConsumer)).2.1
    exampleConsumer rfl h1).1
  have h3 := (AddResolverClass_binds exampleInFlight (some { exampleConsumer with ptr := 200 })).2.2.2
    { exampleConsumer with ptr := 200 } exampleConsumer rfl (by decide) rfl
  ⟨h1, h2, h3.1, h3.2⟩

/-! ## C22: the constructor of `Resolver` and the cache -/

/-- What a lookup that returns has done: the cache, the consumers and the
record of callbacks are as before, and when the value returned is not -1 one
datagram was handed to `SendTo` and a request sits in the slot of the id
returned, which was free. -/
theorem StartLookup_effect (s : DNS) (prng : Nat → Nat) (fuel : Nat) (sendto : Int)
    (query : List Nat) (qt : Nat) (original : List Nat) (rv : Int) (s2 : DNS)
    (h : StartLookup s prng fuel sendto query qt original = some (rv, s2)) :
    s2.cache = s.cache ∧ s2.casemap = s.casemap ∧ s2.calls = s.calls ∧
    s2.Classes = s.Classes ∧
    (rv ≠ -1 → ∃ dgram, s2.sent = s.sent ++ [dgram] ∧
      ∃ req, s2.requests rv.toNat = some req ∧ s.requests rv.toNat = none) := by
  unfold StartLookup at h
  cases hm : MakePayload query qt 1 with
  | none =>
    simp only [hm, Option.some.injEq, Prod.mk.injEq] at h
    obtain ⟨h1, h2⟩ := h
    subst h1 h2
    exact ⟨rfl, rfl, rfl, rfl, fun hne => absurd rfl hne⟩
  | some p =>
    obtain ⟨length, payload⟩ := p
    simp only [hm] at h
    split at h
    · simp at h
    · rename_i r ha
      by_cases hfd : s.fd = -1
      · simp only [AddQuery, hfd, if_true, Option.some.injEq] at ha
        subst ha
        simp only [Option.some.injEq, Prod.mk.injEq] at h
        obtain ⟨h1, h2⟩ := h
        subst h1 h2
        exact ⟨rfl, rfl, rfl, rfl, fun hne => absurd rfl hne⟩
      · obtain ⟨id, k, req, hloop, _, hreq, hid, _, hrq, hsent, hcl, hca, hcalls⟩ :=
          AddQuery_open s prng fuel _ 0 original r hfd ha
        have hcm : r.dns.casemap = s.casemap := by
          simp only [AddQuery, hfd, if_false, hloop, DNSRequest.new, Option.some.injEq] at ha
          subst ha; rfl
        have hfree := (AddQueryLoop_free s.requests prng fuel 1 _ id k
          (by simpa [MAX_REQUEST_ID] using Nat.and_le_right) hloop).1
        simp only [hreq, SendRequests] at h
        by_cases hs : sendto = (length : Int) + 12
        · simp only [hs, ne_eq, not_true_eq_false, if_false] at h
          rw [if_neg (by decide)] at h
          simp only [Option.some.injEq, Prod.mk.injEq] at h
          obtain ⟨e1, e2⟩ := h
          subst e1 e2
          refine ⟨hca, hcm, hcalls, hcl, fun _ => ⟨EmptyHeader r.header length, ?_,
            { req with rr_class := 1, type := qt }, ?_, ?_⟩⟩
          · show r.dns.sent ++ [EmptyHeader r.header length] = _
            rw [hsent]
          · simp only [Int.toNat_ofNat, setSlot, if_true]
          · rw [Int.toNat_ofNat, hid]; exact hfree
        · simp only [hs, ne_eq, not_false_eq_true, if_true] at h
          simp only [Option.some.injEq, Prod.mk.injEq] at h
          obtain ⟨e1, e2⟩ := h
          subst e1 e2
          exact ⟨hca, hcm, hcalls, hcl, fun hne => absurd rfl hne⟩

theorem Resolver.start_effect (r : Resolver) (s : DNS) (prng : Nat → Nat) (fuel : Nat)
    (sendto : Int) (inet_aton inet_pton6 : List Nat → Option (List Nat)) (source : List Nat)
    (qt : Nat) (r2 : Resolver) (myid : Int) (s2 : DNS)
    (h : Resolver.start r s prng fuel sendto inet_aton inet_pton6 source qt
      = some (r2, myid, s2)) :
    s2.cache = s.cache ∧ s2.casemap = s.casemap ∧ s2.calls = s.calls ∧
    s2.Classes = s.Classes ∧
    (myid ≠ -1 → ∃ dgram, s2.sent = s.sent ++ [dgram] ∧
      ∃ req, s2.requests myid.toNat = some req ∧ s.requests myid.toNat = none) := by
  have key : ∀ (x : Option (Int × DNS)) (f : Int × DNS → Resolver × Int × DNS),
      (∀ y, (f y).2 = (y.1, y.2)) → x.map f = some (r2, myid, s2) → x = some (myid, s2) := by
    intro x f hf hx
    cases x with
    | none => simp at hx
    | some y =>
      simp only [Option.map_some', Option.some.injEq] at hx
      have := hf y
      rw [hx] at this
      simp only [Prod.mk.injEq] at this
      obtain ⟨y1, y2⟩ := y
      simp only at this
      rw [this.1, this.2]
  have hnf : ∀ fp, GetNameForce s prng fuel sendto inet_aton inet_pton6 source fp
      = some (myid, s2) →
      s2.cache = s.cache ∧ s2.casemap = s.casemap ∧ s2.calls = s.calls ∧
      s2.Classes = s.Classes ∧
      (myid ≠ -1 → ∃ dgram, s2.sent = s.sent ++ [dgram] ∧
        ∃ req, s2.requests myid.toNat = some req ∧ s.requests myid.toNat = none) := by
    intro fp hg
    unfold GetNameForce at hg
    cases fp with
    | PROTOCOL_IPV6 =>
      simp only at hg
      cases hp : inet_pton6 source with
      | none =>
        simp only [hp, Option.some.injEq, Prod.mk.injEq] at hg
        obtain ⟨e1, e2⟩ := hg
        subst e1 e2
        exact ⟨rfl, rfl, rfl, rfl, fun hne => absurd rfl hne⟩
      | some i =>
        simp only [hp] at hg
        exact StartLookup_effect _ _ _ _ _ _ _ _ _ hg
    | PROTOCOL_IPV4 =>
      simp only at hg
      cases hp : inet_aton source with
      | none =>
        simp only [hp, Option.some.injEq, Prod.mk.injEq] at hg
        obtain ⟨e1, e2⟩ := hg
        subst e1 e2
        exact ⟨rfl, rfl, rfl, rfl, fun hne => absurd rfl hne⟩
      | some c =>
        simp only [hp] at hg
        exact StartLookup_effect _ _ _ _ _ _ _ _ _ hg
  unfold Resolver.start at h
  split_ifs at h
  · exact StartLookup_effect _ _ _ _ _ _ _ _ _ (key _ _ (fun _ => rfl) h)
  · exact hnf _ (key _ _ (fun _ => rfl) h)
  · exact hnf _ (key _ _ (fun _ => rfl) h)
  · exact StartLookup_effect _ _ _ _ _ _ _ _ _ (key _ _ (fun _ => rfl) h)
  · exact StartLookup_effect _ _ _ _ _ _ _ _ _ (key _ _ (fun _ => rfl) h)
  · simp only [Option.some.injEq, Prod.mk.injEq] at h
    obtain ⟨_, e1, e2⟩ := h
    subst e1 e2
    exact ⟨rfl, rfl, rfl, rfl, fun hne => absurd rfl hne⟩

theorem GetCache_DelCache (s : DNS) (source : List Nat) :
    GetCache (DelCache s source) source = none := by
  unfold GetCache DelCache
  simp only
  have : (s.cache.filter (fun e => !keyEq s.casemap e.1 source)).find?
      (fun e => keyEq s.casemap e.1 source) = none := by
    rw [List.find?_eq_none]
    intro x hx
    have := (List.mem_filter.mp hx).2
    simpa using this
  rw [this]

theorem GetCache_congr (s s2 : DNS) (source : List Nat) (hc : s2.cache = s.cache)
    (hm : s2.casemap = s.casemap) : GetCache s2 source = GetCache s source := by
  unfold GetCache
  rw [hc, hm]

/-- With the socket open, the `switch (querytype)` of the constructor returns
whenever one of the first `fuel` draws of `PRNG()` gives a free id. -/
theorem Resolver.start_returns (r : Resolver) (s : DNS) (prng : Nat → Nat) (fuel : Nat)
    (sendto : Int) (inet_aton inet_pton6 : List Nat → Option (List Nat)) (source : List Nat)
    (qt : Nat) (hfree : ∃ j, j < fuel ∧ s.requests (prng j &&& MAX_REQUEST_ID) = none) :
    ∃ x, Resolver.start r s prng fuel sendto inet_aton inet_pton6 source qt = some x := by
  have hl : ∀ query q original, ∃ y, StartLookup s prng fuel sendto query q original = some y :=
    fun query q original => StartLookup_returns s prng fuel sendto query q original hfree
  have hnf : ∀ fp, ∃ y, GetNameForce s prng fuel sendto inet_aton inet_pton6 source fp
      = some y := by
    intro fp
    unfold GetNameForce
    cases fp with
    | PROTOCOL_IPV6 =>
      simp only
      cases inet_pton6 source with
      | none => exact ⟨_, rfl⟩
      | some i => exact hl _ _ _
    | PROTOCOL_IPV4 =>
      simp only
      cases inet_aton source with
      | none => exact ⟨_, rfl⟩
      | some c => exact hl _ _ _
  unfold Resolver.start GetIP GetIP6 GetCName
  split_ifs
  · obtain ⟨y, hy⟩ := hl source DNS_QUERY_A source
    rw [hy]; exact ⟨_, rfl⟩
  · obtain ⟨y, hy⟩ := hnf .PROTOCOL_IPV4
    rw [hy]; exact ⟨_, rfl⟩
  · obtain ⟨y, hy⟩ := hnf .PROTOCOL_IPV6
    rw [hy]; exact ⟨_, rfl⟩
  · obtain ⟨y, hy⟩ := hl source DNS_QUERY_AAAA source
    rw [hy]; exact ⟨_, rfl⟩
  · obtain ⟨y, hy⟩ := hl source DNS_QUERY_CNAME source
    rw [hy]; exact ⟨_, rfl⟩
  · exact ⟨_, rfl⟩

/-- `TriggerCachedResult` on a resolver whose `CQ` is the entry the cache holds
under its key. -/
theorem TriggerCachedResult_cached (r : Resolver) (s : DNS) (cq : CachedQuery)
    (h1 : r.CQ = some cq) (h2 : GetCache s r.input = some cq) :
    r.TriggerCachedResult s
      = .done { s with
          calls := s.calls ++ [Callback.OnLookupComplete r cq.data r.time_left true] } := by
  simp only [Resolver.TriggerCachedResult, h1, h2, if_true]

/-- C22: when `GetCache` finds for the key an entry whose remaining TTL is not
zero, the constructor of `Resolver` returns with `cached = true` without
throwing, hands nothing to `SendTo` and leaves the request table, the timers
and the cache as they were, and `TriggerCachedResult` then makes the one call
`OnLookupComplete(cached answer, remaining TTL, true)`; when the remaining TTL
of the entry is zero, the constructor returns as soon as a drawn id is free,
and whenever it returns `cached` is false, the key is no longer in the cache,
and, unless it threw for want of an id, one datagram was handed to `SendTo`
and a request sits in the slot of the id of the resolver, which was free. -/
theorem Resolver_cache_paths (s : DNS) (now : Nat) (prng : Nat → Nat) (fuel : Nat)
    (sendto : Int) (inet_aton inet_pton6 : List Nat → Option (List Nat)) (source : List Nat)
    (qt creator : Nat) (cq : CachedQuery) (hcq : GetCache s source = some cq) :
    (cq.CalcTTLRemaining now ≠ 0 →
      ∃ res, Resolver.new s now prng fuel sendto inet_aton inet_pton6 source qt creator
          = some res ∧
        res.cached = true ∧ res.threw = false ∧ res.dns.sent = s.sent ∧
        res.dns.requests = s.requests ∧ res.dns.timers = s.timers ∧
        res.dns.cache = s.cache ∧ res.dns.calls = s.calls ∧
        ∃ s2, res.r.TriggerCachedResult res.dns = .done s2 ∧
          s2.calls = s.calls ++
            [Callback.OnLookupComplete res.r cq.data (cq.CalcTTLRemaining now) true]) ∧
    (cq.CalcTTLRemaining now = 0 →
      ((∃ j, j < fuel ∧ s.requests (prng j &&& MAX_REQUEST_ID) = none) →
        ∃ res, Resolver.new s now prng fuel sendto inet_aton inet_pton6 source qt creator
          = some res) ∧
      ∀ res, Resolver.new s now prng fuel sendto inet_aton inet_pton6 source qt creator
          = some res →
        res.cached = false ∧ GetCache res.dns source = none ∧
        (res.threw = false → ∃ dgram, res.dns.sent = s.sent ++ [dgram] ∧
          ∃ req, res.dns.requests res.r.myid.toNat = some req ∧
            s.requests res.r.myid.toNat = none)) := by
  have hg : GetCache { s with nextptr := s.nextptr + 1 } source = some cq := hcq
  refine ⟨?_, ?_⟩
  · intro hne
    refine ⟨{ r := { ptr := s.nextptr, Creator := creator, input := source, querytype := qt,
                     myid := 0, CQ := some cq, time_left := cq.CalcTTLRemaining now }
              cached := true, threw := false, dns := { s with nextptr := s.nextptr + 1 } },
      ?_, rfl, rfl, rfl, rfl, rfl, rfl, rfl, ?_⟩
    · simp only [Resolver.new, hg, hne, if_false]
    · exact ⟨_, TriggerCachedResult_cached _ _ cq rfl hg, rfl⟩
  · intro h0
    have hnew : Resolver.new s now prng fuel sendto inet_aton inet_pton6 source qt creator
        = Resolver.issue
            { ptr := s.nextptr, Creator := creator, input := source, querytype := qt,
              myid := 0, CQ := some cq, time_left := cq.CalcTTLRemaining now }
            (DelCache { s with nextptr := s.nextptr + 1 } source) prng fuel sendto inet_aton
            inet_pton6 source qt := by
      simp only [Resolver.new, hg, h0, if_true]
    rw [hnew]
    refine ⟨?_, ?_⟩
    · intro hfree
      obtain ⟨x, hx⟩ := Resolver.start_returns
        { ptr := s.nextptr, Creator := creator, input := source, querytype := qt,
          myid := 0, CQ := some cq, time_left := cq.CalcTTLRemaining now }
        (DelCache { s with nextptr := s.nextptr + 1 } source) prng fuel sendto inet_aton
        inet_pton6 source qt hfree
      obtain ⟨r2, myid, s2⟩ := x
      simp only [Resolver.issue, hx]
      exact ⟨_, rfl⟩
    · intro res hres
      unfold Resolver.issue at hres
      split at hres
      · simp at hres
      · rename_i r2 myid s2 hstart
        simp only [Option.some.injEq] at hres
        subst hres
        obtain ⟨hc, hm, _, _, hq⟩ := Resolver.start_effect _ _ _ _ _ _ _ _ _ _ _ _ hstart
        refine ⟨rfl, ?_, ?_⟩
        · rw [GetCache_congr _ _ source hc hm]
          exact GetCache_DelCache _ source
        · intro hthrew
          have hne : myid ≠ -1 := by
            intro e
            simp [e] at hthrew
          exact hq hne

set_option maxRecDepth 100000 in
/-- C22 on the key `example.invalid`, whose answer was cached at time 1000 with
TTL 300: looked up at time 1100 (200 seconds left) and at time 2000
(expired). -/
theorem Resolver_cache_paths_witness :
    GetCache exampleAnswered (cstr "example.invalid")
      = some (CachedQuery.new 1000 (cstr "192.0.2.1") 300) ∧
    (∃ res, Resolver.new exampleAnswered 1100 examplePrng 4 33 (fun _ => none) (fun _ => none)
        (cstr "example.invalid") DNS_QUERY_A 7 = some res ∧
      res.cached = true ∧
      ∃ s2, res.r.TriggerCachedResult res.dns = .done s2 ∧
        s2.calls = exampleAnswered.calls ++
          [Callback.OnLookupComplete res.r (cstr "192.0.2.1") 200 true]) ∧
    (∃ res, Resolver.new exampleAnswered 2000 examplePrng 4 33 (fun _ => none) (fun _ => none)
        (cstr "example.invalid") DNS_QUERY_A 7 = some res ∧
      res.cached = false ∧ res.threw = false ∧ GetCache res.dns (cstr "example.invalid") = none ∧
      ∃ dgram, res.dns.sent = exampleAnswered.sent ++ [dgram]) :=
  have hc : GetCache exampleAnswered (cstr "example.invalid")
      = some (CachedQuery.new 1000 (cstr "192.0.2.1") 300) := by decide
  have h := Resolver_cache_paths exampleAnswered 1100 examplePrng 4 33 (fun _ => none)
    (fun _ => none) (cstr "example.invalid") DNS_QUERY_A 7 _ hc
  have h2 := Resolver_cache_paths exampleAnswered 2000 examplePrng 4 33 (fun _ => none)
    (fun _ => none) (cstr "example.invalid") DNS_QUERY_A 7 _ hc
  match h.1 (by decide), (h2.2 (by decide)).1 ⟨0, by decide, rfl⟩ with
  | ⟨res, h1, h3, _, _, _, _, _, _, h4⟩, ⟨res2, hr2⟩ =>
    have h5 := (h2.2 (by decide)).2 res2 hr2
    have ht : res2.threw = false := by
      have e : Resolver.new exampleAnswered 2000 examplePrng 4 33 (fun _ => none)
          (fun _ => none) (cstr "example.invalid") DNS_QUERY_A 7 = some res2 := hr2
      have e2 : (Resolver.new exampleAnswered 2000 examplePrng 4 33 (fun _ => none)
          (fun _ => none) (cstr "example.invalid") DNS_QUERY_A 7).map (fun x => x.threw)
          = some false := by decide
      rw [e] at e2
      exact Option.some.inj e2
    ⟨hc, ⟨res, h1, h3, h4⟩, ⟨res2, hr2, h5.1, ht, h5.2.1,
      match h5.2.2 ht with
      | ⟨dgram, hd, _⟩ => ⟨dgram, hd⟩⟩⟩

set_option maxRecDepth 100000 in
/-- The resolver built at time 2000 for `example.invalid`, whose entry has
expired: the constructor erases the entry, sends a query and reports
`cached = false`, and the object is left with `CQ` pointing at the erased
entry, so that a call of `TriggerCachedResult` would read freed memory. -/
theorem TriggerCachedResult_dangling :
    ∃ res, Resolver.new exampleAnswered 2000 examplePrng 4 33 (fun _ => none) (fun _ => none)
        (cstr "example.invalid") DNS_QUERY_A 7 = some res ∧
      res.cached = false ∧
      res.r.CQ = some (CachedQuery.new 1000 (cstr "192.0.2.1") 300) ∧
      GetCache res.dns (cstr "example.invalid") = none ∧
      res.r.TriggerCachedResult res.dns = .fault :=
  ⟨_, rfl, rfl, rfl, rfl, rfl⟩

/-! ## C23: pruning the cache -/

theorem PruneCache_fold (casemap : Nat → Nat) (now : Nat) :
    ∀ (l acc : List (List Nat × CachedQuery)) (n : Nat),
      l.Pairwise (fun a b => keyEq casemap a.1 b.1 = false) →
      (∀ x ∈ acc, ∀ e ∈ l, keyEq casemap x.1 e.1 = false) →
      l.foldl (PruneCacheEntry casemap now) (acc, n)
        = (acc ++ l.filter (fun e => e.2.CalcTTLRemaining now ≠ 0),
           n + (l.filter (fun e => e.2.CalcTTLRemaining now = 0)).length) := by
  intro l
  induction l with
  | nil => intro acc n _ _; simp
  | cons e l ih =>
    intro acc n hp hacc
    obtain ⟨he, hl⟩ := List.pairwise_cons.mp hp
    rw [List.foldl_cons]
    by_cases halive : e.2.CalcTTLRemaining now = 0
    · have hstep : PruneCacheEntry casemap now (acc, n) e = (acc, n + 1) := by
        simp [PruneCacheEntry, halive]
      rw [hstep, ih acc (n + 1) hl (fun x hx y hy => hacc x hx y (by simp [hy]))]
      simp [List.filter_cons, halive]
      omega
    · have hnot : acc.any (fun x => keyEq casemap x.1 e.1) = false := by
        rw [List.any_eq_false]
        intro x hx
        simp [hacc x hx e (by simp)]
      have hstep : PruneCacheEntry casemap now (acc, n) e = (acc ++ [e], n) := by
        simp [PruneCacheEntry, halive, cacheInsert, hnot]
      rw [hstep, ih (acc ++ [e]) n hl ?_]
      · simp [List.filter_cons, halive]
      · intro x hx y hy
        simp only [List.mem_append, List.mem_singleton] at hx
        rcases hx with hx | hx
        · exact hacc x hx y (by simp [hy])
        · subst hx; exact he y hy

/-- C23: on a cache whose keys are pairwise different, `PruneCache` leaves
exactly the entries whose remaining TTL is not zero, each unchanged and in
their order, and returns the number of entries whose remaining TTL is zero, so
that the old size is the new size plus the value returned. -/
theorem PruneCache_keeps_unexpired (s : DNS) (now : Nat) (hk : s.CacheKeysDistinct) :
    (PruneCache s now).2.cache = s.cache.filter (fun e => e.2.CalcTTLRemaining now ≠ 0) ∧
    (∀ e, e ∈ (PruneCache s now).2.cache ↔ e ∈ s.cache ∧ e.2.CalcTTLRemaining now ≠ 0) ∧
    (PruneCache s now).1 = (s.cache.filter (fun e => e.2.CalcTTLRemaining now = 0)).length ∧
    s.cache.length = (PruneCache s now).2.cache.length + (PruneCache s now).1 ∧
    (PruneCache s now).2.requests = s.requests ∧ (PruneCache s now).2.Classes = s.Classes := by
  have h := PruneCache_fold s.casemap now s.cache [] 0 hk (by simp)
  have hc : (PruneCache s now).2.cache
      = s.cache.filter (fun e => e.2.CalcTTLRemaining now ≠ 0) := by
    simp only [PruneCache, h, List.nil_append]
  have hn : (PruneCache s now).1
      = (s.cache.filter (fun e => e.2.CalcTTLRemaining now = 0)).length := by
    simp only [PruneCache, h, Nat.zero_add]
  refine ⟨hc, ?_, hn, ?_, rfl, rfl⟩
  · intro e
    rw [hc, List.mem_filter]
    simp
  · rw [hc, hn]
    have := List.length_eq_length_filter_add (l := s.cache)
      (fun e => decide (e.2.CalcTTLRemaining now ≠ 0))
    rw [this]
    congr 2
    apply List.filter_congr
    intro x _
    simp

set_option maxRecDepth 100000 in
/-- C23 on a cache of three entries at time 1200: the one cached at time 500
with TTL 60 is removed. -/
theorem PruneCache_keeps_unexpired_witness :
    exampleCached.CacheKeysDistinct ∧
    (PruneCache exampleCached 1200).2.cache
      = [(cstr "a.invalid", CachedQuery.new 1000 (cstr "192.0.2.1") 300),
         (cstr "b.invalid", CachedQuery.new 1000 (cstr "192.0.2.2") 3600)] ∧
    (PruneCache exampleCached 1200).1 = 1 :=
  have hk : exampleCached.CacheKeysDistinct := by
    unfold DNS.CacheKeysDistinct
    decide
  have h := PruneCache_keeps_unexpired exampleCached 1200 hk
  ⟨hk, h.1.trans (by decide), h.2.2.1.trans (by decide)⟩

/-! ## C24, C25: the translation of an event mask -/

theorem and_or_eq_zero (m a b : Nat) : m &&& (a ||| b) = 0 ↔ m &&& a = 0 ∧ m &&& b = 0 := by
  rw [Nat.and_or_distrib_left]
  constructor
  · intro h
    constructor
    · apply Nat.eq_of_testBit_eq
      intro i
      have := congrArg (fun x => x.testBit i) h
      simp only [Nat.testBit_or, Nat.zero_testBit, Bool.or_eq_false_iff] at this
      rw [this.1, Nat.zero_testBit]
    · apply Nat.eq_of_testBit_eq
      intro i
      have := congrArg (fun x => x.testBit i) h
      simp only [Nat.testBit_or, Nat.zero_testBit, Bool.or_eq_false_iff] at this
      rw [this.2, Nat.zero_testBit]
  · rintro ⟨h1, h2⟩
    rw [h1, h2]; rfl

/-- C24: for every event mask (and whatever the values of the `FD_WANT_*`
bits), `mask_to_epoll(mask)` has the bit `EPOLLET` exactly when the mask has
neither `FD_WANT_POLL_READ` nor `FD_WANT_POLL_WRITE`; with one of them it is
made of `EPOLLIN` and `EPOLLOUT` only (level mode). -/
theorem mask_to_epoll_edge (W : FdWant) (mask : Nat) :
    (mask_to_epoll W mask &&& EPOLLET ≠ 0 ↔
      (mask &&& W.FD_WANT_POLL_READ = 0 ∧ mask &&& W.FD_WANT_POLL_WRITE = 0)) ∧
    (mask_to_epoll W mask &&& EPOLLET = 0 →
      mask_to_epoll W mask &&& (EPOLLIN ||| EPOLLOUT) = mask_to_epoll W mask) := by
  rw [← and_or_eq_zero]
  unfold mask_to_epoll
  by_cases hp : mask &&& (W.FD_WANT_POLL_READ ||| W.FD_WANT_POLL_WRITE) = 0
  · simp only [hp, ne_eq, not_true_eq_false, if_false, iff_true]
    split_ifs <;> refine ⟨by decide, fun h => absurd h (by decide)⟩
  · simp only [hp, ne_eq, not_false_eq_true, if_true, iff_false, not_not]
    split_ifs <;> exact ⟨by decide, fun _ => by decide⟩

/-- C24 on the masks `FD_WANT_FAST_READ | FD_WANT_EDGE_WRITE` (edge mode) and
`FD_WANT_POLL_READ | FD_WANT_FAST_WRITE` (level mode). -/
theorem mask_to_epoll_edge_witness :
    mask_to_epoll exampleWant (0x4 ||| 0x80) = EPOLLET ||| EPOLLIN ||| EPOLLOUT ∧
    mask_to_epoll exampleWant (0x2 ||| 0x40) = EPOLLIN ||| EPOLLOUT ∧
    (mask_to_epoll exampleWant (0x2 ||| 0x40) &&& EPOLLET ≠ 0 ↔
      ((0x2 ||| 0x40) &&& exampleWant.FD_WANT_POLL_READ = 0 ∧
        (0x2 ||| 0x40) &&& exampleWant.FD_WANT_POLL_WRITE = 0)) :=
  ⟨by decide, by decide, (mask_to_epoll_edge exampleWant (0x2 ||| 0x40)).1⟩

/-- C25: for every handler and every pair of masks, `OnSetEvent` makes at most
one `epoll_ctl` call; it makes none exactly when the old and the new mask
translate to the same epoll event set, and otherwise the one call is
`EPOLL_CTL_MOD` on the descriptor of the handler with the translation of the
new mask. -/
theorem OnSetEvent_calls (W : FdWant) (GetFd : Nat → Int) (eh old_mask new_mask : Nat) :
    (OnSetEvent W GetFd eh old_mask new_mask).length ≤ 1 ∧
    (OnSetEvent W GetFd eh old_mask new_mask = [] ↔
      mask_to_epoll W old_mask = mask_to_epoll W new_mask) ∧
    (mask_to_epoll W old_mask ≠ mask_to_epoll W new_mask →
      OnSetEvent W GetFd eh old_mask new_mask
        = [{ op := .EPOLL_CTL_MOD, fd := GetFd eh, events := mask_to_epoll W new_mask }]) := by
  unfold OnSetEvent
  by_cases h : mask_to_epoll W old_mask = mask_to_epoll W new_mask
  · simp [h]
  · simp [h]

/-- C25 on handler 50: from `FD_WANT_FAST_READ` to `FD_WANT_POLL_READ` (one
call), and from `FD_WANT_FAST_READ` to `FD_WANT_EDGE_READ` (same translation,
no call). -/
theorem OnSetEvent_calls_witness :
    OnSetEvent exampleWant exampleGetFd 50 0x4 0x2
      = [{ op := .EPOLL_CTL_MOD, fd := 5, events := EPOLLIN }] ∧
    OnSetEvent exampleWant exampleGetFd 50 0x4 0x8 = [] :=
  ⟨((OnSetEvent_calls exampleWant exampleGetFd 50 0x4 0x2).2.2 (by decide)).trans (by decide),
   (OnSetEvent_calls exampleWant exampleGetFd 50 0x4 0x8).2.1.mpr (by decide)⟩

/-! ## C26, C27: adding and removing a descriptor -/

/-- C26: `AddFd` returns false exactly when the descriptor of the handler is
negative or above `GetMaxFds() - 1`, or its slot is occupied, or `epoll_ctl`
returns a negative value, and then the engine (handler table, event masks,
registered count) is unchanged; otherwise it returns true, the slot of the
descriptor holds the handler, every other slot is as before, the event mask of
the handler is the given mask and the registered count is one higher. -/
theorem AddFd_result (W : FdWant) (GetFd : Nat → Int) (ctl : Int) (e : EPollEngine)
    (eh event_mask : Nat) :
    ((AddFd W GetFd ctl e eh event_mask).1 = false ↔
      (GetFd eh < 0 ∨ GetFd eh > e.MAX_DESCRIPTORS - 1 ∨
        (e.ref (GetFd eh).toNat).isSome = true ∨ ctl < 0)) ∧
    ((AddFd W GetFd ctl e eh event_mask).1 = false →
      (AddFd W GetFd ctl e eh event_mask).2.1 = e) ∧
    ((AddFd W GetFd ctl e eh event_mask).1 = true →
      (AddFd W GetFd ctl e eh event_mask).2.1.ref (GetFd eh).toNat = some eh ∧
      (∀ d, d ≠ (GetFd eh).toNat →
        (AddFd W GetFd ctl e eh event_mask).2.1.ref d = e.ref d) ∧
      (AddFd W GetFd ctl e eh event_mask).2.1.event_mask eh = event_mask ∧
      (AddFd W GetFd ctl e eh event_mask).2.1.CurrentSetSize = e.CurrentSetSize + 1 ∧
      (AddFd W GetFd ctl e eh event_mask).2.2
        = [{ op := .EPOLL_CTL_ADD, fd := GetFd eh, events := mask_to_epoll W event_mask }]) := by
  by_cases hr : GetFd eh < 0 ∨ GetFd eh > e.MAX_DESCRIPTORS - 1
  · have hv : AddFd W GetFd ctl e eh event_mask = (false, e, []) := by
      simp only [AddFd, hr, if_true]
    rw [hv]
    refine ⟨⟨fun _ => ?_, fun _ => rfl⟩, fun _ => rfl, fun h => by simp at h⟩
    rcases hr with h | h
    · exact Or.inl h
    · exact Or.inr (Or.inl h)
  · have hr1 : ¬ GetFd eh < 0 := fun h => hr (Or.inl h)
    have hr2 : ¬ GetFd eh > e.MAX_DESCRIPTORS - 1 := fun h => hr (Or.inr h)
    by_cases ho : (e.ref (GetFd eh).toNat).isSome = true
    · have hv : AddFd W GetFd ctl e eh event_mask = (false, e, []) := by
        simp only [AddFd, hr, if_false, ho, if_true]
      rw [hv]
      exact ⟨⟨fun _ => Or.inr (Or.inr (Or.inl ho)), fun _ => rfl⟩, fun _ => rfl,
        fun h => by simp at h⟩
    · by_cases hc : ctl < 0
      · have hv : AddFd W GetFd ctl e eh event_mask
            = (false, e, [{ op := .EPOLL_CTL_ADD, fd := GetFd eh,
                            events := mask_to_epoll W event_mask }]) := by
          simp only [AddFd, hr, if_false, ho, hc, if_true, Bool.false_eq_true]
        rw [hv]
        exact ⟨⟨fun _ => Or.inr (Or.inr (Or.inr hc)), fun _ => rfl⟩, fun _ => rfl,
          fun h => by simp at h⟩
      · have hv : AddFd W GetFd ctl e eh event_mask
            = (true,
               { SetEventMask
                   { e with ref := fun d => if d = (GetFd eh).toNat then some eh else e.ref d }
                   eh event_mask with
                 CurrentSetSize := e.CurrentSetSize + 1 },
               [{ op := .EPOLL_CTL_ADD, fd := GetFd eh,
                  events := mask_to_epoll W event_mask }]) := by
          simp only [AddFd, hr, if_false, ho, hc, Bool.false_eq_true, SetEventMask]
        rw [hv]
        refine ⟨⟨fun h => by simp at h, ?_⟩, fun h => by simp at h, fun _ => ?_⟩
        · rintro (h | h | h | h)
          · exact absurd h hr1
          · exact absurd h hr2
          · exact absurd h ho
          · exact absurd h hc
        · refine ⟨by simp [SetEventMask], ?_, by simp [SetEventMask], rfl, rfl⟩
          intro d hd
          simp [SetEventMask, hd]

/-- C26 on `exampleEngine`: handler 70 on the free descriptor 7 is added, a
second handler on the occupied descriptor 5 is refused, and so is handler 70
when `epoll_ctl` fails. -/
theorem AddFd_result_witness :
    (AddFd exampleWant exampleGetFd 0 exampleEngine 70 0x4).1 = true ∧
    (AddFd exampleWant exampleGetFd 0 exampleEngine 70 0x4).2.1.ref 7 = some 70 ∧
    (AddFd exampleWant exampleGetFd 0 exampleEngine 70 0x4).2.1.CurrentSetSize = 3 ∧
    (AddFd exampleWant exampleGetFd 0 exampleEngine 50 0x4).1 = false ∧
    (AddFd exampleWant exampleGetFd (-1) exampleEngine 70 0x4).1 = false ∧
    (AddFd exampleWant exampleGetFd (-1) exampleEngine 70 0x4).2.1.ref 7 = none :=
  have h := AddFd_result exampleWant exampleGetFd 0 exampleEngine 70 0x4
  have ht : (AddFd exampleWant exampleGetFd 0 exampleEngine 70 0x4).1 = true := by decide
  have h5 := (AddFd_result exampleWant exampleGetFd 0 exampleEngine 50 0x4).1.mpr
    (Or.inr (Or.inr (Or.inl (by decide))))
  have h7 := AddFd_result exampleWant exampleGetFd (-1) exampleEngine 70 0x4
  have hf := h7.1.mpr (Or.inr (Or.inr (Or.inr (by decide))))
  ⟨ht, (h.2.2 ht).1, (h.2.2 ht).2.2.2.1, h5, hf, by rw [h7.2.1 hf]; rfl⟩

/-- C27: for a handler whose descriptor is in range, `DelFd` with `force`
returns true, empties the slot of the descriptor and lowers the registered
count whatever `epoll_ctl` returns; without `force` a negative value from
`epoll_ctl` makes it return false with the engine (slot, registered count)
unchanged, and any other value makes it succeed in the same way.  Out of range
it returns false and changes nothing. -/
theorem DelFd_result (GetFd : Nat → Int) (ctl : Int) (e : EPollEngine) (eh : Nat) :
    (0 ≤ GetFd eh → GetFd eh ≤ e.MAX_DESCRIPTORS - 1 →
      ((DelFd GetFd ctl e eh true).1 = true ∧
        (DelFd GetFd ctl e eh true).2.1.ref (GetFd eh).toNat = none ∧
        (∀ d, d ≠ (GetFd eh).toNat → (DelFd GetFd ctl e eh true).2.1.ref d = e.ref d) ∧
        (DelFd GetFd ctl e eh true).2.1.CurrentSetSize = e.CurrentSetSize - 1) ∧
      (ctl < 0 → (DelFd GetFd ctl e eh false).1 = false ∧
        (DelFd GetFd ctl e eh false).2.1 = e) ∧
      (0 ≤ ctl → (DelFd GetFd ctl e eh false).1 = true ∧
        (DelFd GetFd ctl e eh false).2.1.ref (GetFd eh).toNat = none ∧
        (DelFd GetFd ctl e eh false).2.1.CurrentSetSize = e.CurrentSetSize - 1)) ∧
    ((GetFd eh < 0 ∨ GetFd eh > e.MAX_DESCRIPTORS - 1) → ∀ force,
      (DelFd GetFd ctl e eh force).1 = false ∧ (DelFd GetFd ctl e eh force).2.1 = e) := by
  refine ⟨?_, ?_⟩
  · intro h0 hmax
    have hr : ¬ (GetFd eh < 0 ∨ GetFd eh > e.MAX_DESCRIPTORS - 1) := by omega
    have hdone : ∀ force, ¬ (ctl < 0 ∧ (!force) = true) →
        DelFd GetFd ctl e eh force
          = (true,
             { e with
               ref := fun d => if d = (GetFd eh).toNat then none else e.ref d
               CurrentSetSize := e.CurrentSetSize - 1 },
             [{ op := .EPOLL_CTL_DEL, fd := GetFd eh, events := 0 }]) := by
      intro force hc
      simp only [DelFd, hr, if_false, hc]
    refine ⟨?_, ?_, ?_⟩
    · rw [hdone true (by simp)]
      refine ⟨rfl, by simp, ?_, rfl⟩
      intro d hd
      simp [hd]
    · intro hc
      have hv : DelFd GetFd ctl e eh false
          = (false, e, [{ op := .EPOLL_CTL_DEL, fd := GetFd eh, events := 0 }]) := by
        simp only [DelFd, hr, if_false, hc, Bool.not_false, and_self, if_true]
      rw [hv]
      exact ⟨rfl, rfl⟩
    · intro hc
      rw [hdone false (by omega)]
      exact ⟨rfl, by simp, rfl⟩
  · intro hr force
    have hv : DelFd GetFd ctl e eh force = (false, e, []) := by
      simp only [DelFd, hr, if_true]
    rw [hv]
    exact ⟨rfl, rfl⟩

/-- C27 on handler 50 of `exampleEngine` with `epoll_ctl` failing: removed with
`force`, kept without. -/
theorem DelFd_result_witness :
    (DelFd exampleGetFd (-1) exampleEngine 50 true).1 = true ∧
    (DelFd exampleGetFd (-1) exampleEngine 50 true).2.1.ref 5 = none ∧
    (DelFd exampleGetFd (-1) exampleEngine 50 true).2.1.CurrentSetSize = 1 ∧
    (DelFd exampleGetFd (-1) exampleEngine 50 false).1 = false ∧
    (DelFd exampleGetFd (-1) exampleEngine 50 false).2.1.ref 5 = some 50 :=
  have h := (DelFd_result exampleGetFd (-1) exampleEngine 50).1 (by decide) (by decide)
  ⟨h.1.1, h.1.2.1, h.1.2.2.2, (h.2.1 (by decide)).1, by rw [(h.2.1 (by decide)).2]; rfl⟩

/-! ## C28: a handler removed during the pass -/

set_option maxRecDepth 100000 in
/-- C28 (the code at the failing input): in a pass with the single event
`EPOLLIN | EPOLLOUT` on descriptor 5, whose handler 50 removes itself with
`DelFd` in its read callback (the only callback that changes the engine), the
write callback is still delivered to handler 50 after the read callback,
although slot 5 is empty from the read callback on. -/
theorem DispatchEvents_after_removal :
    (DelFd exampleGetFd 0 exampleEngine 50 false).1 = true ∧
    (DelFd exampleGetFd 0 exampleEngine 50 false).2.1.ref 5 = none ∧
    (DispatchEvents 0x2000 0x8000 (fun _ => 0) exampleRemoveOnRead exampleEngine 1
        [{ events := EPOLLIN ||| EPOLLOUT, fd := 5 }]).2
      = [{ eh := 50, fd := 5, et := .EVENT_READ, errornum := 0 },
         { eh := 50, fd := 5, et := .EVENT_WRITE, errornum := 0 }] ∧
    (DispatchEvents 0x2000 0x8000 (fun _ => 0) exampleRemoveOnRead exampleEngine 1
        [{ events := EPOLLIN ||| EPOLLOUT, fd := 5 }]).1.ref 5 = none ∧
    (DispatchEvents 0x2000 0x8000 (fun _ => 0) exampleRemoveOnRead exampleEngine 1
        [{ events := EPOLLIN ||| EPOLLOUT, fd := 5 }]).1.CurrentSetSize = 1 := by
  decide

/-! ## C29: the first parameter of the numerics for a user -/

theorem push_head (n : Numeric) (p q : List Nat) (h : n.params.head? = some q) :
    (n.push p).params.head? = some q := by
  cases hn : n.params with
  | nil => rw [hn] at h; simp at h
  | cons a l => rw [hn] at h; simpa [Numeric.push, hn] using h

/-- C29: for every user (and whatever the value of `User::CONN_NICK`), each of
the three numerics built for a user target, the two forms of
`CannotSendTo(user, ...)` and `InvalidModeParameter(user, ...)`, has as its
first parameter the nick of the user when the `CONN_NICK` bit of `connected`
is set, and "*" otherwise. -/
theorem user_numerics_first_param (CONN_NICK : Nat) (user : User) (what message : List Nat)
    (mh : ModeHandler) (self : Bool) (hint parameter : List Nat) :
    (CannotSendToUser CONN_NICK user message).params.head?
      = some (if user.connected &&& CONN_NICK ≠ 0 then user.nick else cstr "*") ∧
    (CannotSendToUserMode CONN_NICK user what mh self).params.head?
      = some (if user.connected &&& CONN_NICK ≠ 0 then user.nick else cstr "*") ∧
    (InvalidModeParameterUser CONN_NICK user mh hint parameter message).params.head?
      = some (if user.connected &&& CONN_NICK ≠ 0 then user.nick else cstr "*") ∧
    (CannotSendToUser CONN_NICK user message).numeric = 531 ∧
    (CannotSendToUserMode CONN_NICK user what mh self).numeric = 531 ∧
    (InvalidModeParameterUser CONN_NICK user mh hint parameter message).numeric = 696 := by
  have h0 : ((Numeric.new ERR_CANNOTSENDTOUSER).push
      (if user.connected &&& CONN_NICK ≠ 0 then user.nick else cstr "*")).params.head?
      = some (if user.connected &&& CONN_NICK ≠ 0 then user.nick else cstr "*") := rfl
  have gen : ∀ nk : List Nat,
      (InvalidModeParameter.push_message
        ((((Numeric.new ERR_INVALIDMODEPARAM).push nk).pushChar mh.mode).push parameter)
        mh hint message).params.head? = some nk ∧
      (InvalidModeParameter.push_message
        ((((Numeric.new ERR_INVALIDMODEPARAM).push nk).pushChar mh.mode).push parameter)
        mh hint message).numeric = 696 := by
    intro nk
    have h2 : ((((Numeric.new ERR_INVALIDMODEPARAM).push nk).pushChar mh.mode).push
        parameter).params.head? = some nk := rfl
    unfold InvalidModeParameter.push_message
    split_ifs
    · exact ⟨push_head _ _ _ h2, rfl⟩
    · exact ⟨push_head _ _ _ h2, rfl⟩
    · exact ⟨push_head _ _ _ h2, rfl⟩
  exact ⟨push_head _ _ _ h0, push_head _ _ _ h0, (gen _).1, rfl, rfl, (gen _).2⟩

set_option maxRecDepth 100000 in
/-- C29 on `alice`, who has registered a nick, and on a peer that has not
(`User::CONN_NICK` being 1). -/
theorem user_numerics_first_param_witness :
    (CannotSendToUser 1 exampleAlice (cstr "no")).params.head? = some (cstr "alice") ∧
    (CannotSendToUserMode 1 exampleNewcomer (cstr "CTCPs") exampleMode false).params.head?
      = some (cstr "*") ∧
    (InvalidModeParameterUser 1 exampleNewcomer exampleMode [] (cstr "x") []).params
      = [cstr "*", cstr "n", cstr "x", cstr "Invalid noextmsg mode parameter."] :=
  have h := user_numerics_first_param 1 exampleAlice (cstr "CTCPs") (cstr "no") exampleMode
    false [] (cstr "x")
  have h2 := user_numerics_first_param 1 exampleNewcomer (cstr "CTCPs") (cstr "no") exampleMode
    false [] (cstr "x")
  ⟨h.1.trans (by decide), h2.2.1.trans (by decide), by decide⟩

/-! ## C30: the id space exhausted -/

/-- With every id from 0 to 65535 in use the id loop ends within no number of
draws. -/
theorem AddQueryLoop_full (requests : Nat → Option DNSRequest) (prng : Nat → Nat)
    (hfull : ∀ id, id ≤ 65535 → (requests id).isSome = true) :
    ∀ (fuel k id : Nat), id ≤ 65535 → AddQueryLoop requests prng fuel k id = none := by
  intro fuel
  induction fuel with
  | zero => intro k id _; rfl
  | succ f ih =>
    intro k id hid
    simp only [AddQueryLoop, hfull id hid, if_true]
    exact ih _ _ (by simpa [MAX_REQUEST_ID] using Nat.and_le_right)

/-- With every id in use, a lookup returns -1 (and changes nothing) when
`MakePayload` fails or the socket is not open, and otherwise does not
return. -/
theorem StartLookup_full (s : DNS) (prng : Nat → Nat) (fuel : Nat) (sendto : Int)
    (query : List Nat) (qt : Nat) (original : List Nat)
    (hfull : ∀ id, id ≤ 65535 → (s.requests id).isSome = true) :
    StartLookup s prng fuel sendto query qt original
      = (if MakePayload query qt 1 = none ∨ s.fd = -1 then some (-1, s) else none) := by
  unfold StartLookup
  cases hm : MakePayload query qt 1 with
  | none => simp
  | some p =>
    obtain ⟨length, payload⟩ := p
    by_cases hfd : s.fd = -1
    · simp [AddQuery, hfd]
    · have hl := AddQueryLoop_full s.requests prng hfull fuel 1 (prng 0 &&& MAX_REQUEST_ID)
        (by simpa [MAX_REQUEST_ID] using Nat.and_le_right)
      simp [AddQuery, hfd, hl]

/-- C30 fails: with the socket open and a live request in every slot,
`GetIP("example.invalid")` does not return -1: whatever the number of draws
allowed, the id loop `while (requests[id]) id = PRNG() & MAX_REQUEST_ID;` of
`AddQuery` has not ended. -/
theorem GetIP_full_no_return :
    (∀ id, (exampleFull.requests id).isSome = true) ∧ exampleFull.fd ≠ -1 ∧
    (MakePayload (cstr "example.invalid") DNS_QUERY_A 1).isSome = true ∧
    ∀ fuel, GetIP exampleFull examplePrng fuel 33 (cstr "example.invalid") = none := by
  refine ⟨fun _ => rfl, by decide, by decide, ?_⟩
  intro fuel
  unfold GetIP
  rw [StartLookup_full exampleFull examplePrng fuel 33 _ _ _ (fun _ _ => rfl)]
  rw [if_neg]
  decide

/-- The lookups on a full table: when every id slot of the in-flight table
holds a live request, each of `GetIP`, `GetIP6`, `GetCName` and `GetNameForce`
returns -1, leaving the state as it was, exactly when it fails for another
reason (the address text is rejected, `MakePayload` fails, or the socket is
not open); otherwise, whatever the number of draws allowed, the id loop of
`AddQuery` has not ended and the operation has not returned. -/
theorem lookups_full (s : DNS) (prng : Nat → Nat) (fuel : Nat) (sendto : Int)
    (inet_aton inet_pton6 : List Nat → Option (List Nat)) (name : List Nat)
    (hfull : ∀ id, id ≤ 65535 → (s.requests id).isSome = true) :
    GetIP s prng fuel sendto name
      = (if MakePayload name DNS_QUERY_A 1 = none ∨ s.fd = -1 then some (-1, s) else none) ∧
    GetIP6 s prng fuel sendto name
      = (if MakePayload name DNS_QUERY_AAAA 1 = none ∨ s.fd = -1 then some (-1, s)
         else none) ∧
    GetCName s prng fuel sendto name
      = (if MakePayload name DNS_QUERY_CNAME 1 = none ∨ s.fd = -1 then some (-1, s)
         else none) ∧
    GetNameForce s prng fuel sendto inet_aton inet_pton6 name .PROTOCOL_IPV4
      = (match inet_aton name with
         | none => some (-1, s)
         | some c =>
           if MakePayload (reverseQuery4 c) DNS_QUERY_PTR 1 = none ∨ s.fd = -1 then some (-1, s)
           else none) ∧
    GetNameForce s prng fuel sendto inet_aton inet_pton6 name .PROTOCOL_IPV6
      = (match inet_pton6 name with
         | none => some (-1, s)
         | some i =>
           if MakePayload (MakeIP6Int i) DNS_QUERY_PTR 1 = none ∨ s.fd = -1 then some (-1, s)
           else none) := by
  refine ⟨StartLookup_full s prng fuel sendto _ _ _ hfull,
    StartLookup_full s prng fuel sendto _ _ _ hfull,
    StartLookup_full s prng fuel sendto _ _ _ hfull, ?_, ?_⟩
  · unfold GetNameForce
    simp only
    cases inet_aton name with
    | none => rfl
    | some c => exact StartLookup_full s prng fuel sendto _ _ _ hfull
  · unfold GetNameForce
    simp only
    cases inet_pton6 name with
    | none => rfl
    | some i => exact StartLookup_full s prng fuel sendto _ _ _ hfull

set_option maxRecDepth 100000 in
/-- On the full table `exampleFull`: with the socket closed `GetIP` returns
-1, with the socket open it does not return within 1000 draws. -/
theorem lookups_full_witness :
    GetIP { exampleFull with fd := -1 } examplePrng 1000 33 (cstr "example.invalid")
      = some (-1, { exampleFull with fd := -1 }) ∧
    GetIP exampleFull examplePrng 1000 33 (cstr "example.invalid") = none :=
  ⟨((lookups_full { exampleFull with fd := -1 } examplePrng 1000 33 (fun _ => none)
      (fun _ => none) (cstr "example.invalid") (fun _ _ => rfl)).1).trans
      (if_pos (Or.inr rfl)),
   ((lookups_full exampleFull examplePrng 1000 33 (fun _ => none) (fun _ => none)
      (cstr "example.invalid") (fun _ _ => rfl)).1).trans (if_neg (by decide))⟩

/-! ## C31: the end of the name-decoding loop -/

/-- When the bytes at `i` are a compression pointer whose target is `i`
itself, an iteration of the name-decoding loop leaves `i` and `o` as they
were: the loop is still running after any number of iterations. -/
theorem decodeNameLoop_self_pointer (payload : List Nat) (length : Int) (i : Int)
    (out : List Nat) (h0 : 0 ≤ i) (h1 : i + 1 < length) (ho : out.length + 256 < 1023)
    (hb : payloadAt payload i > 63)
    (hp : (((payloadAt payload i * 256 + payloadAt payload (i + 1)) % 65536 : Nat) : Int)
      - 0xC000 - 12 = i) :
    ∀ fuel, decodeNameLoop payload length fuel i out = .nofuel := by
  intro fuel
  induction fuel with
  | zero => rfl
  | succ f ih =>
    have hg : i < length ∧ out.length + 256 < 1023 := ⟨by omega, ho⟩
    have hneg : ¬ (i < 0) := by omega
    simp only [decodeNameLoop, hg, and_self, if_true, hneg, if_false, hb, h1, hp]
    exact ih

/-- When the bytes at `i` are a compression pointer to `j` and the bytes at
`j` a compression pointer to `i`, the name-decoding loop is still running
after any number of iterations. -/
theorem decodeNameLoop_two_pointers (payload : List Nat) (length : Int) (i j : Int)
    (out : List Nat) (hi0 : 0 ≤ i) (hi1 : i + 1 < length) (hj0 : 0 ≤ j) (hj1 : j + 1 < length)
    (ho : out.length + 256 < 1023)
    (hbi : payloadAt payload i > 63) (hbj : payloadAt payload j > 63)
    (hpi : (((payloadAt payload i * 256 + payloadAt payload (i + 1)) % 65536 : Nat) : Int)
      - 0xC000 - 12 = j)
    (hpj : (((payloadAt payload j * 256 + payloadAt payload (j + 1)) % 65536 : Nat) : Int)
      - 0xC000 - 12 = i) :
    ∀ fuel, decodeNameLoop payload length fuel i out = .nofuel ∧
      decodeNameLoop payload length fuel j out = .nofuel := by
  intro fuel
  induction fuel with
  | zero => exact ⟨rfl, rfl⟩
  | succ f ih =>
    have hgi : i < length ∧ out.length + 256 < 1023 := ⟨by omega, ho⟩
    have hgj : j < length ∧ out.length + 256 < 1023 := ⟨by omega, ho⟩
    have hni : ¬ (i < 0) := by omega
    have hnj : ¬ (j < 0) := by omega
    constructor
    · simp only [decodeNameLoop, hgi, and_self, if_true, hni, if_false, hbi, hi1, hpi]
      exact ih.2
    · simp only [decodeNameLoop, hgj, and_self, if_true, hnj, if_false, hbj, hj1, hpj]
      exact ih.1

/-- A reply that passes the source check, fits the header and carries the id
of a request in flight is handed to `ResultIsReady`; when that does not end within the
iterations allowed, neither does `GetResult`. -/
theorem GetResult_nofuel (s : DNS) (d : Datagram) (inet_ntop6 : List Nat → List Nat)
    (fuel : Nat) (req : DNSRequest) (header : DNSHeader)
    (hlen : 12 ≤ d.buffer.length)
    (hsrc : s.ip6munge = true ∨
      (d.port_from = 53 ∧ strcasecmpNe d.ipaddr_from s.DNSServer = false))
    (hreq : s.requests d.id = some req)
    (hfill : FillHeader d.buffer (d.buffer.length - 12) = some header)
    (hr : ResultIsReady req header d.buffer.length fuel = .nofuel) :
    GetResult s (some d) inet_ntop6 fuel = .nofuel := by
  have h12 : ¬ (recvLength (some d) < 12) := by simp only [recvLength]; omega
  have hcheck : ¬ ((!s.ip6munge) = true ∧
      (d.port_from ≠ QUERY_PORT ∨ strcasecmpNe d.ipaddr_from s.DNSServer = true)) := by
    rintro ⟨h1, h2⟩
    rcases hsrc with h | ⟨hp, hs⟩
    · simp [h] at h1
    · rcases h2 with h2 | h2
      · exact h2 hp
      · rw [hs] at h2; exact absurd h2 (by decide)
  have hn : (recvLength (some d) - 12).toNat = d.buffer.length - 12 := by
    simp only [recvLength]; omega
  have hid : header.id.2 + (header.id.1 <<< 8) = d.id := Datagram.id_FillHeader d _ header hfill
  unfold GetResult
  simp only [h12, if_false, hcheck, hn, hfill, hid, hreq]
  have hl : recvLength (some d) = (d.buffer.length : Int) := rfl
  rw [hl, hr]

/-- The same for `fault`: an access outside a buffer made by `ResultIsReady`
is one made by `GetResult`. -/
theorem GetResult_fault (s : DNS) (d : Datagram) (inet_ntop6 : List Nat → List Nat)
    (fuel : Nat) (req : DNSRequest) (header : DNSHeader)
    (hlen : 12 ≤ d.buffer.length)
    (hsrc : s.ip6munge = true ∨
      (d.port_from = 53 ∧ strcasecmpNe d.ipaddr_from s.DNSServer = false))
    (hreq : s.requests d.id = some req)
    (hfill : FillHeader d.buffer (d.buffer.length - 12) = some header)
    (hr : ResultIsReady req header d.buffer.length fuel = .fault) :
    GetResult s (some d) inet_ntop6 fuel = .fault := by
  have h12 : ¬ (recvLength (some d) < 12) := by simp only [recvLength]; omega
  have hcheck : ¬ ((!s.ip6munge) = true ∧
      (d.port_from ≠ QUERY_PORT ∨ strcasecmpNe d.ipaddr_from s.DNSServer = true)) := by
    rintro ⟨h1, h2⟩
    rcases hsrc with h | ⟨hp, hs⟩
    · simp [h] at h1
    · rcases h2 with h2 | h2
      · exact h2 hp
      · rw [hs] at h2; exact absurd h2 (by decide)
  have hn : (recvLength (some d) - 12).toNat = d.buffer.length - 12 := by
    simp only [recvLength]; omega
  have hid : header.id.2 + (header.id.1 <<< 8) = d.id := Datagram.id_FillHeader d _ header hfill
  unfold GetResult
  simp only [h12, if_false, hcheck, hn, hfill, hid, hreq]
  have hl : recvLength (some d) = (d.buffer.length : Int) := rfl
  rw [hl, hr]

/-- On a reply with proper flags whose answer walk stops at a CNAME or PTR
record, `ResultIsReady` is the name-decoding loop started at the RDATA of that
record, followed by the store of the terminating zero. -/
theorem ResultIsReady_name_loop (req : DNSRequest) (header : DNSHeader) (length : Int)
    (fuel : Nat) (i : Int) (rr : ResourceRecord) (cur : Nat)
    (hqr : header.flags1 &&& FLAGS_MASK_QR ≠ 0) (hop : header.flags1 &&& FLAGS_MASK_OPCODE = 0)
    (hrc : header.flags2 &&& FLAGS_MASK_RCODE = 0) (han : 1 ≤ header.ancount)
    (hwalk : answerLoop header.payload (length - 12) header.ancount req.type req.rr_class
      (header.ancount + 1)
      (skipQuestions header.payload header.qdcount (length - 12) (length - 12).toNat 0 0) 0
      { type := DNS_QUERY_NONE, rdlength := 0, ttl := 1, rr_class := 0 } = .ok (i, rr, cur))
    (hcur : cur ≠ header.ancount) (hfit : i + rr.rdlength ≤ length - 12)
    (hrd : rr.rdlength ≤ 1023) (hty : rr.type = DNS_QUERY_CNAME ∨ rr.type = DNS_QUERY_PTR) :
    ResultIsReady req header length fuel
      = match decodeNameLoop header.payload (length - 12) fuel i [] with
        | .nofuel => .nofuel
        | .fault => .fault
        | .done out =>
          if out.length < 512 then
            .done ((some (storeResult req.res out), cstr "No error"),
                   { req with ttl := rr.ttl, res := storeResult req.res out })
          else .fault := by
  have han1 : ¬ (header.ancount < 1) := by omega
  have hfit2 : ¬ (i + (rr.rdlength : Int) > length - 12) := by omega
  have hrd2 : ¬ (rr.rdlength > 1023) := by omega
  unfold ResultIsReady
  simp only [hqr, hop, hrc, han1, if_false, ne_eq, not_true_eq_false, not_false_eq_true]
  unfold parseAnswers
  rw [hwalk]
  simp only [hcur, if_false, hfit2, hrd2]
  unfold decodeRData
  simp only [hty, if_true]

set_option maxRecDepth 1000000 in
/-- C31 fails.  The reply `exampleCycleReply` (54 bytes) answers the PTR query
in flight with one PTR record whose RDATA is the two octets `0xC0 0x34`, a
compression pointer to offset 52 of the message, where those two octets are.
The answer walk reaches the RDATA at index 40 of the payload, and from there
every iteration of the name-decoding loop sets `i` to `0xC034 - 0xC000 - 12`,
which is 40 again: whatever the number of iterations allowed, the loop has not
ended, and neither `ResultIsReady`, `GetResult` nor `HandleEvent` returns.
The same holds for `exampleCycle2Reply`, in which two pointers point at each
other. -/
theorem decodeNameLoop_pointer_cycle :
    (exampleCycleReply.buffer.length = 54 ∧
      (exampleCycleReply.buffer.drop 12).drop 40 = [0xC0, 52] ∧
      (0xC034 : Int) - 0xC000 - 12 = 40 ∧
      (∀ fuel, decodeNameLoop (exampleCycleReply.buffer.drop 12) 42 fuel 40 [] = .nofuel) ∧
      (∀ fuel, GetResult examplePtrInFlight (some exampleCycleReply) (fun _ => []) fuel
        = .nofuel) ∧
      (∀ fuel now, HandleEvent examplePtrInFlight (some exampleCycleReply) now (fun _ => []) fuel
        = .nofuel)) ∧
    ((exampleCycle2Reply.buffer.drop 12).drop 40 = [0xC0, 54, 0xC0, 52] ∧
      (∀ fuel, decodeNameLoop (exampleCycle2Reply.buffer.drop 12) 44 fuel 40 [] = .nofuel) ∧
      (∀ fuel, GetResult examplePtrInFlight (some exampleCycle2Reply) (fun _ => []) fuel
        = .nofuel)) := by
  have hloop : ∀ fuel, decodeNameLoop (exampleCycleReply.buffer.drop 12) 42 fuel 40 [] = .nofuel :=
    decodeNameLoop_self_pointer _ 42 40 [] (by decide) (by decide) (by decide) (by decide)
      (by decide)
  have hloop2 : ∀ fuel,
      decodeNameLoop (exampleCycle2Reply.buffer.drop 12) 44 fuel 40 [] = .nofuel := fun fuel =>
    (decodeNameLoop_two_pointers _ 44 40 42 [] (by decide) (by decide) (by decide) (by decide)
      (by decide) (by decide) (by decide) (by decide) (by decide) fuel).1
  have hres : ∀ fuel, GetResult examplePtrInFlight (some exampleCycleReply) (fun _ => []) fuel
      = .nofuel := by
    intro fuel
    refine GetResult_nofuel _ _ _ _
      { ptr := 1, id := (0x12, 0x34), res := [0], rr_class := 1, type := DNS_QUERY_PTR,
        ttl := 0, orig := cstr "192.0.2.1" } _ (by decide) (Or.inr ⟨rfl, by decide⟩) rfl
      (Datagram.FillHeader_header _ (by decide)) ?_
    rw [ResultIsReady_name_loop
      { ptr := 1, id := (0x12, 0x34), res := [0], rr_class := 1, type := DNS_QUERY_PTR,
        ttl := 0, orig := cstr "192.0.2.1" }
      exampleCycleReply.header
      exampleCycleReply.buffer.length fuel 40
      { type := DNS_QUERY_PTR, rr_class := 1, ttl := 3600, rdlength := 2 } 0
      (by decide) (by decide) (by decide) (by decide) rfl (by decide) (by decide)
      (by decide) (Or.inr rfl)]
    have e1 : exampleCycleReply.header.payload
        = exampleCycleReply.buffer.drop 12 := by decide
    have e2 : ((exampleCycleReply.buffer.length : Nat) : Int) - 12 = 42 := by decide
    rw [e1, e2, hloop fuel]
  have hres2 : ∀ fuel, GetResult examplePtrInFlight (some exampleCycle2Reply) (fun _ => []) fuel
      = .nofuel := by
    intro fuel
    refine GetResult_nofuel _ _ _ _
      { ptr := 1, id := (0x12, 0x34), res := [0], rr_class := 1, type := DNS_QUERY_PTR,
        ttl := 0, orig := cstr "192.0.2.1" } _ (by decide) (Or.inr ⟨rfl, by decide⟩) rfl
      (Datagram.FillHeader_header _ (by decide)) ?_
    rw [ResultIsReady_name_loop
      { ptr := 1, id := (0x12, 0x34), res := [0], rr_class := 1, type := DNS_QUERY_PTR,
        ttl := 0, orig := cstr "192.0.2.1" }
      exampleCycle2Reply.header
      exampleCycle2Reply.buffer.length fuel 40
      { type := DNS_QUERY_PTR, rr_class := 1, ttl := 3600, rdlength := 4 } 0
      (by decide) (by decide) (by decide) (by decide) rfl (by decide) (by decide)
      (by decide) (Or.inr rfl)]
    have e1 : exampleCycle2Reply.header.payload
        = exampleCycle2Reply.buffer.drop 12 := by decide
    have e2 : ((exampleCycle2Reply.buffer.length : Nat) : Int) - 12 = 44 := by decide
    rw [e1, e2, hloop2 fuel]
  refine ⟨⟨by decide, by decide, by decide, hloop, hres, ?_⟩, by decide, hloop2, hres2⟩
  intro fuel now
  unfold HandleEvent
  rw [hres fuel]

/-! ## C32: the indices of the name-decoding loop -/

/-- The model of the name-decoding loop ends in `fault` (or hands over a text
whose terminating zero does not fit) exactly when one of the accesses it makes
is outside its buffer. -/
theorem decodeNameAccesses_fault (payload : List Nat) (length : Int)
    (hL : length ≤ payload.length) :
    ∀ (fuel : Nat) (i : Int) (out : List Nat),
      (decodeNameLoop payload length fuel i out = .fault ∨
        ∃ o, decodeNameLoop payload length fuel i out = .done o ∧ 512 ≤ o.length) ↔
      ∃ a ∈ decodeNameAccesses payload length fuel i out.length, a.inBounds length = false := by
  intro fuel
  induction fuel with
  | zero => intro i out; simp [decodeNameLoop, decodeNameAccesses]
  | succ f ih =>
    intro i out
    by_cases hg : i < length ∧ out.length + 256 < 1023
    · by_cases hneg : i < 0
      · simp only [decodeNameLoop, decodeNameAccesses, hg, and_self, if_true, hneg]
        simp [Access.inBounds, hneg]
      · by_cases hb : payloadAt payload i > 63
        · by_cases h1 : i + 1 < length
          · simp only [decodeNameLoop, decodeNameAccesses, hg, and_self, if_true, hneg, if_false,
              hb, h1]
            rw [ih]
            have a1 : Access.inBounds length (.payload i 1) = true := by
              simp only [Access.inBounds, decide_eq_true_eq]; omega
            have a2 : Access.inBounds length (.payload i 2) = true := by
              simp only [Access.inBounds, decide_eq_true_eq]; omega
            simp [a1, a2]
          · simp only [decodeNameLoop, decodeNameAccesses, hg, and_self, if_true, hneg, if_false,
              hb, h1]
            have a2 : Access.inBounds length (.payload i 2) = false := by
              simp only [Access.inBounds, decide_eq_false_iff_not]; omega
            simp [a2]
        · by_cases hz : payloadAt payload i = 0
          · simp only [decodeNameLoop, decodeNameAccesses, hg, and_self, if_true, hneg, if_false,
              hb, hz]
            have a1 : Access.inBounds length (.payload i 1) = true := by
              simp only [Access.inBounds, decide_eq_true_eq]; omega
            simp [a1, Access.inBounds]
            omega
          · have ho1 : (if out.length ≠ 0 then out ++ [DOT] else out).length
                = (if out.length ≠ 0 then out.length + 1 else out.length) := by
              split_ifs <;> simp
            have a1 : Access.inBounds length (.payload i 1) = true := by
              simp only [Access.inBounds, decide_eq_true_eq]; omega
            by_cases hw : i + payloadAt payload i < length ∧
                (if out.length ≠ 0 then out.length + 1 else out.length) + payloadAt payload i ≤ 512
            · have hw2 : i + payloadAt payload i < length ∧
                  (if out.length ≠ 0 then out ++ [DOT] else out).length + payloadAt payload i
                    ≤ 512 := by rw [ho1]; exact hw
              have hlab : ((payload.drop (i.toNat + 1)).take (payloadAt payload i)).length
                  = payloadAt payload i := by
                rw [List.length_take, List.length_drop]; omega
              have hlen : ((if out.length ≠ 0 then out ++ [DOT] else out)
                    ++ (payload.drop (i.toNat + 1)).take (payloadAt payload i)).length
                  = (if out.length ≠ 0 then out.length + 1 else out.length)
                      + payloadAt payload i := by
                rw [List.length_append, hlab, ho1]
              have a2 : Access.inBounds length (.res out.length 1) = true := by
                simp only [Access.inBounds, decide_eq_true_eq]
                have := hw.2
                split_ifs at this <;> omega
              have a3 : Access.inBounds length (.payload (i + 1) (payloadAt payload i)) = true := by
                simp only [Access.inBounds, decide_eq_true_eq]; omega
              have a4 : Access.inBounds length
                  (.res (if out.length ≠ 0 then out.length + 1 else out.length)
                    (payloadAt payload i)) = true := by
                simp only [Access.inBounds, decide_eq_true_eq]; exact hw.2
              simp only [decodeNameLoop, decodeNameAccesses, hg, and_self, if_true, hneg, if_false,
                hb, hz, hw, hw2]
              rw [ih, hlen]
              simp only [List.mem_cons, exists_eq_or_imp, a1, a2, a3, a4, Bool.true_eq_false,
                false_or]
            · have hw2 : ¬ (i + payloadAt payload i < length ∧
                  (if out.length ≠ 0 then out ++ [DOT] else out).length + payloadAt payload i
                    ≤ 512) := by rw [ho1]; exact hw
              have a34 : Access.inBounds length (.payload (i + 1) (payloadAt payload i)) = false ∨
                  Access.inBounds length
                    (.res (if out.length ≠ 0 then out.length + 1 else out.length)
                      (payloadAt payload i)) = false := by
                simp only [Access.inBounds, decide_eq_false_iff_not]
                by_cases h3 : i + payloadAt payload i < length
                · right
                  intro h4
                  exact hw ⟨h3, h4⟩
                · left
                  omega
              simp only [decodeNameLoop, decodeNameAccesses, hg, and_self, if_true, hneg, if_false,
                hb, hz, hw, hw2]
              refine ⟨fun _ => ?_, fun _ => Or.inl trivial⟩
              rcases a34 with h | h
              · exact ⟨_, by simp, h⟩
              · exact ⟨_, by simp, h⟩
    · simp only [decodeNameLoop, decodeNameAccesses, hg, if_false]
      simp [Access.inBounds]
      omega

/-- Once the name-decoding loop has ended within `fuel` iterations, more
iterations allowed give the same result. -/
theorem decodeNameLoop_mono (payload : List Nat) (length : Int) :
    ∀ (fuel : Nat) (i : Int) (out : List Nat) (fuel2 : Nat),
      decodeNameLoop payload length fuel i out ≠ .nofuel → fuel ≤ fuel2 →
      decodeNameLoop payload length fuel2 i out = decodeNameLoop payload length fuel i out := by
  intro fuel
  induction fuel with
  | zero => intro i out fuel2 h; exact absurd rfl h
  | succ f ih =>
    intro i out fuel2 h hle
    cases fuel2 with
    | zero => omega
    | succ f2 =>
      have hf : f ≤ f2 := by omega
      simp only [decodeNameLoop] at h ⊢
      split_ifs at h ⊢
      all_goals first | rfl | exact ih _ _ _ h hf

set_option maxRecDepth 1000000 in
/-- C32 fails on two replies to the PTR query in flight.
In `exampleBackReply` the RDATA of the PTR record (index 40 of the 42 payload
bytes) is `0x40 0x00`: the first octet is above 63, the two octets are taken
for a pointer, `i` becomes `0x4000 - 0xC000 - 12 = -32780`, which is below
`length`, and the next iteration reads `header.payload[-32780]`.
In `exampleLongReply` (469 payload bytes) the RDATA at index 465 is the label
`a` and a pointer to a name of eight labels of 63 bytes: after eight labels
`o` is 449, and the ninth is copied to `res[450]` to `res[512]`, past the 512
bytes of `res`.  With any number of iterations allowed from 2 (from 12 for the
second reply) on, the decoding makes that access. -/
theorem decodeNameLoop_out_of_bounds :
    ((exampleBackReply.buffer.drop 12).length = 42 ∧
      (exampleBackReply.buffer.drop 12).drop 40 = [0x40, 0] ∧
      (0x4000 : Int) - 0xC000 - 12 = -32780 ∧
      decodeNameAccesses (exampleBackReply.buffer.drop 12) 42 2 40 0
        = [.payload 40 1, .payload 40 2, .payload (-32780) 1] ∧
      Access.inBounds 42 (.payload (-32780) 1) = false ∧
      ∀ fuel, 2 ≤ fuel →
        GetResult examplePtrInFlight (some exampleBackReply) (fun _ => []) fuel = .fault) ∧
    ((exampleLongReply.buffer.drop 12).length = 469 ∧
      (exampleLongReply.buffer.drop 12).drop 465 = [1, 97, 0xC0, 0x0D] ∧
      (decodeNameAccesses (exampleLongReply.buffer.drop 12) 469 12 465 0).getLast?
        = some (.res 450 63) ∧
      Access.inBounds 469 (.res 450 63) = false ∧
      ∃ header,
        FillHeader exampleLongReply.buffer (exampleLongReply.buffer.length - 12) = some header ∧
        ∀ fuel, 12 ≤ fuel →
          ResultIsReady
            { ptr := 1, id := (0x12, 0x34), res := [0], rr_class := 1, type := DNS_QUERY_PTR,
              ttl := 0, orig := cstr "192.0.2.1" }
            header exampleLongReply.buffer.length fuel = .fault) := by
  have hb : ∀ fuel, 2 ≤ fuel →
      decodeNameLoop (exampleBackReply.buffer.drop 12) 42 fuel 40 [] = .fault := by
    intro fuel hf
    have h2 : decodeNameLoop (exampleBackReply.buffer.drop 12) 42 2 40 [] = .fault := by decide
    rw [decodeNameLoop_mono _ _ 2 40 [] fuel (by rw [h2]; exact fun h => by cases h) hf, h2]
  have hl : ∀ fuel, 12 ≤ fuel →
      decodeNameLoop (exampleLongReply.buffer.drop 12) 469 fuel 465 [] = .fault := by
    intro fuel hf
    have h2 : decodeNameLoop (exampleLongReply.buffer.drop 12) 469 12 465 [] = .fault := by
      decide
    rw [decodeNameLoop_mono _ _ 12 465 [] fuel (by rw [h2]; exact fun h => by cases h) hf, h2]
  refine ⟨⟨by decide, by decide, by decide, by decide, by decide, ?_⟩,
    by decide, by decide, by decide, by decide,
    ⟨exampleLongReply.header, Datagram.FillHeader_header _ (by decide), ?_⟩⟩
  · intro fuel hf
    refine GetResult_fault _ _ _ _
      { ptr := 1, id := (0x12, 0x34), res := [0], rr_class := 1, type := DNS_QUERY_PTR,
        ttl := 0, orig := cstr "192.0.2.1" } _ (by decide) (Or.inr ⟨rfl, by decide⟩) rfl
      (Datagram.FillHeader_header _ (by decide)) ?_
    rw [ResultIsReady_name_loop
      { ptr := 1, id := (0x12, 0x34), res := [0], rr_class := 1, type := DNS_QUERY_PTR,
        ttl := 0, orig := cstr "192.0.2.1" }
      exampleBackReply.header
      exampleBackReply.buffer.length fuel 40
      { type := DNS_QUERY_PTR, rr_class := 1, ttl := 3600, rdlength := 2 } 0
      (by decide) (by decide) (by decide) (by decide) rfl (by decide) (by decide)
      (by decide) (Or.inr rfl)]
    have e1 : exampleBackReply.header.payload
        = exampleBackReply.buffer.drop 12 := by decide
    have e2 : ((exampleBackReply.buffer.length : Nat) : Int) - 12 = 42 := by decide
    rw [e1, e2, hb fuel hf]
  · intro fuel hf
    rw [ResultIsReady_name_loop
      { ptr := 1, id := (0x12, 0x34), res := [0], rr_class := 1, type := DNS_QUERY_PTR,
        ttl := 0, orig := cstr "192.0.2.1" }
      exampleLongReply.header
      exampleLongReply.buffer.length fuel 465
      { type := DNS_QUERY_PTR, rr_class := 1, ttl := 3600, rdlength := 4 } 0
      (by decide) (by decide) (by decide) (by decide) rfl (by decide) (by decide)
      (by decide) (Or.inr rfl)]
    have e1 : exampleLongReply.header.payload
        = exampleLongReply.buffer.drop 12 := by decide
    have e2 : ((exampleLongReply.buffer.length : Nat) : Int) - 12 = 469 := by decide
    rw [e1, e2, hl fuel hf]

/-! ## C33: the cache and the query type -/

set_option maxRecDepth 100000 in
/-- C33 (as stated) fails.  The A query for `example.invalid` in flight is
answered at time 1000 with `192.0.2.1`, TTL 300, and `HandleEvent` stores that
answer under the key `example.invalid`.  A `Resolver` constructed at time 1100
for the same string with the query type AAAA finds that entry, reports
`cached = true`, sends nothing, and its `TriggerCachedResult` delivers
`192.0.2.1`, the answer to the A query. -/
theorem Resolver_cache_other_type :
    exampleRequest.type = DNS_QUERY_A ∧ exampleRequest.orig = cstr "example.invalid" ∧
    exampleInFlight.requests 0x1234 = some exampleRequest ∧ exampleInFlight.cache = [] ∧
    (∃ s, HandleEvent exampleInFlight (some exampleReply) 1000 (fun _ => []) 0 = .done s ∧
      s.cache = exampleAnswered.cache) ∧
    exampleAnswered.cache
      = [(cstr "example.invalid", CachedQuery.new 1000 (cstr "192.0.2.1") 300)] ∧
    ∃ res, Resolver.new exampleAnswered 1100 examplePrng 4 33 (fun _ => none) (fun _ => none)
        (cstr "example.invalid") DNS_QUERY_AAAA 8 = some res ∧
      res.cached = true ∧ res.r.querytype = DNS_QUERY_AAAA ∧
      res.dns.sent = exampleAnswered.sent ∧
      ∃ s2, res.r.TriggerCachedResult res.dns = .done s2 ∧
        s2.calls = exampleAnswered.calls
            ++ [Callback.OnLookupComplete res.r (cstr "192.0.2.1") 200 true] := by
  refine ⟨rfl, rfl, rfl, rfl, ⟨_, rfl, rfl⟩, by decide, _, rfl, rfl, rfl, rfl, _, rfl, rfl⟩

/-- C33 (amended): the constructor of `Resolver` reports `cached = true`
exactly when `GetCache` finds, under the key `source`, an entry that has not
expired at the time of the construction; the query type `qt` plays no part.
For every `qt` the constructor then returns without sending a query, keeps that
entry, and `TriggerCachedResult` delivers its data with the remaining TTL and
`cached = true`. -/
theorem Resolver_cached_key_only (s : DNS) (now : Nat) (prng : Nat → Nat) (fuel : Nat)
    (sendto : Int) (inet_aton inet_pton6 : List Nat → Option (List Nat)) (source : List Nat)
    (creator : Nat) :
    (∀ cq, GetCache s source = some cq → now < cq.expires → ∀ qt,
      ∃ res, Resolver.new s now prng fuel sendto inet_aton inet_pton6 source qt creator
          = some res ∧
        res.cached = true ∧ res.threw = false ∧ res.r.querytype = qt ∧ res.r.CQ = some cq ∧
        res.dns.sent = s.sent ∧ res.dns.cache = s.cache ∧
        ∃ s2, res.r.TriggerCachedResult res.dns = .done s2 ∧
          s2.calls
            = s.calls ++ [Callback.OnLookupComplete res.r cq.data (cq.expires - now) true]) ∧
    (∀ qt res, Resolver.new s now prng fuel sendto inet_aton inet_pton6 source qt creator
        = some res → res.cached = true →
      ∃ cq, GetCache s source = some cq ∧ now < cq.expires) := by
  have hg : GetCache { s with nextptr := s.nextptr + 1 } source = GetCache s source := rfl
  constructor
  · intro cq hcq hlive qt
    have ht : ¬ (cq.CalcTTLRemaining now = 0) := by
      simp only [CachedQuery.CalcTTLRemaining]; omega
    unfold Resolver.new
    simp only [hg, hcq, ht, if_false]
    have hg2 : GetCache { s with nextptr := s.nextptr + 1 } source = some cq := hcq
    exact ⟨_, rfl, rfl, rfl, rfl, rfl, rfl, rfl, _, TriggerCachedResult_cached _ _ cq rfl hg2,
      rfl⟩
  · intro qt res h hc
    unfold Resolver.new at h
    simp only [hg] at h
    cases hcq : GetCache s source with
    | none =>
      simp only [hcq] at h
      rw [Resolver.issue_not_cached _ _ _ _ _ _ _ _ _ _ h] at hc
      exact absurd hc (by decide)
    | some cq =>
      simp only [hcq] at h
      split_ifs at h with ht
      · rw [Resolver.issue_not_cached _ _ _ _ _ _ _ _ _ _ h] at hc
        exact absurd hc (by decide)
      · refine ⟨cq, rfl, ?_⟩
        simp only [CachedQuery.CalcTTLRemaining] at ht
        omega

set_option maxRecDepth 100000 in
/-- C33 (amended) on the cache of `exampleCached` at time 1100: a resolver for
`b.invalid` gets the cached `192.0.2.2` with 3500 seconds left, whether it asks
for a CNAME or for an A record. -/
theorem Resolver_cached_key_only_witness :
    GetCache exampleCached (cstr "b.invalid") = some (CachedQuery.new 1000 (cstr "192.0.2.2") 3600) ∧
    1100 < (CachedQuery.new 1000 (cstr "192.0.2.2") 3600).expires ∧
    (∀ qt, ∃ res, Resolver.new exampleCached 1100 examplePrng 4 33 (fun _ => none) (fun _ => none)
          (cstr "b.invalid") qt 7 = some res ∧
        res.cached = true ∧ res.threw = false ∧ res.r.querytype = qt ∧
        res.r.CQ = some (CachedQuery.new 1000 (cstr "192.0.2.2") 3600) ∧
        res.dns.sent = exampleCached.sent ∧ res.dns.cache = exampleCached.cache ∧
        ∃ s2, res.r.TriggerCachedResult res.dns = .done s2 ∧
          s2.calls = exampleCached.calls ++ [Callback.OnLookupComplete res.r
              (CachedQuery.new 1000 (cstr "192.0.2.2") 3600).data
              ((CachedQuery.new 1000 (cstr "192.0.2.2") 3600).expires - 1100) true]) :=
  ⟨by decide, by decide,
   (Resolver_cached_key_only exampleCached 1100 examplePrng 4 33 (fun _ => none) (fun _ => none)
      (cstr "b.invalid") 7).1 _ (by decide) (by decide)⟩

/-! ## C34: the payload of a well-formed name -/

/-- The pieces of labels without dots joined with dots are those labels. -/
theorem splitDots_joinDots (ls : List (List Nat)) (hne : ls ≠ []) (hl : ∀ l ∈ ls, DOT ∉ l) :
    splitDots (joinDots ls) = ls := by
  induction ls with
  | nil => exact absurd rfl hne
  | cons l rest ih =>
    cases rest with
    | nil => simpa [joinDots] using splitDots_nodot l (hl l (by simp))
    | cons l2 rest2 =>
      simp only [joinDots]
      rw [splitDots_append_dot l _ (hl l (by simp))]
      have := ih (by simp) (fun x hx => hl x (by simp at hx ⊢; tauto))
      simp only [joinDots] at this
      rw [this]

/-- The wire form of labels is one byte longer than the labels joined with
dots. -/
theorem encodeLabels_length (ls : List (List Nat)) (hne : ls ≠ []) :
    (encodeLabels ls).length = (joinDots ls).length + 1 := by
  induction ls with
  | nil => exact absurd rfl hne
  | cons l rest ih =>
    cases rest with
    | nil => simp [encodeLabels, joinDots]
    | cons l2 rest2 =>
      have := ih (by simp)
      simp only [encodeLabels, joinDots, List.length_cons, List.length_append] at this ⊢
      omega

/-- C34: for a name made of one or more labels, each of 1 to 63 bytes and
without a dot, joined by single dots (so without a trailing dot), of at most
505 bytes, `MakePayload` writes each label after its length octet, then one
zero octet, then the query type and the class as 16-bit big-endian values, and
returns the length of the name plus 6. -/
theorem MakePayload_wellformed_name (ls : List (List Nat)) (rr rr_class : Nat)
    (hne : ls ≠ []) (hl : ∀ l ∈ ls, l ≠ [] ∧ l.length ≤ 63 ∧ DOT ∉ l)
    (hlen : (joinDots ls).length ≤ 505) (hrr : rr < 65536) (hc : rr_class < 65536) :
    MakePayload (joinDots ls) rr rr_class
      = some ((joinDots ls).length + 6,
              encodeLabels ls ++ [0] ++ be16 rr ++ be16 rr_class) := by
  have hs := splitDots_joinDots ls hne (fun l h => (hl l h).2.2)
  have he := encodeLabels_length ls hne
  have hm := MakePayloadLabels_succeeds ls hne
    (fun l h => ⟨(hl l h).1, by have := (hl l h).2.1; omega⟩) 0 [] (by omega)
  have hpos : ¬ (0 + (encodeLabels ls).length + 1 > 508) := by omega
  have h1 : htons2 rr = be16 rr := by
    simp only [htons2, be16, Nat.mod_eq_of_lt hrr]
    congr 1
    exact (Nat.mod_eq_of_lt (by omega)).symm
  have h2 : htons2 rr_class = be16 rr_class := by
    simp only [htons2, be16, Nat.mod_eq_of_lt hc]
    congr 1
    exact (Nat.mod_eq_of_lt (by omega)).symm
  unfold MakePayload
  rw [hs, hm]
  simp only [hpos, if_false, h1, h2, List.nil_append]
  congr 2
  omega

set_option maxRecDepth 100000 in
/-- C34 on `example.invalid` (15 bytes) with the type A and the class 1: the
21 bytes of the payload. -/
theorem MakePayload_wellformed_name_witness :
    joinDots [cstr "example", cstr "invalid"] = cstr "example.invalid" ∧
    MakePayload (joinDots [cstr "example", cstr "invalid"]) DNS_QUERY_A 1
      = some ((joinDots [cstr "example", cstr "invalid"]).length + 6,
              encodeLabels [cstr "example", cstr "invalid"] ++ [0] ++ be16 DNS_QUERY_A
                ++ be16 1) ∧
    encodeLabels [cstr "example", cstr "invalid"] ++ [0] ++ be16 DNS_QUERY_A ++ be16 1
      = [7, 101, 120, 97, 109, 112, 108, 101, 7, 105, 110, 118, 97, 108, 105, 100, 0,
         0, 1, 0, 1] :=
  ⟨by decide,
   MakePayload_wellformed_name [cstr "example", cstr "invalid"] DNS_QUERY_A 1 (by simp)
     (by decide) (by decide) (by decide) (by decide),
   by decide⟩

/-! ## C35: the walk over the answers -/

/-- When every record of the answer section differs from the request in type
or class, the answer loop skips them all and is left with `curanswer` equal to
`ancount`. -/
theorem answerLoop_skip_all (ancount type rr_class : Nat) :
    ∀ (skipped : List AnswerRR) (pre rest : List Nat) (length : Int) (fuel : Nat) (i : Int)
      (cur : Nat) (rr0 : ResourceRecord), i = pre.length →
      (∀ r ∈ skipped, r.WellFormed ∧ (r.type ≠ type ∨ r.rr_class ≠ rr_class)) →
      cur + skipped.length = ancount → skipped.length < fuel →
      length = (pre ++ answersWire skipped ++ rest).length →
      ∃ rr, answerLoop (pre ++ answersWire skipped ++ rest) length ancount type rr_class
          fuel i cur rr0
        = .ok ((pre.length : Int) + (answersWire skipped).length, rr, ancount) := by
  intro skipped
  induction skipped with
  | nil =>
    intro pre rest length fuel i cur rr0 hi _ hcur hfuel hlen
    cases fuel with
    | zero => simp at hfuel
    | succ f =>
      have hcur2 : ¬ (cur < ancount) := by simp at hcur; omega
      have hc : cur = ancount := by simpa using hcur
      refine ⟨rr0, ?_⟩
      simp only [answerLoop, hcur2, if_false, hi, hc]
      simp [answersWire]
  | cons r rs ih =>
    intro pre rest length fuel i cur rr0 hi hsk hcur hfuel hlen
    cases fuel with
    | zero => simp at hfuel
    | succ f =>
      obtain ⟨hrwf, hrmis⟩ := hsk r (by simp)
      have e : pre ++ answersWire (r :: rs) ++ rest
          = pre ++ r.wire ++ (answersWire rs ++ rest) := by
        simp [answersWire_cons]
      have e2 : pre ++ r.wire ++ (answersWire rs ++ rest)
          = (pre ++ r.wire) ++ answersWire rs ++ rest := by
        simp
      rw [e] at hlen ⊢
      obtain ⟨h1, h2⟩ := answerLoop_head r hrwf pre _ length hlen i hi
      have hcur2 : cur < ancount := by simp at hcur; omega
      have hw := r.wire_length
      have h10 : ¬ (length - ((pre.length : Int) + r.name.length) < 10) := by
        rw [hlen]; simp only [List.length_append, hw]; push_cast; omega
      have htn : ((pre.length : Int) + r.name.length).toNat = pre.length + r.name.length := by
        omega
      have hnext := fun rr1 => ih (pre ++ r.wire) rest length f
        ((pre.length : Int) + r.name.length + 10 + r.rdata.length) (cur + 1) rr1
        (by simp only [List.length_append, hw]; push_cast; omega)
        (fun x hx => hsk x (by simp [hx])) (by simp at hcur ⊢; omega)
        (by simp at hfuel ⊢; omega) (by rw [hlen, e2])
      rw [← e2] at hnext
      have hfin : (↑(pre ++ r.wire).length : Int) + (answersWire rs).length
          = (pre.length : Int) + (answersWire (r :: rs)).length := by
        simp only [List.length_append, hw, answersWire_cons]; push_cast; omega
      rw [hfin] at hnext
      simp only [answerLoop, hcur2, if_true, h1, h10, if_false, htn, h2, ne_eq]
      rcases hrmis with hmis | hmis
      · simp only [hmis, not_false_eq_true, if_true]
        exact hnext _
      · by_cases hty : r.type = type
        · simp only [hty, not_true_eq_false, if_false, hmis, not_false_eq_true, if_true]
          exact hnext _
        · simp only [hty, not_false_eq_true, if_true]
          exact hnext _

/-- C35: on a header with QR set, OPCODE 0, RCODE 0 and at least one answer
announced, whose payload (at most the 512 bytes of the array) is proper
questions followed by answer records, for a request of class 1 (the class
`SendRequests` gives every request): `ResultIsReady` passes over every record
whose TYPE differs from the type of the request or whose CLASS is not 1, each
time advancing by the owner name, the ten fixed octets and the RDLENGTH bytes
of RDATA; it decodes the first record that has both, with `i` at the RDATA of
that record and, as TTL, the `int` value of its four TTL octets widened to
`unsigned long`: for a type other than CNAME and PTR the data returned is the
RDATA of that record, for CNAME and PTR it is the labels of the name that
starts there joined by '.' (when they fit the result buffer); and when the
ANCOUNT records all differ it returns the error
`No A, AAAA or PTR type answers (ANCOUNT answers)` and no data. -/
theorem ResultIsReady_answer_walk (req : DNSRequest) (header : DNSHeader) (fuel : Nat)
    (qs : List WireQuestion) (skipped : List AnswerRR) (tail : List Nat)
    (hcl : req.rr_class = 1)
    (hqr : header.flags1 &&& FLAGS_MASK_QR ≠ 0) (hop : header.flags1 &&& FLAGS_MASK_OPCODE = 0)
    (hrc : header.flags2 &&& FLAGS_MASK_RCODE = 0) (han : 1 ≤ header.ancount)
    (hcap : header.payload.length ≤ 512)
    (hpay : header.payload = questionsWire qs ++ answersWire skipped ++ tail)
    (hqd : header.qdcount = qs.length) (hqs : ∀ x ∈ qs, x.WellFormed)
    (hsk : ∀ r ∈ skipped, r.WellFormed ∧ (r.type ≠ req.type ∨ r.rr_class ≠ 1)) :
    (∀ (m : AnswerRR) (rest : List Nat), tail = m.wire ++ rest → m.WellFormed →
      m.type = req.type → m.rr_class = 1 → skipped.length < header.ancount →
      ResultIsReady req header ((header.payload.length : Int) + 12) fuel
        = decodeRData { req with ttl := intToUnsignedLong m.ttl } header header.payload.length
            fuel
            (((questionsWire qs).length + (answersWire skipped).length + m.name.length + 10
              : Nat) : Int)
            { type := m.type, rr_class := m.rr_class, ttl := intToUnsignedLong m.ttl,
              rdlength := m.rdata.length } ∧
      (header.payload.drop
          ((questionsWire qs).length + (answersWire skipped).length + m.name.length + 10)).take
        m.rdata.length = m.rdata ∧
      (m.type ≠ DNS_QUERY_CNAME → m.type ≠ DNS_QUERY_PTR →
        ResultIsReady req header ((header.payload.length : Int) + 12) fuel
          = .done ((some (storeResult req.res m.rdata), cstr "No error"),
                   { req with ttl := intToUnsignedLong m.ttl
                              res := storeResult req.res m.rdata })) ∧
      (∀ (labels : List (List Nat)) (fuel0 : Nat),
        m.type = DNS_QUERY_CNAME ∨ m.type = DNS_QUERY_PTR →
        readName header.payload fuel0
          ((questionsWire qs).length + (answersWire skipped).length + m.name.length + 10)
            = some labels →
        (joinDots labels).length ≤ 511 → fuel0 ≤ fuel →
        ResultIsReady req header ((header.payload.length : Int) + 12) fuel
          = .done ((some (storeResult req.res (joinDots labels)), cstr "No error"),
                   { req with ttl := intToUnsignedLong m.ttl
                              res := storeResult req.res (joinDots labels) }))) ∧
    (skipped.length = header.ancount →
      ResultIsReady req header ((header.payload.length : Int) + 12) fuel
        = .done ((none, cstr "No A, AAAA or PTR type answers (" ++ fmtDec header.ancount
                          ++ cstr " answers)"), req)) := by
  have han1 : ¬ (header.ancount < 1) := by omega
  have hlen12 : (header.payload.length : Int) + 12 - 12 = header.payload.length := by omega
  have hready : ResultIsReady req header ((header.payload.length : Int) + 12) fuel
      = parseAnswers req header header.payload.length fuel := by
    unfold ResultIsReady
    simp only [hqr, hop, hrc, han1, if_false, ne_eq, not_true_eq_false, not_false_eq_true, hlen12]
  have hsk2 : ∀ r ∈ skipped, r.WellFormed ∧ (r.type ≠ req.type ∨ r.rr_class ≠ req.rr_class) := by
    rw [hcl]; exact hsk
  constructor
  · intro m rest htail hm hmt hmc hcount
    have hpay2 : header.payload = questionsWire qs ++ answersWire skipped ++ m.wire ++ rest := by
      rw [hpay, htail]; simp
    have hw := m.wire_length
    have hplen : header.payload.length
        = (questionsWire qs).length + (answersWire skipped).length + m.wire.length
            + rest.length := by
      rw [hpay2]; simp only [List.length_append]
    have hrd : m.rdata.length ≤ 1023 := by omega
    have hrd2 : m.rdata.length < 512 := by omega
    have hmc2 : m.rr_class = req.rr_class := by rw [hcl]; exact hmc
    refine ⟨?_, ?_, ?_, ?_⟩
    · rw [hready]
      exact parseAnswers_reach req header fuel qs skipped m rest hpay2 hqd hqs hsk2 hm hmt
        hmc2 hcount hrd
    · have e : header.payload
          = (questionsWire qs ++ answersWire skipped ++ m.name ++ be16 m.type ++ be16 m.rr_class
              ++ be32 m.ttl ++ be16 m.rdata.length) ++ (m.rdata ++ rest) := by
        rw [hpay2]; simp [AnswerRR.wire]
      rw [e, List.drop_left' (by simp [be16, be32]; omega)]
      simp
    · intro hc1 hc2
      rw [hready]
      exact parseAnswers_data req header fuel qs skipped m rest hpay2 hqd hqs hsk2 hm hmt hmc2
        hcount hc1 hc2 hrd2
    · intro labels fuel0 hty hname hfit hfuel
      rw [hready]
      exact parseAnswers_name req header fuel0 fuel qs skipped m rest labels hpay2 hqd hqs hsk2
        hm hmt hmc2 hcount hrd hty hname hfit hfuel
  · intro hall
    rw [hready]
    have hq := skipQuestions_wire qs header.qdcount [] (answersWire skipped ++ tail)
      header.payload.length ((header.payload.length : Int)).toNat 0 0 (by simp) hqs
      (by simp [hqd])
      (by rw [hpay]; simp only [List.length_append, List.length_nil]; push_cast; omega)
      (by simp)
    have e1 : [] ++ questionsWire qs ++ (answersWire skipped ++ tail) = header.payload := by
      rw [hpay]; simp
    rw [e1] at hq
    obtain ⟨rr, ha⟩ := answerLoop_skip_all header.ancount req.type req.rr_class skipped
      (questionsWire qs) tail header.payload.length (header.ancount + 1)
      ((([] : List Nat).length : Int) + (questionsWire qs).length) 0
      { type := DNS_QUERY_NONE, rdlength := 0, ttl := 1, rr_class := 0 } (by simp) hsk2
      (by omega) (by omega) (by rw [hpay])
    rw [← hpay] at ha
    unfold parseAnswers
    rw [hq, ha]
    simp only [if_true]

set_option maxRecDepth 100000 in
/-- C35 on a reply to the A query for `example.invalid` that carries a CNAME
record before the A record: the CNAME record is passed over and the A record
(its RDATA at index 51 of the payload) is decoded, giving the four address
bytes and the TTL 300; for an AAAA request both records are passed over and
the error is returned. -/
theorem ResultIsReady_answer_walk_witness :
    (ResultIsReady exampleRequest exampleTwoAnswers
        ((exampleTwoAnswers.payload.length : Int) + 12) 0
      = decodeRData { exampleRequest with ttl := 300 } exampleTwoAnswers
          exampleTwoAnswers.payload.length 0
          (((questionsWire [exampleQuestion]).length + (answersWire [exampleAliasAnswer]).length
            + exampleAddressAnswer.name.length + 10 : Nat) : Int)
          { type := DNS_QUERY_A, rr_class := 1, ttl := 300, rdlength := 4 } ∧
      (exampleTwoAnswers.payload.drop
          ((questionsWire [exampleQuestion]).length + (answersWire [exampleAliasAnswer]).length
            + exampleAddressAnswer.name.length + 10)).take 4 = [192, 0, 2, 1]) ∧
    ResultIsReady exampleRequest exampleTwoAnswers
        ((exampleTwoAnswers.payload.length : Int) + 12) 0
      = .done ((some [192, 0, 2, 1, 0], cstr "No error"),
               { exampleRequest with ttl := 300, res := [192, 0, 2, 1, 0] }) ∧
    (questionsWire [exampleQuestion]).length + (answersWire [exampleAliasAnswer]).length
      + exampleAddressAnswer.name.length + 10 = 51 ∧
    ResultIsReady { exampleRequest with type := DNS_QUERY_AAAA } exampleTwoAnswers
        ((exampleTwoAnswers.payload.length : Int) + 12) 0
      = .done ((none, cstr "No A, AAAA or PTR type answers (2 answers)"),
               { exampleRequest with type := DNS_QUERY_AAAA }) :=
  have hq : ∀ x ∈ [exampleQuestion], x.WellFormed := by
    intro x hx
    simp only [List.mem_singleton] at hx
    subst hx
    exact ⟨WireName.label [101, 120, 97, 109, 112, 108, 101] _ (by decide) (by decide)
      (WireName.label [105, 110, 118, 97, 108, 105, 100] _ (by decide) (by decide)
        WireName.root), rfl⟩
  have h1 : exampleAliasAnswer.WellFormed :=
    ⟨WireName.pointer _ _ (by decide), by decide, by decide, by decide, by decide⟩
  have h2 : exampleAddressAnswer.WellFormed :=
    ⟨WireName.pointer _ _ (by decide), by decide, by decide, by decide, by decide⟩
  have hA := (ResultIsReady_answer_walk exampleRequest exampleTwoAnswers 0 [exampleQuestion]
      [exampleAliasAnswer] (exampleAddressAnswer.wire ++ []) rfl (by decide) (by decide)
      (by decide) (by decide) (by decide) rfl rfl hq
      (by
        intro r hr
        simp only [List.mem_singleton] at hr
        subst hr
        exact ⟨h1, Or.inl (by decide)⟩)).1
      exampleAddressAnswer [] rfl h2 rfl rfl (by decide)
  ⟨⟨hA.1, hA.2.1⟩, hA.2.2.1 (by decide) (by decide),
   by decide,
   (ResultIsReady_answer_walk { exampleRequest with type := DNS_QUERY_AAAA } exampleTwoAnswers 0
      [exampleQuestion] [exampleAliasAnswer, exampleAddressAnswer] [] rfl (by decide)
      (by decide) (by decide) (by decide) (by decide) (by decide) rfl hq
      (by
        intro r hr
        simp only [List.mem_cons, List.mem_singleton, List.not_mem_nil, or_false] at hr
        rcases hr with hr | hr
        · subst hr; exact ⟨h1, Or.inl (by decide)⟩
        · subst hr; exact ⟨h2, Or.inl (by decide)⟩)).2 rfl⟩

/-! ## C36: the bounds of the RDATA -/

/-- The walk over an owner name does not move `i` backwards. -/
theorem skipName_ge (payload : List Nat) (length : Int) :
    ∀ (fuel : Nat) (i : Int), i ≤ skipName payload length fuel i := by
  intro fuel
  induction fuel with
  | zero => intro i; simp [skipName]
  | succ f ih =>
    intro i
    simp only [skipName]
    split_ifs
    · omega
    · omega
    · exact le_trans (by omega) (ih _)
    · omega

/-- The walk over the question section does not move `i` backwards. -/
theorem skipQuestions_ge (payload : List Nat) (qdcount : Nat) (length : Int) :
    ∀ (fuel : Nat) (i : Int) (q : Nat), i ≤ skipQuestions payload qdcount length fuel i q := by
  intro fuel
  induction fuel with
  | zero => intro i q; simp [skipQuestions]
  | succ f ih =>
    intro i q
    simp only [skipQuestions]
    split_ifs
    · exact le_trans (by omega) (ih _ _)
    · exact le_trans (by omega) (ih _ _)
    · exact le_trans (by omega) (ih _ _)
    · omega

/-- When the answer loop is left before `ancount` records were passed over,
`rr` holds the ten fixed octets that end at `i`, these octets lie inside the
payload, and the type and class are those of the request. -/
theorem answerLoop_stop (payload : List Nat) (length : Int) (ancount type rr_class : Nat) :
    ∀ (fuel : Nat) (i : Int) (cur : Nat) (rr0 : ResourceRecord) (i2 : Int)
      (rr : ResourceRecord) (cur2 : Nat), ancount - cur < fuel → cur ≤ ancount → 0 ≤ i →
      answerLoop payload length ancount type rr_class fuel i cur rr0 = .ok (i2, rr, cur2) →
      cur2 ≠ ancount →
      rr = FillResourceRecord (payload.drop (i2 - 10).toNat) ∧ rr.type = type ∧
        rr.rr_class = rr_class ∧ 10 ≤ i2 ∧ i2 ≤ length ∧ cur2 < ancount := by
  intro fuel
  induction fuel with
  | zero => intro i cur rr0 i2 rr cur2 hf; omega
  | succ f ih =>
    intro i cur rr0 i2 rr cur2 hf hle hi h hne
    simp only [answerLoop] at h
    have hge := skipName_ge payload length length.toNat i
    split_ifs at h with hc h10 hty hcl
    · exact ih _ _ _ _ _ _ (by omega) (by omega) (by omega) h hne
    · exact ih _ _ _ _ _ _ (by omega) (by omega) (by omega) h hne
    · simp only [Except.ok.injEq, Prod.mk.injEq] at h
      obtain ⟨e1, e2, e3⟩ := h
      subst e1 e2 e3
      have hty2 : (FillResourceRecord (payload.drop
          (skipName payload length length.toNat i).toNat)).type = type := by
        by_contra hx; exact hty hx
      have hcl2 : (FillResourceRecord (payload.drop
          (skipName payload length length.toNat i).toNat)).rr_class = rr_class := by
        by_contra hx; exact hcl hx
      refine ⟨?_, hty2, hcl2, by omega, by omega, hc⟩
      congr 3
      omega
    · simp only [Except.ok.injEq, Prod.mk.injEq] at h
      obtain ⟨-, -, e3⟩ := h
      omega

/-- C36: whenever `ResultIsReady` returns data, the answer walk stopped at a
record of the type and class of the request whose ten fixed octets end at `i`
(the start of its RDATA), with `RDLENGTH ≤ 1023`, `0 ≤ i` and
`i + RDLENGTH ≤ length`, where `length` is the number of payload bytes (the
packet length less 12): the RDATA lies inside the received payload.  And on a
reply that passes the checks of the flags, when the walk stops at a record
with `i + RDLENGTH > length` the result is the error
`Resource record larger than stated`, and when it stops at a record within
the payload with `RDLENGTH > 1023` the result is the error
`Resource record too large`; in both cases no data is returned. -/
theorem ResultIsReady_rdata_bounds (req : DNSRequest) (header : DNSHeader) (length : Int)
    (fuel : Nat) :
    (∀ (data msg : List Nat) (req2 : DNSRequest),
      ResultIsReady req header length fuel = .done ((some data, msg), req2) →
      ∃ (i : Int) (rr : ResourceRecord) (cur : Nat),
        answerLoop header.payload (length - 12) header.ancount req.type req.rr_class
          (header.ancount + 1)
          (skipQuestions header.payload header.qdcount (length - 12) (length - 12).toNat 0 0) 0
          { type := DNS_QUERY_NONE, rdlength := 0, ttl := 1, rr_class := 0 } = .ok (i, rr, cur) ∧
        cur < header.ancount ∧
        rr = FillResourceRecord (header.payload.drop (i - 10).toNat) ∧
        rr.type = req.type ∧ rr.rr_class = req.rr_class ∧
        rr.rdlength ≤ 1023 ∧ 10 ≤ i ∧ i + rr.rdlength ≤ length - 12) ∧
    (∀ (i : Int) (rr : ResourceRecord) (cur : Nat),
      header.flags1 &&& FLAGS_MASK_QR ≠ 0 → header.flags1 &&& FLAGS_MASK_OPCODE = 0 →
      header.flags2 &&& FLAGS_MASK_RCODE = 0 → 1 ≤ header.ancount →
      answerLoop header.payload (length - 12) header.ancount req.type req.rr_class
        (header.ancount + 1)
        (skipQuestions header.payload header.qdcount (length - 12) (length - 12).toNat 0 0) 0
        { type := DNS_QUERY_NONE, rdlength := 0, ttl := 1, rr_class := 0 } = .ok (i, rr, cur) →
      cur ≠ header.ancount →
      (length - 12 < i + rr.rdlength →
        ResultIsReady req header length fuel
          = .done ((none, cstr "Resource record larger than stated"), req)) ∧
      (i + rr.rdlength ≤ length - 12 → 1023 < rr.rdlength →
        ResultIsReady req header length fuel
          = .done ((none, cstr "Resource record too large"), req))) := by
  constructor
  · intro data msg req2 h
    unfold ResultIsReady at h
    split_ifs at h with h1 h2 h3 h4
    · simp at h
    · simp at h
    · simp at h
    · simp at h
    unfold parseAnswers at h
    cases hA : answerLoop header.payload (length - 12) header.ancount req.type req.rr_class
        (header.ancount + 1)
        (skipQuestions header.payload header.qdcount (length - 12) (length - 12).toNat 0 0) 0
        { type := DNS_QUERY_NONE, rdlength := 0, ttl := 1, rr_class := 0 } with
    | error e =>
      rw [hA] at h
      simp only [Outcome.done.injEq, Prod.mk.injEq] at h
      exact absurd h.1.1 (by simp)
    | ok x =>
      obtain ⟨i, rr, cur⟩ := x
      rw [hA] at h
      simp only at h
      split_ifs at h with hc hfit hbig
      · simp at h
      · simp at h
      · simp at h
      have hq := skipQuestions_ge header.payload header.qdcount (length - 12)
        (length - 12).toNat 0 0
      obtain ⟨e1, e2, e3, e4, -, e6⟩ := answerLoop_stop header.payload (length - 12)
        header.ancount req.type req.rr_class (header.ancount + 1) _ 0 _ i rr cur (by omega)
        (by omega) hq hA hc
      exact ⟨i, rr, cur, rfl, e6, e1, e2, e3, by omega, e4, by omega⟩
  · intro i rr cur hqr hop hrc han hA hc
    have han1 : ¬ (header.ancount < 1) := by omega
    constructor
    · intro hbig
      unfold ResultIsReady
      simp only [hqr, hop, hrc, han1, if_false, ne_eq, not_true_eq_false, not_false_eq_true]
      unfold parseAnswers
      rw [hA]
      have hfit : i + (rr.rdlength : Int) > length - 12 := by omega
      simp only [hc, if_false, hfit, if_true]
    · intro hfit hbig
      unfold ResultIsReady
      simp only [hqr, hop, hrc, han1, if_false, ne_eq, not_true_eq_false, not_false_eq_true]
      unfold parseAnswers
      rw [hA]
      have hfit2 : ¬ (i + (rr.rdlength : Int) > length - 12) := by omega
      have hbig2 : rr.rdlength > 1023 := by omega
      simp only [hc, if_false, hfit2, hbig2, if_true]

set_option maxRecDepth 100000 in
/-- C36 on two replies to the A query in flight.  For `exampleReply` the data
is returned, and the A record has its RDATA at index 33 with RDLENGTH 4 inside
the 37 bytes of the payload.  For `exampleTruncated`, whose A record announces
16 bytes of RDATA from index 33 on, the result is the error
`Resource record larger than stated`. -/
theorem ResultIsReady_rdata_bounds_witness :
    (FillHeader exampleReply.buffer 37 = some exampleReplyHeader ∧
      FillHeader exampleTruncated.buffer 37 = some exampleTruncatedHeader) ∧
    (ResultIsReady exampleRequest exampleReplyHeader 49 0
        = .done ((some [192, 0, 2, 1, 0], cstr "No error"),
                 { exampleRequest with ttl := 300, res := [192, 0, 2, 1, 0] }) ∧
      ∃ (i : Int) (rr : ResourceRecord) (cur : Nat),
        answerLoop exampleReplyHeader.payload (49 - 12)
          exampleReplyHeader.ancount exampleRequest.type exampleRequest.rr_class
          (exampleReplyHeader.ancount + 1)
          (skipQuestions exampleReplyHeader.payload
            exampleReplyHeader.qdcount (49 - 12) ((49 : Int) - 12).toNat 0 0) 0
          { type := DNS_QUERY_NONE, rdlength := 0, ttl := 1, rr_class := 0 } = .ok (i, rr, cur) ∧
        cur < exampleReplyHeader.ancount ∧
        rr = FillResourceRecord (exampleReplyHeader.payload.drop (i - 10).toNat) ∧
        rr.type = exampleRequest.type ∧ rr.rr_class = exampleRequest.rr_class ∧
        rr.rdlength ≤ 1023 ∧ 10 ≤ i ∧ i + rr.rdlength ≤ 49 - 12) ∧
    (answerLoop exampleTruncatedHeader.payload (49 - 12)
        exampleTruncatedHeader.ancount exampleRequest.type
        exampleRequest.rr_class (exampleTruncatedHeader.ancount + 1)
        (skipQuestions exampleTruncatedHeader.payload
          exampleTruncatedHeader.qdcount (49 - 12) ((49 : Int) - 12).toNat 0 0) 0
        { type := DNS_QUERY_NONE, rdlength := 0, ttl := 1, rr_class := 0 }
      = .ok (33, { type := DNS_QUERY_A, rr_class := 1, ttl := 300, rdlength := 16 }, 0) ∧
      ResultIsReady exampleRequest exampleTruncatedHeader 49 0
        = .done ((none, cstr "Resource record larger than stated"), exampleRequest)) :=
  ⟨⟨by decide, by decide⟩,
   ⟨rfl, (ResultIsReady_rdata_bounds exampleRequest exampleReplyHeader 49 0).1
      [192, 0, 2, 1, 0] (cstr "No error")
      { exampleRequest with ttl := 300, res := [192, 0, 2, 1, 0] } rfl⟩,
   rfl,
   ((ResultIsReady_rdata_bounds exampleRequest exampleTruncatedHeader 49 0).2
      33 { type := DNS_QUERY_A, rr_class := 1, ttl := 300, rdlength := 16 } 0
      (by decide) (by decide) (by decide) (by decide) rfl (by decide)).1 (by decide)⟩

/-! ## C37: the header of a query -/

/-- C37: when `AddQuery` hands back a request, the id it allocated is a 16-bit
value, and the header it filled in, serialised by `EmptyHeader`, is the two
octets of that id (high octet first), the flag octets `0x01` and `0x00` (RD
set, QR and OPCODE clear), QDCOUNT 1 and ANCOUNT, NSCOUNT, ARCOUNT 0, followed
by the first `length` bytes of the question payload of the caller's header,
unchanged.  These are the bytes `SendRequests` hands to `SendTo`. -/
theorem AddQuery_header_octets (s : DNS) (prng : Nat → Nat) (fuel : Nat) (header : DNSHeader)
    (idIn : Nat) (original : List Nat) (r : AddQueryResult) (req : DNSRequest)
    (h : AddQuery s prng fuel header idIn original = some r) (hreq : r.req = some req) :
    r.id ≤ 65535 ∧
    r.header.flags1 &&& FLAGS_MASK_RD ≠ 0 ∧ r.header.flags1 &&& FLAGS_MASK_QR = 0 ∧
    r.header.flags1 &&& FLAGS_MASK_OPCODE = 0 ∧
    ∀ (length : Nat),
      EmptyHeader r.header length
        = be16 r.id ++ [0x01, 0x00] ++ be16 1 ++ be16 0 ++ be16 0 ++ be16 0
            ++ header.payload.take length ∧
      ∀ (qt : Nat) (sendto : Int),
        (SendRequests r.dns r.id req r.header length qt sendto).2.sent
          = r.dns.sent ++ [be16 r.id ++ [0x01, 0x00] ++ be16 1 ++ be16 0 ++ be16 0 ++ be16 0
              ++ header.payload.take length] := by
  have hfd : s.fd ≠ -1 := by
    intro hfd
    simp only [AddQuery, hfd, if_true, Option.some.injEq] at h
    subst h
    simp at hreq
  obtain ⟨id, k, req2, hloop, hreq2, _, hid, hhdr, _, _, _, _, _⟩ :=
    AddQuery_open s prng fuel header idIn original r hfd h
  have hle := (AddQueryLoop_free s.requests prng fuel 1 _ id k
    (by simpa [MAX_REQUEST_ID] using Nat.and_le_right) hloop).2
  have e1 : id &&& 0xFF = id % 256 := Nat.and_pow_two_sub_one_eq_mod id 8
  have e2 : id >>> 8 = id / 256 := by rw [Nat.shiftRight_eq_div_pow]
  have hE : ∀ length : Nat, EmptyHeader r.header length
      = be16 r.id ++ [0x01, 0x00] ++ be16 1 ++ be16 0 ++ be16 0 ++ be16 0
          ++ header.payload.take length := by
    intro length
    rw [hhdr, hid, hreq2]
    simp only [EmptyHeader, be16, e1, e2, FLAGS_MASK_RD]
    simp
  rw [hid]
  refine ⟨hle, ?_, ?_, ?_, fun length => ⟨hid ▸ hE length, fun qt sendto => ?_⟩⟩
  · rw [hhdr]; exact (by decide : FLAGS_MASK_RD &&& FLAGS_MASK_RD ≠ 0)
  · rw [hhdr]; exact (by decide : FLAGS_MASK_RD &&& FLAGS_MASK_QR = 0)
  · rw [hhdr]; exact (by decide : FLAGS_MASK_RD &&& FLAGS_MASK_OPCODE = 0)
  · have := hE length
    rw [hid] at this
    simp only [SendRequests]
    split_ifs <;> simp [this]

set_option maxRecDepth 100000 in
/-- C37 on the query for `example.invalid` that gets the id `0x1234`: the 33
bytes handed to `SendTo`. -/
theorem AddQuery_header_octets_witness :
    AddQuery exampleDNS examplePrng 4 exampleHeader 0 (cstr "example.invalid")
      = some exampleAdded ∧
    exampleAdded.id = 0x1234 ∧
    (EmptyHeader exampleAdded.header 21
        = be16 exampleAdded.id ++ [0x01, 0x00] ++ be16 1 ++ be16 0 ++ be16 0 ++ be16 0
            ++ exampleHeader.payload.take 21 ∧
      ∀ (qt : Nat) (sendto : Int),
        (SendRequests exampleAdded.dns exampleAdded.id
            { ptr := 1, id := (0x12, 0x34), res := [0], rr_class := 0, type := 0, ttl := 0,
              orig := cstr "example.invalid" } exampleAdded.header 21 qt sendto).2.sent
          = exampleAdded.dns.sent
              ++ [be16 exampleAdded.id ++ [0x01, 0x00] ++ be16 1 ++ be16 0 ++ be16 0 ++ be16 0
                    ++ exampleHeader.payload.take 21]) ∧
    be16 exampleAdded.id ++ [0x01, 0x00] ++ be16 1 ++ be16 0 ++ be16 0 ++ be16 0
        ++ exampleHeader.payload.take 21
      = [0x12, 0x34, 0x01, 0x00, 0, 1, 0, 0, 0, 0, 0, 0,
         7, 101, 120, 97, 109, 112, 108, 101, 7, 105, 110, 118, 97, 108, 105, 100, 0,
         0, 1, 0, 1] :=
  ⟨rfl, rfl,
   (AddQuery_header_octets exampleDNS examplePrng 4 exampleHeader 0 (cstr "example.invalid")
      exampleAdded _ rfl rfl).2.2.2.2 21,
   by decide⟩

/-! ## C38: the count of registered descriptors -/

/-- Filling one empty slot below `m` adds one to the number of non-empty slots
below `m`. -/
theorem filter_range_fill (f g : Nat → Bool) (d : Nat) (hf : f d = false) (hg : g d = true)
    (hfg : ∀ x, x ≠ d → g x = f x) :
    ∀ m, d < m → ((List.range m).filter g).length = ((List.range m).filter f).length + 1 := by
  intro m
  induction m with
  | zero => intro h; omega
  | succ m ih =>
    intro h
    rw [List.range_succ, List.filter_append, List.filter_append, List.length_append,
      List.length_append]
    by_cases hd : d < m
    · have hm : g m = f m := hfg m (by omega)
      rw [ih hd, List.filter_singleton, List.filter_singleton, hm]
      omega
    · have hdm : d = m := by omega
      subst hdm
      have hsame : (List.range d).filter g = (List.range d).filter f := by
        apply List.filter_congr
        intro x hx
        exact hfg x (by have := List.mem_range.mp hx; omega)
      rw [hsame, List.filter_singleton, List.filter_singleton, hf, hg]
      simp

/-- `AddFd` keeps the count: when `CurrentSetSize` is the number of non-empty
slots before the call, it is so after it, whatever the call returns. -/
theorem AddFd_count (W : FdWant) (GetFd : Nat → Int) (ctl : Int) (e : EPollEngine) (eh : Nat)
    (event_mask : Nat) (hinv : e.CurrentSetSize = (e.registered : Int)) :
    (AddFd W GetFd ctl e eh event_mask).2.1.CurrentSetSize
      = ((AddFd W GetFd ctl e eh event_mask).2.1.registered : Int) := by
  unfold AddFd
  simp only
  split_ifs with h1 h2 h3
  · exact hinv
  · exact hinv
  · exact hinv
  · have hd : (GetFd eh).toNat < e.MAX_DESCRIPTORS.toNat := by omega
    have hnone : (e.ref (GetFd eh).toNat).isSome = false := by simpa using h2
    have := filter_range_fill (fun fd => (e.ref fd).isSome)
      (fun fd => (if fd = (GetFd eh).toNat then some eh else e.ref fd).isSome)
      (GetFd eh).toNat hnone (by simp) (by intro x hx; simp [hx]) _ hd
    simp only [EPollEngine.registered, SetEventMask, hinv]
    rw [this]
    push_cast
    rfl

/-- `DelFd` keeps the count when it returns false, and when the slot of the
descriptor holds a handler. -/
theorem DelFd_count (GetFd : Nat → Int) (ctl : Int) (e : EPollEngine) (eh : Nat) (force : Bool)
    (hinv : e.CurrentSetSize = (e.registered : Int))
    (hocc : (DelFd GetFd ctl e eh force).1 = false ∨ (e.ref (GetFd eh).toNat).isSome = true) :
    (DelFd GetFd ctl e eh force).2.1.CurrentSetSize
      = ((DelFd GetFd ctl e eh force).2.1.registered : Int) := by
  unfold DelFd at hocc ⊢
  simp only at hocc ⊢
  split_ifs at hocc ⊢ with h1 h2
  · exact hinv
  · exact hinv
  · have hsome : (e.ref (GetFd eh).toNat).isSome = true := by
      rcases hocc with h | h
      · simp at h
      · exact h
    have hd : (GetFd eh).toNat < e.MAX_DESCRIPTORS.toNat := by omega
    have := filter_range_fill
      (fun fd => (if fd = (GetFd eh).toNat then none else e.ref fd).isSome)
      (fun fd => (e.ref fd).isSome)
      (GetFd eh).toNat (by simp) hsome (by intro x hx; simp [hx]) _ hd
    simp only [EPollEngine.registered, hinv]
    rw [this]
    push_cast
    omega

/-- `DelFd` on a descriptor in range whose slot is empty, when it gets past
`epoll_ctl`, leaves the slots as they were and counts one down. -/
theorem DelFd_count_empty (GetFd : Nat → Int) (ctl : Int) (e : EPollEngine) (eh : Nat)
    (force : Bool) (hr : 0 ≤ GetFd eh ∧ GetFd eh ≤ e.MAX_DESCRIPTORS - 1)
    (hpass : 0 ≤ ctl ∨ force = true) (hempty : e.ref (GetFd eh).toNat = none) :
    (DelFd GetFd ctl e eh force).1 = true ∧
    (DelFd GetFd ctl e eh force).2.1.registered = e.registered ∧
    (DelFd GetFd ctl e eh force).2.1.CurrentSetSize = e.CurrentSetSize - 1 := by
  have h1 : ¬ (GetFd eh < 0 ∨ GetFd eh > e.MAX_DESCRIPTORS - 1) := by omega
  have h2 : ¬ (ctl < 0 ∧ (!force) = true) := by
    rintro ⟨a, b⟩
    rcases hpass with h | h
    · omega
    · simp [h] at b
  unfold DelFd
  simp only [h1, if_false, h2]
  refine ⟨trivial, ?_, trivial⟩
  simp only [EPollEngine.registered]
  congr 1
  apply List.filter_congr
  intro x _
  by_cases hx : x = (GetFd eh).toNat
  · simp [hx, hempty]
  · simp [hx]

set_option maxRecDepth 1000000 in
/-- C38 fails.  On an engine with no descriptor registered (`CurrentSetSize`
0, every slot empty), `DelFd(eh, true)` for the handler 50 of descriptor 5,
with `epoll_ctl` returning -1, returns true and decrements `CurrentSetSize` to
-1 while the table still has no non-empty slot.  The same happens when a
descriptor is added and then removed twice: `AddFd` refuses a descriptor whose
slot is taken, but `DelFd` does not look at the slot before it counts down. -/
theorem DelFd_unregistered_count :
    (exampleIdle.CurrentSetSize = 0 ∧ exampleIdle.registered = 0 ∧
      exampleIdle.ref 5 = none ∧ exampleGetFd 50 = 5 ∧
      (DelFd exampleGetFd (-1) exampleIdle 50 true).1 = true ∧
      (runFdCalls exampleWant exampleGetFd exampleIdle [.del 50 true (-1)]).CurrentSetSize
        = -1 ∧
      (runFdCalls exampleWant exampleGetFd exampleIdle [.del 50 true (-1)]).registered = 0) ∧
    ((runFdCalls exampleWant exampleGetFd exampleIdle [.add 50 0x2 0]).CurrentSetSize = 1 ∧
      (runFdCalls exampleWant exampleGetFd exampleIdle [.add 50 0x2 0]).registered = 1 ∧
      (runFdCalls exampleWant exampleGetFd exampleIdle
        [.add 50 0x2 0, .del 50 false 0, .del 50 false 0]).CurrentSetSize = -1 ∧
      (runFdCalls exampleWant exampleGetFd exampleIdle
        [.add 50 0x2 0, .del 50 false 0, .del 50 false 0]).registered = 0) := by
  refine ⟨⟨rfl, by decide, rfl, rfl, rfl, rfl, by decide⟩, rfl, by decide, rfl, by decide⟩

/-! ## C39: the directions of an event mask -/

/-- C39 (as stated) fails.  With the values `socketengine.h` gives the bits,
the mask `FD_WANT_EDGE_READ | FD_WANT_POLL_WRITE` asks for read readiness, and
`mask_to_epoll` returns `EPOLLOUT` alone; the mask
`FD_WANT_POLL_READ | FD_WANT_EDGE_WRITE` asks for write readiness, and
`mask_to_epoll` returns `EPOLLIN` alone.  A `POLL` bit of either direction
selects the level branch, which does not look at the `EDGE` bits. -/
theorem mask_to_epoll_drops_edge :
    ((exampleWant.FD_WANT_EDGE_READ ||| exampleWant.FD_WANT_POLL_WRITE)
        &&& exampleWant.FD_WANT_EDGE_READ ≠ 0 ∧
      mask_to_epoll exampleWant (exampleWant.FD_WANT_EDGE_READ ||| exampleWant.FD_WANT_POLL_WRITE)
        = EPOLLOUT ∧
      mask_to_epoll exampleWant (exampleWant.FD_WANT_EDGE_READ ||| exampleWant.FD_WANT_POLL_WRITE)
        &&& EPOLLIN = 0) ∧
    ((exampleWant.FD_WANT_POLL_READ ||| exampleWant.FD_WANT_EDGE_WRITE)
        &&& exampleWant.FD_WANT_EDGE_WRITE ≠ 0 ∧
      mask_to_epoll exampleWant (exampleWant.FD_WANT_POLL_READ ||| exampleWant.FD_WANT_EDGE_WRITE)
        = EPOLLIN ∧
      mask_to_epoll exampleWant (exampleWant.FD_WANT_POLL_READ ||| exampleWant.FD_WANT_EDGE_WRITE)
        &&& EPOLLOUT = 0) := by
  decide

/-- C39 (amended): whatever the values of the `FD_WANT_*` bits, for every
event mask `mask_to_epoll` includes `EPOLLIN` when the mask has
`FD_WANT_POLL_READ` or `FD_WANT_FAST_READ`, and when it has
`FD_WANT_EDGE_READ` and no `POLL` bit of either direction; it includes
`EPOLLOUT` when the mask has `FD_WANT_POLL_WRITE` or `FD_WANT_FAST_WRITE`, and
when it has `FD_WANT_EDGE_WRITE` and no `POLL` bit of either direction.  A
mask with a `POLL` bit that has neither `FD_WANT_POLL_READ` nor
`FD_WANT_FAST_READ` gets no `EPOLLIN` (also when it has `FD_WANT_EDGE_READ`),
and likewise for writing. -/
theorem mask_to_epoll_directions (W : FdWant) (mask : Nat) :
    (mask &&& (W.FD_WANT_POLL_READ ||| W.FD_WANT_FAST_READ) ≠ 0 →
      mask_to_epoll W mask &&& EPOLLIN ≠ 0) ∧
    (mask &&& W.FD_WANT_EDGE_READ ≠ 0 →
      mask &&& (W.FD_WANT_POLL_READ ||| W.FD_WANT_POLL_WRITE) = 0 →
      mask_to_epoll W mask &&& EPOLLIN ≠ 0) ∧
    (mask &&& (W.FD_WANT_POLL_WRITE ||| W.FD_WANT_FAST_WRITE) ≠ 0 →
      mask_to_epoll W mask &&& EPOLLOUT ≠ 0) ∧
    (mask &&& W.FD_WANT_EDGE_WRITE ≠ 0 →
      mask &&& (W.FD_WANT_POLL_READ ||| W.FD_WANT_POLL_WRITE) = 0 →
      mask_to_epoll W mask &&& EPOLLOUT ≠ 0) ∧
    (mask &&& (W.FD_WANT_POLL_READ ||| W.FD_WANT_POLL_WRITE) ≠ 0 →
      mask &&& (W.FD_WANT_POLL_READ ||| W.FD_WANT_FAST_READ) = 0 →
      mask_to_epoll W mask &&& EPOLLIN = 0) ∧
    (mask &&& (W.FD_WANT_POLL_READ ||| W.FD_WANT_POLL_WRITE) ≠ 0 →
      mask &&& (W.FD_WANT_POLL_WRITE ||| W.FD_WANT_FAST_WRITE) = 0 →
      mask_to_epoll W mask &&& EPOLLOUT = 0) := by
  have hr := and_or_eq_zero mask W.FD_WANT_POLL_READ W.FD_WANT_FAST_READ
  have hw := and_or_eq_zero mask W.FD_WANT_POLL_WRITE W.FD_WANT_FAST_WRITE
  have hp := and_or_eq_zero mask W.FD_WANT_POLL_READ W.FD_WANT_POLL_WRITE
  have her := and_or_eq_zero mask W.FD_WANT_FAST_READ W.FD_WANT_EDGE_READ
  have hew := and_or_eq_zero mask W.FD_WANT_FAST_WRITE W.FD_WANT_EDGE_WRITE
  refine ⟨?_, ?_, ?_, ?_, ?_, ?_⟩
  · intro h
    unfold mask_to_epoll
    by_cases c0 : mask &&& (W.FD_WANT_POLL_READ ||| W.FD_WANT_POLL_WRITE) = 0
    · have c1 : ¬ (mask &&& (W.FD_WANT_FAST_READ ||| W.FD_WANT_EDGE_READ) = 0) :=
        fun c => h (hr.mpr ⟨(hp.mp c0).1, (her.mp c).1⟩)
      simp only [c0, c1, ne_eq, not_true_eq_false, not_false_eq_true, if_true, if_false]
      split_ifs <;> decide
    · simp only [c0, h, ne_eq, not_false_eq_true, if_true]
      split_ifs <;> decide
  · intro h c0
    have c1 : ¬ (mask &&& (W.FD_WANT_FAST_READ ||| W.FD_WANT_EDGE_READ) = 0) :=
      fun c => h (her.mp c).2
    unfold mask_to_epoll
    simp only [c0, c1, ne_eq, not_true_eq_false, not_false_eq_true, if_true, if_false]
    split_ifs <;> decide
  · intro h
    unfold mask_to_epoll
    by_cases c0 : mask &&& (W.FD_WANT_POLL_READ ||| W.FD_WANT_POLL_WRITE) = 0
    · have c1 : ¬ (mask &&& (W.FD_WANT_FAST_WRITE ||| W.FD_WANT_EDGE_WRITE) = 0) :=
        fun c => h (hw.mpr ⟨(hp.mp c0).2, (hew.mp c).1⟩)
      simp only [c0, c1, ne_eq, not_true_eq_false, not_false_eq_true, if_true, if_false]
      split_ifs <;> decide
    · simp only [c0, h, ne_eq, not_false_eq_true, if_true]
      split_ifs <;> decide
  · intro h c0
    have c1 : ¬ (mask &&& (W.FD_WANT_FAST_WRITE ||| W.FD_WANT_EDGE_WRITE) = 0) :=
      fun c => h (hew.mp c).2
    unfold mask_to_epoll
    simp only [c0, c1, ne_eq, not_true_eq_false, not_false_eq_true, if_true, if_false]
    split_ifs <;> decide
  · intro c0 c1
    unfold mask_to_epoll
    simp only [c0, c1, ne_eq, not_true_eq_false, not_false_eq_true, if_true, if_false]
    split_ifs <;> decide
  · intro c0 c1
    unfold mask_to_epoll
    simp only [c0, c1, ne_eq, not_true_eq_false, not_false_eq_true, if_true, if_false]
    split_ifs <;> decide

/-- C39 (amended) with the values `socketengine.h` gives the bits: the mask
`FD_WANT_FAST_READ | FD_WANT_POLL_WRITE` gets `EPOLLIN` and `EPOLLOUT`, the
mask `FD_WANT_EDGE_READ` alone gets `EPOLLIN`, and the mask
`FD_WANT_EDGE_READ | FD_WANT_POLL_WRITE` gets no `EPOLLIN`. -/
theorem mask_to_epoll_directions_witness :
    (0x4 ||| 0x20) &&& (exampleWant.FD_WANT_POLL_READ ||| exampleWant.FD_WANT_FAST_READ) ≠ 0 ∧
    mask_to_epoll exampleWant (0x4 ||| 0x20) &&& EPOLLIN ≠ 0 ∧
    mask_to_epoll exampleWant (0x4 ||| 0x20) &&& EPOLLOUT ≠ 0 ∧
    mask_to_epoll exampleWant 0x8 &&& EPOLLIN ≠ 0 ∧
    mask_to_epoll exampleWant (0x8 ||| 0x20) &&& EPOLLIN = 0 :=
  ⟨by decide,
   (mask_to_epoll_directions exampleWant (0x4 ||| 0x20)).1 (by decide),
   (mask_to_epoll_directions exampleWant (0x4 ||| 0x20)).2.2.1 (by decide),
   (mask_to_epoll_directions exampleWant 0x8).2.1 (by decide) (by decide),
   (mask_to_epoll_directions exampleWant (0x8 ||| 0x20)).2.2.2.2.1 (by decide) (by decide)⟩

/-! ## C40: the parameters of the `send_mode` event -/

theorem tokensLoop_ne_nil (s buf : List Nat) (h : buf ≠ []) : tokensLoop s buf ≠ [] := by
  induction s generalizing buf with
  | nil => simp [tokensLoop, h]
  | cons c cs ih =>
    simp only [tokensLoop, h, if_false]
    split_ifs
    · simp
    · exact ih _ (by simp)

/-- The first `k` entries of an array read one by one. -/
theorem range_map_getD {α : Type} (d : α) :
    ∀ (k : Nat) (l : List α), k ≤ l.length →
      (List.range k).map (fun j => l.getD j d) = l.take k := by
  intro k
  induction k with
  | zero => intro l _; simp
  | succ k ih =>
    intro l hk
    cases l with
    | nil => simp at hk
    | cons x xs =>
      have := ih xs (by simpa using hk)
      rw [List.range_succ_eq_map, List.map_cons, List.map_map, List.take_succ_cons, ← this]
      simp

set_option maxRecDepth 100000 in
/-- C40 fails.  For every user and every configured mode string, the body of
`OnPostOper` sends the `send_mode` event and then calls `SendMode`; the
parameters of `SendMode` are the nick followed by every token of the mode
string (prefixed with '+' when it starts with neither '+' nor '-'), but the
deque of the event is filled by a loop that runs `tokens.size()` times over an
array of `tokens.size() + 1` entries: it holds the nick and all tokens but the
last, and never equals the parameters of `SendMode`.  For the oper `alice` of
type `NetAdmin` with the modes `+s +cC` the event carries `alice`, `+s` and
`SendMode` gets `alice`, `+s`, `+cC`; with the modes `x` the event carries
`alice` alone. -/
theorem OnPostOper_event_params :
    (∀ (user : userrec) (ThisOpersModes : List Nat),
      ∃ (tokens n : List (List Nat)),
        tokens = tokensLoop (if ThisOpersModes.headD 0 ≠ 43 ∧ ThisOpersModes.headD 0 ≠ 45
                             then 43 :: ThisOpersModes else ThisOpersModes) [] ∧
        tokens ≠ [] ∧
        ApplyOperModes user ThisOpersModes
          = some [.Send (cstr "send_mode") n,
                  .SendMode (c_str user.nick :: tokens.map c_str) (tokens.length + 1)] ∧
        n = (c_str user.nick :: tokens.map c_str).dropLast ∧
        n.length = tokens.length ∧
        n ≠ c_str user.nick :: tokens.map c_str) ∧
    OnPostOper exampleTypes exampleOper
      = some [.Send (cstr "send_mode") [cstr "alice", cstr "+s"],
              .SendMode [cstr "alice", cstr "+s", cstr "+cC"] 3] ∧
    ApplyOperModes exampleOper (cstr "x")
      = some [.Send (cstr "send_mode") [cstr "alice"],
              .SendMode [cstr "alice", cstr "+x"] 2] := by
  refine ⟨?_, by decide, by decide⟩
  intro user m
  have hne : (if m.headD 0 ≠ 43 ∧ m.headD 0 ≠ 45 then 43 :: m else m) ≠ [] := by
    split_ifs with h
    · simp
    · intro e
      subst e
      exact h (by decide)
  have htok : tokensLoop (if m.headD 0 ≠ 43 ∧ m.headD 0 ≠ 45 then 43 :: m else m) [] ≠ [] := by
    have hstart : ∀ (c : Nat) (cs : List Nat), c = 43 ∨ c = 45 → tokensLoop (c :: cs) [] ≠ [] := by
      intro c cs hc
      have hsp : isspace c = false := by rcases hc with e | e <;> subst e <;> decide
      simp only [tokensLoop, hsp, Bool.false_eq_true, if_false, List.nil_append]
      exact tokensLoop_ne_nil cs [c] (by simp)
    split_ifs with h
    · exact hstart 43 m (Or.inl rfl)
    · cases m with
      | nil => exact absurd (by decide) h
      | cons c cs =>
        simp only [List.headD_cons] at h
        exact hstart c cs (by omega)
  cases htk : tokensLoop (if m.headD 0 ≠ 43 ∧ m.headD 0 ≠ 45 then 43 :: m else m) [] with
  | nil => exact absurd htk htok
  | cons t ts =>
    have hn : (List.range (t :: ts).length).map
          (fun j => (c_str user.nick :: (t :: ts).map c_str).getD j [])
        = (c_str user.nick :: (t :: ts).map c_str).dropLast := by
      rw [range_map_getD [] _ _ (by simp), List.dropLast_eq_take]
      simp
    refine ⟨t :: ts, (c_str user.nick :: (t :: ts).map c_str).dropLast, rfl, by simp, ?_, rfl,
      by simp, ?_⟩
    · unfold ApplyOperModes
      simp only [hne, ne_eq, not_false_eq_true, if_true, htk]
      rw [← hn]
    · intro e
      have := congrArg List.length e
      simp at this

end InspIRCd
